import Mathlib

/-!
# Floor selection of the AEC levels extension

A shallow embedding of `src/AEC/Levels/FloorSelector.js`,
`src/AEC/Levels/FloorSelectorFilter.js` and the state functions of
`src/AEC/Levels/LevelsExtension.js`, followed by theorems about them.

Conventions of the embedding

* JavaScript numbers are `JSNum`: an exact rational, the two infinities or NaN.
  Arithmetic on finite values is exact (no rounding, no overflow, no signed zero).
* `undefined` is `none` of an `Option`.
* The viewer, its renderer, the loaded models and the cross-fade extension are
  external objects.  Their state that the code reads back is kept in `Viewer`,
  and every call the code makes on them is appended to `Viewer.log`.
* A method that can throw returns the state reached together with
  `some message` when it threw (the mutations made before the throw stay).
-/

namespace AEC

/-! ## JavaScript values -/

/-- A JavaScript number: finite (exact rational), `Infinity`, `-Infinity` or `NaN`. -/
inductive JSNum where
  | fin (q : ℚ)
  | posInf
  | negInf
  | nan
deriving DecidableEq

namespace JSNum

instance : Inhabited JSNum := ⟨fin 0⟩

/-- The JavaScript `a < b`. -/
def lt : JSNum → JSNum → Bool
  | fin a, fin b => decide (a < b)
  | fin _, posInf => true
  | negInf, fin _ => true
  | negInf, posInf => true
  | _, _ => false

/-- The JavaScript `a <= b`. -/
def le : JSNum → JSNum → Bool
  | fin a, fin b => decide (a ≤ b)
  | nan, _ => false
  | _, nan => false
  | negInf, _ => true
  | _, posInf => true
  | _, _ => false

/-- The JavaScript `a > b`. -/
def gt (a b : JSNum) : Bool := lt b a

/-- The JavaScript `a >= b`. -/
def ge (a b : JSNum) : Bool := le b a

/-- Unary minus. -/
def neg : JSNum → JSNum
  | fin a => fin (-a)
  | posInf => negInf
  | negInf => posInf
  | nan => nan

/-- The JavaScript `a + b`. -/
def add : JSNum → JSNum → JSNum
  | fin a, fin b => fin (a + b)
  | nan, _ => nan
  | _, nan => nan
  | posInf, negInf => nan
  | negInf, posInf => nan
  | posInf, _ => posInf
  | _, posInf => posInf
  | negInf, _ => negInf
  | _, negInf => negInf

/-- The JavaScript `a - b`. -/
def sub (a b : JSNum) : JSNum := add a (neg b)

/-- Sign of a number that is not NaN: `-1`, `0` or `1`. -/
def sign : JSNum → ℤ
  | fin a => if a < 0 then -1 else if a = 0 then 0 else 1
  | posInf => 1
  | negInf => -1
  | nan => 0

/-- The JavaScript `a * b`. -/
def mul : JSNum → JSNum → JSNum
  | fin a, fin b => fin (a * b)
  | nan, _ => nan
  | _, nan => nan
  | a, b =>
    if sign a * sign b = 0 then nan
    else if sign a * sign b = 1 then posInf
    else negInf

/-- The library function `Math.min` on two numbers. -/
def min : JSNum → JSNum → JSNum
  | nan, _ => nan
  | _, nan => nan
  | a, b => if lt b a then b else a

/-- The library function `Math.max` on two numbers. -/
def max : JSNum → JSNum → JSNum
  | nan, _ => nan
  | _, nan => nan
  | a, b => if lt a b then b else a

end JSNum

/-- The library function `Number.isFinite`, on a number or `undefined`. -/
def Number.isFinite : Option JSNum → Bool
  | some (JSNum.fin _) => true
  | _ => false

/-- The global function `isNaN`, on a number or `undefined` (`undefined` converts to NaN). -/
def isNaN : Option JSNum → Bool
  | none => true
  | some JSNum.nan => true
  | _ => false

/-- A JavaScript value as far as the code distinguishes them. -/
inductive JSValue where
  | undefined
  | null
  | boolean (b : Bool)
  | number (n : JSNum)
  | string (s : String)
deriving DecidableEq

/-- Truthiness of a value. -/
def JSValue.truthy : JSValue → Bool
  | .undefined => false
  | .null => false
  | .boolean b => b
  | .number (JSNum.fin q) => decide (q ≠ 0)
  | .number JSNum.nan => false
  | .number _ => true
  | .string s => decide (s ≠ "")

/-- The helper `Autodesk.Viewing.Private.smootherStep` of the viewer (quintic Hermite). -/
def smootherStep (u : JSNum) : JSNum :=
  JSNum.mul (JSNum.mul (JSNum.mul u u) u)
    (JSNum.add (JSNum.mul u (JSNum.sub (JSNum.mul (JSNum.fin 6) u) (JSNum.fin 15))) (JSNum.fin 10))

/-- The helper `Autodesk.Viewing.Private.lerp` of the viewer: `a + (b - a) * t`. -/
def lerp (a b t : JSNum) : JSNum :=
  JSNum.add a (JSNum.mul (JSNum.sub b a) t)

/-! ## Data model -/

/-- A floor (`Level.js`): `zMin` and `zMax` are finite floats, as the comment on
`floorData` in `FloorSelector.js` requires. -/
structure Floor where
  index : ℤ
  guid : String
  name : String
  zMin : ℚ
  zMax : ℚ
  isArtificialLevel : Bool := false
deriving DecidableEq

/-- The z-range of a bounding box: `nodeBox[2]` and `nodeBox[5]`, or `box.min.z` and `box.max.z`. -/
structure ZBox where
  minZ : JSNum
  maxZ : JSNum
deriving DecidableEq

/-- A loaded model object, as far as the floor selector uses it. -/
structure Model where
  /-- The property `model.id`. -/
  id : ℕ
  /-- Whether `model.visibilityManager` is set. -/
  visibilityManager : Bool
  /-- The result of `model.getInstanceTree()`: `none` when there is no tree, otherwise
  what `getNodeBox(dbId, box)` writes for each id. -/
  instanceTree : Option (ℕ → ZBox)
  /-- The result of `model.getBoundingBox()`. -/
  boundingBox : ZBox

/-- A `THREE.Vector4`. -/
structure Vector4 where
  x : JSNum
  y : JSNum
  z : JSNum
  w : JSNum
deriving DecidableEq

/-- The render modes `FloorRenderMode`. -/
inductive FloorRenderMode where
  | Hovering
  | Transition
  | Off
deriving DecidableEq

/-- The events the selector fires. -/
inductive SelectorEvent where
  | SELECTED_FLOOR_CHANGED (levelIndex : Option ℤ)
  | FLOOR_DATA_CHANGED (floorData : List Floor)
deriving DecidableEq

/-- The callbacks handed to `fadeValue`, with the values their closures captured. -/
inductive AnimCallbacks where
  /-- The fade-in of `_setMode(Hovering)`: `onTimer = _setGhostFloorOpactiy`, no `onFinished`. -/
  | fadeIn
  /-- The fade-out of `_setMode(Off)`: `onTimer = _setGhostFloorOpactiy`,
  `onFinished = _leaveHoverMode`. -/
  | fadeOut
  /-- The transition of `_moveToFloor`: `onTimer = updateCutPlanes`, `onFinished = onAnimEnd`. -/
  | moveToFloor (minElevStart maxElevStart minElevEnd maxElevEnd : JSNum)
deriving DecidableEq

/-- The control object returned by `fadeValue(startValue, endValue, duration, onTimer, onFinished)`. -/
structure AnimControl where
  startValue : JSNum
  endValue : JSNum
  callbacks : AnimCallbacks
  isRunning : Bool
deriving DecidableEq

/-- A call made on an external object (viewer, renderer, model, cross-fade extension, console). -/
inductive Effect where
  | setCutPlaneSet (planes : Option (Vector4 × Vector4))
  | setNodeOff (model : ℕ) (dbId : ℕ) (off : Bool)
  | getNodeBox (model : ℕ) (dbId : ℕ)
  | fireEvent (e : SelectorEvent)
  | warn (msg : String)
  | rolloverObjectId (n : ℕ)
  | setSpatialFilterForRollOver (range : Option (Option JSNum × Option JSNum))
  | setSaoHeuristicEnabled (b : Bool)
  | invalidate
  | acquireControl
  | releaseFadingImage (target : ℕ)
  | renderFadingImage (target : ℕ)
  | setModelTargetIndexForAll (target : Option ℕ)
  | setCrossFadeOpacity (target : ℕ) (v : JSNum)
  | setClearEnabled (target : ℕ) (b : Bool)
  | setAOOptions (opacity : Option JSNum)
  | fadeValue (anim : ℕ)
  | animStop (anim : ℕ)
  | animSkip (anim : ℕ)
deriving DecidableEq

/-- The external world the selector works on.  Model objects are addressed by a handle
(their identity); `modelObjects` gives the present state of each object. -/
structure Viewer where
  /-- Present state of every model object, by handle. -/
  modelObjects : ℕ → Model
  /-- The handles returned by `impl.modelQueue().getModels()`. -/
  modelQueue : List ℕ
  /-- The property `viewer.model`: `none` when no model is loaded, else whether it `is2d()`. -/
  modelIs2d : Option Bool
  /-- Whether `getExtension('Autodesk.CrossFadeEffects')` returns an extension. -/
  crossFadeEffects : Bool
  /-- The result of `renderer.spatialFilterForRollOverSupported()`. -/
  spatialFilterForRollOverSupported : Bool
  /-- The cut plane set installed under `CutPlaneSetName` (`none`: cleared). -/
  cutPlaneSet : Option (Vector4 × Vector4)
  /-- The uniform `aoOpacity` of the blend pass. -/
  aoOpacity : JSNum
  /-- The uniform `highlightIntensity` of the blend pass. -/
  highlightIntensity : JSNum
  /-- Every control object created by `fadeValue`, in creation order. -/
  anims : List AnimControl
  /-- The calls made so far, oldest first. -/
  log : List Effect

/-- Append a call to the log. -/
def Viewer.emit (v : Viewer) (e : Effect) : Viewer :=
  { v with log := v.log ++ [e] }

/-- The argument `floorFilterData`: `modelsDbIds` is `none` when it is not a `Map`,
otherwise the entries of the map (a value is `none` when it is `undefined`). -/
structure FloorFilterData where
  modelsDbIds : Option (List (ℕ × Option (List ℕ)))
  levelHeightFactor : JSValue
deriving DecidableEq

/-! ## FloorSelectorFilter.js -/

/-- The filter object.  The filter and the selector reference the same viewer object; the
embedding keeps it once, here. -/
structure FloorSelectorFilter where
  _viewer : Viewer
  /-- The map `_dbIdsToUnhide`, keyed by model object (handle), in insertion order. -/
  _dbIdsToUnhide : List (ℕ × List ℕ)
  /-- The object `_cache`: floor name, then model id, then the set of ids. -/
  _cache : List (String × List (ℕ × List ℕ))

/-- The method `Set.add`: insertion order, no duplicates. -/
def setAdd (s : List ℕ) (x : ℕ) : List ℕ :=
  if x ∈ s then s else s ++ [x]

/-- Lookup in an association list (`Map.get`, or a property read). -/
def mapGet {κ β : Type} [DecidableEq κ] : List (κ × β) → κ → Option β
  | [], _ => none
  | (k, v) :: rest, key => if k = key then some v else mapGet rest key

/-- Update in an association list (`Map.set`, or a property write): an existing key keeps its
place, a new key goes last. -/
def mapSet {κ β : Type} [DecidableEq κ] : List (κ × β) → κ → β → List (κ × β)
  | [], key, val => [(key, val)]
  | (k, v) :: rest, key, val =>
    if k = key then (k, val) :: rest else (k, v) :: mapSet rest key val

/-- Removal from an association list (`Map.delete`). -/
def mapDelete {κ β : Type} [DecidableEq κ] (m : List (κ × β)) (key : κ) : List (κ × β) :=
  m.filter (fun e => decide (e.1 ≠ key))

namespace FloorSelectorFilter

/-- Append a call to the log of the viewer. -/
def emit (this : FloorSelectorFilter) (e : Effect) : FloorSelectorFilter :=
  { this with _viewer := this._viewer.emit e }

/-- The read `this._cache[floorName][modelId]`, on own properties.  On the plain objects of
the code a read also finds what `Object.prototype` carries; the two agree as long as no floor
name is a property name of `Object.prototype` (see `objectPrototypeKeys`). -/
def cacheGet (this : FloorSelectorFilter) (floorName : String) (modelId : ℕ) : Option (List ℕ) :=
  match mapGet this._cache floorName with
  | none => none
  | some perModel => mapGet perModel modelId

/-- The write `this._cache[floorName][modelId] = dbIds`. -/
def cacheSet (this : FloorSelectorFilter) (floorName : String) (modelId : ℕ) (dbIds : List ℕ) :
    FloorSelectorFilter :=
  match mapGet this._cache floorName with
  | none => this
  | some perModel =>
    { this with _cache := mapSet this._cache floorName (mapSet perModel modelId dbIds) }

/-- The method `_getLevelHeightFactor`: the factor, or the message of the error thrown. -/
def _getLevelHeightFactor (levelHeightFactor : JSValue) : Except String JSNum :=
  match levelHeightFactor with
  | .undefined => .ok (JSNum.fin (1 / 2))
  | .number h =>
    if JSNum.lt h (JSNum.fin 0) || JSNum.ge h (JSNum.fin 1) then
      .error "floorFilterData.levelHeightFactor has to be a number between 0-1."
    else .ok h
  | _ => .error "floorFilterData.levelHeightFactor has to be a number"

/-- The method `_hasModelDbIds`. -/
def _hasModelDbIds (modelsDbIds : List (ℕ × Option (List ℕ))) : Bool :=
  modelsDbIds.any (fun e =>
    match e.2 with
    | some dbIds => decide (dbIds.length > 0)
    | none => false)

/-- The method `hideDbIds`. -/
def hideDbIds (this : FloorSelectorFilter) (model : ℕ) (dbIds : List ℕ) : FloorSelectorFilter :=
  if !(this._viewer.modelObjects model).visibilityManager then this
  else
    let this1 := dbIds.foldl (fun t id => t.emit (Effect.setNodeOff model id true)) this
    match mapGet this1._dbIdsToUnhide model with
    | some stored =>
      -- the inner `dbIds` shadows the parameter: the stored set is added to itself
      { this1 with _dbIdsToUnhide := mapSet this1._dbIdsToUnhide model (stored.foldl setAdd stored) }
    | none => { this1 with _dbIdsToUnhide := mapSet this1._dbIdsToUnhide model dbIds }

/-- The method `clearFilter`. -/
def clearFilter (this : FloorSelectorFilter) : FloorSelectorFilter :=
  if this._dbIdsToUnhide.length = 0 then this
  else
    this._dbIdsToUnhide.foldl (fun t entry =>
      if !(t._viewer.modelObjects entry.1).visibilityManager then t
      else
        let t1 := entry.2.foldl (fun u id => u.emit (Effect.setNodeOff entry.1 id false)) t
        { t1 with _dbIdsToUnhide := mapDelete t1._dbIdsToUnhide entry.1 }) this

/-- The method `unhideModel`. -/
def unhideModel (this : FloorSelectorFilter) (model : ℕ) : FloorSelectorFilter :=
  { this with _dbIdsToUnhide := mapDelete this._dbIdsToUnhide model }

/-- The method `isVisible` of the filter. -/
def isVisible (this : FloorSelectorFilter) (model : ℕ) (dbId : ℕ) : Bool :=
  match mapGet this._dbIdsToUnhide model with
  | none => true
  | some dbIds => !(decide (dbId ∈ dbIds))

/-- The lower bound `newMinZ` of the band in `filter`. -/
def newMinZ (floor : Floor) (levelHeightFactor : JSNum) : JSNum :=
  JSNum.add (JSNum.fin floor.zMin)
    (JSNum.mul (JSNum.sub (JSNum.fin floor.zMax) (JSNum.fin floor.zMin)) levelHeightFactor)

/-- The upper bound `newMaxZ` of the band in `filter`. -/
def newMaxZ (floor : Floor) : JSNum :=
  JSNum.add (JSNum.fin floor.zMax)
    (JSNum.mul (JSNum.sub (JSNum.fin floor.zMax) (JSNum.fin floor.zMin)) (JSNum.fin (1 / 10)))

/-- The test in the body of `dbIds.forEach` in `filter`. -/
def inBand (box : ZBox) (newMinZ newMaxZ : JSNum) : Bool :=
  (JSNum.ge box.minZ newMinZ && JSNum.le box.minZ newMaxZ) ||
  (JSNum.ge box.maxZ newMinZ && JSNum.le box.maxZ newMaxZ) ||
  (JSNum.le box.minZ newMinZ && JSNum.ge box.maxZ newMaxZ)

/-- The loop `dbIds.forEach` in `filter`: queries the box of each candidate and collects
the ids to hide. -/
def collectDbIdsToHide (model : ℕ) (instanceTree : ℕ → ZBox) (newMinZ newMaxZ : JSNum) :
    List ℕ → FloorSelectorFilter × List ℕ → FloorSelectorFilter × List ℕ
  | [], acc => acc
  | dbId :: rest, (this, dbIdsToHide) =>
    let this1 := this.emit (Effect.getNodeBox model dbId)
    if inBand (instanceTree dbId) newMinZ newMaxZ then
      collectDbIdsToHide model instanceTree newMinZ newMaxZ rest (this1, setAdd dbIdsToHide dbId)
    else
      collectDbIdsToHide model instanceTree newMinZ newMaxZ rest (this1, dbIdsToHide)

/-- The body of the loop over the models in `filter`, for one model: the state reached, and
whether the loop ends here (`break`) instead of going to the next model (`continue` or the end
of the body). -/
def filterModel (floor : Floor) (newMinZ newMaxZ : JSNum)
    (modelsDbIds : List (ℕ × Option (List ℕ))) (model : ℕ) (this : FloorSelectorFilter) :
    FloorSelectorFilter × Bool :=
  let m := this._viewer.modelObjects model
  if !m.visibilityManager then
    (this.emit (Effect.warn
      ("The VisibilityManager of the model with ID = " ++ toString m.id ++
        " is not yet initialized.")), true)
  else
    match this.cacheGet floor.name m.id with
    | some cachedDbIds =>
      (if cachedDbIds.length > 0 then this.hideDbIds model cachedDbIds else this, false)
    | none =>
      match m.instanceTree with
      | none =>
        (this.emit (Effect.warn
          ("The instanceTree of the model with ID = " ++ toString m.id ++
            " is not yet initialized.")), false)
      | some instanceTree =>
        match mapGet modelsDbIds m.id with
        | some (some dbIds) =>
          let r := collectDbIdsToHide model instanceTree newMinZ newMaxZ dbIds (this, [])
          let this2 := if r.2.length > 0 then r.1.hideDbIds model r.2 else r.1
          (this2.cacheSet floor.name m.id r.2, false)
        | _ => (this, false)

/-- The loop over the models in `filter`. -/
def filterModels (floor : Floor) (newMinZ newMaxZ : JSNum)
    (modelsDbIds : List (ℕ × Option (List ℕ))) :
    List ℕ → FloorSelectorFilter → FloorSelectorFilter
  | [], this => this
  | model :: rest, this =>
    match filterModel floor newMinZ newMaxZ modelsDbIds model this with
    | (this1, true) => this1
    | (this1, false) => filterModels floor newMinZ newMaxZ modelsDbIds rest this1

/-- The method `filter`: the state reached, and the message of the error when it throws. -/
def filter (this : FloorSelectorFilter) (floorFilterData : Option FloorFilterData)
    (floor : Option Floor) : FloorSelectorFilter × Option String :=
  match floorFilterData with
  | none => (this, some "floorFilterData cannot be undefined.")
  | some data =>
    match data.modelsDbIds with
    | none => (this, some "floorFilterData.modelsDbIds has to be a Map.")
    | some modelsDbIds =>
      match floor with
      | none => (this, some "floor cannot be undefined.")
      | some floor =>
        match _getLevelHeightFactor data.levelHeightFactor with
        | .error msg => (this, some msg)
        | .ok levelHeightFactor =>
          if !_hasModelDbIds modelsDbIds then (this, none)
          else
            let this1 : FloorSelectorFilter :=
              match mapGet this._cache floor.name with
              | some _ => this
              | none => { this with _cache := mapSet this._cache floor.name [] }
            (filterModels floor (newMinZ floor levelHeightFactor) (newMaxZ floor) modelsDbIds
              this1._viewer.modelQueue this1, none)

end FloorSelectorFilter

/-! ## FloorSelector.js -/

/-- Opacity for ghost floors when fade-in is finished. -/
def MaxGhostFloorOpacity : JSNum := JSNum.fin (1 / 5)

/-- The constant `MaxZLimit = 1e20`. -/
def MaxZLimit : JSNum := JSNum.fin (10 ^ 20)

/-- The constant `MinZLimit = -MaxZLimit`. -/
def MinZLimit : JSNum := JSNum.neg MaxZLimit

/-- The reserved index `AllFloors`. -/
def AllFloors : ℤ := -1

/-- The reserved index `NoFloor` (`undefined`). -/
def NoFloor : Option ℤ := none

/-- The state of a `FloorSelector`.  A floor index is `undefined` (`none`) or an integer. -/
structure FloorSelector where
  /-- The filter object; it carries the viewer both objects reference. -/
  _floorSelectorFilter : FloorSelectorFilter
  _floors : List Floor
  _currentMode : FloorRenderMode
  _hovering : Bool
  _floorSectionMin : Option JSNum
  _floorSectionMax : Option JSNum
  _zMinAllModels : Option JSNum
  _zMaxAllModels : Option JSNum
  /-- The control object referenced by `_floorAnim`, as its position in `Viewer.anims`. -/
  _floorAnim : Option ℕ
  /-- The control object referenced by `_fadeAnim`, as its position in `Viewer.anims`. -/
  _fadeAnim : Option ℕ
  _ghostFloorOpacity : JSNum
  _currentFloor : Option ℤ
  _aoVisible : Bool
  _aoOpacity : Option JSNum
  _floorFilterData : Option FloorFilterData
  _floorRollOverActive : Bool
  _fadeEnabled : Bool
  enabled : Bool

/-- The array read `floors[floorIndex]`: `undefined` outside the array and for `undefined`. -/
def floorAt (floors : List Floor) (floorIndex : Option ℤ) : Option Floor :=
  match floorIndex with
  | none => none
  | some i => if i < 0 then none else floors.get? i.toNat

namespace FloorSelector

/-- The viewer the selector references. -/
def viewer (this : FloorSelector) : Viewer := this._floorSelectorFilter._viewer

/-- Replace the state of the viewer. -/
def withViewer (this : FloorSelector) (v : Viewer) : FloorSelector :=
  { this with _floorSelectorFilter := { this._floorSelectorFilter with _viewer := v } }

/-- Append a call to the log of the viewer. -/
def emit (this : FloorSelector) (e : Effect) : FloorSelector :=
  this.withViewer (this.viewer.emit e)

/-- The method `fireEvent`. -/
def fireEvent (this : FloorSelector) (e : SelectorEvent) : FloorSelector :=
  this.emit (Effect.fireEvent e)

/-- The getter `floorData`. -/
def floorData (this : FloorSelector) : List Floor := this._floors

/-- The getter `currentFloor`. -/
def currentFloor (this : FloorSelector) : Option ℤ := this._currentFloor

/-- The method `_getFadeExtension`, as the truth value of its result. -/
def _getFadeExtension (this : FloorSelector) : Bool :=
  this._fadeEnabled && this.viewer.crossFadeEffects

/-- The method `_ghostFloorsEnabled`. -/
def _ghostFloorsEnabled (this : FloorSelector) : Bool := this._getFadeExtension

/-- The call `viewer.impl.setCutPlaneSet(CutPlaneSetName, planes)`. -/
def setCutPlaneSet (this : FloorSelector) (planes : Option (Vector4 × Vector4)) : FloorSelector :=
  this.withViewer ({ this.viewer with cutPlaneSet := planes }.emit (Effect.setCutPlaneSet planes))

/-- The call `renderer.setAOOptions(radius, intensity, opacity)`: it writes the uniform
`aoOpacity` of the blend pass when an opacity is given. -/
def setAOOptions (this : FloorSelector) (opacity : Option JSNum) : FloorSelector :=
  let v := this.viewer
  this.withViewer ({ v with aoOpacity := opacity.getD v.aoOpacity }.emit (Effect.setAOOptions opacity))

/-- The call `avp.fadeValue(startValue, endValue, duration, onTimer, onFinished)`: a new
running control object; no callback runs during the call. -/
def fadeValue (this : FloorSelector) (startValue endValue : JSNum) (callbacks : AnimCallbacks) :
    FloorSelector × ℕ :=
  let v := this.viewer
  let id := v.anims.length
  (this.withViewer ({ v with anims := v.anims ++ [AnimControl.mk startValue endValue callbacks true] }.emit
    (Effect.fadeValue id)), id)

/-- Whether the control object `anim` is running (`anim.isRunning`). -/
def animIsRunning (this : FloorSelector) (anim : ℕ) : Bool :=
  match this.viewer.anims.get? anim with
  | some c => c.isRunning
  | none => false

/-- Mark the control object `anim` as not running. -/
def animSetNotRunning (this : FloorSelector) (anim : ℕ) : FloorSelector :=
  let v := this.viewer
  this.withViewer { v with anims := v.anims.modify (fun c => { c with isRunning := false }) anim }

/-- The call `anim.stop()`: abort mid-flight, leaving state as it is. -/
def animStop (this : FloorSelector) (anim : ℕ) : FloorSelector :=
  (this.animSetNotRunning anim).emit (Effect.animStop anim)

/-- The method `_stopFloorAnim`. -/
def _stopFloorAnim (this : FloorSelector) : FloorSelector :=
  match this._floorAnim with
  | some anim => { this.animStop anim with _floorAnim := none }
  | none => this

/-- The method `_stopFadeAnim`. -/
def _stopFadeAnim (this : FloorSelector) : FloorSelector :=
  match this._fadeAnim with
  | some anim => { this.animStop anim with _fadeAnim := none }
  | none => this

/-- The method `_updateZLimits`. -/
def _updateZLimits (this : FloorSelector) : FloorSelector :=
  let models := this.viewer.modelQueue
  let r := models.foldl (fun (acc : JSNum × JSNum) model =>
      let box := (this.viewer.modelObjects model).boundingBox
      (JSNum.min box.minZ acc.1, JSNum.max box.maxZ acc.2)) (MaxZLimit, MinZLimit)
  if JSNum.gt r.1 r.2 then
    { this with _zMinAllModels := some MinZLimit, _zMaxAllModels := some MaxZLimit }
  else
    { this with _zMinAllModels := some r.1, _zMaxAllModels := some r.2 }

/-- The method `_setAOVisible`. -/
def _setAOVisible (this : FloorSelector) (visible : Bool) : FloorSelector :=
  if visible = this._aoVisible then this
  else
    let this1 := { this with _aoVisible := visible }
    if !visible then
      let this2 := { this1 with _aoOpacity := some this1.viewer.aoOpacity }
      this2.setAOOptions (some (JSNum.fin 0))
    else
      let this2 :=
        if this1.viewer.aoOpacity ≠ JSNum.fin 0 then
          this1.emit (Effect.warn "ao opacity should not be changed while FloorSelector is in use.")
        else this1
      this2.setAOOptions this2._aoOpacity

/-- The method `_setGhostFloorOpactiy`. -/
def _setGhostFloorOpactiy (this : FloorSelector) (val : JSNum) : FloorSelector :=
  let this1 := if this._getFadeExtension then this.emit (Effect.setCrossFadeOpacity 1 val) else this
  { this1 with _ghostFloorOpacity := val }

/-- The method `_setSpatialFilterForRollOver`; the generated shader text is kept as the
two bounds it is built from. -/
def _setSpatialFilterForRollOver (this : FloorSelector) (floorIndex : Option ℤ) : FloorSelector :=
  let filter : Option (Option JSNum × Option JSNum) :=
    match floorAt this._floors floorIndex with
    | some floor => some (some (JSNum.fin floor.zMin), some (JSNum.fin floor.zMax))
    | none =>
      if floorIndex = some AllFloors then some (this._zMinAllModels, this._zMaxAllModels)
      else none
  let this1 := this.emit (Effect.setSpatialFilterForRollOver filter)
  let this2 :=
    if this1._getFadeExtension then this1.emit (Effect.setSaoHeuristicEnabled filter.isNone)
    else this1
  { this2 with _floorRollOverActive := filter.isSome }

/-- The method `_applyFloorSection`. -/
def _applyFloorSection (this : FloorSelector) (zMin zMax : Option JSNum) : FloorSelector :=
  if !this.enabled then this.setCutPlaneSet none
  else
    let zMin1 : JSNum := if !Number.isFinite zMin then MinZLimit else zMin.getD MinZLimit
    let zMax1 : JSNum := if !Number.isFinite zMax then MaxZLimit else zMax.getD MaxZLimit
    this.setCutPlaneSet (some
      (⟨JSNum.fin 0, JSNum.fin 0, JSNum.fin (-1), zMin1⟩,
       ⟨JSNum.fin 0, JSNum.fin 0, JSNum.fin 1, JSNum.neg zMax1⟩))

/-- The method `_applySelectedFloorSection`. -/
def _applySelectedFloorSection (this : FloorSelector) : FloorSelector :=
  let zMin := match this._floorSectionMin with
    | some z => z
    | none => MinZLimit
  let zMax := match this._floorSectionMax with
    | some z => z
    | none => MaxZLimit
  this._applyFloorSection (some zMin) (some zMax)

/-- The method `_setFloorSection`. -/
def _setFloorSection (this : FloorSelector) (minElev maxElev : Option JSNum) : FloorSelector :=
  let this1 := { this with
    _floorSectionMin := if isNaN minElev then none else minElev,
    _floorSectionMax := if isNaN maxElev then none else maxElev }
  this1._applySelectedFloorSection

/-- The method `_clearFloorSection`. -/
def _clearFloorSection (this : FloorSelector) : FloorSelector :=
  this._updateZLimits._applyFloorSection none none

/-- The method `_leaveHoverMode`. -/
def _leaveHoverMode (this : FloorSelector) : FloorSelector :=
  if !this._getFadeExtension then this
  else
    let this1 := (this.emit (Effect.releaseFadingImage 0)).emit (Effect.releaseFadingImage 1)
    let this2 := this1.emit (Effect.setModelTargetIndexForAll none)
    this2._applySelectedFloorSection._setAOVisible true

/-- The method `_setMode`. -/
def _setMode (this : FloorSelector) (mode : FloorRenderMode) : FloorSelector :=
  if mode = this._currentMode then this
  else
    let this0 := { this with _currentMode := mode }
    match mode with
    | .Hovering =>
      if this0._getFadeExtension then
        let s1 := this0.emit Effect.acquireControl
        let s2 := s1.emit (Effect.setModelTargetIndexForAll none)
        let s3 := s2._applySelectedFloorSection
        let s4 := s3.emit (Effect.rolloverObjectId 0)
        let s5 := s4._setAOVisible true
        let s6 := s5.emit (Effect.renderFadingImage 0)
        let s7 := s6.emit (Effect.setCrossFadeOpacity 0 (JSNum.fin 1))
        let s8 := s7._clearFloorSection
        let s9 := s8.emit (Effect.setModelTargetIndexForAll (some 1))
        let s10 := s9._setAOVisible false
        let s11 := s10._stopFadeAnim
        let r := s11.fadeValue s11._ghostFloorOpacity MaxGhostFloorOpacity AnimCallbacks.fadeIn
        { r.1 with _fadeAnim := some r.2 }
      else this0
    | .Transition =>
      let s1 :=
        if this0._getFadeExtension then
          (((this0.emit (Effect.setClearEnabled 1 false)).emit (Effect.setClearEnabled 0 true)).emit
            (Effect.setModelTargetIndexForAll (some 0))).emit
            (Effect.setCrossFadeOpacity 0 (JSNum.fin 1))
        else this0
      (s1._setAOVisible true)._applySelectedFloorSection
    | .Off =>
      let s1 := this0._stopFadeAnim
      let r := s1.fadeValue s1._ghostFloorOpacity (JSNum.fin 0) AnimCallbacks.fadeOut
      { r.1 with _fadeAnim := some r.2 }

/-- The method `_moveToFloor`. -/
def _moveToFloor (this : FloorSelector) (floorIndex : Option ℤ) : FloorSelector :=
  let s1 := { this with _currentFloor := floorIndex }
  let s2 := s1._setMode FloorRenderMode.Transition
  let floor := floorAt s2._floors floorIndex
  let s3 := s2._updateZLimits
  let minElevStart := match s3._floorSectionMin with
    | none => s3._zMinAllModels.getD JSNum.nan
    | some z => z
  let maxElevStart := match s3._floorSectionMax with
    | none => s3._zMaxAllModels.getD JSNum.nan
    | some z => z
  let minElevEnd := match floor with
    | some f => JSNum.fin f.zMin
    | none => s3._zMinAllModels.getD JSNum.nan
  let maxElevEnd := match floor with
    | some f => JSNum.fin f.zMax
    | none => s3._zMaxAllModels.getD JSNum.nan
  let s4 := s3._stopFloorAnim
  let r := s4.fadeValue (JSNum.fin 0) (JSNum.fin 1)
    (AnimCallbacks.moveToFloor minElevStart maxElevStart minElevEnd maxElevEnd)
  { r.1 with _floorAnim := some r.2 }

/-- The closure `updateCutPlanes` of `_moveToFloor`. -/
def updateCutPlanes (this : FloorSelector)
    (minElevStart maxElevStart minElevEnd maxElevEnd : JSNum) (unitTime : JSNum) : FloorSelector :=
  let t := smootherStep unitTime
  let minElev := lerp minElevStart minElevEnd t
  let maxElev := lerp maxElevStart maxElevEnd t
  let s1 := this._setFloorSection (some minElev) (some maxElev)
  let v := s1.viewer
  s1.withViewer { v with
    highlightIntensity := JSNum.min v.highlightIntensity (JSNum.sub (JSNum.fin 1) t) }

/-- The closure `onAnimEnd` of `_moveToFloor`. -/
def onAnimEnd (this : FloorSelector) : FloorSelector :=
  this._setMode (if this._hovering then FloorRenderMode.Hovering else FloorRenderMode.Off)

/-- The method `_selectFloor`. -/
def _selectFloor (this : FloorSelector) (floorIndex : Option ℤ) : FloorSelector :=
  let s1 := this._stopFloorAnim
  let s2 := { s1 with _currentFloor := floorIndex }
  let floor := floorAt s2._floors floorIndex
  let minElev := floor.map (fun f => JSNum.fin f.zMin)
  let maxElev := floor.map (fun f => JSNum.fin f.zMax)
  s2._setFloorSection minElev maxElev

/-- The method `_runFloorSelectorFilter`: the state reached, and the message when it throws. -/
def _runFloorSelectorFilter (this : FloorSelector) : FloorSelector × Option String :=
  let s1 := { this with _floorSelectorFilter := this._floorSelectorFilter.clearFilter }
  if s1._floorFilterData.isSome && s1._currentFloor ≠ none then
    let floor := floorAt s1._floors s1._currentFloor
    let r := s1._floorSelectorFilter.filter s1._floorFilterData floor
    ({ s1 with _floorSelectorFilter := r.1 }, r.2)
  else (s1, none)

/-- The method `rollOverFloor`. -/
def rollOverFloor (this : FloorSelector) (floorIndex : Option ℤ) : FloorSelector :=
  let enabled := this._ghostFloorsEnabled || decide (this._currentFloor = NoFloor)
  let supported := this.viewer.spatialFilterForRollOverSupported
  if floorIndex = none || !supported || !enabled then
    (this._setSpatialFilterForRollOver none).emit (Effect.rolloverObjectId 0)
  else
    (((this.emit (Effect.rolloverObjectId 1))._setSpatialFilterForRollOver floorIndex).emit
      Effect.invalidate)

/-- The method `floorSelectionValid`.  An index of this type is `undefined` or an integer, so
the first conjunct of the source (`Number.isInteger(newFloor) || newFloor === NoFloor`) holds. -/
def floorSelectionValid (this : FloorSelector) (newFloor : Option ℤ) : Bool :=
  decide (this.floorData.length ≠ 0)
  && decide (this.currentFloor ≠ newFloor)
  && (match newFloor with
      | none => true
      | some n => decide (n ≥ 0) || decide ((this.floorData.length : ℤ) > n))

/-- The method `selectFloor`: the state reached, and the message when the filter throws. -/
def selectFloor (this : FloorSelector) (floorIndex : Option ℤ) (useTransition : Bool) :
    FloorSelector × Option String :=
  if !this.floorSelectionValid floorIndex then (this, none)
  else
    let s1 := if useTransition then this._moveToFloor floorIndex else this._selectFloor floorIndex
    match s1._runFloorSelectorFilter with
    | (s2, some err) => (s2, some err)
    | (s2, none) =>
      let s3 := if !s2._ghostFloorsEnabled then s2.rollOverFloor none else s2
      (s3.fireEvent (SelectorEvent.SELECTED_FLOOR_CHANGED floorIndex), none)

/-- The method `isVisible`. -/
def isVisible (this : FloorSelector) (model : ℕ) (dbId : ℕ) : Bool :=
  match floorAt this._floors this._currentFloor with
  | none => true
  | some floor =>
    match (this.viewer.modelObjects model).instanceTree with
    | none => true
    | some instanceTree =>
      let nodeBoxZMin := (instanceTree dbId).minZ
      let nodeBoxZMax := (instanceTree dbId).maxZ
      let outsideCutplane :=
        JSNum.gt nodeBoxZMin (JSNum.fin floor.zMax) || JSNum.lt nodeBoxZMax (JSNum.fin floor.zMin)
      !outsideCutplane && this._floorSelectorFilter.isVisible model dbId

/-- The method `setEnabled`. -/
def setEnabled (this : FloorSelector) (enabled : Bool) : FloorSelector :=
  { this with enabled := enabled }._applySelectedFloorSection

/-- The method `enterHoverMode`. -/
def enterHoverMode (this : FloorSelector) : FloorSelector :=
  let s1 :=
    if this._currentMode ≠ FloorRenderMode.Transition then this._setMode FloorRenderMode.Hovering
    else this
  { s1 with _hovering := true }

/-- The method `exitHoverMode`. -/
def exitHoverMode (this : FloorSelector) (force : Bool) : FloorSelector :=
  let s1 :=
    if this._currentMode ≠ FloorRenderMode.Transition || force then
      this._setMode FloorRenderMode.Off
    else this
  { s1 with _hovering := false }._setSpatialFilterForRollOver none

/-- The method `_interruptFading`, the handler of the camera-change event. -/
def _interruptFading (this : FloorSelector) : FloorSelector :=
  match this._fadeAnim with
  | some anim =>
    if !this._hovering && this.animIsRunning anim then this._stopFadeAnim._leaveHoverMode
    else this
  | none => this

/-- The method `resetState`. -/
def resetState (this : FloorSelector) : FloorSelector :=
  let s1 := { this with _floors := [] }
  let s2 := s1._selectFloor NoFloor
  let s3 := s2._clearFloorSection
  { s3 with _floorSelectorFilter := s3._floorSelectorFilter.clearFilter }

/-- The setter `floorData`; `floors` is `none` when the value assigned is not an array. -/
def setFloorData (this : FloorSelector) (floors : Option (List Floor)) : FloorSelector :=
  let s1 := this.resetState
  let s2 := { s1 with _floors := floors.getD [] }
  s2.fireEvent (SelectorEvent.FLOOR_DATA_CHANGED s2._floors)

/-- The setter `floorFilterData`. -/
def setFloorFilterData (this : FloorSelector) (floorFilterData : Option FloorFilterData) :
    FloorSelector :=
  { this with _floorFilterData := floorFilterData }

/-- The method `invalidateFloorSelection`. -/
def invalidateFloorSelection (this : FloorSelector) (floorIndex : Option ℤ) :
    FloorSelector × Option String :=
  (this._selectFloor floorIndex)._runFloorSelectorFilter

/-- The method `_onRenderOptionsChanged`, the handler of the render-option-changed event. -/
def _onRenderOptionsChanged (this : FloorSelector) : FloorSelector :=
  if this._floorRollOverActive && !this.viewer.spatialFilterForRollOverSupported then
    this.rollOverFloor none
  else this

/-- The method `_runFloorSelectorFilterEventHandler`, the handler of the model-added and the
object-tree-created events; `isObjectTreeLoaded` is what `event.model.isObjectTreeLoaded()`
returns.  The state reached, and the message when the filter throws. -/
def _runFloorSelectorFilterEventHandler (this : FloorSelector) (isObjectTreeLoaded : Bool) :
    FloorSelector × Option String :=
  if !isObjectTreeLoaded then (this, none)
  else if !(this._floorFilterData.isSome && this._currentFloor ≠ none) then
    ({ this with _floorSelectorFilter := this._floorSelectorFilter.clearFilter }, none)
  else this._runFloorSelectorFilter

/-- The method `_runModelUnloadingEventHandler`, the handler of the model-unloaded event for
the model object `model`. -/
def _runModelUnloadingEventHandler (this : FloorSelector) (model : ℕ) : FloorSelector :=
  if this._floorFilterData.isSome && this._currentFloor ≠ none then
    { this with _floorSelectorFilter := this._floorSelectorFilter.unhideModel model }
  else this

end FloorSelector

/-! ## The animation driver

The control objects of `fadeValue` live in the viewer.  The render loop calls the `onTimer`
callback of a running control on each tick and, when it reaches its end, calls `onTimer` with
the end value and then `onFinished`.  `skip()` jumps to that end at once; `stop()` (above) only
marks the control as not running. -/

namespace FloorSelector

/-- The `onTimer` callback of a control object. -/
def animOnTimer (this : FloorSelector) (callbacks : AnimCallbacks) (val : JSNum) : FloorSelector :=
  match callbacks with
  | .fadeIn => this._setGhostFloorOpactiy val
  | .fadeOut => this._setGhostFloorOpactiy val
  | .moveToFloor a b c d => this.updateCutPlanes a b c d val

/-- The `onFinished` callback of a control object. -/
def animOnFinished (this : FloorSelector) (callbacks : AnimCallbacks) : FloorSelector :=
  match callbacks with
  | .fadeIn => this
  | .fadeOut => this._leaveHoverMode
  | .moveToFloor _ _ _ _ => this.onAnimEnd

/-- A tick of the render loop for the control object `anim`, delivering the value `val`. -/
def animTick (this : FloorSelector) (anim : ℕ) (val : JSNum) : FloorSelector :=
  match this.viewer.anims.get? anim with
  | some c => if c.isRunning then this.animOnTimer c.callbacks val else this
  | none => this

/-- The control object `anim` reaches its end. -/
def animComplete (this : FloorSelector) (anim : ℕ) : FloorSelector :=
  match this.viewer.anims.get? anim with
  | some c =>
    if c.isRunning then
      ((this.animOnTimer c.callbacks c.endValue).animSetNotRunning anim).animOnFinished c.callbacks
    else this
  | none => this

/-- The call `anim.skip()`: jump to the end state immediately. -/
def animSkip (this : FloorSelector) (anim : ℕ) : FloorSelector :=
  (this.emit (Effect.animSkip anim)).animComplete anim

/-- The method `_skipFadeAnimations`. -/
def _skipFadeAnimations (this : FloorSelector) : FloorSelector :=
  let s1 := match this._fadeAnim with
    | some anim => { this.animSkip anim with _fadeAnim := none }
    | none => this
  match s1._floorAnim with
  | some anim => { s1.animSkip anim with _floorAnim := none }
  | none => s1

/-- The method `setPanelHoverEffectEnabled`. -/
def setPanelHoverEffectEnabled (this : FloorSelector) (enabled : Bool) : FloorSelector :=
  { (this.exitHoverMode true)._skipFadeAnimations with _fadeEnabled := enabled }

/-- The method `forceImageRefresh`, also the handler of the viewer-resize event. -/
def forceImageRefresh (this : FloorSelector) : FloorSelector :=
  let isHovering := this._hovering
  let s1 := (this.exitHoverMode false)._skipFadeAnimations
  if isHovering then s1.enterHoverMode._skipFadeAnimations else s1

/-- The state of a selector right after its constructor ran on the viewer `v`. -/
def new (v : Viewer) : FloorSelector where
  _floorSelectorFilter := { _viewer := v, _dbIdsToUnhide := [], _cache := [] }
  _floors := []
  _currentMode := FloorRenderMode.Off
  _hovering := false
  _floorSectionMin := none
  _floorSectionMax := none
  _zMinAllModels := none
  _zMaxAllModels := none
  _floorAnim := none
  _fadeAnim := none
  _ghostFloorOpacity := JSNum.fin 0
  _currentFloor := none
  _aoVisible := true
  _aoOpacity := none
  _floorFilterData := none
  _floorRollOverActive := false
  _fadeEnabled := true
  enabled := true

end FloorSelector

/-! ## LevelsExtension.js: persisted state -/

/-- The object `viewerState`, as far as the extension uses it: the property `floorGuid`. -/
structure ViewerState where
  floorGuid : JSValue
deriving DecidableEq

/-- The extension, as far as `getState` and `restoreState` use it. -/
structure LevelsExtension where
  floorSelector : FloorSelector

namespace LevelsExtension

/-- The method `getState`: the viewer state written, and the message when it throws. -/
def getState (this : LevelsExtension) (viewerState : ViewerState) : ViewerState × Option String :=
  match this.floorSelector.viewer.modelIs2d with
  | none => (viewerState, none)
  | some true => (viewerState, none)
  | some false =>
    match this.floorSelector.currentFloor with
    | none => ({ viewerState with floorGuid := JSValue.null }, none)
    | some floor =>
      -- `floor ? ... : null`: the index 0 is falsy
      if floor = 0 then ({ viewerState with floorGuid := JSValue.null }, none)
      else
        match floorAt this.floorSelector.floorData (some floor) with
        | some f => ({ viewerState with floorGuid := JSValue.string f.guid }, none)
        | none => (viewerState, some "TypeError: floorData[floor] is undefined")

/-- The method `restoreState`: the extension afterwards, and the message when it throws. -/
def restoreState (this : LevelsExtension) (viewerState : ViewerState) :
    LevelsExtension × Option String :=
  if viewerState.floorGuid = JSValue.undefined then (this, none)
  else if viewerState.floorGuid.truthy then
    match this.floorSelector.floorData.find?
        (fun data => decide (JSValue.string data.guid = viewerState.floorGuid)) with
    | some floor =>
      let r := this.floorSelector.selectFloor (some floor.index) false
      ({ this with floorSelector := r.1 }, r.2)
    | none => (this, none)
  else
    let r := this.floorSelector.selectFloor NoFloor false
    ({ this with floorSelector := r.1 }, r.2)

end LevelsExtension

/-! ## LevelUtils.js: deriving the floors

A level of `aecModelData.levels` carries JSON numbers, which are finite.  The arithmetic of
this file is double precision: the result of an operation is the exact result rounded to the
nearest double.  A `THREE.Matrix4` is applied to points `(0, 0, value)` only and only the
z-coordinate of the result is read, so an (affine) matrix is kept as the two elements that
determine it: `z' = e10 * value + e14`. -/

/-- The integer nearest to `n / d` (for `d > 0`), a tie going to the even neighbour. -/
def roundHalfEven (n d : ℕ) : ℕ :=
  let q := n / d
  let r := n % d
  if 2 * r < d then q
  else if d < 2 * r then q + 1
  else if q % 2 = 0 then q else q + 1

/-- The position of the leading bit of `n`, found in at most `fuel` halvings. -/
def leadingBit : ℕ → ℕ → ℕ
  | 0, _ => 0
  | fuel + 1, n => if n < 2 then 0 else leadingBit fuel (n / 2) + 1

/-- The binary exponent `e` of a positive `n / d`: `2 ^ e ≤ n / d < 2 ^ (e + 1)`. -/
def binaryExponent (n d : ℕ) : ℤ :=
  let e0 : ℤ := (leadingBit n n : ℤ) - (leadingBit d d : ℤ)
  if d * 2 ^ e0.toNat ≤ n * 2 ^ (-e0).toNat then e0 else e0 - 1

/-- The double nearest to `q` (IEEE 754 binary64, round to nearest, ties to even): a multiple
`m * 2 ^ u` of the spacing `2 ^ u` at `q`, which leaves 53 significant bits and is at least
`2 ^ (-1074)`; `Infinity` or `-Infinity` when the rounded magnitude reaches `2 ^ 1024`.  Zero
has no sign here. -/
def roundDouble (q : ℚ) : JSNum :=
  let n := q.num.natAbs
  let d := q.den
  let u : ℤ := max (binaryExponent n d - 52) (-1074)
  let m : ℕ := roundHalfEven (n * 2 ^ (-u).toNat) (d * 2 ^ u.toNat)
  if 2 ^ 1024 ≤ m * 2 ^ u.toNat then
    if q < 0 then JSNum.negInf else JSNum.posInf
  else
    let a : ℚ := mkRat (m * 2 ^ u.toNat : ℕ) (2 ^ (-u).toNat)
    JSNum.fin (if q < 0 then -a else a)

/-- The result of an arithmetic operation as a double: a finite exact result is rounded. -/
def JSNum.toDouble : JSNum → JSNum
  | JSNum.fin q => roundDouble q
  | x => x

/-- The JavaScript `a + b` in double precision. -/
def JSNum.add64 (a b : JSNum) : JSNum := JSNum.toDouble (JSNum.add a b)

/-- The JavaScript `a - b` in double precision. -/
def JSNum.sub64 (a b : JSNum) : JSNum := JSNum.toDouble (JSNum.sub a b)

/-- The JavaScript `a * b` in double precision. -/
def JSNum.mul64 (a b : JSNum) : JSNum := JSNum.toDouble (JSNum.mul a b)

/-- The property `extension` of a level: `projectElevation` and `buildingStory` are `none`
when the object has no such own property. -/
structure AecLevelExtension where
  projectElevation : Option ℚ
  buildingStory : Option JSValue
deriving DecidableEq

/-- An element of `aecModelData.levels`. -/
structure AecLevel where
  guid : String
  name : String
  elevation : ℚ
  height : ℚ
  extension : Option AecLevelExtension
deriving DecidableEq

/-- A `THREE.Matrix4`, as far as `transformByMatrix` depends on it. -/
structure Matrix4 where
  e10 : ℚ
  e14 : ℚ
deriving DecidableEq

/-- The object `aecModelData`: its levels, and the matrix read from `refPointTransformation`
(`none` when the property is not set). -/
structure AecModelData where
  levels : List AecLevel
  refPointTransformation : Option Matrix4
deriving DecidableEq

/-- A `Level` (`Level.js`) as `aecModelDataToLevels` constructs it: `zMin` and `zMax` are
results of double arithmetic, and `isArtificialLevel` is `none` when the sixth argument of
the constructor is not passed. -/
structure Level where
  index : ℤ
  guid : String
  name : String
  zMin : JSNum
  zMax : JSNum
  isArtificialLevel : Option Bool
deriving DecidableEq

/-- The function `getProjectElevation`. -/
def getProjectElevation (level : AecLevel) : ℚ :=
  match level.extension with
  | some ext =>
    match ext.projectElevation with
    | some projectElevation => projectElevation
    | none => level.elevation
  | none => level.elevation

/-- The closure `transformByMatrix` of `transformLevelsByMatrix`: the z-coordinate of the
matrix applied to `(0, 0, value)`, the product rounded and then the sum. -/
def transformByMatrix (refPointTransformation : Matrix4) (value : JSNum) : JSNum :=
  JSNum.add64 (JSNum.mul64 (JSNum.fin refPointTransformation.e10) value)
    (JSNum.fin refPointTransformation.e14)

/-- The function `transformLevelsByMatrix`. -/
def transformLevelsByMatrix (levels : List Level) (refPointTransformation : Matrix4) : List Level :=
  levels.map (fun currentLevel =>
    { currentLevel with
      zMin := transformByMatrix refPointTransformation currentLevel.zMin,
      zMax := transformByMatrix refPointTransformation currentLevel.zMax })

/-- The function `transformLevels`. -/
def transformLevels (levels : List Level) (refPointTransformation : Option Matrix4) : List Level :=
  match refPointTransformation with
  | none => levels
  | some matrix => transformLevelsByMatrix levels matrix

/-- The constant `zOffsetHack = 1 / 12`: the double nearest to one twelfth. -/
def zOffsetHack : JSNum := roundDouble (1 / 12)

/-- The callback of `aecModelData.levels.filter` in `aecModelDataToLevels`. -/
def isBuildingStory (l : AecLevel) : Bool :=
  match l.extension with
  | none => true
  | some ext =>
    match ext.buildingStory with
    | none => true
    | some buildingStory => buildingStory.truthy

/-- The loop `filteredLevels.forEach((currentLevel, index) => ...)` of `aecModelDataToLevels`,
from the element at `index` on; `levels` is the array built so far. -/
def aecLevelsLoop (filteredLevels : List AecLevel) :
    List AecLevel → ℕ → List Level → List Level
  | [], _, levels => levels
  | currentLevel :: rest, index, levels =>
    let count := filteredLevels.length
    let nextElevation :=
      if index + 1 < count then
        JSNum.fin (getProjectElevation (filteredLevels.getD (index + 1) currentLevel))
      else
        let topLevel := filteredLevels.getD (filteredLevels.length - 1) currentLevel
        let topLevelElevation := getProjectElevation topLevel
        JSNum.add64 (JSNum.fin topLevelElevation) (JSNum.fin topLevel.height)
    aecLevelsLoop filteredLevels rest (index + 1)
      (levels ++ [{ index := (levels.length : ℤ), guid := currentLevel.guid,
                    name := currentLevel.name,
                    zMin := JSNum.sub64 (JSNum.fin (getProjectElevation currentLevel)) zOffsetHack,
                    zMax := nextElevation,
                    isArtificialLevel := none }])

/-- The function `aecModelDataToLevels`. -/
def aecModelDataToLevels (aecModelData : AecModelData) (placementTf modelTransform : Option Matrix4) :
    List Level :=
  let filteredLevels := aecModelData.levels.filter isBuildingStory
  let levels := aecLevelsLoop filteredLevels filteredLevels 0 []
  let levels1 :=
    match placementTf with
    | some placementTf => transformLevelsByMatrix levels placementTf
    | none => transformLevels levels aecModelData.refPointTransformation
  match modelTransform with
  | some modelTransform => transformLevelsByMatrix levels1 modelTransform
  | none => levels1

/-! ## Vocabulary of the statements -/

/-- Two states of the viewer that differ at most in the log of calls. -/
def Viewer.sameButLog (v w : Viewer) : Prop :=
  w = { v with log := w.log }

/-- A valid floor list: each floor has `zMin < zMax`, ascending and non-overlapping. -/
def validFloors : List Floor → Bool
  | [] => true
  | [f] => decide (f.zMin < f.zMax)
  | f :: g :: rest => decide (f.zMin < f.zMax) && decide (f.zMax ≤ g.zMin) && validFloors (g :: rest)

/-- The two planes `_applyFloorSection` installs for the range `[zMin, zMax]`. -/
def sectionPlanes (zMin zMax : JSNum) : Vector4 × Vector4 :=
  (⟨JSNum.fin 0, JSNum.fin 0, JSNum.fin (-1), zMin⟩,
   ⟨JSNum.fin 0, JSNum.fin 0, JSNum.fin 1, JSNum.neg zMax⟩)

/-- The calls made between two states of the filter: what the later log has after the
earlier one. -/
def FloorSelectorFilter.callsSince (before after : FloorSelectorFilter) : List Effect :=
  after._viewer.log.drop before._viewer.log.length

/-- The calls `new` serve the models with identifier `id` from a cached set `S`: no box of
such a model is queried, and every visibility call on such a model hides an id of `S`. -/
def servedFromCache (modelObjects : ℕ → Model) (id : ℕ) (S : List ℕ) (new : List Effect) : Prop :=
  (∀ m dbId, (modelObjects m).id = id → Effect.getNodeBox m dbId ∉ new) ∧
  (∀ m dbId off, (modelObjects m).id = id → Effect.setNodeOff m dbId off ∈ new →
    off = true ∧ dbId ∈ S)

/-- Whether a control object fades the ghost floors (otherwise it moves the clip planes). -/
def AnimCallbacks.isFade : AnimCallbacks → Bool
  | .fadeIn => true
  | .fadeOut => true
  | .moveToFloor _ _ _ _ => false

/-- At most one live animation per kind: every running control object that fades the ghost
floors is the one referenced by `_fadeAnim`, every running control object that moves the clip
planes is the one referenced by `_floorAnim`, and each of the two fields, when set, references
a control object of its kind. -/
def FloorSelector.oneLiveAnimPerKind (s : FloorSelector) : Prop :=
  (∀ i c, s.viewer.anims.get? i = some c → c.isRunning = true →
    (c.callbacks.isFade = true → s._fadeAnim = some i) ∧
    (c.callbacks.isFade = false → s._floorAnim = some i)) ∧
  (∀ a, s._fadeAnim = some a →
    ∃ c, s.viewer.anims.get? a = some c ∧ c.callbacks.isFade = true) ∧
  (∀ a, s._floorAnim = some a →
    ∃ c, s.viewer.anims.get? a = some c ∧ c.callbacks.isFade = false)

/-- Two states of the selector with the same control objects and the same two references. -/
def FloorSelector.sameAnims (s t : FloorSelector) : Prop :=
  t.viewer.anims = s.viewer.anims ∧ t._fadeAnim = s._fadeAnim ∧ t._floorAnim = s._floorAnim

/-- An operation on the selector: a call of a public method, a notification of the viewer
the selector listens to (camera change, render options changed, model added or object tree
created, model unloaded), or the render loop driving a control object. -/
inductive Op where
  | enterHoverMode
  | exitHoverMode (force : Bool)
  | selectFloor (floorIndex : Option ℤ) (useTransition : Bool)
  | setPanelHoverEffectEnabled (enabled : Bool)
  | forceImageRefresh
  | cameraChange
  | setFloorData (floors : Option (List Floor))
  | setFloorFilterData (floorFilterData : Option FloorFilterData)
  | invalidateFloorSelection (floorIndex : Option ℤ)
  | rollOverFloor (floorIndex : Option ℤ)
  | setEnabled (enabled : Bool)
  | animTick (anim : ℕ) (val : JSNum)
  | animComplete (anim : ℕ)
  | renderOptionsChanged
  | modelAdded (isObjectTreeLoaded : Bool)
  | modelUnloaded (model : ℕ)
  | resetState

/-- The state after an operation (an exception thrown by the filter leaves the state reached). -/
def FloorSelector.step (s : FloorSelector) : Op → FloorSelector
  | .enterHoverMode => s.enterHoverMode
  | .exitHoverMode force => s.exitHoverMode force
  | .selectFloor floorIndex useTransition => (s.selectFloor floorIndex useTransition).1
  | .setPanelHoverEffectEnabled enabled => s.setPanelHoverEffectEnabled enabled
  | .forceImageRefresh => s.forceImageRefresh
  | .cameraChange => s._interruptFading
  | .setFloorData floors => s.setFloorData floors
  | .setFloorFilterData floorFilterData => s.setFloorFilterData floorFilterData
  | .invalidateFloorSelection floorIndex => (s.invalidateFloorSelection floorIndex).1
  | .rollOverFloor floorIndex => s.rollOverFloor floorIndex
  | .setEnabled enabled => s.setEnabled enabled
  | .animTick anim val => s.animTick anim val
  | .animComplete anim => s.animComplete anim
  | .renderOptionsChanged => s._onRenderOptionsChanged
  | .modelAdded isObjectTreeLoaded => (s._runFloorSelectorFilterEventHandler isObjectTreeLoaded).1
  | .modelUnloaded model => s._runModelUnloadingEventHandler model
  | .resetState => s.resetState

/-- The state after a sequence of operations. -/
def FloorSelector.run (s : FloorSelector) (ops : List Op) : FloorSelector :=
  ops.foldl FloorSelector.step s

/-- The log of `t` is the log of `s` followed by further calls. -/
def FloorSelector.logExtends (s t : FloorSelector) : Prop :=
  ∃ pre, t.viewer.log = s.viewer.log ++ pre

/-- Whether a call in the log is an update of the cut plane set. -/
def Effect.isCutPlaneUpdate : Effect → Bool
  | Effect.setCutPlaneSet _ => true
  | _ => false

/-- The clip-plane policy for a plane set passed to `setCutPlaneSet`: `null` while the selector
is disabled, the two planes `(0, 0, -1, a)` and `(0, 0, 1, -b)` with finite `a` and `b` while
it is enabled. -/
def cutPlanesPolicy (enabled : Bool) (planes : Option (Vector4 × Vector4)) : Prop :=
  (enabled = false → planes = none) ∧
  (enabled = true → ∃ a b : ℚ, planes = some (sectionPlanes (JSNum.fin a) (JSNum.fin b)))

/-- The state `t` is reached from `s` with `enabled` unchanged, by calls of which every update
of the cut plane set follows the policy; the plane set installed follows the policy, or no
update was made and it is that of `s`. -/
def FloorSelector.cutPlanesFollow (s t : FloorSelector) : Prop :=
  t.enabled = s.enabled ∧
  ∃ new, t.viewer.log = s.viewer.log ++ new ∧
    (∀ p, Effect.setCutPlaneSet p ∈ new → cutPlanesPolicy s.enabled p) ∧
    ((t.viewer.cutPlaneSet = s.viewer.cutPlaneSet ∧ ∀ p, Effect.setCutPlaneSet p ∉ new) ∨
      cutPlanesPolicy s.enabled t.viewer.cutPlaneSet)

/-- The filter state `that` is reached from `this` by calls none of which updates the cut
plane set, and the plane set installed is the same. -/
def FloorSelectorFilter.noCutPlaneUpdate (this that : FloorSelectorFilter) : Prop :=
  that._viewer.cutPlaneSet = this._viewer.cutPlaneSet ∧
  ∃ new, that._viewer.log = this._viewer.log ++ new ∧ ∀ e ∈ new, e.isCutPlaneUpdate = false

/-- The property names of `Object.prototype`.  A read `this._cache[name]` with one of these
names finds an inherited value instead of `undefined`, and a write below `"__proto__"` lands
on `Object.prototype` itself. -/
def objectPrototypeKeys : List String :=
  [ "constructor", "__proto__", "hasOwnProperty", "isPrototypeOf", "propertyIsEnumerable",
    "toLocaleString", "toString", "valueOf", "__defineGetter__", "__defineSetter__",
    "__lookupGetter__", "__lookupSetter__" ]

/-! ## Example data -/

/-- Two floors, `[0, 3]` and `[3, 6]`. -/
def exFloors : List Floor :=
  [ { index := 0, guid := "guid-a", name := "Level 1", zMin := 0, zMax := 3 },
    { index := 1, guid := "guid-b", name := "Level 2", zMin := 3, zMax := 6 } ]

/-- The instance tree of the example model: the box of node 1 spans `[2, 4]`, the box of
node 2 spans `[-3, 0]` (it touches `zMin` of the first floor), every other box `[10, 11]`. -/
def exTree (dbId : ℕ) : ZBox :=
  if dbId = 1 then ⟨JSNum.fin 2, JSNum.fin 4⟩
  else if dbId = 2 then ⟨JSNum.fin (-3), JSNum.fin 0⟩
  else ⟨JSNum.fin 10, JSNum.fin 11⟩

/-- The example model: id 7, with visibility manager and instance tree. -/
def exModel : Model :=
  { id := 7, visibilityManager := true, instanceTree := some exTree,
    boundingBox := ⟨JSNum.fin 0, JSNum.fin 6⟩ }

/-- A viewer with the example model loaded (handle 0) and the cross-fade extension. -/
def exViewer : Viewer :=
  { modelObjects := fun _ => exModel
    modelQueue := [0]
    modelIs2d := some false
    crossFadeEffects := true
    spatialFilterForRollOverSupported := true
    cutPlaneSet := none
    aoOpacity := JSNum.fin 1
    highlightIntensity := JSNum.fin 0
    anims := []
    log := [] }

/-- A fresh filter on the example viewer. -/
def exFilter : FloorSelectorFilter :=
  { _viewer := exViewer, _dbIdsToUnhide := [], _cache := [] }

/-- Filter data with the candidate 1 for model id 7 and the height factor NaN. -/
def exFilterDataNaN : FloorFilterData :=
  { modelsDbIds := some [(7, some [1])], levelHeightFactor := JSValue.number JSNum.nan }

/-- Filter data with the candidate 1 for model id 7 and no height factor. -/
def exFilterData : FloorFilterData :=
  { modelsDbIds := some [(7, some [1])], levelHeightFactor := JSValue.undefined }

/-- The selector right after construction on the example viewer and assignment of the
example floors. -/
def exSelector : FloorSelector :=
  (FloorSelector.new exViewer).setFloorData (some exFloors)

/-- The example selector after `selectFloor(0, false)`. -/
def exSelected0 : FloorSelector :=
  (exSelector.selectFloor (some 0) false).1

/-- The example selector after `selectFloor(1, true)`, before any tick of the animation. -/
def exMoving1 : FloorSelector :=
  (exSelector.selectFloor (some 1) true).1

/-- The example selector after `selectFloor(0, false)` and `selectFloor(NoFloor, true)`,
before any tick of the animation. -/
def exMovingNoFloor : FloorSelector :=
  (exSelected0.selectFloor NoFloor true).1

/-- The example selector after `selectFloor(0, false)` and `selectFloor(NoFloor, true)`, when
the clip-plane animation (control object 0) has reached its end. -/
def exMovedNoFloor : FloorSelector :=
  exMovingNoFloor.animComplete 0

/-- The example selector with floor 1 selected. -/
def exSelected1 : FloorSelector :=
  (exSelector.selectFloor (some 1) false).1

/-- The example selector after `enterHoverMode()`: mode `Hovering`, fade-in running. -/
def exHovering : FloorSelector :=
  exSelector.enterHoverMode

/-- The example selector after `enterHoverMode()` and `exitHoverMode()`: mode `Off`, the
hovering flag cleared, fade-out running. -/
def exFadingOut : FloorSelector :=
  exSelector.enterHoverMode.exitHoverMode false

/-- The example filter after a first `filter` call for the first example floor. -/
def exFiltered : FloorSelectorFilter :=
  (exFilter.filter (some exFilterData) (exFloors.get? 0)).1

/-- Filter data whose map has no candidate id. -/
def exFilterDataEmpty : FloorFilterData :=
  { modelsDbIds := some [(7, some [])], levelHeightFactor := JSValue.undefined }

/-- The example filter after the first call, `clearFilter()`, and with the visibility manager
of the example model gone. -/
def exFilteredNoVisibilityManager : FloorSelectorFilter :=
  { exFiltered.clearFilter with
    _viewer := { exFiltered.clearFilter._viewer with
      modelObjects := fun _ => { exModel with visibilityManager := false } } }

/-- The example selector with the panel hover effect (ghost floors) switched off and floor 1
selected. -/
def exNoGhostSelected1 : FloorSelector :=
  ((exSelector.setPanelHoverEffectEnabled false).selectFloor (some 1) false).1

/-- The example model without its visibility manager. -/
def exModelNoVisibilityManager : Model :=
  { exModel with visibilityManager := false }

/-- The example filter after the first `filter` call (node 1 of the model is hidden and
recorded in the reverse index), with the visibility manager of the model gone. -/
def exFilteredThenNoVisibilityManager : FloorSelectorFilter :=
  { exFiltered with
    _viewer := { exFiltered._viewer with modelObjects := fun _ => exModelNoVisibilityManager } }

/-- A model with id 5 that has neither a visibility manager nor an instance tree. -/
def exModelNotReady : Model :=
  { id := 5, visibilityManager := false, instanceTree := none,
    boundingBox := ⟨JSNum.fin 0, JSNum.fin 6⟩ }

/-- A model with id 5 that has a visibility manager but no instance tree. -/
def exModelNoTree : Model :=
  { id := 5, visibilityManager := true, instanceTree := none,
    boundingBox := ⟨JSNum.fin 0, JSNum.fin 6⟩ }

/-- A fresh filter on a viewer with two models: handle 0 is `first`, handle 1 the example
model; the model queue lists them in the order `queue`. -/
def exFilterTwoModels (first : Model) (queue : List ℕ) : FloorSelectorFilter :=
  { _viewer := { exViewer with
      modelObjects := fun h => if h = 0 then first else exModel
      modelQueue := queue }
    _dbIdsToUnhide := []
    _cache := [] }

/-- The example selector with the example filter data assigned and floor 0 selected: the
filter has evaluated and cached the model for the floor name `Level 1`. -/
def exFilterSelected0 : FloorSelector :=
  ((exSelector.setFloorFilterData (some exFilterData)).selectFloor (some 0) false).1

/-- A new floor list whose only floor is again called `Level 1` but spans `[10, 13]`. -/
def exNewFloors : List Floor :=
  [ { index := 0, guid := "guid-c", name := "Level 1", zMin := 10, zMax := 13 } ]

/-- The selector `exFilterSelected0` after the new floor list was assigned to `floorData`. -/
def exAfterNewFloors : FloorSelector :=
  exFilterSelected0.setFloorData (some exNewFloors)

/-- The selector `exMoving1` with a roll-over highlight at full intensity. -/
def exMoving1Highlighted : FloorSelector :=
  exMoving1.withViewer { exMoving1.viewer with highlightIntensity := JSNum.fin 1 }

/-- The example selector after `enterHoverMode()`, a tick of the fade-in (control object 0)
that delivers the opacity `1/10`, and `exitHoverMode()`: the hovering flag is cleared and the
fade-out (control object 1) runs from `1/10`. -/
def exFadingOutMid : FloorSelector :=
  (exSelector.enterHoverMode.animTick 0 (JSNum.fin (1 / 10))).exitHoverMode false

/-- The example selector after `selectFloor(1, true)` and, before the clip-plane animation
has ended, `selectFloor(0, false)`. -/
def exOrphanedTransition : FloorSelector :=
  (exMoving1.selectFloor (some 0) false).1

/-- Filter data with the candidates 1 and 2 for model id 7 and no height factor. -/
def exFilterDataTwoCandidates : FloorFilterData :=
  { modelsDbIds := some [(7, some [1, 2])], levelHeightFactor := JSValue.undefined }

/-- Filter data with the candidate 2 for model id 7 and the height factor 0. -/
def exFilterDataCandidate2 : FloorFilterData :=
  { modelsDbIds := some [(7, some [2])], levelHeightFactor := JSValue.number (JSNum.fin 0) }

/-- Three levels: a ground floor with a project elevation, a level that is not a building
story, and a top floor without extension. -/
def exAecLevels : List AecLevel :=
  [ { guid := "g0", name := "Ground", elevation := 100, height := 3,
      extension := some { projectElevation := some 0, buildingStory := some (JSValue.boolean true) } },
    { guid := "g1", name := "Grid", elevation := 2, height := 1,
      extension := some { projectElevation := none, buildingStory := some (JSValue.boolean false) } },
    { guid := "g2", name := "Top", elevation := 3, height := 4, extension := none } ]

/-- The example levels as `aecModelData`, without reference point transformation. -/
def exAecModelData : AecModelData :=
  { levels := exAecLevels, refPointTransformation := none }

/-- One level with the elevation `2 ^ 53` and the height 0, without reference point
transformation. -/
def exAecModelDataLargeElevation : AecModelData :=
  { levels := [ { guid := "g0", name := "Ground", elevation := 9007199254740992, height := 0,
                  extension := none } ],
    refPointTransformation := none }

/-- A sequence of operations on a fresh selector: floor data, hover, animated selection of
floor 1, a tick of the clip-plane animation, leaving the panel, a camera change, and the
clip-plane animation (control object 1) reaching its end. -/
def exOps : List Op :=
  [ Op.setFloorData (some exFloors), Op.enterHoverMode, Op.selectFloor (some 1) true,
    Op.animTick 1 (JSNum.fin (1 / 2)), Op.exitHoverMode false, Op.cameraChange,
    Op.animComplete 1 ]

/-! ## Theorems -/

/-! ### Lists and association lists -/

theorem setAdd_of_mem {s : List ℕ} {x : ℕ} (h : x ∈ s) : setAdd s x = s := by
  simp [setAdd, h]

theorem foldl_setAdd_of_subset (l acc : List ℕ) (h : ∀ x ∈ l, x ∈ acc) :
    l.foldl setAdd acc = acc := by
  induction l with
  | nil => rfl
  | cons a t ih =>
    have ha : a ∈ acc := h a (List.mem_cons_self a t)
    simp only [List.foldl_cons, setAdd_of_mem ha]
    exact ih (fun x hx => h x (List.mem_cons_of_mem a hx))

theorem foldl_setAdd_self (l : List ℕ) : l.foldl setAdd l = l :=
  foldl_setAdd_of_subset l l (fun _ hx => hx)

theorem mapSet_of_mapGet {κ β : Type} [DecidableEq κ] (m : List (κ × β)) (k : κ) (v : β)
    (h : mapGet m k = some v) : mapSet m k v = m := by
  induction m with
  | nil => simp [mapGet] at h
  | cons e t ih =>
    obtain ⟨k', v'⟩ := e
    by_cases hk : k' = k
    · simp only [mapGet, hk, if_true, Option.some.injEq] at h
      simp [mapSet, hk, h]
    · simp only [mapGet, hk, if_false] at h
      simp [mapSet, hk, ih h]

theorem mapGet_mapSet {κ β : Type} [DecidableEq κ] (m : List (κ × β)) (k k' : κ) (v : β) :
    mapGet (mapSet m k v) k' = if k = k' then some v else mapGet m k' := by
  induction m with
  | nil => simp [mapGet, mapSet]
  | cons e t ih =>
    obtain ⟨k0, v0⟩ := e
    by_cases h0 : k0 = k
    · subst h0
      by_cases h1 : k0 = k' <;> simp [mapGet, mapSet, h1]
    · by_cases h1 : k0 = k'
      · subst h1
        have : ¬ k = k0 := fun h => h0 h.symm
        simp [mapGet, mapSet, h0, this]
      · simp [mapGet, mapSet, h0, h1, ih]

theorem get?_append_length {α : Type} (l : List α) (x : α) : (l ++ [x]).get? l.length = some x := by
  simp

/-! ### The viewer apart from its log -/

theorem Viewer.sameButLog_refl (v : Viewer) : v.sameButLog v := rfl

theorem Viewer.sameButLog_trans {u v w : Viewer} (h1 : u.sameButLog v) (h2 : v.sameButLog w) :
    u.sameButLog w := by
  unfold Viewer.sameButLog at *
  rw [h2, h1]

theorem Viewer.sameButLog_emit (v : Viewer) (e : Effect) : v.sameButLog (v.emit e) := rfl

/-! ### The filter: what each method changes -/

namespace FloorSelectorFilter

theorem foldl_emit (f : ℕ → Effect) (l : List ℕ) (this : FloorSelectorFilter) :
    l.foldl (fun t id => t.emit (f id)) this
      = { this with _viewer := { this._viewer with log := this._viewer.log ++ l.map f } } := by
  induction l generalizing this with
  | nil => simp
  | cons a t ih =>
    rw [List.foldl_cons, ih]
    simp [emit, Viewer.emit, List.append_assoc]

/-- What `hideDbIds` does when the model has a visibility manager: one `setNodeOff(id, true)`
per id, and the reverse index gets the set only if it has no entry for the model yet. -/
theorem hideDbIds_eq (this : FloorSelectorFilter) (model : ℕ) (dbIds : List ℕ)
    (hvm : (this._viewer.modelObjects model).visibilityManager = true) :
    this.hideDbIds model dbIds =
      { _viewer := { this._viewer with
          log := this._viewer.log ++ dbIds.map (fun id => Effect.setNodeOff model id true) }
        _dbIdsToUnhide :=
          match mapGet this._dbIdsToUnhide model with
          | some _ => this._dbIdsToUnhide
          | none => mapSet this._dbIdsToUnhide model dbIds
        _cache := this._cache } := by
  unfold hideDbIds
  simp only [hvm, Bool.not_true, Bool.false_eq_true, if_false, foldl_emit]
  cases h : mapGet this._dbIdsToUnhide model with
  | none => simp
  | some stored => simp [foldl_setAdd_self, mapSet_of_mapGet _ _ _ h]

theorem hideDbIds_cache (this : FloorSelectorFilter) (model : ℕ) (dbIds : List ℕ) :
    (this.hideDbIds model dbIds)._cache = this._cache := by
  by_cases hvm : (this._viewer.modelObjects model).visibilityManager = true
  · rw [hideDbIds_eq _ _ _ hvm]
  · simp [hideDbIds, hvm]

theorem hideDbIds_sameButLog (this : FloorSelectorFilter) (model : ℕ) (dbIds : List ℕ) :
    this._viewer.sameButLog (this.hideDbIds model dbIds)._viewer := by
  by_cases hvm : (this._viewer.modelObjects model).visibilityManager = true
  · rw [hideDbIds_eq _ _ _ hvm]; rfl
  · simp [hideDbIds, hvm, Viewer.sameButLog_refl]

theorem clearFilter_foldl_frame (entries : List (ℕ × List ℕ)) (this : FloorSelectorFilter) :
    this._viewer.sameButLog (entries.foldl (fun t entry =>
      if !(t._viewer.modelObjects entry.1).visibilityManager then t
      else
        let t1 := entry.2.foldl (fun u id => u.emit (Effect.setNodeOff entry.1 id false)) t
        { t1 with _dbIdsToUnhide := mapDelete t1._dbIdsToUnhide entry.1 }) this)._viewer ∧
    (entries.foldl (fun t entry =>
      if !(t._viewer.modelObjects entry.1).visibilityManager then t
      else
        let t1 := entry.2.foldl (fun u id => u.emit (Effect.setNodeOff entry.1 id false)) t
        { t1 with _dbIdsToUnhide := mapDelete t1._dbIdsToUnhide entry.1 }) this)._cache
      = this._cache := by
  induction entries generalizing this with
  | nil => exact ⟨Viewer.sameButLog_refl _, rfl⟩
  | cons e t ih =>
    rw [List.foldl_cons]
    split
    · exact ih this
    · rw [foldl_emit]
      have h := ih
        { _viewer := { this._viewer with
            log := this._viewer.log ++ e.2.map (fun id => Effect.setNodeOff e.1 id false) },
          _dbIdsToUnhide := mapDelete this._dbIdsToUnhide e.1,
          _cache := this._cache }
      have h0 : this._viewer.sameButLog { this._viewer with
          log := this._viewer.log ++ e.2.map (fun id => Effect.setNodeOff e.1 id false) } := rfl
      exact ⟨Viewer.sameButLog_trans h0 h.1, h.2⟩

theorem clearFilter_frame (this : FloorSelectorFilter) :
    this._viewer.sameButLog this.clearFilter._viewer ∧ this.clearFilter._cache = this._cache := by
  unfold clearFilter
  split
  · exact ⟨Viewer.sameButLog_refl _, rfl⟩
  · exact clearFilter_foldl_frame _ this

theorem cacheSet_viewer (this : FloorSelectorFilter) (n : String) (id : ℕ) (ids : List ℕ) :
    (this.cacheSet n id ids)._viewer = this._viewer := by
  unfold cacheSet
  split <;> rfl

theorem cacheSet_dbIdsToUnhide (this : FloorSelectorFilter) (n : String) (id : ℕ) (ids : List ℕ) :
    (this.cacheSet n id ids)._dbIdsToUnhide = this._dbIdsToUnhide := by
  unfold cacheSet
  split <;> rfl

theorem cacheGet_congr (a b : FloorSelectorFilter) (h : a._cache = b._cache) (n : String) (id : ℕ) :
    a.cacheGet n id = b.cacheGet n id := by
  unfold cacheGet
  rw [h]

theorem cacheGet_cacheSet_of_ne (this : FloorSelectorFilter) (n n' : String) (id id' : ℕ)
    (ids : List ℕ) (hne : ¬ (n = n' ∧ id = id')) :
    (this.cacheSet n id ids).cacheGet n' id' = this.cacheGet n' id' := by
  unfold cacheSet
  cases hm : mapGet this._cache n with
  | none => rfl
  | some pm =>
    simp only [cacheGet, mapGet_mapSet]
    by_cases hn : n = n'
    · subst hn
      have hid : ¬ id = id' := fun h => hne ⟨rfl, h⟩
      simp [hm, mapGet_mapSet, hid]
    · simp [hn]

theorem cacheGet_cacheSet_same (this : FloorSelectorFilter) (n : String) (id : ℕ)
    (ids : List ℕ) (hm : mapGet this._cache n ≠ none) :
    (this.cacheSet n id ids).cacheGet n id = some ids := by
  unfold cacheSet
  cases hm2 : mapGet this._cache n with
  | none => exact absurd hm2 hm
  | some pm => simp [cacheGet, mapGet_mapSet]

theorem callsSince_of_append (a b : FloorSelectorFilter) (new : List Effect)
    (h : b._viewer.log = a._viewer.log ++ new) : a.callsSince b = new := by
  unfold callsSince
  rw [h]
  simp

/-- What the loop over the candidates does: one `getNodeBox` per candidate, in order, and the
ids whose box passes the band test are collected. -/
theorem collectDbIdsToHide_eq (model : ℕ) (tree : ℕ → ZBox) (lo hi : JSNum) (dbIds : List ℕ)
    (this : FloorSelectorFilter) (acc : List ℕ) :
    collectDbIdsToHide model tree lo hi dbIds (this, acc) =
      ({ this with _viewer := { this._viewer with
          log := this._viewer.log ++ dbIds.map (fun id => Effect.getNodeBox model id) } },
       dbIds.foldl (fun a id => if inBand (tree id) lo hi then setAdd a id else a) acc) := by
  induction dbIds generalizing this acc with
  | nil => simp [collectDbIdsToHide]
  | cons d t ih =>
    unfold collectDbIdsToHide
    by_cases hb : inBand (tree d) lo hi = true
    · simp only [hb, if_true, ih, List.foldl_cons]
      simp [emit, Viewer.emit, List.append_assoc]
    · simp only [hb, if_false, ih, List.foldl_cons]
      simp [emit, Viewer.emit, List.append_assoc]

theorem filterModel_sameButLog (floor : Floor) (lo hi : JSNum)
    (modelsDbIds : List (ℕ × Option (List ℕ))) (model : ℕ) (this : FloorSelectorFilter) :
    this._viewer.sameButLog (filterModel floor lo hi modelsDbIds model this).1._viewer := by
  unfold filterModel
  simp only []
  split
  · exact Viewer.sameButLog_emit _ _
  · split
    · split
      · exact hideDbIds_sameButLog _ _ _
      · exact Viewer.sameButLog_refl _
    · split
      · exact Viewer.sameButLog_emit _ _
      · split
        · rw [cacheSet_viewer, collectDbIdsToHide_eq]
          split
          · exact Viewer.sameButLog_trans (v := { this._viewer with
              log := this._viewer.log ++ _ }) rfl (hideDbIds_sameButLog _ _ _)
          · rfl
        · exact Viewer.sameButLog_refl _

theorem filterModels_sameButLog (floor : Floor) (lo hi : JSNum)
    (modelsDbIds : List (ℕ × Option (List ℕ))) (models : List ℕ) (this : FloorSelectorFilter) :
    this._viewer.sameButLog (filterModels floor lo hi modelsDbIds models this)._viewer := by
  induction models generalizing this with
  | nil => exact Viewer.sameButLog_refl _
  | cons m rest ih =>
    have hstep := filterModel_sameButLog floor lo hi modelsDbIds m this
    unfold filterModels
    split
    · rename_i this1 heq
      rw [heq] at hstep
      exact hstep
    · rename_i this1 heq
      rw [heq] at hstep
      exact Viewer.sameButLog_trans hstep (ih this1)

theorem filter_sameButLog (this : FloorSelectorFilter) (data : Option FloorFilterData)
    (floor : Option Floor) :
    this._viewer.sameButLog (this.filter data floor).1._viewer := by
  unfold filter
  split
  · exact Viewer.sameButLog_refl _
  · split
    · exact Viewer.sameButLog_refl _
    · split
      · exact Viewer.sameButLog_refl _
      · split
        · exact Viewer.sameButLog_refl _
        · split
          · exact Viewer.sameButLog_refl _
          · simp only []
            split
            · exact filterModels_sameButLog _ _ _ _ _ _
            · exact filterModels_sameButLog _ _ _ _ _ _

/-- With a cache object for the floor name in place, `filter` either leaves the state as it
is (it throws, or there is no candidate id) or runs the loop over the models on it. -/
theorem filter_cases (this : FloorSelectorFilter) (data : Option FloorFilterData) (floor : Floor)
    (pm : List (ℕ × List ℕ)) (hpm : mapGet this._cache floor.name = some pm) :
    (this.filter data (some floor)).1 = this ∨
    ∃ lo hi mm, (this.filter data (some floor)).1
      = filterModels floor lo hi mm this._viewer.modelQueue this := by
  unfold filter
  cases data with
  | none => exact Or.inl rfl
  | some d =>
    cases hmm : d.modelsDbIds with
    | none => simp only [hmm]; exact Or.inl trivial
    | some mm =>
      cases hh : _getLevelHeightFactor d.levelHeightFactor with
      | error msg => simp only [hmm, hh]; exact Or.inl trivial
      | ok h =>
        by_cases hhas : _hasModelDbIds mm = true
        · right
          refine ⟨newMinZ floor h, newMaxZ floor, mm, ?_⟩
          simp only [hmm, hh, hhas, hpm, Bool.not_true, Bool.false_eq_true, if_false]
        · left
          simp [hmm, hh, hhas]

end FloorSelectorFilter

/-! ### The selector: what each method changes -/

namespace FloorSelector

/-- The filter run of `selectFloor` replaces the filter object only, and of the viewer only
the log changes. -/
theorem _runFloorSelectorFilter_frame (s : FloorSelector) :
    ∃ F : FloorSelectorFilter,
      s._runFloorSelectorFilter.1 = { s with _floorSelectorFilter := F } ∧
      s.viewer.sameButLog F._viewer := by
  unfold _runFloorSelectorFilter
  simp only []
  split
  · refine ⟨_, rfl, ?_⟩
    exact Viewer.sameButLog_trans (FloorSelectorFilter.clearFilter_frame _).1
      (FloorSelectorFilter.filter_sameButLog _ _ _)
  · exact ⟨_, rfl, (FloorSelectorFilter.clearFilter_frame _).1⟩

/-- The steps of `selectFloor` after the selection itself (filter run, roll-over reset,
event) keep the selection state and the installed cut planes. -/
theorem selectFloor_tail_frame (s1 : FloorSelector) (ev : SelectorEvent) :
    let r := s1._runFloorSelectorFilter
    let s3 := if !r.1._ghostFloorsEnabled then r.1.rollOverFloor none else r.1
    let s4 := s3.fireEvent ev
    (r.1._floors = s1._floors ∧ r.1._currentFloor = s1._currentFloor ∧
     r.1._floorSectionMin = s1._floorSectionMin ∧ r.1._floorSectionMax = s1._floorSectionMax ∧
     r.1._currentMode = s1._currentMode ∧ r.1._hovering = s1._hovering ∧
     r.1._floorAnim = s1._floorAnim ∧ r.1._fadeAnim = s1._fadeAnim ∧
     r.1.viewer.cutPlaneSet = s1.viewer.cutPlaneSet ∧ r.1.viewer.anims = s1.viewer.anims) ∧
    (s4._floors = s1._floors ∧ s4._currentFloor = s1._currentFloor ∧
     s4._floorSectionMin = s1._floorSectionMin ∧ s4._floorSectionMax = s1._floorSectionMax ∧
     s4._currentMode = s1._currentMode ∧ s4._hovering = s1._hovering ∧
     s4._floorAnim = s1._floorAnim ∧ s4._fadeAnim = s1._fadeAnim ∧
     s4.viewer.cutPlaneSet = s1.viewer.cutPlaneSet ∧ s4.viewer.anims = s1.viewer.anims) := by
  intro r s3 s4
  obtain ⟨F, hF, hv⟩ := _runFloorSelectorFilter_frame s1
  have hr : r.1 = { s1 with _floorSelectorFilter := F } := hF
  have hv' : F._viewer = { s1.viewer with log := F._viewer.log } := hv
  have hc : F._viewer.cutPlaneSet = s1.viewer.cutPlaneSet := by rw [hv']
  have ha : F._viewer.anims = s1.viewer.anims := by rw [hv']
  refine ⟨?_, ?_⟩
  · rw [hr]
    exact ⟨rfl, rfl, rfl, rfl, rfl, rfl, rfl, rfl, hc, ha⟩
  · simp only [s4, s3, hr]
    split <;>
      simp [fireEvent, emit, withViewer, viewer, Viewer.emit, rollOverFloor,
        _setSpatialFilterForRollOver] <;>
      first
        | exact ⟨hc, ha⟩
        | (split <;> simp <;> exact ⟨hc, ha⟩)

theorem _applyFloorSection_fields (s : FloorSelector) (zMin zMax : Option JSNum) :
    (s._applyFloorSection zMin zMax)._floors = s._floors ∧
    (s._applyFloorSection zMin zMax)._currentFloor = s._currentFloor ∧
    (s._applyFloorSection zMin zMax)._floorSectionMin = s._floorSectionMin ∧
    (s._applyFloorSection zMin zMax)._floorSectionMax = s._floorSectionMax ∧
    (s._applyFloorSection zMin zMax)._currentMode = s._currentMode ∧
    (s._applyFloorSection zMin zMax)._hovering = s._hovering ∧
    (s._applyFloorSection zMin zMax)._floorAnim = s._floorAnim ∧
    (s._applyFloorSection zMin zMax)._fadeAnim = s._fadeAnim ∧
    (s._applyFloorSection zMin zMax).enabled = s.enabled ∧
    (s._applyFloorSection zMin zMax).viewer.anims = s.viewer.anims := by
  unfold _applyFloorSection
  split <;> simp [setCutPlaneSet, withViewer, viewer, Viewer.emit]

theorem _stopFloorAnim_fields (s : FloorSelector) :
    s._stopFloorAnim._floors = s._floors ∧ s._stopFloorAnim._currentFloor = s._currentFloor ∧
    s._stopFloorAnim._currentMode = s._currentMode ∧ s._stopFloorAnim._hovering = s._hovering ∧
    s._stopFloorAnim.enabled = s.enabled ∧
    s._stopFloorAnim._floorSectionMin = s._floorSectionMin ∧
    s._stopFloorAnim._floorSectionMax = s._floorSectionMax ∧
    s._stopFloorAnim._fadeAnim = s._fadeAnim := by
  unfold _stopFloorAnim
  split <;> simp [animStop, animSetNotRunning, emit, withViewer, viewer, Viewer.emit]

theorem _stopFadeAnim_fields (s : FloorSelector) :
    s._stopFadeAnim._floors = s._floors ∧ s._stopFadeAnim._currentFloor = s._currentFloor ∧
    s._stopFadeAnim._currentMode = s._currentMode ∧ s._stopFadeAnim._hovering = s._hovering ∧
    s._stopFadeAnim.enabled = s.enabled ∧
    s._stopFadeAnim._floorSectionMin = s._floorSectionMin ∧
    s._stopFadeAnim._floorSectionMax = s._floorSectionMax ∧
    s._stopFadeAnim._floorAnim = s._floorAnim := by
  unfold _stopFadeAnim
  split <;> simp [animStop, animSetNotRunning, emit, withViewer, viewer, Viewer.emit]

theorem _setAOVisible_fields (s : FloorSelector) (b : Bool) :
    (s._setAOVisible b)._floors = s._floors ∧ (s._setAOVisible b)._currentFloor = s._currentFloor ∧
    (s._setAOVisible b)._currentMode = s._currentMode ∧ (s._setAOVisible b)._hovering = s._hovering ∧
    (s._setAOVisible b).enabled = s.enabled ∧
    (s._setAOVisible b)._floorSectionMin = s._floorSectionMin ∧
    (s._setAOVisible b)._floorSectionMax = s._floorSectionMax ∧
    (s._setAOVisible b)._floorAnim = s._floorAnim ∧
    (s._setAOVisible b)._fadeAnim = s._fadeAnim ∧
    (s._setAOVisible b).viewer.anims = s.viewer.anims := by
  unfold _setAOVisible
  split
  · simp
  · split
    · simp [setAOOptions, withViewer, viewer, Viewer.emit]
    · simp only []
      split <;> simp [setAOOptions, emit, withViewer, viewer, Viewer.emit]

theorem _setAOVisible_viewer (t : FloorSelector) (b : Bool) :
    (t._setAOVisible b)._aoVisible = b ∧
    (t._setAOVisible b).viewer.cutPlaneSet = t.viewer.cutPlaneSet ∧
    ∃ rest, (t._setAOVisible b).viewer.log = t.viewer.log ++ rest := by
  unfold _setAOVisible
  by_cases h : b = t._aoVisible
  · rw [if_pos h]
    exact ⟨h.symm, rfl, [], by simp⟩
  · simp only [h, if_false]
    cases b with
    | false => simp [setAOOptions, withViewer, viewer, Viewer.emit]
    | true =>
      by_cases ho : t._floorSelectorFilter._viewer.aoOpacity = JSNum.fin 0 <;>
        simp [setAOOptions, emit, withViewer, viewer, Viewer.emit, ho]

theorem _updateZLimits_fields (s : FloorSelector) :
    s._updateZLimits._floors = s._floors ∧ s._updateZLimits._currentFloor = s._currentFloor ∧
    s._updateZLimits._currentMode = s._currentMode ∧ s._updateZLimits._hovering = s._hovering ∧
    s._updateZLimits.enabled = s.enabled ∧
    s._updateZLimits._floorSectionMin = s._floorSectionMin ∧
    s._updateZLimits._floorSectionMax = s._floorSectionMax ∧
    s._updateZLimits._floorAnim = s._floorAnim ∧
    s._updateZLimits._fadeAnim = s._fadeAnim ∧
    s._updateZLimits.viewer = s.viewer := by
  unfold _updateZLimits
  simp only []
  split <;> simp [viewer]

theorem _selectFloor_fields (s : FloorSelector) (idx : Option ℤ) :
    (s._selectFloor idx)._floors = s._floors ∧
    (s._selectFloor idx)._currentFloor = idx ∧
    (s._selectFloor idx)._currentMode = s._currentMode ∧
    (s._selectFloor idx)._hovering = s._hovering ∧
    (s._selectFloor idx).enabled = s.enabled ∧
    (s._selectFloor idx)._floorSectionMin = (floorAt s._floors idx).map (fun f => JSNum.fin f.zMin) ∧
    (s._selectFloor idx)._floorSectionMax = (floorAt s._floors idx).map (fun f => JSNum.fin f.zMax) := by
  have hs : s._stopFloorAnim._floors = s._floors ∧ s._stopFloorAnim._currentMode = s._currentMode ∧
      s._stopFloorAnim._hovering = s._hovering ∧ s._stopFloorAnim.enabled = s.enabled := by
    unfold _stopFloorAnim
    split <;> simp [animStop, animSetNotRunning, emit, withViewer, viewer, Viewer.emit]
  obtain ⟨h1, h2, h3, h4⟩ := hs
  unfold _selectFloor _setFloorSection _applySelectedFloorSection
  simp only []
  have := fun (t : FloorSelector) a b => _applyFloorSection_fields t a b
  simp only [this, h1, h2, h3, h4, true_and]
  cases floorAt s._floors idx <;> simp [isNaN]

theorem _selectFloor_cutPlaneSet (s : FloorSelector) (idx : Option ℤ) (hen : s.enabled = true) :
    (s._selectFloor idx).viewer.cutPlaneSet =
      match floorAt s._floors idx with
      | some f => some (sectionPlanes (JSNum.fin f.zMin) (JSNum.fin f.zMax))
      | none => some (sectionPlanes MinZLimit MaxZLimit) := by
  have hs : s._stopFloorAnim._floors = s._floors ∧ s._stopFloorAnim.enabled = s.enabled := by
    unfold _stopFloorAnim
    split <;> simp [animStop, animSetNotRunning, emit, withViewer, viewer, Viewer.emit]
  unfold _selectFloor _setFloorSection _applySelectedFloorSection _applyFloorSection
  simp only [hs.1, hs.2, hen]
  cases floorAt s._floors idx <;>
    simp [isNaN, setCutPlaneSet, withViewer, viewer, Viewer.emit, Number.isFinite, sectionPlanes,
      MinZLimit, MaxZLimit, JSNum.neg]

/-- The planes `_applySelectedFloorSection` installs depend only on `enabled` and on the
floor section. -/
theorem _applySelectedFloorSection_eq (t : FloorSelector) :
    t._applySelectedFloorSection = t.setCutPlaneSet t._applySelectedFloorSection.viewer.cutPlaneSet := by
  unfold _applySelectedFloorSection _applyFloorSection
  cases he : t.enabled <;> simp [setCutPlaneSet, withViewer, viewer, Viewer.emit]

theorem _applySelectedFloorSection_planes_congr (t s : FloorSelector)
    (h1 : t.enabled = s.enabled) (h2 : t._floorSectionMin = s._floorSectionMin)
    (h3 : t._floorSectionMax = s._floorSectionMax) :
    t._applySelectedFloorSection.viewer.cutPlaneSet
      = s._applySelectedFloorSection.viewer.cutPlaneSet := by
  unfold _applySelectedFloorSection _applyFloorSection
  rw [h1, h2, h3]
  cases he : s.enabled <;> simp [setCutPlaneSet, withViewer, viewer, Viewer.emit]

/-- Entering `Transition` through `_setMode` keeps the floor list, the current floor and the
hovering flag, and ends in mode `Transition`. -/
theorem _setMode_Transition_fields (s : FloorSelector) :
    (s._setMode FloorRenderMode.Transition)._floors = s._floors ∧
    (s._setMode FloorRenderMode.Transition)._currentFloor = s._currentFloor ∧
    (s._setMode FloorRenderMode.Transition)._currentMode = FloorRenderMode.Transition ∧
    (s._setMode FloorRenderMode.Transition)._hovering = s._hovering := by
  unfold _setMode
  split
  · rename_i h
    exact ⟨rfl, rfl, h.symm, rfl⟩
  · simp only [_applySelectedFloorSection]
    have h1 := fun (t : FloorSelector) a b => _applyFloorSection_fields t a b
    have h2 := fun (t : FloorSelector) b => _setAOVisible_fields t b
    simp only [h1, h2]
    split <;> simp [emit, withViewer, viewer, Viewer.emit]

/-- After `_setMode(mode)` the render mode is `mode`, and the hovering flag is unchanged. -/
theorem _setMode_fields (s : FloorSelector) (mode : FloorRenderMode) :
    (s._setMode mode)._currentMode = mode ∧ (s._setMode mode)._hovering = s._hovering ∧
    (s._setMode mode)._floors = s._floors ∧ (s._setMode mode)._currentFloor = s._currentFloor := by
  unfold _setMode
  split
  · rename_i h
    exact ⟨h.symm, rfl, rfl, rfl⟩
  · have h1 := fun (t : FloorSelector) a b => _applyFloorSection_fields t a b
    have h2 := fun (t : FloorSelector) b => _setAOVisible_fields t b
    have h3 := fun (t : FloorSelector) => _updateZLimits_fields t
    have h4 := fun (t : FloorSelector) => _stopFadeAnim_fields t
    cases mode with
    | Hovering =>
      simp only []
      split
      · simp only [fadeValue, emit, withViewer, _clearFloorSection, _applySelectedFloorSection, h1, h2,
          h3, h4, and_self]
      · exact ⟨rfl, rfl, rfl, rfl⟩
    | Transition =>
      simp only [_applySelectedFloorSection, h1, h2]
      split <;> simp [emit, withViewer]
    | Off =>
      simp only [fadeValue, withViewer, h4]
      exact ⟨trivial, trivial, trivial, trivial⟩

/-- What `_moveToFloor` leaves behind: the target is the current floor, the mode is
`Transition`, the hovering flag is kept, and `_floorAnim` references a new running control
object whose `onFinished` is `onAnimEnd`. -/
theorem _moveToFloor_fields (s : FloorSelector) (idx : Option ℤ) :
    (s._moveToFloor idx)._floors = s._floors ∧
    (s._moveToFloor idx)._currentFloor = idx ∧
    (s._moveToFloor idx)._currentMode = FloorRenderMode.Transition ∧
    (s._moveToFloor idx)._hovering = s._hovering ∧
    ∃ anim a b c d, (s._moveToFloor idx)._floorAnim = some anim ∧
      (s._moveToFloor idx).viewer.anims.get? anim =
        some ⟨JSNum.fin 0, JSNum.fin 1, AnimCallbacks.moveToFloor a b c d, true⟩ := by
  obtain ⟨m1, m2, m3, m4⟩ := _setMode_Transition_fields { s with _currentFloor := idx }
  have hz := fun (t : FloorSelector) => _updateZLimits_fields t
  have hs := fun (t : FloorSelector) => _stopFloorAnim_fields t
  simp only [] at m1 m2 m4
  unfold _moveToFloor
  simp only [fadeValue, withViewer, viewer, Viewer.emit]
  refine ⟨?_, ?_, ?_, ?_, ?_⟩
  · simp only [hs, hz, m1]
  · simp only [hs, hz, m2]
  · simp only [hs, hz, m3]
  · simp only [hs, hz, m4]
  · exact ⟨_, _, _, _, _, rfl, get?_append_length _ _⟩

theorem updateCutPlanes_fields (s : FloorSelector) (a b c d u : JSNum) :
    (s.updateCutPlanes a b c d u)._currentMode = s._currentMode ∧
    (s.updateCutPlanes a b c d u)._hovering = s._hovering := by
  have h1 := fun (t : FloorSelector) a b => _applyFloorSection_fields t a b
  unfold updateCutPlanes _setFloorSection _applySelectedFloorSection
  simp only [withViewer, h1, and_self]

theorem enterHoverMode_fields (s : FloorSelector) :
    s.enterHoverMode._hovering = true ∧ s.enterHoverMode._floors = s._floors ∧
    s.enterHoverMode._currentFloor = s._currentFloor := by
  unfold enterHoverMode
  split
  · exact ⟨rfl, (_setMode_fields s _).2.2.1, (_setMode_fields s _).2.2.2⟩
  · exact ⟨rfl, rfl, rfl⟩

theorem animIsRunning_animSetNotRunning (s : FloorSelector) (anim : ℕ) :
    (s.animSetNotRunning anim).animIsRunning anim = false := by
  unfold animIsRunning animSetNotRunning
  simp only [withViewer, viewer, List.get?_eq_getElem?, List.getElem?_modify_eq]
  cases s._floorSelectorFilter._viewer.anims[anim]? <;> rfl

theorem animIsRunning_congr (t u : FloorSelector) (anim : ℕ)
    (h : t.viewer.anims = u.viewer.anims) : t.animIsRunning anim = u.animIsRunning anim := by
  unfold animIsRunning
  rw [h]

/-- What `_leaveHoverMode` does when the cross-fade extension is in use. -/
theorem _leaveHoverMode_with_extension (t : FloorSelector) (hext : t._getFadeExtension = true) :
    t._leaveHoverMode._aoVisible = true ∧
    t._leaveHoverMode.viewer.cutPlaneSet = t._applySelectedFloorSection.viewer.cutPlaneSet ∧
    ∃ rest, t._leaveHoverMode.viewer.log =
      t.viewer.log ++ [Effect.releaseFadingImage 0, Effect.releaseFadingImage 1,
        Effect.setModelTargetIndexForAll none,
        Effect.setCutPlaneSet t._applySelectedFloorSection.viewer.cutPlaneSet] ++ rest := by
  unfold _leaveHoverMode
  simp only [hext, Bool.not_true, Bool.false_eq_true, if_false]
  generalize ht2 : ((t.emit (Effect.releaseFadingImage 0)).emit (Effect.releaseFadingImage 1)).emit
    (Effect.setModelTargetIndexForAll none) = t2
  have hp : t2._applySelectedFloorSection.viewer.cutPlaneSet
      = t._applySelectedFloorSection.viewer.cutPlaneSet := by
    apply _applySelectedFloorSection_planes_congr <;> (rw [← ht2]; rfl)
  have hlog : t2.viewer.log = t.viewer.log ++ [Effect.releaseFadingImage 0,
      Effect.releaseFadingImage 1, Effect.setModelTargetIndexForAll none] := by
    rw [← ht2]
    simp [emit, withViewer, viewer, Viewer.emit]
  obtain ⟨a1, a2, rest, a3⟩ := _setAOVisible_viewer t2._applySelectedFloorSection true
  refine ⟨a1, a2.trans hp, rest, ?_⟩
  rw [a3, _applySelectedFloorSection_eq t2, hp]
  have hlog2 : t2._floorSelectorFilter._viewer.log = t._floorSelectorFilter._viewer.log ++
      [Effect.releaseFadingImage 0, Effect.releaseFadingImage 1,
        Effect.setModelTargetIndexForAll none] := hlog
  simp [setCutPlaneSet, withViewer, viewer, Viewer.emit, hlog2]

theorem _leaveHoverMode_anims (t : FloorSelector) :
    t._leaveHoverMode.viewer.anims = t.viewer.anims ∧
    t._leaveHoverMode._fadeAnim = t._fadeAnim := by
  unfold _leaveHoverMode
  split
  · exact ⟨rfl, rfl⟩
  · simp only [_applySelectedFloorSection, (_setAOVisible_fields _ _).2.2.2.2.2.2.2.2.2,
      (_setAOVisible_fields _ _).2.2.2.2.2.2.2.2.1,
      (_applyFloorSection_fields _ _ _).2.2.2.2.2.2.2.2.2,
      (_applyFloorSection_fields _ _ _).2.2.2.2.2.2.2.1]
    exact ⟨rfl, rfl⟩

theorem selectFloor_of_current (t : FloorSelector) (idx : Option ℤ) (ut : Bool)
    (h : t._currentFloor = idx) : t.selectFloor idx ut = (t, none) := by
  unfold selectFloor
  simp [floorSelectionValid, currentFloor, h]

theorem floorSelectionValid_of_ne (s : FloorSelector) (idx : Option ℤ)
    (hne : s._floors ≠ []) (hcur : idx ≠ s._currentFloor) :
    s.floorSelectionValid idx = true := by
  have hlen : s._floors.length ≠ 0 := fun h0 => hne (List.length_eq_zero.mp h0)
  have hcur2 : ¬ s._currentFloor = idx := fun h => hcur h.symm
  cases idx with
  | none => simp [floorSelectionValid, floorData, currentFloor, hlen, hcur2]
  | some n =>
    simp only [floorSelectionValid, floorData, currentFloor, ne_eq, hlen, not_false_eq_true,
      decide_True, hcur2, Bool.and_self, Bool.true_and, Bool.or_eq_true, decide_eq_true_eq]
    omega

/-- After `selectFloor` with an index that `floorSelectionValid` accepts, that index is the
current floor; the floor list is kept in every case. -/
theorem selectFloor_currentFloor (s : FloorSelector) (idx : Option ℤ) (ut : Bool)
    (hvalid : s.floorSelectionValid idx = true) :
    (s.selectFloor idx ut).1._currentFloor = idx := by
  have hs := (_selectFloor_fields s idx).2.1
  have hm := (_moveToFloor_fields s idx).2.1
  unfold selectFloor
  simp only [hvalid, Bool.not_true, Bool.false_eq_true, if_false]
  cases ut with
  | false =>
    obtain ⟨hr, ht⟩ := selectFloor_tail_frame (s._selectFloor idx)
      (SelectorEvent.SELECTED_FLOOR_CHANGED idx)
    simp only [Bool.false_eq_true, if_false]
    split
    · rename_i s2 err heq
      have e : (s._selectFloor idx)._runFloorSelectorFilter.1 = s2 := by rw [heq]
      rw [e] at hr
      exact hr.2.1.trans hs
    · rename_i s2 heq
      have e : (s._selectFloor idx)._runFloorSelectorFilter.1 = s2 := by rw [heq]
      simp only [e] at ht
      exact ht.2.1.trans hs
  | true =>
    obtain ⟨hr, ht⟩ := selectFloor_tail_frame (s._moveToFloor idx)
      (SelectorEvent.SELECTED_FLOOR_CHANGED idx)
    simp only [if_true]
    split
    · rename_i s2 err heq
      have e : (s._moveToFloor idx)._runFloorSelectorFilter.1 = s2 := by rw [heq]
      rw [e] at hr
      exact hr.2.1.trans hm
    · rename_i s2 heq
      have e : (s._moveToFloor idx)._runFloorSelectorFilter.1 = s2 := by rw [heq]
      simp only [e] at ht
      exact ht.2.1.trans hm

theorem selectFloor_true_fields (s : FloorSelector) (idx : Option ℤ)
    (hvalid : s.floorSelectionValid idx = true) :
    (s.selectFloor idx true).1._currentMode = FloorRenderMode.Transition ∧
    (s.selectFloor idx true).1._hovering = s._hovering ∧
    ∃ anim a b c d, (s.selectFloor idx true).1._floorAnim = some anim ∧
      (s.selectFloor idx true).1.viewer.anims.get? anim =
        some ⟨JSNum.fin 0, JSNum.fin 1, AnimCallbacks.moveToFloor a b c d, true⟩ := by
  obtain ⟨_, _, m3, m4, anim, a, b, c, d, m5, m6⟩ := _moveToFloor_fields s idx
  obtain ⟨hr, ht⟩ := selectFloor_tail_frame (s._moveToFloor idx)
    (SelectorEvent.SELECTED_FLOOR_CHANGED idx)
  unfold selectFloor
  simp only [hvalid, Bool.not_true, Bool.false_eq_true, if_false, if_true]
  split
  · rename_i s2 err heq
    have e : (s._moveToFloor idx)._runFloorSelectorFilter.1 = s2 := by rw [heq]
    rw [e] at hr
    obtain ⟨_, _, _, _, a5, a6, a7, _, _, a10⟩ := hr
    exact ⟨a5.trans m3, a6.trans m4, anim, a, b, c, d, a7.trans m5, by rw [a10]; exact m6⟩
  · rename_i s2 heq
    have e : (s._moveToFloor idx)._runFloorSelectorFilter.1 = s2 := by rw [heq]
    simp only [e] at ht
    obtain ⟨_, _, _, _, a5, a6, a7, _, _, a10⟩ := ht
    exact ⟨a5.trans m3, a6.trans m4, anim, a, b, c, d, a7.trans m5, by rw [a10]; exact m6⟩

/-- When the clip-plane animation of `_moveToFloor` reaches its end, the mode becomes
`Hovering` if the hovering flag is set at that moment and `Off` otherwise. -/
theorem animComplete_moveToFloor_mode (t : FloorSelector) (anim : ℕ) (a b c d : JSNum)
    (h : t.viewer.anims.get? anim =
      some ⟨JSNum.fin 0, JSNum.fin 1, AnimCallbacks.moveToFloor a b c d, true⟩) :
    (t.animComplete anim)._currentMode =
      if t._hovering then FloorRenderMode.Hovering else FloorRenderMode.Off := by
  unfold animComplete
  rw [h]
  simp only [if_true, animOnTimer, animOnFinished, onAnimEnd]
  rw [(_setMode_fields _ _).1]
  simp only [animSetNotRunning, withViewer, (updateCutPlanes_fields t a b c d (JSNum.fin 1)).2]

end FloorSelector

/-! ### Selecting a floor without transition -/

namespace FloorSelector

/-- C1 (amended): for an enabled selector, an index `i` with `floors[i] = f` that is not the
current floor, after `selectFloor(i, false)` the current floor is `i`, `_floorSectionMin` and
`_floorSectionMax` are `f.zMin` and `f.zMax`, and the cut planes installed in the viewer are
`(0, 0, -1, f.zMin)` and `(0, 0, 1, -f.zMax)`. -/
theorem selectFloor_applies_floor_range (s : FloorSelector) (i : ℤ) (f : Floor)
    (hen : s.enabled = true) (hf : floorAt s._floors (some i) = some f)
    (hcur : s._currentFloor ≠ some i) :
    (s.selectFloor (some i) false).1._currentFloor = some i ∧
    (s.selectFloor (some i) false).1._floorSectionMin = some (JSNum.fin f.zMin) ∧
    (s.selectFloor (some i) false).1._floorSectionMax = some (JSNum.fin f.zMax) ∧
    (s.selectFloor (some i) false).1.viewer.cutPlaneSet =
      some (⟨JSNum.fin 0, JSNum.fin 0, JSNum.fin (-1), JSNum.fin f.zMin⟩,
            ⟨JSNum.fin 0, JSNum.fin 0, JSNum.fin 1, JSNum.fin (-f.zMax)⟩) := by
  have hne : s._floors.length ≠ 0 := by
    intro h0
    have : s._floors = [] := List.length_eq_zero.mp h0
    simp [floorAt, this] at hf
  have hi : 0 ≤ i := by
    by_contra hneg
    simp [floorAt, not_le.mp hneg] at hf
  have hvalid : s.floorSelectionValid (some i) = true := by
    simp [floorSelectionValid, floorData, currentFloor, hne, hcur, hi]
  obtain ⟨h1, h2, h3, h4, h5, h6, h7⟩ := _selectFloor_fields s (some i)
  have hc := _selectFloor_cutPlaneSet s (some i) hen
  rw [hf] at h6 h7 hc
  obtain ⟨hr, ht⟩ := selectFloor_tail_frame (s._selectFloor (some i))
    (SelectorEvent.SELECTED_FLOOR_CHANGED (some i))
  unfold selectFloor
  simp only [hvalid, Bool.not_true, Bool.false_eq_true, if_false]
  split
  · rename_i s2 err heq
    have e : (s._selectFloor (some i))._runFloorSelectorFilter.1 = s2 := by rw [heq]
    rw [e] at hr
    obtain ⟨_, a2, a3, a4, _, _, _, _, a9, _⟩ := hr
    exact ⟨a2.trans h2, a3.trans h6, a4.trans h7, a9.trans hc⟩
  · rename_i s2 heq
    have e : (s._selectFloor (some i))._runFloorSelectorFilter.1 = s2 := by rw [heq]
    simp only [e] at ht
    obtain ⟨_, a2, a3, a4, _, _, _, _, a9, _⟩ := ht
    exact ⟨a2.trans h2, a3.trans h6, a4.trans h7, a9.trans hc⟩

/-- Witness of `selectFloor_applies_floor_range`: the example selector (no floor selected) and
index 1, the floor `[3, 6]`. -/
theorem selectFloor_applies_floor_range_witness :
    (exSelector.enabled = true ∧
     floorAt exSelector._floors (some 1) = some ⟨1, "guid-b", "Level 2", 3, 6, false⟩ ∧
     exSelector._currentFloor ≠ some 1) ∧
    (exSelector.selectFloor (some 1) false).1._currentFloor = some 1 ∧
    (exSelector.selectFloor (some 1) false).1._floorSectionMin = some (JSNum.fin 3) ∧
    (exSelector.selectFloor (some 1) false).1._floorSectionMax = some (JSNum.fin 6) ∧
    (exSelector.selectFloor (some 1) false).1.viewer.cutPlaneSet =
      some (⟨JSNum.fin 0, JSNum.fin 0, JSNum.fin (-1), JSNum.fin 3⟩,
            ⟨JSNum.fin 0, JSNum.fin 0, JSNum.fin 1, JSNum.fin (-6)⟩) :=
  ⟨⟨by decide!, by decide!, by decide!⟩,
   selectFloor_applies_floor_range exSelector 1 ⟨1, "guid-b", "Level 2", 3, 6, false⟩
     (by decide!) (by decide!) (by decide!)⟩

/-- C1 (counterexample): after `selectFloor(1, true)` on the example selector the current
floor is 1 while the clip range is still the full range; `selectFloor(1, false)` is then
rejected by `floorSelectionValid` and the applied range is not `[3, 6]`. -/
theorem selectFloor_current_index_keeps_range :
    exMoving1.enabled = true ∧ validFloors exMoving1._floors = true ∧
    floorAt exMoving1._floors (some 1) = some ⟨1, "guid-b", "Level 2", 3, 6, false⟩ ∧
    exMoving1._currentFloor = some 1 ∧
    (exMoving1.selectFloor (some 1) false).1._floorSectionMin = none ∧
    (exMoving1.selectFloor (some 1) false).1._floorSectionMax = none ∧
    (exMoving1.selectFloor (some 1) false).1.viewer.cutPlaneSet =
      some (⟨JSNum.fin 0, JSNum.fin 0, JSNum.fin (-1), JSNum.fin (-(10 ^ 20))⟩,
            ⟨JSNum.fin 0, JSNum.fin 0, JSNum.fin 1, JSNum.fin (-(10 ^ 20))⟩) ∧
    (exMoving1.selectFloor (some 1) false).1.viewer.cutPlaneSet ≠
      some (⟨JSNum.fin 0, JSNum.fin 0, JSNum.fin (-1), JSNum.fin 3⟩,
            ⟨JSNum.fin 0, JSNum.fin 0, JSNum.fin 1, JSNum.fin (-6)⟩) := by
  refine ⟨?_, ?_, ?_, ?_, ?_, ?_, ?_, ?_⟩ <;> decide!

/-- C2 (amended): for an enabled selector with a non-empty floor list whose current floor is
not `NoFloor`, after `selectFloor(NoFloor, false)` the current floor is `NoFloor`,
`_floorSectionMin` and `_floorSectionMax` are `undefined`, and the cut planes installed in the
viewer are those of the full range, `(0, 0, -1, -1e20)` and `(0, 0, 1, -1e20)`. -/
theorem selectFloor_NoFloor_applies_full_range (s : FloorSelector)
    (hen : s.enabled = true) (hne : s._floors ≠ []) (hcur : s._currentFloor ≠ NoFloor) :
    (s.selectFloor NoFloor false).1._currentFloor = NoFloor ∧
    (s.selectFloor NoFloor false).1._floorSectionMin = none ∧
    (s.selectFloor NoFloor false).1._floorSectionMax = none ∧
    (s.selectFloor NoFloor false).1.viewer.cutPlaneSet =
      some (⟨JSNum.fin 0, JSNum.fin 0, JSNum.fin (-1), MinZLimit⟩,
            ⟨JSNum.fin 0, JSNum.fin 0, JSNum.fin 1, JSNum.neg MaxZLimit⟩) ∧
    MinZLimit = JSNum.fin (-(10 ^ 20)) ∧ MaxZLimit = JSNum.fin (10 ^ 20) := by
  have hlen : s._floors.length ≠ 0 := fun h0 => hne (List.length_eq_zero.mp h0)
  have hvalid : s.floorSelectionValid NoFloor = true := by
    simp [floorSelectionValid, floorData, currentFloor, hlen, hcur, NoFloor]
    exact hcur
  obtain ⟨h1, h2, h3, h4, h5, h6, h7⟩ := _selectFloor_fields s NoFloor
  have hc := _selectFloor_cutPlaneSet s NoFloor hen
  have hfl : floorAt s._floors NoFloor = none := rfl
  rw [hfl] at h6 h7 hc
  obtain ⟨hr, ht⟩ := selectFloor_tail_frame (s._selectFloor NoFloor)
    (SelectorEvent.SELECTED_FLOOR_CHANGED NoFloor)
  refine ⟨?_, ?_, ?_, ?_, rfl, rfl⟩ <;>
  · unfold selectFloor
    simp only [hvalid, Bool.not_true, Bool.false_eq_true, if_false]
    split
    · rename_i s2 err heq
      have e : (s._selectFloor NoFloor)._runFloorSelectorFilter.1 = s2 := by rw [heq]
      rw [e] at hr
      obtain ⟨_, a2, a3, a4, _, _, _, _, a9, _⟩ := hr
      first
        | exact a2.trans h2
        | exact a3.trans h6
        | exact a4.trans h7
        | exact a9.trans hc
    · rename_i s2 heq
      have e : (s._selectFloor NoFloor)._runFloorSelectorFilter.1 = s2 := by rw [heq]
      simp only [e] at ht
      obtain ⟨_, a2, a3, a4, _, _, _, _, a9, _⟩ := ht
      first
        | exact a2.trans h2
        | exact a3.trans h6
        | exact a4.trans h7
        | exact a9.trans hc

/-- Witness of `selectFloor_NoFloor_applies_full_range`: the example selector with floor 0
selected. -/
theorem selectFloor_NoFloor_applies_full_range_witness :
    (exSelected0.enabled = true ∧ exSelected0._floors ≠ [] ∧ exSelected0._currentFloor ≠ NoFloor) ∧
    (exSelected0.selectFloor NoFloor false).1._currentFloor = NoFloor ∧
    (exSelected0.selectFloor NoFloor false).1._floorSectionMin = none ∧
    (exSelected0.selectFloor NoFloor false).1._floorSectionMax = none ∧
    (exSelected0.selectFloor NoFloor false).1.viewer.cutPlaneSet =
      some (⟨JSNum.fin 0, JSNum.fin 0, JSNum.fin (-1), MinZLimit⟩,
            ⟨JSNum.fin 0, JSNum.fin 0, JSNum.fin 1, JSNum.neg MaxZLimit⟩) ∧
    MinZLimit = JSNum.fin (-(10 ^ 20)) ∧ MaxZLimit = JSNum.fin (10 ^ 20) :=
  ⟨⟨by decide!, by decide!, by decide!⟩,
   selectFloor_NoFloor_applies_full_range exSelected0 (by decide!) (by decide!) (by decide!)⟩

/-- C2 (counterexample): after `selectFloor(0, false)` and `selectFloor(NoFloor, true)` on the
example selector the current floor is `NoFloor` while the clip range is still `[0, 3]`;
`selectFloor(NoFloor, false)` is then rejected by `floorSelectionValid` and the applied range
stays `[0, 3]`, not the full range.  When the animation has reached its end the clip range is
that of the loaded models, `[0, 6]`, and `selectFloor(NoFloor, false)` leaves it so too. -/
theorem selectFloor_NoFloor_current_keeps_range :
    exMovingNoFloor.enabled = true ∧ validFloors exMovingNoFloor._floors = true ∧
    exMovingNoFloor._floors ≠ [] ∧ exMovingNoFloor._currentFloor = NoFloor ∧
    (exMovingNoFloor.selectFloor NoFloor false).1._floorSectionMin = some (JSNum.fin 0) ∧
    (exMovingNoFloor.selectFloor NoFloor false).1._floorSectionMax = some (JSNum.fin 3) ∧
    (exMovingNoFloor.selectFloor NoFloor false).1.viewer.cutPlaneSet =
      some (⟨JSNum.fin 0, JSNum.fin 0, JSNum.fin (-1), JSNum.fin 0⟩,
            ⟨JSNum.fin 0, JSNum.fin 0, JSNum.fin 1, JSNum.fin (-3)⟩) ∧
    (exMovingNoFloor.selectFloor NoFloor false).1.viewer.cutPlaneSet ≠
      some (⟨JSNum.fin 0, JSNum.fin 0, JSNum.fin (-1), MinZLimit⟩,
            ⟨JSNum.fin 0, JSNum.fin 0, JSNum.fin 1, JSNum.neg MaxZLimit⟩) ∧
    exMovedNoFloor.enabled = true ∧ exMovedNoFloor._floors = exMovingNoFloor._floors ∧
    exMovedNoFloor._currentFloor = NoFloor ∧
    exMovedNoFloor._currentMode = FloorRenderMode.Off ∧
    (exMovedNoFloor.selectFloor NoFloor false).1._floorSectionMin = some (JSNum.fin 0) ∧
    (exMovedNoFloor.selectFloor NoFloor false).1._floorSectionMax = some (JSNum.fin 6) ∧
    (exMovedNoFloor.selectFloor NoFloor false).1.viewer.cutPlaneSet =
      some (⟨JSNum.fin 0, JSNum.fin 0, JSNum.fin (-1), JSNum.fin 0⟩,
            ⟨JSNum.fin 0, JSNum.fin 0, JSNum.fin 1, JSNum.fin (-6)⟩) := by
  refine ⟨?_, ?_, ?_, ?_, ?_, ?_, ?_, ?_, ?_, ?_, ?_, ?_, ?_, ?_, ?_⟩ <;> decide!

end FloorSelector

/-! ### Selecting the current floor again -/

namespace FloorSelector

/-- C3: `selectFloor` with the index that is already the current floor returns the state
unchanged (selector fields, filter state, control objects and log of calls, so no animation
starts and no event is fired), for either value of `useTransition`; hence a second
`selectFloor` call with the same index changes nothing. -/
theorem selectFloor_idempotent (s : FloorSelector) (idx : Option ℤ) (ut ut2 : Bool) :
    s.selectFloor s._currentFloor ut = (s, none) ∧
    (s.selectFloor idx ut).1.selectFloor idx ut2 = ((s.selectFloor idx ut).1, none) := by
  refine ⟨selectFloor_of_current s _ ut rfl, ?_⟩
  by_cases hvalid : s.floorSelectionValid idx = true
  · exact selectFloor_of_current _ idx ut2 (selectFloor_currentFloor s idx ut hvalid)
  · have h1 : s.selectFloor idx ut = (s, none) := by
      unfold selectFloor
      simp [hvalid]
    have h2 : s.selectFloor idx ut2 = (s, none) := by
      unfold selectFloor
      simp [hvalid]
    rw [h1]
    exact h2

end FloorSelector

/-! ### Persisted selection -/

/-- C4 (the code at the failing input): with the example floors (guids `guid-a`, `guid-b`,
index fields 0 and 1) and floor 0 selected, `getState` writes `floorGuid = null` because the
index 0 is falsy, and `restoreState` with that state selects `NoFloor`, both at once and
after floor 1 was selected in between; with floor 1 selected the guid `guid-b` is written and
`restoreState` brings floor 1 back. -/
theorem getState_restoreState_floor_zero :
    exSelected0._currentFloor = some 0 ∧
    (LevelsExtension.getState ⟨exSelected0⟩ ⟨JSValue.undefined⟩).1.floorGuid = JSValue.null ∧
    (LevelsExtension.restoreState ⟨exSelected0⟩
      (LevelsExtension.getState ⟨exSelected0⟩ ⟨JSValue.undefined⟩).1).1.floorSelector._currentFloor
      = NoFloor ∧
    (LevelsExtension.restoreState ⟨(exSelected0.selectFloor (some 1) false).1⟩
      (LevelsExtension.getState ⟨exSelected0⟩ ⟨JSValue.undefined⟩).1).1.floorSelector._currentFloor
      = NoFloor ∧
    (LevelsExtension.getState ⟨exSelected1⟩ ⟨JSValue.undefined⟩).1.floorGuid
      = JSValue.string "guid-b" ∧
    (LevelsExtension.restoreState ⟨(exSelected1.selectFloor (some 0) false).1⟩
      (LevelsExtension.getState ⟨exSelected1⟩ ⟨JSValue.undefined⟩).1).1.floorSelector._currentFloor
      = some 1 := by
  refine ⟨?_, ?_, ?_, ?_, ?_, ?_⟩ <;> decide!

namespace LevelsExtension

theorem mem_of_floorAt {floors : List Floor} {idx : Option ℤ} {f : Floor}
    (h : floorAt floors idx = some f) : f ∈ floors := by
  unfold floorAt at h
  cases idx with
  | none => cases h
  | some i =>
    simp only [] at h
    split at h
    · cases h
    · exact List.get?_mem h

/-- Where the round trip of the persisted selection does hold: with a 3D model as the
model of the viewer, a selected floor with a non-zero valid index whose guid is non-empty and
unique in the list and whose index field is its position is written by `getState` as its
guid, and `restoreState` on any later state of the extension with the same floor list selects
it again; and `NoFloor` is written as null and restored as `NoFloor`. -/
theorem getState_restoreState_roundtrip (ext ext2 : LevelsExtension) (vs : ViewerState)
    (h3d : ext.floorSelector.viewer.modelIs2d = some false)
    (hfloors : ext2.floorSelector._floors = ext.floorSelector._floors) :
    (∀ (i : ℤ) (f : Floor), ext.floorSelector._currentFloor = some i → i ≠ 0 →
      floorAt ext.floorSelector._floors (some i) = some f → f.guid ≠ "" → f.index = i →
      (∀ g ∈ ext.floorSelector._floors, g.guid = f.guid → g = f) →
      (ext.getState vs).1.floorGuid = JSValue.string f.guid ∧
      (ext2.restoreState (ext.getState vs).1).1.floorSelector._currentFloor = some i) ∧
    (ext.floorSelector._currentFloor = NoFloor → ext.floorSelector._floors ≠ [] →
      (ext.getState vs).1.floorGuid = JSValue.null ∧
      (ext2.restoreState (ext.getState vs).1).1.floorSelector._currentFloor = NoFloor) := by
  refine ⟨?_, ?_⟩
  · intro i f hcur hi hf hguid hindex hdistinct
    have hget : (ext.getState vs).1 = { vs with floorGuid := JSValue.string f.guid } := by
      unfold getState
      simp only [h3d, FloorSelector.currentFloor, hcur, hi, if_false, FloorSelector.floorData, hf]
    have hmem : f ∈ ext2.floorSelector._floors := by rw [hfloors]; exact mem_of_floorAt hf
    have hne : ext2.floorSelector._floors ≠ [] := List.ne_nil_of_mem hmem
    refine ⟨by rw [hget], ?_⟩
    rw [hget]
    unfold restoreState
    have htruthy : (JSValue.string f.guid).truthy = true := by simp [JSValue.truthy, hguid]
    simp only [htruthy, if_true, FloorSelector.floorData]
    have hund : ¬ (JSValue.string f.guid = JSValue.undefined) := by simp
    simp only [hund, if_false]
    cases hfind : ext2.floorSelector._floors.find?
        (fun data => decide (JSValue.string data.guid = JSValue.string f.guid)) with
    | none =>
      have := List.find?_eq_none.mp hfind f hmem
      simp at this
    | some g =>
      have hg1 : g ∈ ext2.floorSelector._floors := List.mem_of_find?_eq_some hfind
      have hg2 : g.guid = f.guid := by
        have := List.find?_some hfind
        simpa using this
      have hgf : g = f := hdistinct g (by rw [← hfloors]; exact hg1) hg2
      subst hgf
      simp only [hindex]
      by_cases hc2 : ext2.floorSelector._currentFloor = some i
      · rw [FloorSelector.selectFloor_of_current _ _ _ hc2]
        exact hc2
      · exact FloorSelector.selectFloor_currentFloor _ _ _
          (FloorSelector.floorSelectionValid_of_ne _ _ hne (fun h => hc2 h.symm))
  · intro hcur hne
    have hget : (ext.getState vs).1 = { vs with floorGuid := JSValue.null } := by
      unfold getState
      simp only [h3d, FloorSelector.currentFloor, hcur, NoFloor]
    have hne2 : ext2.floorSelector._floors ≠ [] := by rw [hfloors]; exact hne
    refine ⟨by rw [hget], ?_⟩
    rw [hget]
    unfold restoreState
    have hund : ¬ (JSValue.null = JSValue.undefined) := by simp
    simp only [hund, if_false, JSValue.truthy, Bool.false_eq_true]
    by_cases hc2 : ext2.floorSelector._currentFloor = NoFloor
    · rw [FloorSelector.selectFloor_of_current _ _ _ hc2]
      exact hc2
    · exact FloorSelector.selectFloor_currentFloor _ _ _
        (FloorSelector.floorSelectionValid_of_ne _ _ hne2 (fun h => hc2 h.symm))

end LevelsExtension

/-! ### Visibility of an object -/

/-- C5: for a model with an instance tree, when `floors[currentFloor]` is a floor `f`,
`isVisible(model, id)` is true iff not (`boxMinZ > f.zMax` or `boxMaxZ < f.zMin`) and the id
is not in the set the reverse index `_dbIdsToUnhide` holds for the model; a finite box that
touches `f.zMin` from below or `f.zMax` from above is not outside; and when no floor is
selected the result is true for every id. -/
theorem isVisible_iff (s : FloorSelector) (model dbId : ℕ) (tree : ℕ → ZBox)
    (htree : (s.viewer.modelObjects model).instanceTree = some tree) :
    (∀ f : Floor, floorAt s._floors s._currentFloor = some f →
      (s.isVisible model dbId = true ↔
        ¬ (JSNum.gt (tree dbId).minZ (JSNum.fin f.zMax) = true ∨
           JSNum.lt (tree dbId).maxZ (JSNum.fin f.zMin) = true) ∧
        ∀ ids, mapGet s._floorSelectorFilter._dbIdsToUnhide model = some ids → dbId ∉ ids)) ∧
    (∀ f : Floor, ∀ a b : ℚ, floorAt s._floors s._currentFloor = some f →
      f.zMin ≤ f.zMax → a ≤ b → tree dbId = ⟨JSNum.fin a, JSNum.fin b⟩ →
      (b = f.zMin ∨ a = f.zMax) →
      ¬ (JSNum.gt (tree dbId).minZ (JSNum.fin f.zMax) = true ∨
         JSNum.lt (tree dbId).maxZ (JSNum.fin f.zMin) = true)) ∧
    (s._currentFloor = NoFloor → s.isVisible model dbId = true) := by
  refine ⟨?_, ?_, ?_⟩
  · intro f hf
    unfold FloorSelector.isVisible FloorSelectorFilter.isVisible
    rw [hf, htree]
    cases hm : mapGet s._floorSelectorFilter._dbIdsToUnhide model with
    | none => simp
    | some ids => simp
  · intro f a b _ hzz hab hbox htouch
    rw [hbox]
    simp only [JSNum.gt, JSNum.lt, decide_eq_true_eq, not_or, not_lt]
    rcases htouch with h | h
    · subst h; exact ⟨le_trans hab hzz, le_refl _⟩
    · subst h; exact ⟨le_refl _, le_trans hzz hab⟩
  · intro hno
    unfold FloorSelector.isVisible
    rw [hno]
    rfl

/-- Witness of `isVisible_iff`: floor 0 of the example selected, node 2 of the example
model, whose box `[-3, 0]` touches `zMin = 0`. -/
theorem isVisible_iff_witness :
    (exSelected0.viewer.modelObjects 0).instanceTree = some exTree ∧
    ((∀ f : Floor, floorAt exSelected0._floors exSelected0._currentFloor = some f →
      (exSelected0.isVisible 0 2 = true ↔
        ¬ (JSNum.gt (exTree 2).minZ (JSNum.fin f.zMax) = true ∨
           JSNum.lt (exTree 2).maxZ (JSNum.fin f.zMin) = true) ∧
        ∀ ids, mapGet exSelected0._floorSelectorFilter._dbIdsToUnhide 0 = some ids → 2 ∉ ids)) ∧
    (∀ f : Floor, ∀ a b : ℚ, floorAt exSelected0._floors exSelected0._currentFloor = some f →
      f.zMin ≤ f.zMax → a ≤ b → exTree 2 = ⟨JSNum.fin a, JSNum.fin b⟩ →
      (b = f.zMin ∨ a = f.zMax) →
      ¬ (JSNum.gt (exTree 2).minZ (JSNum.fin f.zMax) = true ∨
         JSNum.lt (exTree 2).maxZ (JSNum.fin f.zMin) = true)) ∧
    (exSelected0._currentFloor = NoFloor → exSelected0.isVisible 0 2 = true)) :=
  ⟨rfl, isVisible_iff exSelected0 0 2 exTree rfl⟩

/-! ### The level height factor and the band of the filter -/

/-- A height factor that is supplied and is neither NaN nor a number in `[0, 1)` makes
`filter` throw, and the filter state at the throw is the state before the call. -/
theorem filter_throws_on_bad_height_factor (this : FloorSelectorFilter)
    (modelsDbIds : Option (List (ℕ × Option (List ℕ)))) (v : JSValue) (floor : Option Floor)
    (hdef : v ≠ JSValue.undefined) (hnan : v ≠ JSValue.number JSNum.nan)
    (hrange : ∀ h : ℚ, v = JSValue.number (JSNum.fin h) → ¬ (0 ≤ h ∧ h < 1)) :
    ∃ msg, this.filter (some ⟨modelsDbIds, v⟩) floor = (this, some msg) := by
  unfold FloorSelectorFilter.filter
  cases modelsDbIds with
  | none => exact ⟨_, rfl⟩
  | some m =>
    cases floor with
    | none => exact ⟨_, rfl⟩
    | some f =>
      cases v with
      | undefined => exact absurd rfl hdef
      | null => exact ⟨_, rfl⟩
      | boolean b => exact ⟨_, rfl⟩
      | string s => exact ⟨_, rfl⟩
      | number n =>
        cases n with
        | nan => exact absurd rfl hnan
        | posInf => exact ⟨_, rfl⟩
        | negInf => exact ⟨_, rfl⟩
        | fin h =>
          have hr := hrange h rfl
          have : (decide (h < 0) || decide (1 ≤ h)) = true := by
            by_cases h0 : h < 0
            · simp [h0]
            · have : 1 ≤ h := by
                by_contra h1
                exact hr ⟨not_lt.mp h0, not_le.mp h1⟩
              simp [this]
          simp only [FloorSelectorFilter._getLevelHeightFactor, JSNum.lt, JSNum.ge, JSNum.le, this,
            if_true]
          exact ⟨_, rfl⟩

/-- C6 (the code at the failing input): a height factor NaN is a number and neither
`NaN < 0` nor `NaN >= 1` holds, so `_getLevelHeightFactor` returns it; `filter` then does not
throw, queries the box of the candidate, hides nothing and records an empty set in the
cache for the floor and the model. -/
theorem filter_nan_height_factor_not_rejected :
    FloorSelectorFilter._getLevelHeightFactor (JSValue.number JSNum.nan) = .ok JSNum.nan ∧
    (exFilter.filter (some exFilterDataNaN) (exFloors.get? 0)).2 = none ∧
    (exFilter.filter (some exFilterDataNaN) (exFloors.get? 0)).1._cache
      = [("Level 1", [(7, [])])] ∧
    (exFilter.filter (some exFilterDataNaN) (exFloors.get? 0)).1._viewer.log
      = [Effect.getNodeBox 0 1] ∧
    (exFilter.filter (some exFilterData) (exFloors.get? 0)).1._viewer.log
      = [Effect.getNodeBox 0 1, Effect.setNodeOff 0 1 true] := by
  refine ⟨rfl, ?_, ?_, ?_, ?_⟩ <;> decide!

/-- C7: for a floor with `zMin < zMax` and a height factor `h` with `0 ≤ h < 1`, the band
computed by `filter` is finite, `newMinZ = zMin + (zMax - zMin) * h`,
`newMaxZ = zMax + (zMax - zMin) * 0.1`, and `zMin ≤ newMinZ < zMax < newMaxZ`, so
`newMinZ ≤ newMaxZ` (exact arithmetic); such an `h` passes `_getLevelHeightFactor`. -/
theorem filter_band_ordered (floor : Floor) (h : ℚ)
    (hz : floor.zMin < floor.zMax) (h0 : 0 ≤ h) (h1 : h < 1) :
    FloorSelectorFilter._getLevelHeightFactor (JSValue.number (JSNum.fin h)) = .ok (JSNum.fin h) ∧
    ∃ lo hi : ℚ,
      FloorSelectorFilter.newMinZ floor (JSNum.fin h) = JSNum.fin lo ∧
      FloorSelectorFilter.newMaxZ floor = JSNum.fin hi ∧
      lo = floor.zMin + (floor.zMax - floor.zMin) * h ∧
      hi = floor.zMax + (floor.zMax - floor.zMin) * (1 / 10) ∧
      floor.zMin ≤ lo ∧ lo < floor.zMax ∧ floor.zMax < hi ∧ lo ≤ hi ∧
      JSNum.le (FloorSelectorFilter.newMinZ floor (JSNum.fin h))
        (FloorSelectorFilter.newMaxZ floor) = true := by
  have hd : 0 < floor.zMax - floor.zMin := sub_pos.mpr hz
  have e1 : FloorSelectorFilter.newMinZ floor (JSNum.fin h)
      = JSNum.fin (floor.zMin + (floor.zMax - floor.zMin) * h) := by
    simp [FloorSelectorFilter.newMinZ, JSNum.add, JSNum.mul, JSNum.sub, JSNum.neg, sub_eq_add_neg]
  have e2 : FloorSelectorFilter.newMaxZ floor
      = JSNum.fin (floor.zMax + (floor.zMax - floor.zMin) * (1 / 10)) := by
    simp [FloorSelectorFilter.newMaxZ, JSNum.add, JSNum.mul, JSNum.sub, JSNum.neg, sub_eq_add_neg]
  have b1 : floor.zMin ≤ floor.zMin + (floor.zMax - floor.zMin) * h := by nlinarith
  have b2 : floor.zMin + (floor.zMax - floor.zMin) * h < floor.zMax := by nlinarith
  have b3 : floor.zMax < floor.zMax + (floor.zMax - floor.zMin) * (1 / 10) := by nlinarith
  refine ⟨?_, _, _, e1, e2, rfl, rfl, b1, b2, b3, le_of_lt (lt_trans b2 b3), ?_⟩
  · have h0' : ¬ h < 0 := not_lt.mpr h0
    have h1' : ¬ (1 : ℚ) ≤ h := not_le.mpr h1
    simp [FloorSelectorFilter._getLevelHeightFactor, JSNum.lt, JSNum.ge, JSNum.le, h0', h1']
  · rw [e1, e2]
    simp only [JSNum.le, decide_eq_true_eq]
    exact le_of_lt (lt_trans b2 b3)

/-- Witness of `filter_band_ordered`: the first example floor `[0, 3]` with `h = 1/2`. -/
theorem filter_band_ordered_witness :
    ((0 : ℚ) < 3 ∧ (0 : ℚ) ≤ 1 / 2 ∧ (1 / 2 : ℚ) < 1) ∧
    FloorSelectorFilter._getLevelHeightFactor (JSValue.number (JSNum.fin (1 / 2)))
      = .ok (JSNum.fin (1 / 2)) ∧
    ∃ lo hi : ℚ,
      FloorSelectorFilter.newMinZ ⟨0, "guid-a", "Level 1", 0, 3, false⟩ (JSNum.fin (1 / 2))
        = JSNum.fin lo ∧
      FloorSelectorFilter.newMaxZ ⟨0, "guid-a", "Level 1", 0, 3, false⟩ = JSNum.fin hi ∧
      lo = 0 + (3 - 0) * (1 / 2) ∧
      hi = 3 + (3 - 0) * (1 / 10) ∧
      0 ≤ lo ∧ lo < 3 ∧ 3 < hi ∧ lo ≤ hi ∧
      JSNum.le (FloorSelectorFilter.newMinZ ⟨0, "guid-a", "Level 1", 0, 3, false⟩ (JSNum.fin (1 / 2)))
        (FloorSelectorFilter.newMaxZ ⟨0, "guid-a", "Level 1", 0, 3, false⟩) = true :=
  ⟨by norm_num,
   filter_band_ordered ⟨0, "guid-a", "Level 1", 0, 3, false⟩ (1 / 2)
     (by norm_num) (by norm_num) (by norm_num)⟩

/-! ### Transition and hovering -/

namespace FloorSelector

/-- C8: for a non-empty floor list and an index different from the current floor,
`selectFloor(index, true)` leaves the selector in mode `Transition` with the hovering flag
unchanged and a running clip-plane animation referenced by `_floorAnim`; whenever that
animation reaches its end, the mode becomes `Hovering` if the hovering flag is set at that
moment and `Off` otherwise.  In particular, when floor 0 is not the current floor,
`enterHoverMode()` followed by `selectFloor(0, true)` is in `Transition` with the flag set
and ends in `Hovering` when the animation completes. -/
theorem selectFloor_transition_then_hover_or_off (s : FloorSelector) (idx : Option ℤ)
    (hne : s._floors ≠ []) (hcur : idx ≠ s._currentFloor) :
    (s.selectFloor idx true).1._currentMode = FloorRenderMode.Transition ∧
    (s.selectFloor idx true).1._hovering = s._hovering ∧
    (∃ anim a b c d, (s.selectFloor idx true).1._floorAnim = some anim ∧
      (s.selectFloor idx true).1.viewer.anims.get? anim =
        some ⟨JSNum.fin 0, JSNum.fin 1, AnimCallbacks.moveToFloor a b c d, true⟩ ∧
      ∀ t : FloorSelector,
        t.viewer.anims.get? anim =
          some ⟨JSNum.fin 0, JSNum.fin 1, AnimCallbacks.moveToFloor a b c d, true⟩ →
        (t.animComplete anim)._currentMode =
          if t._hovering then FloorRenderMode.Hovering else FloorRenderMode.Off) ∧
    (s._currentFloor ≠ some 0 →
      (s.enterHoverMode.selectFloor (some 0) true).1._currentMode = FloorRenderMode.Transition ∧
      (s.enterHoverMode.selectFloor (some 0) true).1._hovering = true ∧
      ∃ anim, (s.enterHoverMode.selectFloor (some 0) true).1._floorAnim = some anim ∧
        ((s.enterHoverMode.selectFloor (some 0) true).1.animComplete anim)._currentMode =
          FloorRenderMode.Hovering) := by
  obtain ⟨h1, h2, anim, a, b, c, d, h3, h4⟩ :=
    selectFloor_true_fields s idx (floorSelectionValid_of_ne s idx hne hcur)
  refine ⟨h1, h2, ⟨anim, a, b, c, d, h3, h4, fun t ht =>
    animComplete_moveToFloor_mode t anim a b c d ht⟩, ?_⟩
  intro h0
  obtain ⟨e1, e2, e3⟩ := enterHoverMode_fields s
  have hne2 : s.enterHoverMode._floors ≠ [] := by rw [e2]; exact hne
  have hcur2 : (some 0 : Option ℤ) ≠ s.enterHoverMode._currentFloor := by
    rw [e3]; exact fun h => h0 h.symm
  obtain ⟨k1, k2, anim2, a2, b2, c2, d2, k3, k4⟩ :=
    selectFloor_true_fields s.enterHoverMode (some 0)
      (floorSelectionValid_of_ne _ _ hne2 hcur2)
  refine ⟨k1, k2.trans e1, anim2, k3, ?_⟩
  rw [animComplete_moveToFloor_mode _ anim2 a2 b2 c2 d2 k4, k2, e1]
  rfl

/-- Witness of `selectFloor_transition_then_hover_or_off`: the example selector (no floor
selected) and index 0. -/
theorem selectFloor_transition_then_hover_or_off_witness :
    (exSelector._floors ≠ [] ∧ (some 0 : Option ℤ) ≠ exSelector._currentFloor) ∧
    (exSelector.selectFloor (some 0) true).1._currentMode = FloorRenderMode.Transition ∧
    (exSelector.selectFloor (some 0) true).1._hovering = exSelector._hovering ∧
    (∃ anim a b c d, (exSelector.selectFloor (some 0) true).1._floorAnim = some anim ∧
      (exSelector.selectFloor (some 0) true).1.viewer.anims.get? anim =
        some ⟨JSNum.fin 0, JSNum.fin 1, AnimCallbacks.moveToFloor a b c d, true⟩ ∧
      ∀ t : FloorSelector,
        t.viewer.anims.get? anim =
          some ⟨JSNum.fin 0, JSNum.fin 1, AnimCallbacks.moveToFloor a b c d, true⟩ →
        (t.animComplete anim)._currentMode =
          if t._hovering then FloorRenderMode.Hovering else FloorRenderMode.Off) ∧
    (exSelector._currentFloor ≠ some 0 →
      (exSelector.enterHoverMode.selectFloor (some 0) true).1._currentMode
        = FloorRenderMode.Transition ∧
      (exSelector.enterHoverMode.selectFloor (some 0) true).1._hovering = true ∧
      ∃ anim, (exSelector.enterHoverMode.selectFloor (some 0) true).1._floorAnim = some anim ∧
        ((exSelector.enterHoverMode.selectFloor (some 0) true).1.animComplete anim)._currentMode =
          FloorRenderMode.Hovering) :=
  ⟨⟨by decide!, by decide!⟩,
   selectFloor_transition_then_hover_or_off exSelector (some 0) (by decide!) (by decide!)⟩

end FloorSelector

/-! ### Camera change -/

namespace FloorSelector

/-- C9 (amended): when the hovering flag is false and `_fadeAnim` references a running
animation, the camera-change handler stops that animation (it is no longer running and
`_fadeAnim` is null) and runs `_leaveHoverMode` in the same call: when the cross-fade
extension is in use both snapshot targets are released, the default render target is
restored, the selected clip range is reapplied and AO is visible afterwards; without the
extension nothing but the stop happens.  When the hovering flag is true, as it is in mode
`Hovering` after `enterHoverMode()`, the handler changes nothing. -/
theorem _interruptFading_when_not_hovering (s : FloorSelector) (anim : ℕ)
    (hh : s._hovering = false) (hf : s._fadeAnim = some anim)
    (hr : s.animIsRunning anim = true) :
    s._interruptFading = s._stopFadeAnim._leaveHoverMode ∧
    s._interruptFading._fadeAnim = none ∧
    s._interruptFading.animIsRunning anim = false ∧
    (s._getFadeExtension = true →
      s._interruptFading._aoVisible = true ∧
      s._interruptFading.viewer.cutPlaneSet = s._applySelectedFloorSection.viewer.cutPlaneSet ∧
      ∃ rest, s._interruptFading.viewer.log =
        s.viewer.log ++ [Effect.animStop anim, Effect.releaseFadingImage 0,
          Effect.releaseFadingImage 1, Effect.setModelTargetIndexForAll none,
          Effect.setCutPlaneSet s._applySelectedFloorSection.viewer.cutPlaneSet] ++ rest) ∧
    (s._getFadeExtension = false →
      s._interruptFading.viewer.log = s.viewer.log ++ [Effect.animStop anim]) ∧
    (∀ t : FloorSelector, t._hovering = true → t._interruptFading = t) := by
  have h0 : s._interruptFading = s._stopFadeAnim._leaveHoverMode := by
    unfold _interruptFading
    simp [hf, hh, hr]
  have hstop : s._stopFadeAnim = { (s.animStop anim) with _fadeAnim := none } := by
    unfold _stopFadeAnim
    rw [hf]
  have hlog : s._stopFadeAnim.viewer.log = s.viewer.log ++ [Effect.animStop anim] := by
    rw [hstop]; rfl
  have hext0 : s._stopFadeAnim._getFadeExtension = s._getFadeExtension := by
    rw [hstop]; rfl
  have hplanes : s._stopFadeAnim._applySelectedFloorSection.viewer.cutPlaneSet
      = s._applySelectedFloorSection.viewer.cutPlaneSet := by
    apply _applySelectedFloorSection_planes_congr <;> (rw [hstop]; rfl)
  refine ⟨h0, ?_, ?_, ?_, ?_, ?_⟩
  · rw [h0, (_leaveHoverMode_anims _).2, hstop]
  · rw [h0, animIsRunning_congr _ _ anim (_leaveHoverMode_anims _).1, hstop]
    exact animIsRunning_animSetNotRunning s anim
  · intro hext
    obtain ⟨a1, a2, rest, a3⟩ := _leaveHoverMode_with_extension s._stopFadeAnim
      (hext0.trans hext)
    rw [h0]
    refine ⟨a1, a2.trans hplanes, rest, ?_⟩
    rw [a3, hlog, hplanes]
    simp
  · intro hext
    have hext2 : s._stopFadeAnim._getFadeExtension = false := hext0.trans hext
    rw [h0]
    unfold _leaveHoverMode
    simp only [hext2, Bool.not_false, if_true]
    exact hlog
  · intro t ht
    unfold _interruptFading
    split
    · simp [ht]
    · rfl

/-- Witness of `_interruptFading_when_not_hovering`: the example selector after
`enterHoverMode()` and `exitHoverMode()`, whose fade-out (control object 1) is running. -/
theorem _interruptFading_when_not_hovering_witness :
    (exFadingOut._hovering = false ∧ exFadingOut._fadeAnim = some 1 ∧
      exFadingOut.animIsRunning 1 = true) ∧
    exFadingOut._interruptFading = exFadingOut._stopFadeAnim._leaveHoverMode ∧
    exFadingOut._interruptFading._fadeAnim = none ∧
    exFadingOut._interruptFading.animIsRunning 1 = false ∧
    (exFadingOut._getFadeExtension = true →
      exFadingOut._interruptFading._aoVisible = true ∧
      exFadingOut._interruptFading.viewer.cutPlaneSet
        = exFadingOut._applySelectedFloorSection.viewer.cutPlaneSet ∧
      ∃ rest, exFadingOut._interruptFading.viewer.log =
        exFadingOut.viewer.log ++ [Effect.animStop 1, Effect.releaseFadingImage 0,
          Effect.releaseFadingImage 1, Effect.setModelTargetIndexForAll none,
          Effect.setCutPlaneSet exFadingOut._applySelectedFloorSection.viewer.cutPlaneSet]
          ++ rest) ∧
    (exFadingOut._getFadeExtension = false →
      exFadingOut._interruptFading.viewer.log = exFadingOut.viewer.log ++ [Effect.animStop 1]) ∧
    (∀ t : FloorSelector, t._hovering = true → t._interruptFading = t) :=
  ⟨⟨by decide!, by decide!, by decide!⟩,
   _interruptFading_when_not_hovering exFadingOut 1 (by decide!) (by decide!) (by decide!)⟩

/-- C9 (counterexample): after `enterHoverMode()` on the example selector the mode is
`Hovering`, the hovering flag is set and the fade-in (control object 0) is running; the
camera-change handler then returns the state unchanged: the animation keeps running and no
cleanup call is made. -/
theorem _interruptFading_while_hovering_does_nothing :
    exHovering._currentMode = FloorRenderMode.Hovering ∧
    exHovering._hovering = true ∧
    exHovering._fadeAnim = some 0 ∧
    exHovering.animIsRunning 0 = true ∧
    exHovering._interruptFading = exHovering ∧
    exHovering._interruptFading._fadeAnim = some 0 ∧
    exHovering._interruptFading.animIsRunning 0 = true ∧
    exHovering._interruptFading._aoVisible = false ∧
    exHovering._interruptFading.viewer.log = exHovering.viewer.log ∧
    Effect.releaseFadingImage 0 ∉ exHovering._interruptFading.viewer.log := by
  refine ⟨?_, ?_, ?_, ?_, rfl, ?_, ?_, ?_, ?_, ?_⟩ <;> decide!

end FloorSelector

/-! ### The cache of the filter -/

namespace FloorSelectorFilter

/-- One pass of the loop body of `filter`: it only appends to the log; it keeps every cache
entry that exists; its calls concern the model at hand only; and on a cache hit it makes no
box query and hides exactly the cached ids. -/
theorem filterModel_step (floor : Floor) (lo hi : JSNum)
    (mm : List (ℕ × Option (List ℕ))) (model : ℕ) (this : FloorSelectorFilter) :
    ∃ new0, (filterModel floor lo hi mm model this).1._viewer.log = this._viewer.log ++ new0 ∧
      (∀ n id S, this.cacheGet n id = some S →
        (filterModel floor lo hi mm model this).1.cacheGet n id = some S) ∧
      (∀ e ∈ new0, (∃ msg, e = Effect.warn msg) ∨ (∃ d, e = Effect.getNodeBox model d) ∨
        (∃ d, e = Effect.setNodeOff model d true)) ∧
      (∀ S, this.cacheGet floor.name (this._viewer.modelObjects model).id = some S →
        (∀ d, Effect.getNodeBox model d ∉ new0) ∧
        (∀ d, Effect.setNodeOff model d true ∈ new0 → d ∈ S) ∧
        ((this._viewer.modelObjects model).visibilityManager = true →
          ∀ d ∈ S, Effect.setNodeOff model d true ∈ new0)) ∧
      ((this._viewer.modelObjects model).visibilityManager = true →
        (filterModel floor lo hi mm model this).2 = false) := by
  unfold filterModel
  simp only []
  by_cases hvm : (this._viewer.modelObjects model).visibilityManager = true
  · simp only [hvm, Bool.not_true, Bool.false_eq_true, if_false]
    cases hc : this.cacheGet floor.name (this._viewer.modelObjects model).id with
    | some c =>
      refine ⟨c.map (fun id => Effect.setNodeOff model id true), ?_, ?_, ?_, ?_, ?_⟩
      · simp only []
        split
        · rw [hideDbIds_eq _ _ _ hvm]
        · rename_i hlen
          have : c = [] := by
            cases c with
            | nil => rfl
            | cons a t => simp at hlen
          simp [this]
      · intro n id S hS
        simp only []
        split
        · rw [cacheGet_congr _ this (hideDbIds_cache _ _ _)]; exact hS
        · exact hS
      · intro e he
        obtain ⟨d, _, rfl⟩ := List.mem_map.mp he
        exact Or.inr (Or.inr ⟨d, rfl⟩)
      · intro S hS
        have hcs : c = S := by simpa using hS
        subst hcs
        refine ⟨?_, ?_, ?_⟩
        · intro d hd
          obtain ⟨x, _, hx⟩ := List.mem_map.mp hd
          cases hx
        · intro d hd
          obtain ⟨x, hx, hxe⟩ := List.mem_map.mp hd
          cases hxe
          exact hx
        · intro _ d hd
          exact List.mem_map.mpr ⟨d, hd, rfl⟩
      · intro _; rfl
    | none =>
      simp only []
      cases ht : (this._viewer.modelObjects model).instanceTree with
      | none =>
        refine ⟨[_], rfl, ?_, ?_, ?_, ?_⟩
        · intro n id S hS; exact hS
        · intro e he
          simp only [List.mem_singleton] at he
          exact Or.inl ⟨_, he⟩
        · intro S hS; cases hS
        · intro _; rfl
      | some tree =>
        simp only []
        cases hd : mapGet mm (this._viewer.modelObjects model).id with
        | none =>
          refine ⟨[], by simp, ?_, ?_, ?_, ?_⟩
          · intro n id S hS; exact hS
          · intro e he; cases he
          · intro S hS; cases hS
          · intro _; rfl
        | some o =>
          cases o with
          | none =>
            refine ⟨[], by simp, ?_, ?_, ?_, ?_⟩
            · intro n id S hS; exact hS
            · intro e he; cases he
            · intro S hS; cases hS
            · intro _; rfl
          | some dbIds =>
            simp only [collectDbIdsToHide_eq]
            generalize hT : dbIds.foldl
              (fun a id => if inBand (tree id) lo hi then setAdd a id else a) [] = T
            have hvm2 : (({ this with _viewer := { this._viewer with
                log := this._viewer.log ++ dbIds.map (fun id => Effect.getNodeBox model id) } } :
                FloorSelectorFilter)._viewer.modelObjects model).visibilityManager = true := hvm
            refine ⟨dbIds.map (fun id => Effect.getNodeBox model id) ++
              T.map (fun id => Effect.setNodeOff model id true), ?_, ?_, ?_, ?_, ?_⟩
            · rw [cacheSet_viewer]
              split
              · rw [hideDbIds_eq _ _ _ hvm2]
                simp [List.append_assoc]
              · rename_i hlen
                have : T = [] := by
                  cases T with
                  | nil => rfl
                  | cons a t => simp at hlen
                simp [this]
            · intro n id S hS
              have hne : ¬ (floor.name = n ∧ (this._viewer.modelObjects model).id = id) := by
                rintro ⟨rfl, rfl⟩
                rw [hc] at hS
                cases hS
              rw [cacheGet_cacheSet_of_ne _ _ _ _ _ _ hne]
              split
              · rw [cacheGet_congr _ _ (hideDbIds_cache _ _ _)]
                exact hS
              · exact hS
            · intro e he
              rcases List.mem_append.mp he with h | h
              · obtain ⟨d, _, rfl⟩ := List.mem_map.mp h
                exact Or.inr (Or.inl ⟨d, rfl⟩)
              · obtain ⟨d, _, rfl⟩ := List.mem_map.mp h
                exact Or.inr (Or.inr ⟨d, rfl⟩)
            · intro S hS; cases hS
            · intro _; trivial
  · have hvm' : (this._viewer.modelObjects model).visibilityManager = false := by
      simpa using hvm
    simp only [hvm', Bool.not_false, if_true]
    refine ⟨[_], rfl, ?_, ?_, ?_, ?_⟩
    · intro n id S hS; exact hS
    · intro e he
      simp only [List.mem_singleton] at he
      exact Or.inl ⟨_, he⟩
    · intro S _
      refine ⟨?_, ?_, ?_⟩
      · intro d hd; simp at hd
      · intro d hd; simp at hd
      · intro h; cases h
    · intro h; cases h

/-- The loop of `filter` over the models, started with a cache entry `S` for the floor name
and the model identifier `id`: the entry is kept, the calls made serve the models with that
identifier from the cache, and a model with that identifier that the loop reaches (it and
every model before it has a visibility manager) has every id of `S` hidden. -/
theorem filterModels_served (floor : Floor) (lo hi : JSNum)
    (mm : List (ℕ × Option (List ℕ))) (id : ℕ) (S : List ℕ) (models : List ℕ)
    (this : FloorSelectorFilter) (hc : this.cacheGet floor.name id = some S) :
    (filterModels floor lo hi mm models this).cacheGet floor.name id = some S ∧
    ∃ new, (filterModels floor lo hi mm models this)._viewer.log = this._viewer.log ++ new ∧
      servedFromCache this._viewer.modelObjects id S new ∧
      (∀ pre m post, models = pre ++ m :: post →
        (∀ x ∈ pre, (this._viewer.modelObjects x).visibilityManager = true) →
        (this._viewer.modelObjects m).visibilityManager = true →
        (this._viewer.modelObjects m).id = id →
        ∀ d ∈ S, Effect.setNodeOff m d true ∈ new) := by
  induction models generalizing this with
  | nil =>
    refine ⟨hc, [], by simp [filterModels], ⟨?_, ?_⟩, ?_⟩
    · intro m d _ h; cases h
    · intro m d off _ h; cases h
    · intro pre m post h
      simp at h
  | cons x rest ih =>
    obtain ⟨new0, hlog, P, B, C, D⟩ := filterModel_step floor lo hi mm x this
    have hsame := filterModel_sameButLog floor lo hi mm x this
    have served0 : servedFromCache this._viewer.modelObjects id S new0 := by
      refine ⟨?_, ?_⟩
      · intro m d hm hmem
        rcases B _ hmem with ⟨msg, h⟩ | ⟨d', h⟩ | ⟨d', h⟩
        · cases h
        · cases h
          exact (C S (by rw [hm]; exact hc)).1 d hmem
        · cases h
      · intro m d off hm hmem
        rcases B _ hmem with ⟨msg, h⟩ | ⟨d', h⟩ | ⟨d', h⟩
        · cases h
        · cases h
        · cases h
          exact ⟨rfl, (C S (by rw [hm]; exact hc)).2.1 d hmem⟩
    unfold filterModels
    split
    · rename_i this1 heq
      rw [heq] at hlog P D
      simp only [] at hlog P D
      refine ⟨P _ _ _ hc, new0, hlog, served0, ?_⟩
      intro pre m post hmodels hpre hvm hid d hd
      have hx : (this._viewer.modelObjects x).visibilityManager = true := by
        cases pre with
        | nil =>
          simp only [List.nil_append, List.cons.injEq] at hmodels
          rw [hmodels.1]; exact hvm
        | cons p pre' =>
          simp only [List.cons_append, List.cons.injEq] at hmodels
          rw [hmodels.1]; exact hpre p (List.mem_cons_self _ _)
      exact absurd (D hx) (by simp)
    · rename_i this1 heq
      rw [heq] at hlog P hsame
      simp only [] at hlog P hsame
      have hobj : this1._viewer.modelObjects = this._viewer.modelObjects := by
        unfold Viewer.sameButLog at hsame
        rw [hsame]
      obtain ⟨k1, new1, k2, k3, k4⟩ := ih this1 (P _ _ _ hc)
      rw [hobj] at k3 k4
      refine ⟨k1, new0 ++ new1, by rw [k2, hlog, List.append_assoc], ⟨?_, ?_⟩, ?_⟩
      · intro m d hm hmem
        rcases List.mem_append.mp hmem with h | h
        · exact served0.1 m d hm h
        · exact k3.1 m d hm h
      · intro m d off hm hmem
        rcases List.mem_append.mp hmem with h | h
        · exact served0.2 m d off hm h
        · exact k3.2 m d off hm h
      · intro pre m post hmodels hpre hvm hid d hd
        cases pre with
        | nil =>
          simp only [List.nil_append, List.cons.injEq] at hmodels
          obtain ⟨rfl, _⟩ := hmodels
          exact List.mem_append_left _ ((C S (by rw [hid]; exact hc)).2.2 hvm d hd)
        | cons p pre' =>
          simp only [List.cons_append, List.cons.injEq] at hmodels
          obtain ⟨rfl, hrest⟩ := hmodels
          exact List.mem_append_right _ (k4 pre' m post hrest
            (fun y hy => hpre y (List.mem_cons_of_mem _ hy)) hvm hid d hd)

/-- The first evaluation of a model for a floor: with a visibility manager, an instance tree,
a candidate list and no cache entry yet, the loop body queries the box of every candidate,
hides the ids whose box passes the band test and stores exactly that set in the cache. -/
theorem filterModel_first_evaluation (floor : Floor) (lo hi : JSNum)
    (mm : List (ℕ × Option (List ℕ))) (model : ℕ) (this : FloorSelectorFilter)
    (tree : ℕ → ZBox) (dbIds : List ℕ)
    (hvm : (this._viewer.modelObjects model).visibilityManager = true)
    (hc : this.cacheGet floor.name (this._viewer.modelObjects model).id = none)
    (hn : mapGet this._cache floor.name ≠ none)
    (ht : (this._viewer.modelObjects model).instanceTree = some tree)
    (hd : mapGet mm (this._viewer.modelObjects model).id = some (some dbIds)) :
    (filterModel floor lo hi mm model this).1.cacheGet floor.name (this._viewer.modelObjects model).id
      = some (dbIds.foldl (fun a id => if inBand (tree id) lo hi then setAdd a id else a) []) ∧
    (filterModel floor lo hi mm model this).1._viewer.log
      = this._viewer.log ++ dbIds.map (fun id => Effect.getNodeBox model id) ++
        (dbIds.foldl (fun a id => if inBand (tree id) lo hi then setAdd a id else a) []).map
          (fun id => Effect.setNodeOff model id true) := by
  unfold filterModel
  simp only [hvm, Bool.not_true, Bool.false_eq_true, if_false, hc, ht, hd, collectDbIdsToHide_eq]
  generalize dbIds.foldl (fun a id => if inBand (tree id) lo hi then setAdd a id else a) [] = T
  have hvm2 : (({ this with _viewer := { this._viewer with
      log := this._viewer.log ++ dbIds.map (fun id => Effect.getNodeBox model id) } } :
      FloorSelectorFilter)._viewer.modelObjects model).visibilityManager = true := hvm
  refine ⟨?_, ?_⟩
  · apply cacheGet_cacheSet_same
    split
    · rw [hideDbIds_cache]; exact hn
    · exact hn
  · rw [cacheSet_viewer]
    split
    · rw [hideDbIds_eq _ _ _ hvm2]
    · rename_i hlen
      have : T = [] := by
        cases T with
        | nil => rfl
        | cons a t => simp at hlen
      simp [this]

/-- C10 (amended): once the cache holds a set `S` for a floor name and a model identifier,
`filter` and `clearFilter` keep that entry; a later `filter` call for a floor of that name
queries no box of a model with that identifier and hides no id outside `S` in it, also when
`S` is empty; and when the call gets to such a model (the filter data is valid and lists at
least one candidate id, and the model and every model before it in the model list has a
visibility manager) it hides every id of `S` in it. -/
theorem filter_served_from_cache (this : FloorSelectorFilter) (data : Option FloorFilterData)
    (floor : Floor) (id : ℕ) (S : List ℕ) (hc : this.cacheGet floor.name id = some S) :
    (this.filter data (some floor)).1.cacheGet floor.name id = some S ∧
    this.clearFilter.cacheGet floor.name id = some S ∧
    servedFromCache this._viewer.modelObjects id S
      (this.callsSince (this.filter data (some floor)).1) ∧
    (∀ (d : FloorFilterData) (mm : List (ℕ × Option (List ℕ))) (h : JSNum)
        (pre : List ℕ) (m : ℕ) (post : List ℕ),
      data = some d → d.modelsDbIds = some mm →
      _getLevelHeightFactor d.levelHeightFactor = .ok h → _hasModelDbIds mm = true →
      this._viewer.modelQueue = pre ++ m :: post →
      (∀ x ∈ pre, (this._viewer.modelObjects x).visibilityManager = true) →
      (this._viewer.modelObjects m).visibilityManager = true →
      (this._viewer.modelObjects m).id = id →
      ∀ x ∈ S, Effect.setNodeOff m x true ∈ this.callsSince (this.filter data (some floor)).1) := by
  have hself : this.callsSince this = [] := callsSince_of_append this this [] (by simp)
  have hnone : servedFromCache this._viewer.modelObjects id S [] := by
    refine ⟨?_, ?_⟩
    · intro _ _ _ h; cases h
    · intro _ _ _ _ h; cases h
  obtain ⟨pm, hpm⟩ : ∃ pm, mapGet this._cache floor.name = some pm := by
    unfold cacheGet at hc
    cases hm : mapGet this._cache floor.name with
    | none => rw [hm] at hc; cases hc
    | some pm => exact ⟨pm, rfl⟩
  have hcases := filter_cases this data floor pm hpm
  refine ⟨?_, ?_, ?_, ?_⟩
  · rcases hcases with h | ⟨lo, hi, mm, h⟩
    · rw [h]; exact hc
    · rw [h]; exact (filterModels_served floor lo hi mm id S _ this hc).1
  · rw [cacheGet_congr _ this (clearFilter_frame this).2]
    exact hc
  · rcases hcases with h | ⟨lo, hi, mm, h⟩
    · rw [h, hself]; exact hnone
    · obtain ⟨_, new, k2, k3, _⟩ := filterModels_served floor lo hi mm id S
        this._viewer.modelQueue this hc
      rw [h, callsSince_of_append _ _ new k2]
      exact k3
  · intro d mm h pre m post hdata hmm hh hhas hq hpre hvm hid x hx
    subst hdata
    have hf : (this.filter (some d) (some floor)).1 =
        filterModels floor (newMinZ floor h) (newMaxZ floor) mm this._viewer.modelQueue this := by
      unfold filter
      simp only [hmm, hh, hhas, hpm, Bool.not_true, Bool.false_eq_true, if_false]
    obtain ⟨_, new, k2, _, k4⟩ := filterModels_served floor (newMinZ floor h) (newMaxZ floor) mm
      id S this._viewer.modelQueue this hc
    rw [hf, callsSince_of_append _ _ new k2]
    exact k4 pre m post hq hpre hvm hid x hx

/-- Witness of `filter_served_from_cache`: the example filter after a first `filter` call for
the floor `Level 1` (which cached the set `[1]` for the model id 7) and `clearFilter()`. -/
theorem filter_served_from_cache_witness :
    exFiltered.clearFilter.cacheGet "Level 1" 7 = some [1] ∧
    (exFiltered.clearFilter.filter (some exFilterData)
      (some ⟨0, "guid-a", "Level 1", 0, 3, false⟩)).1.cacheGet "Level 1" 7 = some [1] ∧
    exFiltered.clearFilter.clearFilter.cacheGet "Level 1" 7 = some [1] ∧
    servedFromCache exFiltered.clearFilter._viewer.modelObjects 7 [1]
      (exFiltered.clearFilter.callsSince (exFiltered.clearFilter.filter (some exFilterData)
        (some ⟨0, "guid-a", "Level 1", 0, 3, false⟩)).1) ∧
    (∀ (d : FloorFilterData) (mm : List (ℕ × Option (List ℕ))) (h : JSNum)
        (pre : List ℕ) (m : ℕ) (post : List ℕ),
      some exFilterData = some d → d.modelsDbIds = some mm →
      _getLevelHeightFactor d.levelHeightFactor = .ok h → _hasModelDbIds mm = true →
      exFiltered.clearFilter._viewer.modelQueue = pre ++ m :: post →
      (∀ x ∈ pre, (exFiltered.clearFilter._viewer.modelObjects x).visibilityManager = true) →
      (exFiltered.clearFilter._viewer.modelObjects m).visibilityManager = true →
      (exFiltered.clearFilter._viewer.modelObjects m).id = 7 →
      ∀ x ∈ [1], Effect.setNodeOff m x true ∈
        exFiltered.clearFilter.callsSince (exFiltered.clearFilter.filter (some exFilterData)
          (some ⟨0, "guid-a", "Level 1", 0, 3, false⟩)).1) :=
  ⟨by decide!,
   filter_served_from_cache exFiltered.clearFilter (some exFilterData)
     ⟨0, "guid-a", "Level 1", 0, 3, false⟩ 7 [1] (by decide!)⟩

/-- C10 (counterexample): the first `filter` call for `Level 1` evaluates the box of the
candidate 1 of the model with id 7, hides it and caches `[1]`.  After `clearFilter()`, a
later call for the same floor and the same model hides 1 again without a box query when the
filter data is unchanged; but it hides nothing when the filter data lists no candidate id
(the call returns before the loop), and it hides nothing when the model has no visibility
manager any more (the loop warns and ends). -/
theorem filter_later_call_hides_nothing :
    exFiltered.cacheGet "Level 1" 7 = some [1] ∧
    exFiltered._viewer.log = [Effect.getNodeBox 0 1, Effect.setNodeOff 0 1 true] ∧
    exFiltered.clearFilter.callsSince
      (exFiltered.clearFilter.filter (some exFilterData) (exFloors.get? 0)).1
      = [Effect.setNodeOff 0 1 true] ∧
    exFiltered.clearFilter.callsSince
      (exFiltered.clearFilter.filter (some exFilterDataEmpty) (exFloors.get? 0)).1 = [] ∧
    exFilteredNoVisibilityManager.cacheGet "Level 1" 7 = some [1] ∧
    exFilteredNoVisibilityManager.callsSince
      (exFilteredNoVisibilityManager.filter (some exFilterData) (exFloors.get? 0)).1
      = [Effect.warn "The VisibilityManager of the model with ID = 7 is not yet initialized."] := by
  refine ⟨?_, ?_, ?_, ?_, ?_, ?_⟩ <;> decide!

end FloorSelectorFilter

/-! ### Roll-over highlighting and hover mode -/

namespace FloorSelector

/-- C11: when ghost floors are not enabled and a floor is selected, or when the renderer
does not support the spatial filter, `rollOverFloor(floorIndex)` switches roll-over off for
every argument: the spatial filter is cleared, `rolloverObjectId(0)` is issued and
`_floorRollOverActive` is false afterwards. -/
theorem rollOverFloor_suppressed (s : FloorSelector) (floorIndex : Option ℤ)
    (h : (s._ghostFloorsEnabled = false ∧ s._currentFloor ≠ NoFloor) ∨
      s.viewer.spatialFilterForRollOverSupported = false) :
    s.rollOverFloor floorIndex
      = (s._setSpatialFilterForRollOver none).emit (Effect.rolloverObjectId 0) ∧
    (s.rollOverFloor floorIndex)._floorRollOverActive = false ∧
    (s.rollOverFloor floorIndex).viewer.log =
      s.viewer.log ++ [Effect.setSpatialFilterForRollOver none] ++
        (if s._getFadeExtension then [Effect.setSaoHeuristicEnabled true] else []) ++
        [Effect.rolloverObjectId 0] := by
  have h0 : s.rollOverFloor floorIndex
      = (s._setSpatialFilterForRollOver none).emit (Effect.rolloverObjectId 0) := by
    unfold rollOverFloor
    rcases h with ⟨hg, hc⟩ | hs
    · have hc' : ¬ s._currentFloor = NoFloor := hc
      simp [hg, hc']
    · simp [hs]
  refine ⟨h0, ?_, ?_⟩
  · rw [h0]
    simp only [_setSpatialFilterForRollOver, floorAt, emit, withViewer]
    rfl
  · rw [h0]
    cases he : s._getFadeExtension
    · have he' : (s._fadeEnabled && s._floorSelectorFilter._viewer.crossFadeEffects) = false := he
      simp [_setSpatialFilterForRollOver, floorAt, emit, withViewer, viewer, Viewer.emit,
        _getFadeExtension, he', AllFloors]
    · have he' : (s._fadeEnabled && s._floorSelectorFilter._viewer.crossFadeEffects) = true := he
      simp [_setSpatialFilterForRollOver, floorAt, emit, withViewer, viewer, Viewer.emit,
        _getFadeExtension, he', AllFloors]

/-- Witness of `rollOverFloor_suppressed`: the scenario of the specification, floors `[0, 3]`
and `[3, 6]`, floor 1 selected, ghost floors disabled, `rollOverFloor(0)`. -/
theorem rollOverFloor_suppressed_witness :
    ((exNoGhostSelected1._ghostFloorsEnabled = false ∧ exNoGhostSelected1._currentFloor ≠ NoFloor) ∨
      exNoGhostSelected1.viewer.spatialFilterForRollOverSupported = false) ∧
    exNoGhostSelected1.rollOverFloor (some 0)
      = (exNoGhostSelected1._setSpatialFilterForRollOver none).emit (Effect.rolloverObjectId 0) ∧
    (exNoGhostSelected1.rollOverFloor (some 0))._floorRollOverActive = false ∧
    (exNoGhostSelected1.rollOverFloor (some 0)).viewer.log =
      exNoGhostSelected1.viewer.log ++ [Effect.setSpatialFilterForRollOver none] ++
        (if exNoGhostSelected1._getFadeExtension then [Effect.setSaoHeuristicEnabled true] else []) ++
        [Effect.rolloverObjectId 0] :=
  ⟨Or.inl ⟨by decide!, by decide!⟩,
   rollOverFloor_suppressed exNoGhostSelected1 (some 0) (Or.inl ⟨by decide!, by decide!⟩)⟩

/-- C12: after `enterHoverMode()` the hovering flag is set; the mode is `Hovering` when it was
`Off` or `Hovering` before; and when it was `Transition` nothing but the flag changes (the
mode stays `Transition` and no animation is started). -/
theorem enterHoverMode_spec (s : FloorSelector) :
    s.enterHoverMode._hovering = true ∧
    (s._currentMode ≠ FloorRenderMode.Transition →
      s.enterHoverMode._currentMode = FloorRenderMode.Hovering) ∧
    (s._currentMode = FloorRenderMode.Transition →
      s.enterHoverMode = { s with _hovering := true } ∧
      s.enterHoverMode._currentMode = FloorRenderMode.Transition ∧
      s.enterHoverMode._fadeAnim = s._fadeAnim ∧
      s.enterHoverMode.viewer.anims = s.viewer.anims ∧
      s.enterHoverMode.viewer.log = s.viewer.log) := by
  refine ⟨(enterHoverMode_fields s).1, ?_, ?_⟩
  · intro h
    unfold enterHoverMode
    simp only [h, ne_eq, not_false_eq_true, if_true]
    exact (_setMode_fields s _).1
  · intro h
    have e : s.enterHoverMode = { s with _hovering := true } := by
      unfold enterHoverMode
      simp [h]
    rw [e]
    exact ⟨rfl, h, rfl, rfl, rfl⟩

/-- C13: after `exitHoverMode(force)` the hovering flag is cleared and the spatial filter for
roll-over is cleared (`_floorRollOverActive` is false); the mode is `Off` unless it was
`Transition` and `force` is false, in which case it stays `Transition`. -/
theorem exitHoverMode_spec (s : FloorSelector) (force : Bool) :
    (s.exitHoverMode force)._hovering = false ∧
    (s.exitHoverMode force)._floorRollOverActive = false ∧
    Effect.setSpatialFilterForRollOver none ∈ (s.exitHoverMode force).viewer.log ∧
    ((s._currentMode ≠ FloorRenderMode.Transition ∨ force = true) →
      (s.exitHoverMode force)._currentMode = FloorRenderMode.Off) ∧
    ((s._currentMode = FloorRenderMode.Transition ∧ force = false) →
      (s.exitHoverMode force)._currentMode = FloorRenderMode.Transition) := by
  have hsf : ∀ t : FloorSelector,
      (t._setSpatialFilterForRollOver none)._hovering = t._hovering ∧
      (t._setSpatialFilterForRollOver none)._floorRollOverActive = false ∧
      (t._setSpatialFilterForRollOver none)._currentMode = t._currentMode ∧
      Effect.setSpatialFilterForRollOver none ∈ (t._setSpatialFilterForRollOver none).viewer.log := by
    intro t
    cases he : (t._fadeEnabled && t._floorSelectorFilter._viewer.crossFadeEffects) <;>
      simp [_setSpatialFilterForRollOver, floorAt, emit, withViewer, viewer, Viewer.emit,
        _getFadeExtension, he, AllFloors]
  unfold exitHoverMode
  refine ⟨(hsf _).1, (hsf _).2.1, (hsf _).2.2.2, ?_, ?_⟩
  · intro h
    rw [(hsf _).2.2.1]
    have hc : (decide (s._currentMode ≠ FloorRenderMode.Transition) || force) = true := by
      rcases h with h | h
      · simp [h]
      · simp [h]
    simp only [hc, if_true]
    exact (_setMode_fields s _).1
  · intro h
    rw [(hsf _).2.2.1]
    simp [h.1, h.2]

end FloorSelector

/-! ### Ambient occlusion -/

namespace FloorSelector

/-- C15: starting with AO visible and live opacity `a`, `_setAOVisible(false)` sets the live
opacity to 0 and stores `a` as backup; further `_setAOVisible(false)` calls change nothing;
after any external change of the live opacity while hidden the backup is still `a`, and the
next `_setAOVisible(true)` sets the live opacity to `a`.  `_setAOVisible(v)` with `v` equal to
the current `_aoVisible` changes nothing. -/
theorem _setAOVisible_save_restore (s : FloorSelector) (hv : s._aoVisible = true) :
    (s._setAOVisible false)._aoVisible = false ∧
    (s._setAOVisible false).viewer.aoOpacity = JSNum.fin 0 ∧
    (s._setAOVisible false)._aoOpacity = some s.viewer.aoOpacity ∧
    (s._setAOVisible false)._setAOVisible false = s._setAOVisible false ∧
    (∀ x : JSNum,
      let hidden := (s._setAOVisible false).withViewer
        { (s._setAOVisible false).viewer with aoOpacity := x }
      hidden._aoOpacity = some s.viewer.aoOpacity ∧
      hidden._setAOVisible false = hidden ∧
      (hidden._setAOVisible true)._aoVisible = true ∧
      (hidden._setAOVisible true).viewer.aoOpacity = s.viewer.aoOpacity ∧
      (hidden._setAOVisible true)._aoOpacity = some s.viewer.aoOpacity) ∧
    (∀ (t : FloorSelector) (v : Bool), v = t._aoVisible → t._setAOVisible v = t) := by
  have hsame : ∀ (t : FloorSelector) (v : Bool), v = t._aoVisible → t._setAOVisible v = t := by
    intro t v h
    unfold _setAOVisible
    simp [h]
  have h1 : s._setAOVisible false =
      FloorSelector.setAOOptions { s with _aoVisible := false, _aoOpacity := some s.viewer.aoOpacity }
        (some (JSNum.fin 0)) := by
    unfold _setAOVisible
    rw [if_neg (by simp [hv])]
    rfl
  have hvis : (s._setAOVisible false)._aoVisible = false := by rw [h1]; rfl
  refine ⟨hvis, by rw [h1]; rfl, by rw [h1]; rfl, hsame _ _ hvis.symm, ?_, hsame⟩
  intro x
  simp only []
  generalize hh : (s._setAOVisible false).withViewer
    { (s._setAOVisible false).viewer with aoOpacity := x } = hidden
  have k1 : hidden._aoVisible = false := by rw [← hh]; exact hvis
  have k2 : hidden._aoOpacity = some s.viewer.aoOpacity := by rw [← hh, h1]; rfl
  refine ⟨k2, hsame _ _ k1.symm, ?_, ?_, ?_⟩
  · unfold _setAOVisible
    simp only [k1, Bool.true_eq_false, if_false, Bool.not_true, Bool.false_eq_true]
    split <;> rfl
  · unfold _setAOVisible
    simp only [k1, Bool.true_eq_false, if_false, Bool.not_true, Bool.false_eq_true]
    split <;> simp [setAOOptions, emit, withViewer, viewer, Viewer.emit, k2]
  · unfold _setAOVisible
    simp only [k1, Bool.true_eq_false, if_false, Bool.not_true, Bool.false_eq_true]
    split <;> exact k2

/-- Witness of `_setAOVisible_save_restore`: the example selector, whose AO is visible with
live opacity 1. -/
theorem _setAOVisible_save_restore_witness :
    exSelector._aoVisible = true ∧
    ((exSelector._setAOVisible false)._aoVisible = false ∧
    (exSelector._setAOVisible false).viewer.aoOpacity = JSNum.fin 0 ∧
    (exSelector._setAOVisible false)._aoOpacity = some exSelector.viewer.aoOpacity ∧
    (exSelector._setAOVisible false)._setAOVisible false = exSelector._setAOVisible false ∧
    (∀ x : JSNum,
      let hidden := (exSelector._setAOVisible false).withViewer
        { (exSelector._setAOVisible false).viewer with aoOpacity := x }
      hidden._aoOpacity = some exSelector.viewer.aoOpacity ∧
      hidden._setAOVisible false = hidden ∧
      (hidden._setAOVisible true)._aoVisible = true ∧
      (hidden._setAOVisible true).viewer.aoOpacity = exSelector.viewer.aoOpacity ∧
      (hidden._setAOVisible true)._aoOpacity = some exSelector.viewer.aoOpacity) ∧
    (∀ (t : FloorSelector) (v : Bool), v = t._aoVisible → t._setAOVisible v = t)) :=
  ⟨by decide!, _setAOVisible_save_restore exSelector (by decide!)⟩

end FloorSelector

/-! ### The reverse index of the filter -/

namespace FloorSelectorFilter

/-- The loop of `clearFilter` over a snapshot `entries` of the reverse index: the entries of
models with a visibility manager are made visible again, id by id, and removed from the
index; the others are left alone. -/
theorem clearFilter_foldl_eq (objs : ℕ → Model) (entries : List (ℕ × List ℕ))
    (this : FloorSelectorFilter) (hobj : this._viewer.modelObjects = objs) :
    (entries.foldl (fun t entry =>
      if !(t._viewer.modelObjects entry.1).visibilityManager then t
      else
        let t1 := entry.2.foldl (fun u id => u.emit (Effect.setNodeOff entry.1 id false)) t
        { t1 with _dbIdsToUnhide := mapDelete t1._dbIdsToUnhide entry.1 }) this)
    = { _viewer := { this._viewer with
          log := this._viewer.log ++
            ((entries.filter (fun e => (objs e.1).visibilityManager)).map
              (fun e => e.2.map (fun id => Effect.setNodeOff e.1 id false))).flatten }
        _dbIdsToUnhide := this._dbIdsToUnhide.filter (fun e =>
          !(entries.any (fun x => (objs x.1).visibilityManager && decide (x.1 = e.1))))
        _cache := this._cache } := by
  induction entries generalizing this with
  | nil => simp
  | cons e t ih =>
    rw [List.foldl_cons]
    by_cases hvm : (objs e.1).visibilityManager = true
    · have hvm2 : (this._viewer.modelObjects e.1).visibilityManager = true := by rw [hobj]; exact hvm
      rw [if_neg (by simp [hvm2]), foldl_emit]
      have h := ih
        { _viewer := { this._viewer with
            log := this._viewer.log ++ e.2.map (fun id => Effect.setNodeOff e.1 id false) },
          _dbIdsToUnhide := mapDelete this._dbIdsToUnhide e.1,
          _cache := this._cache } hobj
      refine h.trans ?_
      simp only [List.filter_cons, hvm, if_true, List.map_cons, List.flatten_cons, List.append_assoc,
        mapDelete, List.filter_filter, List.any_cons, Bool.true_and]
      congr 1
      apply List.filter_congr
      intro x _
      by_cases hx : e.1 = x.1
      · simp [hx]
      · have hx' : ¬ x.1 = e.1 := fun h => hx h.symm
        simp [hx, hx']
    · have hvm' : (objs e.1).visibilityManager = false := by simpa using hvm
      have hvm2 : (this._viewer.modelObjects e.1).visibilityManager = false := by
        rw [hobj]; exact hvm'
      rw [if_pos (by simp [hvm2])]
      refine (ih _ hobj).trans ?_
      simp [List.filter_cons, hvm', List.any_cons]

/-- What `clearFilter` does: every id recorded for a model with a visibility manager is made
visible again and the entry of that model is removed; the entry of a model without a
visibility manager stays. -/
theorem clearFilter_eq (this : FloorSelectorFilter) :
    this.clearFilter =
      { _viewer := { this._viewer with
          log := this._viewer.log ++
            ((this._dbIdsToUnhide.filter
                (fun e => (this._viewer.modelObjects e.1).visibilityManager)).map
              (fun e => e.2.map (fun id => Effect.setNodeOff e.1 id false))).flatten }
        _dbIdsToUnhide := this._dbIdsToUnhide.filter
          (fun e => !(this._viewer.modelObjects e.1).visibilityManager)
        _cache := this._cache } := by
  unfold clearFilter
  split
  · rename_i h
    have h0 : this._dbIdsToUnhide = [] := List.length_eq_zero.mp h
    obtain ⟨v, d, c⟩ := this
    simp only [] at h0
    subst h0
    simp
  · rw [clearFilter_foldl_eq this._viewer.modelObjects _ this rfl]
    congr 1
    apply List.filter_congr
    intro x hx
    by_cases hv : (this._viewer.modelObjects x.1).visibilityManager = true
    · have : (this._dbIdsToUnhide.any (fun y =>
          (this._viewer.modelObjects y.1).visibilityManager && decide (y.1 = x.1))) = true := by
        rw [List.any_eq_true]
        exact ⟨x, hx, by simp [hv]⟩
      simp [this, hv]
    · have hv' : (this._viewer.modelObjects x.1).visibilityManager = false := by simpa using hv
      have : (this._dbIdsToUnhide.any (fun y =>
          (this._viewer.modelObjects y.1).visibilityManager && decide (y.1 = x.1))) = false := by
        rw [List.any_eq_false]
        intro y _
        by_cases hy : y.1 = x.1
        · simp [hy, hv']
        · simp [hy]
      simp [this, hv']

end FloorSelectorFilter

namespace FloorSelectorFilter

/-- C17 (amended): after `clearFilter()` every id recorded in the reverse index for a model
with a visibility manager has been made visible again (`setNodeOff(id, false)`) and the entry
of that model is gone; the entry of a model without a visibility manager is kept and none of
its ids is touched.  So the reverse index is empty afterwards when every recorded model has a
visibility manager. -/
theorem clearFilter_restores_managed (this : FloorSelectorFilter) :
    (∀ m ids, (m, ids) ∈ this._dbIdsToUnhide →
      (this._viewer.modelObjects m).visibilityManager = true →
      ∀ id ∈ ids, Effect.setNodeOff m id false ∈ this.callsSince this.clearFilter) ∧
    this.clearFilter._dbIdsToUnhide =
      this._dbIdsToUnhide.filter (fun e => !(this._viewer.modelObjects e.1).visibilityManager) ∧
    ((∀ e ∈ this._dbIdsToUnhide, (this._viewer.modelObjects e.1).visibilityManager = true) →
      this.clearFilter._dbIdsToUnhide = []) ∧
    (∀ m ids, (m, ids) ∈ this._dbIdsToUnhide →
      (this._viewer.modelObjects m).visibilityManager = false →
      (m, ids) ∈ this.clearFilter._dbIdsToUnhide ∧
      ∀ id off, Effect.setNodeOff m id off ∉ this.callsSince this.clearFilter) := by
  have hcalls : this.callsSince this.clearFilter =
      ((this._dbIdsToUnhide.filter
          (fun e => (this._viewer.modelObjects e.1).visibilityManager)).map
        (fun e => e.2.map (fun id => Effect.setNodeOff e.1 id false))).flatten := by
    apply callsSince_of_append
    rw [clearFilter_eq]
  have hidx : this.clearFilter._dbIdsToUnhide =
      this._dbIdsToUnhide.filter (fun e => !(this._viewer.modelObjects e.1).visibilityManager) := by
    rw [clearFilter_eq]
  refine ⟨?_, hidx, ?_, ?_⟩
  · intro m ids hmem hvm id hid
    rw [hcalls, List.mem_flatten]
    refine ⟨ids.map (fun id => Effect.setNodeOff m id false), ?_, List.mem_map.mpr ⟨id, hid, rfl⟩⟩
    exact List.mem_map.mpr ⟨(m, ids), List.mem_filter.mpr ⟨hmem, by simpa using hvm⟩, rfl⟩
  · intro hall
    rw [hidx, List.filter_eq_nil_iff]
    intro e he
    simp [hall e he]
  · intro m ids hmem hvm
    refine ⟨?_, ?_⟩
    · rw [hidx]
      exact List.mem_filter.mpr ⟨hmem, by simp [hvm]⟩
    · intro id off hin
      rw [hcalls, List.mem_flatten] at hin
      obtain ⟨l, hl, hin2⟩ := hin
      obtain ⟨e, he, rfl⟩ := List.mem_map.mp hl
      obtain ⟨x, _, hx⟩ := List.mem_map.mp hin2
      have hvm2 := (List.mem_filter.mp he).2
      cases hx
      simp [hvm] at hvm2

/-- C17 (counterexample): node 1 of the example model was hidden by `filter` and is recorded
in the reverse index; the model then has no visibility manager any more.  `clearFilter()`
makes no call at all and leaves the entry in the reverse index. -/
theorem clearFilter_keeps_unmanaged_entry :
    exFilteredThenNoVisibilityManager._dbIdsToUnhide = [(0, [1])] ∧
    Effect.setNodeOff 0 1 true ∈ exFilteredThenNoVisibilityManager._viewer.log ∧
    exFilteredThenNoVisibilityManager.callsSince exFilteredThenNoVisibilityManager.clearFilter = [] ∧
    exFilteredThenNoVisibilityManager.clearFilter._dbIdsToUnhide = [(0, [1])] ∧
    exFilteredThenNoVisibilityManager.clearFilter._dbIdsToUnhide ≠ [] := by
  refine ⟨?_, ?_, ?_, ?_, ?_⟩ <;> decide!

/-- C18 (the code at the failing input): `hideDbIds(model, [1])` followed by
`hideDbIds(model, [2])` hides both ids, but the reverse index of the model holds only `1`
(the loop that should add the new ids adds the stored set to itself); `clearFilter()` then
makes only id 1 visible again and empties the index, so id 2 stays hidden. -/
theorem hideDbIds_second_call_not_tracked :
    ((exFilter.hideDbIds 0 [1]).hideDbIds 0 [2])._viewer.log
      = [Effect.setNodeOff 0 1 true, Effect.setNodeOff 0 2 true] ∧
    ((exFilter.hideDbIds 0 [1]).hideDbIds 0 [2])._dbIdsToUnhide = [(0, [1])] ∧
    ((exFilter.hideDbIds 0 [1]).hideDbIds 0 [2]).clearFilter._viewer.log
      = [Effect.setNodeOff 0 1 true, Effect.setNodeOff 0 2 true, Effect.setNodeOff 0 1 false] ∧
    ((exFilter.hideDbIds 0 [1]).hideDbIds 0 [2]).clearFilter._dbIdsToUnhide = [] := by
  refine ⟨?_, ?_, ?_, ?_⟩ <;> decide!

/-- The defect behind C18 in general: when the reverse index already has an entry for the
model, `hideDbIds` hides the ids but leaves the index as it is. -/
theorem hideDbIds_index_unchanged (this : FloorSelectorFilter) (model : ℕ) (dbIds stored : List ℕ)
    (hs : mapGet this._dbIdsToUnhide model = some stored) :
    (this.hideDbIds model dbIds)._dbIdsToUnhide = this._dbIdsToUnhide := by
  by_cases hvm : (this._viewer.modelObjects model).visibilityManager = true
  · rw [hideDbIds_eq _ _ _ hvm]
    simp [hs]
  · simp [hideDbIds, hvm]

/-- C19 (the code at the failing input): with a model without visibility manager first in the
model list and the example model second, `filter` warns and leaves the loop: nothing is
hidden in the second model and nothing is cached for it.  With the two models in the other
order node 1 of the example model is hidden; and a first model that only lacks its instance
tree does not stop the loop either. -/
theorem filter_stops_at_model_without_visibilityManager :
    ((exFilterTwoModels exModelNotReady [0, 1]).filter (some exFilterData) (exFloors.get? 0)).2
      = none ∧
    ((exFilterTwoModels exModelNotReady [0, 1]).filter (some exFilterData)
      (exFloors.get? 0)).1._viewer.log
      = [Effect.warn "The VisibilityManager of the model with ID = 5 is not yet initialized."] ∧
    ((exFilterTwoModels exModelNotReady [0, 1]).filter (some exFilterData)
      (exFloors.get? 0)).1.cacheGet "Level 1" 7 = none ∧
    ((exFilterTwoModels exModelNotReady [1, 0]).filter (some exFilterData)
      (exFloors.get? 0)).1._viewer.log
      = [Effect.getNodeBox 1 1, Effect.setNodeOff 1 1 true,
         Effect.warn "The VisibilityManager of the model with ID = 5 is not yet initialized."] ∧
    ((exFilterTwoModels exModelNoTree [0, 1]).filter (some exFilterData)
      (exFloors.get? 0)).1._viewer.log
      = [Effect.warn "The instanceTree of the model with ID = 5 is not yet initialized.",
         Effect.getNodeBox 1 1, Effect.setNodeOff 1 1 true] := by
  refine ⟨?_, ?_, ?_, ?_, ?_⟩ <;> decide!

end FloorSelectorFilter

namespace FloorSelector

/-- The methods of the selector that work on the cut planes change the filter object only in
the viewer it references. -/
theorem _applyFloorSection_filter (s : FloorSelector) (zMin zMax : Option JSNum) :
    (s._applyFloorSection zMin zMax)._floorSelectorFilter._cache = s._floorSelectorFilter._cache ∧
    (s._applyFloorSection zMin zMax)._floorSelectorFilter._dbIdsToUnhide
      = s._floorSelectorFilter._dbIdsToUnhide ∧
    (s._applyFloorSection zMin zMax).viewer.modelObjects = s.viewer.modelObjects ∧
    (s._applyFloorSection zMin zMax).viewer.modelQueue = s.viewer.modelQueue ∧
    (s._applyFloorSection zMin zMax)._floorFilterData = s._floorFilterData := by
  unfold _applyFloorSection
  cases s.enabled <;> simp [setCutPlaneSet, withViewer, viewer, Viewer.emit]

theorem _selectFloor_filter (s : FloorSelector) (idx : Option ℤ) :
    (s._selectFloor idx)._floorSelectorFilter._cache = s._floorSelectorFilter._cache ∧
    (s._selectFloor idx)._floorSelectorFilter._dbIdsToUnhide
      = s._floorSelectorFilter._dbIdsToUnhide ∧
    (s._selectFloor idx).viewer.modelObjects = s.viewer.modelObjects ∧
    (s._selectFloor idx).viewer.modelQueue = s.viewer.modelQueue ∧
    (s._selectFloor idx)._floorFilterData = s._floorFilterData := by
  have hs : s._stopFloorAnim._floorSelectorFilter._cache = s._floorSelectorFilter._cache ∧
      s._stopFloorAnim._floorSelectorFilter._dbIdsToUnhide = s._floorSelectorFilter._dbIdsToUnhide ∧
      s._stopFloorAnim.viewer.modelObjects = s.viewer.modelObjects ∧
      s._stopFloorAnim.viewer.modelQueue = s.viewer.modelQueue ∧
      s._stopFloorAnim._floorFilterData = s._floorFilterData := by
    unfold _stopFloorAnim
    split <;> simp [animStop, animSetNotRunning, emit, withViewer, viewer, Viewer.emit]
  have ha := fun (t : FloorSelector) a b => _applyFloorSection_filter t a b
  unfold _selectFloor _setFloorSection _applySelectedFloorSection
  simp only [ha]
  exact hs

theorem resetState_filter (s : FloorSelector) :
    s.resetState._floorSelectorFilter._cache = s._floorSelectorFilter._cache ∧
    s.resetState.viewer.modelObjects = s.viewer.modelObjects ∧
    s.resetState._floorFilterData = s._floorFilterData := by
  obtain ⟨a1, _, a3, _, a5⟩ := _selectFloor_filter { s with _floors := [] } NoFloor
  have ha := fun (t : FloorSelector) a b => _applyFloorSection_filter t a b
  have hz := fun (t : FloorSelector) => (_updateZLimits_fields t).2.2.2.2.2.2.2.2.2
  have hz2 : ∀ t : FloorSelector, t._updateZLimits._floorSelectorFilter._cache
      = t._floorSelectorFilter._cache ∧ t._updateZLimits._floorFilterData = t._floorFilterData := by
    intro t
    unfold _updateZLimits
    simp only []
    split <;> exact ⟨rfl, rfl⟩
  unfold resetState
  simp only [_clearFloorSection]
  refine ⟨?_, ?_, ?_⟩
  · rw [(FloorSelectorFilter.clearFilter_frame _).2, (ha _ _ _).1, (hz2 _).1]
    exact a1
  · have h1 := (FloorSelectorFilter.clearFilter_frame
      ((({ s with _floors := [] } : FloorSelector)._selectFloor NoFloor)._updateZLimits._applyFloorSection
        none none)._floorSelectorFilter).1
    unfold Viewer.sameButLog at h1
    show (FloorSelectorFilter.clearFilter _)._viewer.modelObjects = _
    rw [h1]
    show (FloorSelector.viewer _).modelObjects = _
    rw [(ha _ _ _).2.2.1, hz]
    exact a3
  · show (FloorSelector._applyFloorSection _ none none)._floorFilterData = _
    rw [(ha _ _ _).2.2.2.2, (hz2 _).2]
    exact a5

/-- C20 (amended): the `floorData` setter (`resetState`) does not drop the filter cache:
every entry for a floor name and a model id is still there afterwards, so a later `filter()`
for a floor with the name of an old one is served from the old entry (no box query, no id
outside the old set hidden) instead of being computed from the new `zMin`/`zMax`. -/
theorem setFloorData_keeps_cache (s : FloorSelector) (floors : Option (List Floor)) :
    s.resetState._floorSelectorFilter._cache = s._floorSelectorFilter._cache ∧
    (s.setFloorData floors)._floorSelectorFilter._cache = s._floorSelectorFilter._cache ∧
    (∀ n id S, s._floorSelectorFilter.cacheGet n id = some S →
      (s.setFloorData floors)._floorSelectorFilter.cacheGet n id = some S) ∧
    (∀ (data : Option FloorFilterData) (floor : Floor) (id : ℕ) (S : List ℕ),
      s._floorSelectorFilter.cacheGet floor.name id = some S →
      servedFromCache s.viewer.modelObjects id S
        ((s.setFloorData floors)._floorSelectorFilter.callsSince
          ((s.setFloorData floors)._floorSelectorFilter.filter data (some floor)).1)) := by
  have h1 := (resetState_filter s).1
  have h2 : (s.setFloorData floors)._floorSelectorFilter._cache = s._floorSelectorFilter._cache := by
    unfold setFloorData
    simp only [fireEvent, emit, withViewer]
    exact h1
  have hobj : (s.setFloorData floors)._floorSelectorFilter._viewer.modelObjects
      = s.viewer.modelObjects := by
    unfold setFloorData
    simp only [fireEvent, emit, withViewer, viewer, Viewer.emit]
    exact (resetState_filter s).2.1
  have h3 : ∀ n id S, s._floorSelectorFilter.cacheGet n id = some S →
      (s.setFloorData floors)._floorSelectorFilter.cacheGet n id = some S := by
    intro n id S h
    rw [FloorSelectorFilter.cacheGet_congr _ _ h2]
    exact h
  refine ⟨h1, h2, h3, ?_⟩
  intro data floor id S hc
  have hc2 := h3 _ _ _ hc
  generalize (s.setFloorData floors)._floorSelectorFilter = F at hc2 hobj ⊢
  have hself : F.callsSince F = [] := FloorSelectorFilter.callsSince_of_append F F [] (by simp)
  obtain ⟨pm, hpm⟩ : ∃ pm, mapGet F._cache floor.name = some pm := by
    unfold FloorSelectorFilter.cacheGet at hc2
    cases hm : mapGet F._cache floor.name with
    | none => rw [hm] at hc2; cases hc2
    | some pm => exact ⟨pm, rfl⟩
  rw [← hobj]
  rcases FloorSelectorFilter.filter_cases F data floor pm hpm with h | ⟨lo, hi, mm, h⟩
  · rw [h, hself]
    refine ⟨?_, ?_⟩
    · intro _ _ _ h; cases h
    · intro _ _ _ _ h; cases h
  · obtain ⟨_, new, k2, k3, _⟩ := FloorSelectorFilter.filterModels_served floor lo hi mm id S
      F._viewer.modelQueue F hc2
    rw [h, FloorSelectorFilter.callsSince_of_append _ _ new k2]
    exact k3

/-- C20 (counterexample): floor 0 (`Level 1`, `[0, 3]`) was selected with filter data, so the
set `[1]` is cached for the model; then a new floor list is assigned whose floor `Level 1`
spans `[10, 13]`.  The cache still holds `[1]`, and `filter` for the new floor hides node 1
without a box query, although its box `[2, 4]` is outside the new band: computed afresh, the
set is empty. -/
theorem setFloorData_serves_stale_cache :
    exFilterSelected0._floorSelectorFilter.cacheGet "Level 1" 7 = some [1] ∧
    exAfterNewFloors._floors = exNewFloors ∧
    exAfterNewFloors._floorSelectorFilter.cacheGet "Level 1" 7 = some [1] ∧
    exAfterNewFloors._floorSelectorFilter._dbIdsToUnhide = [] ∧
    exAfterNewFloors._floorSelectorFilter.callsSince
      (exAfterNewFloors._floorSelectorFilter.filter (some exFilterData) (exNewFloors.get? 0)).1
      = [Effect.setNodeOff 0 1 true] ∧
    exFilter.callsSince (exFilter.filter (some exFilterData) (exNewFloors.get? 0)).1
      = [Effect.getNodeBox 0 1] ∧
    (exFilter.filter (some exFilterData) (exNewFloors.get? 0)).1.cacheGet "Level 1" 7 = some [] := by
  refine ⟨?_, ?_, ?_, ?_, ?_, ?_, ?_⟩ <;> decide!

end FloorSelector

/-! ### Assigning the floor list -/

namespace FloorSelector

theorem _stopFloorAnim_log (s : FloorSelector) :
    s._stopFloorAnim._floorAnim = none ∧
    (∀ anim, s._floorAnim = some anim → s._stopFloorAnim.animIsRunning anim = false) ∧
    s._stopFloorAnim.viewer.log = s.viewer.log ++
      (match s._floorAnim with
        | some anim => [Effect.animStop anim]
        | none => []) := by
  unfold _stopFloorAnim
  cases h : s._floorAnim with
  | none => simp [h]
  | some a =>
    refine ⟨rfl, ?_, ?_⟩
    · intro anim ha
      cases ha
      exact animIsRunning_animSetNotRunning s a
    · simp [animStop, animSetNotRunning, emit, withViewer, viewer, Viewer.emit]

theorem _applyFloorSection_log (s : FloorSelector) (zMin zMax : Option JSNum) :
    (s._applyFloorSection zMin zMax).viewer.log = s.viewer.log ++
      [Effect.setCutPlaneSet (s._applyFloorSection zMin zMax).viewer.cutPlaneSet] := by
  unfold _applyFloorSection
  cases s.enabled <;> simp [setCutPlaneSet, withViewer, viewer, Viewer.emit]

theorem _applyFloorSection_none (s : FloorSelector) :
    (s._applyFloorSection none none).viewer.cutPlaneSet =
      if s.enabled then some (sectionPlanes MinZLimit MaxZLimit) else none := by
  unfold _applyFloorSection
  cases s.enabled <;>
    simp [setCutPlaneSet, withViewer, viewer, Viewer.emit, Number.isFinite, sectionPlanes]

/-- The part of `resetState` after the clip-plane animation was stopped. -/
theorem resetState_tail (t : FloorSelector) :
    let u := (({ t with _currentFloor := none } : FloorSelector)._setFloorSection none none)._clearFloorSection
    let r : FloorSelector := { u with _floorSelectorFilter := u._floorSelectorFilter.clearFilter }
    r._floors = t._floors ∧ r._currentFloor = none ∧
    r._floorSectionMin = none ∧ r._floorSectionMax = none ∧
    r._floorAnim = t._floorAnim ∧ r.viewer.anims = t.viewer.anims ∧
    r.viewer.cutPlaneSet =
      (if t.enabled then some (sectionPlanes MinZLimit MaxZLimit) else none) ∧
    ∃ pre, r.viewer.log = t.viewer.log ++ pre ∧ ∀ e ∈ pre, ∀ ev, e ≠ Effect.fireEvent ev := by
  intro u r
  have hA := fun (t : FloorSelector) a b => _applyFloorSection_fields t a b
  have hZ := fun (t : FloorSelector) => _updateZLimits_fields t
  have hu : u._floors = t._floors ∧ u._currentFloor = none ∧ u._floorSectionMin = none ∧
      u._floorSectionMax = none ∧ u._floorAnim = t._floorAnim ∧ u.viewer.anims = t.viewer.anims ∧
      u.enabled = t.enabled := by
    refine ⟨?_, ?_, ?_, ?_, ?_, ?_, ?_⟩
    all_goals simp only [u, _setFloorSection, _applySelectedFloorSection, _clearFloorSection, hA, hZ,
      isNaN, if_true]
    rfl
  obtain ⟨u1, u2, u3, u4, u5, u6, u7⟩ := hu
  have hrv : r.viewer = u._floorSelectorFilter.clearFilter._viewer := rfl
  have hf := (FloorSelectorFilter.clearFilter_frame u._floorSelectorFilter).1
  unfold Viewer.sameButLog at hf
  have hcut : u.viewer.cutPlaneSet =
      (if t.enabled then some (sectionPlanes MinZLimit MaxZLimit) else none) := by
    simp only [u, _clearFloorSection]
    rw [_applyFloorSection_none, (hZ _).2.2.2.2.1]
    simp only [_setFloorSection, _applySelectedFloorSection, hA]
  have hlog : u.viewer.log = t.viewer.log ++
      [Effect.setCutPlaneSet (({ t with _currentFloor := none } : FloorSelector)._setFloorSection
        none none).viewer.cutPlaneSet, Effect.setCutPlaneSet u.viewer.cutPlaneSet] := by
    simp only [u, _clearFloorSection]
    rw [_applyFloorSection_log, (hZ _).2.2.2.2.2.2.2.2.2]
    simp only [_setFloorSection, _applySelectedFloorSection]
    rw [_applyFloorSection_log]
    simp [viewer]
  refine ⟨u1, u2, u3, u4, u5, ?_, ?_, ?_⟩
  · rw [hrv, hf]; exact u6
  · rw [hrv, hf]; exact hcut
  · have hcl : r.viewer.log = u.viewer.log ++
        ((u._floorSelectorFilter._dbIdsToUnhide.filter
            (fun e => (u._floorSelectorFilter._viewer.modelObjects e.1).visibilityManager)).map
          (fun e => e.2.map (fun id => Effect.setNodeOff e.1 id false))).flatten := by
      rw [hrv, FloorSelectorFilter.clearFilter_eq]
      rfl
    rw [hcl, hlog, List.append_assoc]
    refine ⟨_, rfl, ?_⟩
    · intro e he ev
      simp only [List.mem_append, List.mem_cons, List.mem_singleton, List.mem_flatten, List.mem_map,
        List.not_mem_nil, or_false] at he
      rcases he with (he | he) | ⟨l, ⟨x, _, rfl⟩, hx⟩
      · rw [he]; exact fun h => Effect.noConfusion h
      · rw [he]; exact fun h => Effect.noConfusion h
      · simp only [List.mem_map] at hx
        obtain ⟨id, _, rfl⟩ := hx
        exact fun h => Effect.noConfusion h

/-- C21: assigning `floorData` resets the selection.  Afterwards the floor list is the
assigned array (the empty list when the value is not an array), the current floor is
`NoFloor`, both section bounds are `undefined`, the installed cut planes are the sentinel
range when the selector is enabled (none when disabled), the clip-plane animation that was
referenced has been stopped and none is referenced, and among the calls made exactly one
fires an event: `FLOOR_DATA_CHANGED` with the new list, as the last call. -/
theorem setFloorData_resets_selection (s : FloorSelector) (v : Option (List Floor)) :
    (s.setFloorData v)._floors = v.getD [] ∧
    (s.setFloorData v)._currentFloor = NoFloor ∧
    (s.setFloorData v)._floorSectionMin = none ∧ (s.setFloorData v)._floorSectionMax = none ∧
    (s.setFloorData v).viewer.cutPlaneSet =
      (if s.enabled then some (sectionPlanes MinZLimit MaxZLimit) else none) ∧
    (s.setFloorData v)._floorAnim = none ∧
    (∀ anim, s._floorAnim = some anim → (s.setFloorData v).animIsRunning anim = false ∧
      Effect.animStop anim ∈ (s.setFloorData v).viewer.log.drop s.viewer.log.length) ∧
    ∃ pre, (s.setFloorData v).viewer.log = s.viewer.log ++ pre ++
        [Effect.fireEvent (SelectorEvent.FLOOR_DATA_CHANGED (v.getD []))] ∧
      ∀ e ∈ pre, ∀ ev, e ≠ Effect.fireEvent ev := by
  obtain ⟨k1, k2, k3⟩ := _stopFloorAnim_log { s with _floors := [] }
  obtain ⟨t1, t2, t3, t4, t5, t6, t7, pre, t8, t9⟩ :=
    resetState_tail ({ s with _floors := [] } : FloorSelector)._stopFloorAnim
  have hen := (_stopFloorAnim_fields { s with _floors := [] }).2.2.2.2.1
  have e : s.resetState = { ((({ ({ s with _floors := [] } : FloorSelector)._stopFloorAnim with
      _currentFloor := none } : FloorSelector)._setFloorSection none none)._clearFloorSection) with
      _floorSelectorFilter := ((({ ({ s with _floors := [] } : FloorSelector)._stopFloorAnim with
      _currentFloor := none } : FloorSelector)._setFloorSection none
        none)._clearFloorSection)._floorSelectorFilter.clearFilter } := rfl
  have hS : ∀ X : FloorSelector,
      (({ X with _floors := v.getD [] } : FloorSelector).fireEvent
        (SelectorEvent.FLOOR_DATA_CHANGED (v.getD []))).viewer =
      { X.viewer with log := X.viewer.log ++
        [Effect.fireEvent (SelectorEvent.FLOOR_DATA_CHANGED (v.getD []))] } := fun _ => rfl
  unfold setFloorData
  simp only [animIsRunning, hS]
  rw [e]
  generalize ({ s with _floors := [] } : FloorSelector)._stopFloorAnim = s1 at *
  simp only [] at hen k2 k3
  clear e hS
  refine ⟨rfl, t2, t3, t4, ?_, t5.trans k1, ?_, ?_⟩
  · rw [← hen]
    exact t7
  · intro anim ha
    refine ⟨?_, ?_⟩
    · have := k2 anim ha
      unfold animIsRunning at this
      show (match (FloorSelector.viewer _).anims.get? anim with
        | some c => c.isRunning
        | none => false) = false
      rw [t6]
      exact this
    · show Effect.animStop anim ∈ List.drop _ ((FloorSelector.viewer _).log ++ _)
      rw [t8, k3, ha]
      simp [viewer]
  · refine ⟨(match s._floorAnim with
        | some anim => [Effect.animStop anim]
        | none => []) ++ pre, ?_, ?_⟩
    · show (FloorSelector.viewer _).log ++ _ = _
      rw [t8, k3]
      simp [viewer]
    · intro x hx ev
      rw [List.mem_append] at hx
      rcases hx with hx | hx
      · cases h : s._floorAnim with
        | none => rw [h] at hx; cases hx
        | some anim =>
          rw [h] at hx
          rw [List.mem_singleton.mp hx]
          exact fun h => Effect.noConfusion h
      · exact t9 x hx ev

end FloorSelector

/-! ### The range check of a selection -/

namespace FloorSelector

/-- C24 (the code at the failing input): with the two example floors and no floor selected,
`floorSelectionValid` accepts the index 5, which is not an index of the floor list, and
`selectFloor(5, false)` makes it the current floor; the same holds for `AllFloors` (-1). -/
theorem floorSelectionValid_accepts_out_of_range :
    exSelector._floors.length = 2 ∧
    floorAt exSelector._floors (some 5) = none ∧
    exSelector.floorSelectionValid (some 5) = true ∧
    (exSelector.selectFloor (some 5) false).1._currentFloor = some 5 ∧
    (exSelector.selectFloor (some 5) true).1._currentFloor = some 5 ∧
    exSelector.floorSelectionValid (some AllFloors) = true ∧
    (exSelector.selectFloor (some AllFloors) false).1._currentFloor = some (-1) := by
  refine ⟨?_, ?_, ?_, ?_, ?_, ?_, ?_⟩ <;> decide!

/-- What `floorSelectionValid` computes: the disjunction `newFloor >= 0 || length > newFloor`
holds for every integer when the list is not empty, so the result is true exactly when the
list is not empty and the index differs from the current floor. -/
theorem floorSelectionValid_iff (s : FloorSelector) (n : Option ℤ) :
    s.floorSelectionValid n = true ↔ s._floors ≠ [] ∧ s._currentFloor ≠ n := by
  constructor
  · intro h
    simp only [floorSelectionValid, floorData, currentFloor, Bool.and_eq_true,
      decide_eq_true_eq] at h
    exact ⟨fun h0 => h.1.1 (by rw [h0]; rfl), h.1.2⟩
  · rintro ⟨h1, h2⟩
    exact floorSelectionValid_of_ne s n h1 (fun h => h2 h.symm)

end FloorSelector

/-! ### The roll-over highlight during a transition -/

namespace FloorSelector

theorem smootherStep_fin (u : ℚ) :
    smootherStep (JSNum.fin u) = JSNum.fin (u ^ 3 * (u * (6 * u - 15) + 10)) := by
  simp only [smootherStep, JSNum.mul, JSNum.add, JSNum.sub, JSNum.neg]
  congr 1
  ring

theorem updateCutPlanes_highlight (s : FloorSelector) (a b c d u : JSNum) :
    (s.updateCutPlanes a b c d u).viewer.highlightIntensity =
      JSNum.min s.viewer.highlightIntensity (JSNum.sub (JSNum.fin 1) (smootherStep u)) := by
  unfold updateCutPlanes _setFloorSection _applySelectedFloorSection _applyFloorSection
  simp only []
  split <;> simp [setCutPlaneSet, withViewer, viewer, Viewer.emit]

theorem JSNum_min_fin_le (p : JSNum) (q : ℚ) (hp : p ≠ JSNum.nan) :
    JSNum.le (JSNum.min p (JSNum.fin q)) p = true ∧
    JSNum.le (JSNum.min p (JSNum.fin q)) (JSNum.fin q) = true := by
  cases p with
  | nan => exact absurd rfl hp
  | posInf => simp [JSNum.min, JSNum.lt, JSNum.le]
  | negInf => simp [JSNum.min, JSNum.lt, JSNum.le]
  | fin x =>
    simp only [JSNum.min, JSNum.lt]
    by_cases h : q < x
    · simp [h, JSNum.le, le_of_lt h]
    · simp [h, JSNum.le, not_lt.mp h]

/-- C26: a tick of the clip-plane animation with raw time `u` (any rational, so every `u` in
`[0, 1]`) sets the highlight
intensity to `Math.min(previous, 1 - t)` with `t = smootherStep(u) = u^3 (u (6u - 15) + 10)`;
for a previous intensity that is a number the new one is at most the previous one and at most
`1 - t`, and at most 0 for the final tick `u = 1`. -/
theorem animTick_highlightIntensity_never_increases (s : FloorSelector) (anim : ℕ)
    (a b c d v0 v1 : JSNum) (u : ℚ)
    (hanim : s.viewer.anims.get? anim = some ⟨v0, v1, AnimCallbacks.moveToFloor a b c d, true⟩)
    (hp : s.viewer.highlightIntensity ≠ JSNum.nan) :
    smootherStep (JSNum.fin u) = JSNum.fin (u ^ 3 * (u * (6 * u - 15) + 10)) ∧
    (s.animTick anim (JSNum.fin u)).viewer.highlightIntensity =
      JSNum.min s.viewer.highlightIntensity (JSNum.fin (1 - u ^ 3 * (u * (6 * u - 15) + 10))) ∧
    JSNum.le (s.animTick anim (JSNum.fin u)).viewer.highlightIntensity
      s.viewer.highlightIntensity = true ∧
    JSNum.le (s.animTick anim (JSNum.fin u)).viewer.highlightIntensity
      (JSNum.fin (1 - u ^ 3 * (u * (6 * u - 15) + 10))) = true ∧
    (u = 1 → JSNum.le (s.animTick anim (JSNum.fin u)).viewer.highlightIntensity
      (JSNum.fin 0) = true) := by
  have h0 : (s.animTick anim (JSNum.fin u)).viewer.highlightIntensity =
      JSNum.min s.viewer.highlightIntensity
        (JSNum.fin (1 - u ^ 3 * (u * (6 * u - 15) + 10))) := by
    unfold animTick
    rw [hanim]
    simp only [if_true, animOnTimer]
    rw [updateCutPlanes_highlight, smootherStep_fin]
    simp only [JSNum.sub, JSNum.neg, JSNum.add]
    congr 2
    ring
  obtain ⟨m1, m2⟩ := JSNum_min_fin_le s.viewer.highlightIntensity
    (1 - u ^ 3 * (u * (6 * u - 15) + 10)) hp
  refine ⟨smootherStep_fin u, h0, by rw [h0]; exact m1, by rw [h0]; exact m2, ?_⟩
  intro h1
  rw [h0]
  have : (1 - u ^ 3 * (u * (6 * u - 15) + 10)) = 0 := by rw [h1]; norm_num
  rw [this] at m2 ⊢
  exact m2

end FloorSelector

namespace FloorSelector

/-- Witness of `animTick_highlightIntensity_never_increases`: the example selector moving to
floor 1 (control object 0) with the highlight intensity 1, at the tick `u = 1/2`, where
`t = 1/2`: the intensity drops to `1/2`. -/
theorem animTick_highlightIntensity_never_increases_witness :
    (exMoving1Highlighted.viewer.anims.get? 0 = some ⟨JSNum.fin 0, JSNum.fin 1,
        AnimCallbacks.moveToFloor (JSNum.fin 0) (JSNum.fin 6) (JSNum.fin 3) (JSNum.fin 6), true⟩ ∧
     exMoving1Highlighted.viewer.highlightIntensity ≠ JSNum.nan) ∧
    (exMoving1Highlighted.animTick 0 (JSNum.fin (1 / 2))).viewer.highlightIntensity
      = JSNum.fin (1 / 2) :=
  ⟨⟨by decide!, by decide!⟩,
   ((animTick_highlightIntensity_never_increases exMoving1Highlighted 0 (JSNum.fin 0) (JSNum.fin 6)
      (JSNum.fin 3) (JSNum.fin 6) (JSNum.fin 0) (JSNum.fin 1) (1 / 2) (by decide!)
      (by decide!)).2.1).trans (by decide!)⟩

end FloorSelector

/-! ### Visibility and the animation state -/

namespace FloorSelector

/-- C28: `isVisible` does not depend on the animation state.  Two selector states that agree
on the floor list, on the current floor, on the reverse index of the filter and on the model
object asked about give the same answer for every id, whatever their section bounds, render
mode, hovering flag, ghost opacity and animations are. -/
theorem isVisible_independent_of_animation_state (s t : FloorSelector) (model dbId : ℕ)
    (hf : s._floors = t._floors) (hc : s._currentFloor = t._currentFloor)
    (hi : s._floorSelectorFilter._dbIdsToUnhide = t._floorSelectorFilter._dbIdsToUnhide)
    (hm : s.viewer.modelObjects model = t.viewer.modelObjects model) :
    s.isVisible model dbId = t.isVisible model dbId := by
  unfold isVisible FloorSelectorFilter.isVisible
  rw [hf, hc, hi, hm]

/-- Witness of `isVisible_independent_of_animation_state`: floor 1 of the example selected
directly (section `[3, 6]`, mode `Off`) and by a transition that has not ticked yet (section
still `undefined`, mode `Transition`); node 2 of the model, below the floor, is invisible in
both. -/
theorem isVisible_independent_of_animation_state_witness :
    (exSelected1._floorSectionMin = some (JSNum.fin 3) ∧ exMoving1._floorSectionMin = none ∧
     exSelected1._currentMode = FloorRenderMode.Off ∧
     exMoving1._currentMode = FloorRenderMode.Transition) ∧
    exSelected1.isVisible 0 2 = false ∧
    exSelected1.isVisible 0 2 = exMoving1.isVisible 0 2 :=
  ⟨⟨by decide!, by decide!, by decide!, by decide!⟩, by decide!,
   isVisible_independent_of_animation_state exSelected1 exMoving1 0 2 (by decide!) (by decide!)
     (by decide!) rfl⟩

end FloorSelector

/-! ### Camera change during a fade-out: the ghost opacity -/

namespace FloorSelector

/-- C23 (the code at the failing input): the example selector enters hover mode, the fade-in
has delivered the opacity `1/10`, the pointer leaves (fade-out running, hovering flag
cleared), and the camera changes.  `_interruptFading` stops the fade-out and runs
`_leaveHoverMode`: no fade animation is referenced or running, both snapshot targets are
released, rendering is back on the default target, AO is visible; but the ghost-floor opacity
is still `1/10`, not 0, and no opacity was written to the cross-fade target. -/
theorem _interruptFading_leaves_ghost_opacity :
    exFadingOutMid._hovering = false ∧ exFadingOutMid._fadeAnim = some 1 ∧
    exFadingOutMid.animIsRunning 1 = true ∧
    exFadingOutMid._ghostFloorOpacity = JSNum.fin (1 / 10) ∧
    exFadingOutMid._interruptFading._fadeAnim = none ∧
    exFadingOutMid._interruptFading.animIsRunning 0 = false ∧
    exFadingOutMid._interruptFading.animIsRunning 1 = false ∧
    exFadingOutMid._interruptFading._aoVisible = true ∧
    exFadingOutMid._interruptFading.viewer.log.drop exFadingOutMid.viewer.log.length =
      [Effect.animStop 1, Effect.releaseFadingImage 0, Effect.releaseFadingImage 1,
       Effect.setModelTargetIndexForAll none,
       Effect.setCutPlaneSet (some (sectionPlanes MinZLimit MaxZLimit)),
       Effect.setAOOptions (some (JSNum.fin 1))] ∧
    exFadingOutMid._interruptFading._ghostFloorOpacity = JSNum.fin (1 / 10) ∧
    exFadingOutMid._interruptFading._ghostFloorOpacity ≠ JSNum.fin 0 ∧
    ((exFadingOutMid._interruptFading.enterHoverMode).viewer.anims.get? 2).map
      (fun c => c.startValue) = some (JSNum.fin (1 / 10)) := by
  refine ⟨?_, ?_, ?_, ?_, ?_, ?_, ?_, ?_, ?_, ?_, ?_, ?_⟩ <;> decide!

end FloorSelector

/-! ### Transition mode without an animation -/

namespace FloorSelector

/-- C29 (the code at the failing input): on the example selector `selectFloor(1, true)` starts
the clip-plane animation (control object 0) and enters mode `Transition`; a following
`selectFloor(0, false)` stops that animation and clears `_floorAnim` but leaves the mode
`Transition`.  No control object is running then, so no completion callback will change the
mode: it stays `Transition` over `enterHoverMode()`, `exitHoverMode()` and the (stopped)
control reaching its end.  Assigning `floorData` or calling `invalidateFloorSelection` during
the transition have the same effect. -/
theorem transition_orphaned_by_direct_selection :
    exMoving1._currentMode = FloorRenderMode.Transition ∧
    exMoving1._floorAnim = some 0 ∧ exMoving1.animIsRunning 0 = true ∧
    exOrphanedTransition._currentFloor = some 0 ∧
    exOrphanedTransition._currentMode = FloorRenderMode.Transition ∧
    exOrphanedTransition._floorAnim = none ∧
    exOrphanedTransition.viewer.anims.all (fun c => !c.isRunning) = true ∧
    exOrphanedTransition.enterHoverMode._currentMode = FloorRenderMode.Transition ∧
    (exOrphanedTransition.exitHoverMode false)._currentMode = FloorRenderMode.Transition ∧
    (exOrphanedTransition.animComplete 0)._currentMode = FloorRenderMode.Transition ∧
    (exMoving1.setFloorData (some exFloors))._currentMode = FloorRenderMode.Transition ∧
    (exMoving1.setFloorData (some exFloors))._floorAnim = none ∧
    (exMoving1.invalidateFloorSelection (some 1)).1._currentMode = FloorRenderMode.Transition ∧
    (exMoving1.invalidateFloorSelection (some 1)).1._floorAnim = none := by
  refine ⟨?_, ?_, ?_, ?_, ?_, ?_, ?_, ?_, ?_, ?_, ?_, ?_, ?_, ?_⟩ <;> decide!

end FloorSelector

/-! ### The hide criterion of the filter -/

theorem mem_foldl_setAdd_if (p : ℕ → Bool) (l acc : List ℕ) (d : ℕ) :
    d ∈ l.foldl (fun a id => if p id then setAdd a id else a) acc ↔
      d ∈ acc ∨ (d ∈ l ∧ p d = true) := by
  induction l generalizing acc with
  | nil => simp
  | cons x t ih =>
    rw [List.foldl_cons, ih]
    by_cases hp : p x = true
    · simp only [hp, if_true, setAdd, List.mem_cons]
      by_cases hx : x ∈ acc
      · simp only [hx, if_true]
        constructor
        · rintro (h | ⟨h1, h2⟩)
          · exact Or.inl h
          · exact Or.inr ⟨Or.inr h1, h2⟩
        · rintro (h | ⟨h1 | h1, h2⟩)
          · exact Or.inl h
          · subst h1; exact Or.inl hx
          · exact Or.inr ⟨h1, h2⟩
      · simp only [hx, if_false, List.mem_append, List.mem_singleton]
        constructor
        · rintro ((h | h) | ⟨h1, h2⟩)
          · exact Or.inl h
          · subst h; exact Or.inr ⟨Or.inl rfl, hp⟩
          · exact Or.inr ⟨Or.inr h1, h2⟩
        · rintro (h | ⟨h1 | h1, h2⟩)
          · exact Or.inl (Or.inl h)
          · exact Or.inl (Or.inr h1)
          · exact Or.inr ⟨h1, h2⟩
    · simp only [hp, if_false, List.mem_cons]
      constructor
      · rintro (h | ⟨h1, h2⟩)
        · exact Or.inl h
        · exact Or.inr ⟨Or.inr h1, h2⟩
      · rintro (h | ⟨h1 | h1, h2⟩)
        · exact Or.inl h
        · subst h1; exact absurd h2 hp
        · exact Or.inr ⟨h1, h2⟩

namespace FloorSelectorFilter

/-- For an ordered band and an ordered box the test of `filter` is the overlap of the two
intervals. -/
theorem inBand_eq_overlap (box : ZBox) (lo hi : JSNum) (hband : JSNum.le lo hi = true)
    (hbox : JSNum.le box.minZ box.maxZ = true) :
    inBand box lo hi = (JSNum.le box.minZ hi && JSNum.le lo box.maxZ) := by
  obtain ⟨a, b⟩ := box
  simp only [] at hbox
  unfold inBand
  simp only [JSNum.ge]
  cases a <;> cases b <;> cases lo <;> cases hi <;>
    simp only [JSNum.le, Bool.and_true, Bool.true_and, Bool.and_false, Bool.false_and,
      Bool.or_false, Bool.false_or, Bool.or_true, Bool.true_or, Bool.or_self, Bool.and_self,
      Bool.false_eq_true, decide_eq_true_eq] at hband hbox ⊢
  all_goals rw [Bool.eq_iff_iff]
  all_goals simp only [Bool.or_eq_true, Bool.and_eq_true, decide_eq_true_eq]
  · rename_i x y z w
    constructor
    · rintro ((h | h) | h)
      · exact ⟨h.2, le_trans h.1 hbox⟩
      · exact ⟨le_trans hbox h.2, h.1⟩
      · exact ⟨le_trans h.1 hband, le_trans hband h.2⟩
    · intro h
      by_cases h1 : z ≤ x
      · exact Or.inl (Or.inl ⟨h1, h.1⟩)
      · by_cases h2 : y ≤ w
        · exact Or.inl (Or.inr ⟨h.2, h2⟩)
        · exact Or.inr ⟨le_of_lt (not_le.mp h1), le_of_lt (not_le.mp h2)⟩
  · rename_i x y z
    constructor
    · rintro (h | h)
      · exact le_trans h hbox
      · exact h
    · exact fun h => Or.inr h
  · rename_i x y w
    constructor
    · rintro (h | h)
      · exact h
      · exact le_trans hbox h
    · exact fun h => Or.inl h
  · rename_i x z w
    constructor
    · rintro (h | h)
      · exact h.2
      · exact le_trans h hband
    · intro h
      by_cases h1 : z ≤ x
      · exact Or.inl ⟨h1, h⟩
      · exact Or.inr (le_of_lt (not_le.mp h1))
  · rename_i y z w
    constructor
    · rintro (h | h)
      · exact h.1
      · exact le_trans hband h
    · intro h
      by_cases h2 : y ≤ w
      · exact Or.inl ⟨h, h2⟩
      · exact Or.inr (le_of_lt (not_le.mp h2))

theorem cacheSet_name_ne_none (this : FloorSelectorFilter) (n : String) (id : ℕ) (ids : List ℕ)
    (hn : mapGet this._cache n ≠ none) : mapGet (this.cacheSet n id ids)._cache n ≠ none := by
  unfold cacheSet
  cases hm : mapGet this._cache n with
  | none => exact absurd hm hn
  | some pm => simp [mapGet_mapSet]

/-- The loop body of `filter` for a model with another identifier leaves the cache without
an entry for the floor name and the identifier `id0`, and keeps the cache object of the floor
name. -/
theorem filterModel_keeps_uncached (floor : Floor) (lo hi : JSNum)
    (mm : List (ℕ × Option (List ℕ))) (x : ℕ) (this : FloorSelectorFilter) (id0 : ℕ)
    (hid : (this._viewer.modelObjects x).id ≠ id0)
    (hc : this.cacheGet floor.name id0 = none)
    (hn : mapGet this._cache floor.name ≠ none) :
    (filterModel floor lo hi mm x this).1.cacheGet floor.name id0 = none ∧
    mapGet (filterModel floor lo hi mm x this).1._cache floor.name ≠ none := by
  unfold filterModel
  simp only []
  split
  · exact ⟨hc, hn⟩
  · split
    · split
      · exact ⟨(cacheGet_congr _ this (hideDbIds_cache _ _ _) _ _).trans hc,
          by rw [hideDbIds_cache]; exact hn⟩
      · exact ⟨hc, hn⟩
    · split
      · exact ⟨hc, hn⟩
      · split
        · rw [collectDbIdsToHide_eq]
          simp only []
          refine ⟨?_, ?_⟩
          · rw [cacheGet_cacheSet_of_ne _ _ _ _ _ _ (fun h => hid h.2)]
            split
            · exact (cacheGet_congr _ _ (hideDbIds_cache _ _ _) _ _).trans hc
            · exact hc
          · apply cacheSet_name_ne_none
            split
            · rw [hideDbIds_cache]; exact hn
            · exact hn
        · exact ⟨hc, hn⟩

theorem _hasModelDbIds_of_mapGet (mm : List (ℕ × Option (List ℕ))) (id : ℕ) (dbIds : List ℕ)
    (h : mapGet mm id = some (some dbIds)) (hne : dbIds ≠ []) : _hasModelDbIds mm = true := by
  induction mm with
  | nil => simp [mapGet] at h
  | cons e t ih =>
    obtain ⟨k, v⟩ := e
    unfold _hasModelDbIds
    rw [List.any_cons]
    by_cases hk : k = id
    · simp only [mapGet, hk, if_true, Option.some.injEq] at h
      subst h
      have : dbIds.length > 0 := List.length_pos.mpr hne
      simp [this]
    · simp only [mapGet, hk, if_false] at h
      have := ih h
      unfold _hasModelDbIds at this
      rw [this, Bool.or_true]

/-- The loop of `filter` over models that come before a model with the identifier `id0`,
each with a visibility manager and another identifier: the loop gets past them, none of its
calls changes the visibility of an object of a model with the identifier `id0`, and the cache
still has no entry for the floor name and `id0`. -/
theorem filterModels_prefix (floor : Floor) (lo hi : JSNum)
    (mm : List (ℕ × Option (List ℕ))) (id0 : ℕ) (pre tail : List ℕ) (this : FloorSelectorFilter)
    (hpre : ∀ x ∈ pre, (this._viewer.modelObjects x).visibilityManager = true ∧
      (this._viewer.modelObjects x).id ≠ id0)
    (hc : this.cacheGet floor.name id0 = none)
    (hn : mapGet this._cache floor.name ≠ none) :
    ∃ this1 new,
      filterModels floor lo hi mm (pre ++ tail) this = filterModels floor lo hi mm tail this1 ∧
      this1._viewer = { this._viewer with log := this._viewer.log ++ new } ∧
      (∀ e ∈ new, ∀ m d off, (this._viewer.modelObjects m).id = id0 →
        e ≠ Effect.setNodeOff m d off) ∧
      this1.cacheGet floor.name id0 = none ∧ mapGet this1._cache floor.name ≠ none := by
  induction pre generalizing this with
  | nil =>
    refine ⟨this, [], rfl, by simp, ?_, hc, hn⟩
    intro e he
    cases he
  | cons x rest ih =>
    obtain ⟨hx1, hx2⟩ := hpre x (List.mem_cons_self x rest)
    obtain ⟨new0, hlog, _, B, _, D⟩ := filterModel_step floor lo hi mm x this
    have hsame := filterModel_sameButLog floor lo hi mm x this
    obtain ⟨k1, k2⟩ := filterModel_keeps_uncached floor lo hi mm x this id0 hx2 hc hn
    have hflag := D hx1
    unfold Viewer.sameButLog at hsame
    have hobj : (filterModel floor lo hi mm x this).1._viewer.modelObjects
        = this._viewer.modelObjects := by rw [hsame]
    obtain ⟨this1, new, e1, e2, e3, e4, e5⟩ := ih (filterModel floor lo hi mm x this).1
      (by
        intro y hy
        rw [hobj]
        exact hpre y (List.mem_cons_of_mem x hy)) k1 k2
    refine ⟨this1, new0 ++ new, ?_, ?_, ?_, e4, e5⟩
    · rw [List.cons_append]
      conv_lhs => unfold filterModels
      rw [← e1]
      generalize hfm : filterModel floor lo hi mm x this = r at hflag ⊢
      obtain ⟨r1, r2⟩ := r
      simp only [] at hflag
      subst hflag
      rfl
    · rw [e2, hsame, hlog]
      simp [List.append_assoc]
    · intro e he m d off hm
      rw [List.mem_append] at he
      rcases he with he | he
      · rcases B e he with ⟨msg, h⟩ | ⟨d', h⟩ | ⟨d', h⟩
        · rw [h]; exact fun h2 => Effect.noConfusion h2
        · rw [h]; exact fun h2 => Effect.noConfusion h2
        · rw [h]
          intro h2
          have hxm : x = m := by injection h2
          rw [hxm] at hx2
          exact hx2 hm
      · exact e3 e he m d off (by rw [hobj]; exact hm)

/-- A first evaluation by `filter`: the model is reached by the loop (it and the models
before it have a visibility manager, and those have other identifiers), it has an instance
tree, and there is no cache entry for the floor name and its identifier.  The visibility calls
`filter` makes on the model are exactly `setNodeOff(d, true)` for the candidates `d` whose box
passes the band test. -/
theorem filter_hidden_set (this : FloorSelectorFilter) (data : FloorFilterData)
    (mm : List (ℕ × Option (List ℕ))) (h : JSNum) (floor : Floor)
    (pre : List ℕ) (model : ℕ) (rest : List ℕ) (tree : ℕ → ZBox) (dbIds : List ℕ)
    (hmm : data.modelsDbIds = some mm)
    (hh : _getLevelHeightFactor data.levelHeightFactor = .ok h)
    (hq : this._viewer.modelQueue = pre ++ model :: rest)
    (hpre : ∀ x ∈ pre, (this._viewer.modelObjects x).visibilityManager = true ∧
      (this._viewer.modelObjects x).id ≠ (this._viewer.modelObjects model).id)
    (hvm : (this._viewer.modelObjects model).visibilityManager = true)
    (ht : (this._viewer.modelObjects model).instanceTree = some tree)
    (hd : mapGet mm (this._viewer.modelObjects model).id = some (some dbIds))
    (hc : this.cacheGet floor.name (this._viewer.modelObjects model).id = none) :
    (∀ d off, Effect.setNodeOff model d off ∈
        this.callsSince (this.filter (some data) (some floor)).1 ↔
      off = true ∧ d ∈ dbIds ∧ inBand (tree d) (newMinZ floor h) (newMaxZ floor) = true) ∧
    (dbIds ≠ [] → ∃ S,
      (this.filter (some data) (some floor)).1.cacheGet floor.name
        (this._viewer.modelObjects model).id = some S ∧
      ∀ d, d ∈ S ↔ d ∈ dbIds ∧ inBand (tree d) (newMinZ floor h) (newMaxZ floor) = true) := by
  by_cases hhas : _hasModelDbIds mm = true
  · -- the state after the cache object of the floor name is in place
    obtain ⟨this1, h1v, h1d, h1c, h1n, hf⟩ : ∃ this1 : FloorSelectorFilter,
        this1._viewer = this._viewer ∧ this1._dbIdsToUnhide = this._dbIdsToUnhide ∧
        this1.cacheGet floor.name (this._viewer.modelObjects model).id = none ∧
        mapGet this1._cache floor.name ≠ none ∧
        (this.filter (some data) (some floor)).1 =
          filterModels floor (newMinZ floor h) (newMaxZ floor) mm (pre ++ model :: rest) this1 := by
      unfold filter
      simp only [hmm, hh, hhas, Bool.not_true, Bool.false_eq_true, if_false]
      cases hcn : mapGet this._cache floor.name with
      | some pm =>
        refine ⟨this, rfl, rfl, hc, by rw [hcn]; simp, ?_⟩
        simp only [hq]
      | none =>
        refine ⟨{ this with _cache := mapSet this._cache floor.name [] }, rfl, rfl, ?_, ?_, ?_⟩
        · simp [cacheGet, mapGet_mapSet, mapGet]
        · simp [mapGet_mapSet]
        · simp only [hq]
    have hobj1 : this1._viewer.modelObjects = this._viewer.modelObjects := by rw [h1v]
    obtain ⟨this2, new1, e1, e2, e3, e4, e5⟩ := filterModels_prefix floor (newMinZ floor h)
      (newMaxZ floor) mm (this._viewer.modelObjects model).id pre (model :: rest) this1
      (by rw [hobj1]; exact hpre) h1c h1n
    have hobj2 : this2._viewer.modelObjects = this._viewer.modelObjects := by rw [e2]; exact hobj1
    obtain ⟨f1, f2⟩ := filterModel_first_evaluation floor (newMinZ floor h) (newMaxZ floor) mm
      model this2 tree dbIds (by rw [hobj2]; exact hvm) (by rw [hobj2]; exact e4) e5
      (by rw [hobj2]; exact ht) (by rw [hobj2]; exact hd)
    obtain ⟨_, _, _, _, _, D⟩ := filterModel_step floor (newMinZ floor h) (newMaxZ floor) mm
      model this2
    have hflag := D (by rw [hobj2]; exact hvm)
    have hsame := filterModel_sameButLog floor (newMinZ floor h) (newMaxZ floor) mm model this2
    unfold Viewer.sameButLog at hsame
    have hobj3 : (filterModel floor (newMinZ floor h) (newMaxZ floor) mm model
        this2).1._viewer.modelObjects = this._viewer.modelObjects := by rw [hsame]; exact hobj2
    rw [hobj2] at f1
    generalize hS0 : dbIds.foldl (fun a id =>
      if inBand (tree id) (newMinZ floor h) (newMaxZ floor) then setAdd a id else a) [] = S0
      at f1 f2
    have hS0mem : ∀ d, d ∈ S0 ↔
        d ∈ dbIds ∧ inBand (tree d) (newMinZ floor h) (newMaxZ floor) = true := by
      intro d
      rw [← hS0, mem_foldl_setAdd_if]
      simp
    obtain ⟨g1, new3, g2, g3, _⟩ := filterModels_served floor (newMinZ floor h) (newMaxZ floor)
      mm (this._viewer.modelObjects model).id S0 rest
      (filterModel floor (newMinZ floor h) (newMaxZ floor) mm model this2).1 f1
    have hres : (this.filter (some data) (some floor)).1 =
        filterModels floor (newMinZ floor h) (newMaxZ floor) mm rest
          (filterModel floor (newMinZ floor h) (newMaxZ floor) mm model this2).1 := by
      rw [hf, e1]
      conv_lhs => unfold filterModels
      generalize filterModel floor (newMinZ floor h) (newMaxZ floor) mm model this2 = r at hflag ⊢
      obtain ⟨r1, r2⟩ := r
      simp only [] at hflag
      subst hflag
      rfl
    have hlog : (this.filter (some data) (some floor)).1._viewer.log = this._viewer.log ++
        (new1 ++ dbIds.map (fun id => Effect.getNodeBox model id) ++
          S0.map (fun id => Effect.setNodeOff model id true) ++ new3) := by
      rw [hres, g2, f2, e2, h1v]
      simp [List.append_assoc]
    rw [hobj3] at g3
    refine ⟨?_, fun _ => ⟨S0, by rw [hres]; exact g1, hS0mem⟩⟩
    intro d off
    rw [callsSince_of_append _ _ _ hlog]
    constructor
    · intro hmem
      simp only [List.mem_append, List.mem_map] at hmem
      rcases hmem with ((hmem | ⟨x, _, hx⟩) | ⟨x, hx1, hx2⟩) | hmem
      · exact absurd rfl (e3 _ hmem model d off (by rw [hobj1]))
      · cases hx
      · cases hx2
        exact ⟨rfl, (hS0mem _).mp hx1⟩
      · obtain ⟨k1, k2⟩ := g3.2 model d off rfl hmem
        exact ⟨k1, (hS0mem _).mp k2⟩
    · rintro ⟨rfl, hd2⟩
      simp only [List.mem_append, List.mem_map]
      exact Or.inl (Or.inr ⟨d, (hS0mem d).mpr hd2, rfl⟩)
  · have hempty : dbIds = [] := by
      by_contra hne
      exact hhas (_hasModelDbIds_of_mapGet mm _ dbIds hd hne)
    have hres : (this.filter (some data) (some floor)).1 = this := by
      unfold filter
      simp only [hmm, hh, hhas, Bool.not_false, if_true]
    refine ⟨?_, fun hne => absurd hempty hne⟩
    intro d off
    rw [hres, hempty]
    simp [callsSince]

/-- Counterexample to C25 as stated: a cached entry overrides the criterion.  The first
`filter` call on the floor `"Level 1"` (`[0, 3]`) with the candidate 1 cached the set `{1}`
for the model.  A later `filter` call on the same floor with the candidate list `[2]` and the
height factor 0 (band `[0, 33/10]`, ordered; the box `[-3, 0]` of node 2 is ordered and
touches the band) hides node 1, which is not a candidate, and does not hide the candidate 2;
the same call on a filter without cache entry hides node 2. -/
theorem filter_cached_hides_non_candidate :
    exFiltered.clearFilter.cacheGet "Level 1" 7 = some [1] ∧
    exFloors.get? 0 = some ⟨0, "guid-a", "Level 1", 0, 3, false⟩ ∧
    _getLevelHeightFactor exFilterDataCandidate2.levelHeightFactor = .ok (JSNum.fin 0) ∧
    newMinZ ⟨0, "guid-a", "Level 1", 0, 3, false⟩ (JSNum.fin 0) = JSNum.fin 0 ∧
    newMaxZ ⟨0, "guid-a", "Level 1", 0, 3, false⟩ = JSNum.fin (33 / 10) ∧
    exFilterDataCandidate2.modelsDbIds = some [(7, some [2])] ∧
    exTree 2 = ⟨JSNum.fin (-3), JSNum.fin 0⟩ ∧
    exTree 1 = ⟨JSNum.fin 2, JSNum.fin 4⟩ ∧
    exFiltered.clearFilter.callsSince
      (exFiltered.clearFilter.filter (some exFilterDataCandidate2) (exFloors.get? 0)).1 =
        [Effect.setNodeOff 0 1 true] ∧
    exFilter.callsSince
      (exFilter.filter (some exFilterDataCandidate2) (exFloors.get? 0)).1 =
        [Effect.getNodeBox 0 2, Effect.setNodeOff 0 2 true] :=
  ⟨by decide!, by decide!, rfl, by decide!, by decide!, by decide!, by decide!, by decide!,
   by decide!, by decide!⟩

/-- C25 (amended): the hide criterion of `filter` is interval overlap for a model that
`filter` evaluates afresh: the loop reaches it, it has an instance tree, and nothing is cached
for the floor name and its identifier (the floor name is no property name of
`Object.prototype` and no such name has been used before, so that the cache lookup of the
code is the lookup of own properties).  Then, with an ordered band `newMinZ <= newMaxZ` and
candidates whose boxes have `boxMinZ <= boxMaxZ`: `filter` hides the id `d` of the model
exactly when `d` is a candidate and its box has `boxMinZ` in the band, or `boxMaxZ` in the
band, or encloses the band; this is the case exactly when the intervals
`[boxMinZ, boxMaxZ]` and `[newMinZ, newMaxZ]` overlap; and every visibility call on the
model hides a candidate. -/
theorem filter_hides_iff_overlap (this : FloorSelectorFilter) (data : FloorFilterData)
    (mm : List (ℕ × Option (List ℕ))) (h : JSNum) (floor : Floor)
    (pre : List ℕ) (model : ℕ) (rest : List ℕ) (tree : ℕ → ZBox) (dbIds : List ℕ)
    (_hname : floor.name ∉ objectPrototypeKeys)
    (_hproto : ∀ n ∈ objectPrototypeKeys, mapGet this._cache n = none)
    (hmm : data.modelsDbIds = some mm)
    (hh : _getLevelHeightFactor data.levelHeightFactor = .ok h)
    (hq : this._viewer.modelQueue = pre ++ model :: rest)
    (hpre : ∀ x ∈ pre, (this._viewer.modelObjects x).visibilityManager = true ∧
      (this._viewer.modelObjects x).id ≠ (this._viewer.modelObjects model).id)
    (hvm : (this._viewer.modelObjects model).visibilityManager = true)
    (ht : (this._viewer.modelObjects model).instanceTree = some tree)
    (hd : mapGet mm (this._viewer.modelObjects model).id = some (some dbIds))
    (hc : this.cacheGet floor.name (this._viewer.modelObjects model).id = none)
    (hband : JSNum.le (newMinZ floor h) (newMaxZ floor) = true)
    (hbox : ∀ d ∈ dbIds, JSNum.le (tree d).minZ (tree d).maxZ = true) (d : ℕ) :
    (Effect.setNodeOff model d true ∈ this.callsSince (this.filter (some data) (some floor)).1 ↔
      d ∈ dbIds ∧
      ((JSNum.le (newMinZ floor h) (tree d).minZ && JSNum.le (tree d).minZ (newMaxZ floor)) ||
       (JSNum.le (newMinZ floor h) (tree d).maxZ && JSNum.le (tree d).maxZ (newMaxZ floor)) ||
       (JSNum.le (tree d).minZ (newMinZ floor h) && JSNum.le (newMaxZ floor) (tree d).maxZ))
        = true) ∧
    (Effect.setNodeOff model d true ∈ this.callsSince (this.filter (some data) (some floor)).1 ↔
      d ∈ dbIds ∧
      (JSNum.le (tree d).minZ (newMaxZ floor) && JSNum.le (newMinZ floor h) (tree d).maxZ)
        = true) ∧
    (∀ off, Effect.setNodeOff model d off ∈
        this.callsSince (this.filter (some data) (some floor)).1 → off = true ∧ d ∈ dbIds) := by
  obtain ⟨hset, _⟩ := filter_hidden_set this data mm h floor pre model rest tree dbIds hmm hh hq
    hpre hvm ht hd hc
  refine ⟨?_, ?_, ?_⟩
  · rw [hset d true]
    constructor
    · rintro ⟨_, h1, h2⟩; exact ⟨h1, h2⟩
    · rintro ⟨h1, h2⟩; exact ⟨rfl, h1, h2⟩
  · rw [hset d true]
    constructor
    · rintro ⟨_, h1, h2⟩
      rw [inBand_eq_overlap _ _ _ hband (hbox d h1)] at h2
      exact ⟨h1, h2⟩
    · rintro ⟨h1, h2⟩
      rw [← inBand_eq_overlap _ _ _ hband (hbox d h1)] at h2
      exact ⟨rfl, h1, h2⟩
  · intro off hoff
    obtain ⟨k1, k2, _⟩ := (hset d off).mp hoff
    exact ⟨k1, k2⟩

/-- Witness of `filter_hides_iff_overlap`: the example filter with the candidates 1 and 2 and
the first floor `[0, 3]`, whose band is `[3/2, 33/10]`; node 1 (box `[2, 4]`) is hidden. -/
theorem filter_hides_iff_overlap_witness :
    (newMinZ ⟨0, "guid-a", "Level 1", 0, 3, false⟩ (JSNum.fin (1 / 2)) = JSNum.fin (3 / 2) ∧
     newMaxZ ⟨0, "guid-a", "Level 1", 0, 3, false⟩ = JSNum.fin (33 / 10) ∧
     exFilter._viewer.modelQueue = [] ++ 0 :: [] ∧
     exTree 1 = ⟨JSNum.fin 2, JSNum.fin 4⟩ ∧
     "Level 1" ∉ objectPrototypeKeys ∧ exFilter._cache = []) ∧
    Effect.setNodeOff 0 1 true ∈ exFilter.callsSince
      (exFilter.filter (some exFilterDataTwoCandidates)
        (some ⟨0, "guid-a", "Level 1", 0, 3, false⟩)).1 :=
  ⟨⟨by decide!, by decide!, by decide!, by decide!, by decide!, rfl⟩,
   ((filter_hides_iff_overlap exFilter exFilterDataTwoCandidates [(7, some [1, 2])]
      (JSNum.fin (1 / 2)) ⟨0, "guid-a", "Level 1", 0, 3, false⟩ [] 0 [] exTree [1, 2]
      (by decide!) (fun _ _ => rfl) rfl rfl rfl (by intro x hx; cases hx) rfl rfl rfl rfl (by decide!)
      (by decide!) 1).2.1).mpr ⟨by decide!, by decide!⟩⟩

end FloorSelectorFilter

/-! ### Animated and direct selection -/

namespace FloorSelector

theorem selectFloor_tail_enabled (s1 : FloorSelector) (ev : SelectorEvent) :
    s1._runFloorSelectorFilter.1.enabled = s1.enabled ∧
    ((if !s1._runFloorSelectorFilter.1._ghostFloorsEnabled
        then s1._runFloorSelectorFilter.1.rollOverFloor none
        else s1._runFloorSelectorFilter.1).fireEvent ev).enabled = s1.enabled := by
  obtain ⟨F, hF, _⟩ := _runFloorSelectorFilter_frame s1
  rw [hF]
  refine ⟨rfl, ?_⟩
  split
  · simp [fireEvent, emit, withViewer, viewer, Viewer.emit, rollOverFloor,
      _setSpatialFilterForRollOver]
    split <;> simp
  · simp [fireEvent, emit, withViewer]

/-- After a `selectFloor` that `floorSelectionValid` accepts, the section, the installed cut
planes, the animations and `enabled` are as `_moveToFloor` (with transition) or `_selectFloor`
(without) left them. -/
theorem selectFloor_valid_frame (s : FloorSelector) (idx : Option ℤ) (ut : Bool)
    (hvalid : s.floorSelectionValid idx = true) :
    (s.selectFloor idx ut).1._floorSectionMin
      = (if ut then s._moveToFloor idx else s._selectFloor idx)._floorSectionMin ∧
    (s.selectFloor idx ut).1._floorSectionMax
      = (if ut then s._moveToFloor idx else s._selectFloor idx)._floorSectionMax ∧
    (s.selectFloor idx ut).1._floorAnim
      = (if ut then s._moveToFloor idx else s._selectFloor idx)._floorAnim ∧
    (s.selectFloor idx ut).1.viewer.cutPlaneSet
      = (if ut then s._moveToFloor idx else s._selectFloor idx).viewer.cutPlaneSet ∧
    (s.selectFloor idx ut).1.viewer.anims
      = (if ut then s._moveToFloor idx else s._selectFloor idx).viewer.anims ∧
    (s.selectFloor idx ut).1.enabled
      = (if ut then s._moveToFloor idx else s._selectFloor idx).enabled := by
  generalize hs1 : (if ut then s._moveToFloor idx else s._selectFloor idx) = s1
  obtain ⟨hr, ht⟩ := selectFloor_tail_frame s1 (SelectorEvent.SELECTED_FLOOR_CHANGED idx)
  obtain ⟨er, et⟩ := selectFloor_tail_enabled s1 (SelectorEvent.SELECTED_FLOOR_CHANGED idx)
  unfold selectFloor
  simp only [hvalid, Bool.not_true, Bool.false_eq_true, if_false, hs1]
  split
  · rename_i s2 err heq
    have e : s1._runFloorSelectorFilter.1 = s2 := by rw [heq]
    rw [e] at hr er
    obtain ⟨_, _, a3, a4, _, _, a7, _, a9, a10⟩ := hr
    exact ⟨a3, a4, a7, a9, a10, er⟩
  · rename_i s2 heq
    have e : s1._runFloorSelectorFilter.1 = s2 := by rw [heq]
    simp only [e] at ht et
    obtain ⟨_, _, a3, a4, _, _, a7, _, a9, a10⟩ := ht
    exact ⟨a3, a4, a7, a9, a10, et⟩

theorem _setAOVisible_models (s : FloorSelector) (b : Bool) :
    (s._setAOVisible b).viewer.modelObjects = s.viewer.modelObjects ∧
    (s._setAOVisible b).viewer.modelQueue = s.viewer.modelQueue := by
  unfold _setAOVisible
  split
  · exact ⟨rfl, rfl⟩
  · split
    · exact ⟨rfl, rfl⟩
    · simp only []
      split <;> exact ⟨rfl, rfl⟩

/-- Entering `Transition` keeps the section bounds, `enabled` and the loaded models. -/
theorem _setMode_Transition_frame (s : FloorSelector) :
    (s._setMode FloorRenderMode.Transition)._floorSectionMin = s._floorSectionMin ∧
    (s._setMode FloorRenderMode.Transition)._floorSectionMax = s._floorSectionMax ∧
    (s._setMode FloorRenderMode.Transition).enabled = s.enabled ∧
    (s._setMode FloorRenderMode.Transition).viewer.modelObjects = s.viewer.modelObjects ∧
    (s._setMode FloorRenderMode.Transition).viewer.modelQueue = s.viewer.modelQueue := by
  unfold _setMode
  split
  · exact ⟨rfl, rfl, rfl, rfl, rfl⟩
  · simp only [_applySelectedFloorSection]
    have h1 := fun (t : FloorSelector) a b => _applyFloorSection_fields t a b
    have h2 := fun (t : FloorSelector) b => _setAOVisible_fields t b
    have h3 := fun (t : FloorSelector) a b => _applyFloorSection_filter t a b
    have h4 := fun (t : FloorSelector) b => _setAOVisible_models t b
    simp only [h1, h2, h3, h4]
    split <;> simp [emit, withViewer, viewer, Viewer.emit]

theorem foldl_zLimits_finite (objs : ℕ → Model) (models : List ℕ) (a b : ℚ)
    (hbox : ∀ m ∈ models, ∃ x y : ℚ, (objs m).boundingBox = ⟨JSNum.fin x, JSNum.fin y⟩) :
    ∃ a1 b1 : ℚ, models.foldl (fun (acc : JSNum × JSNum) model =>
      (JSNum.min (objs model).boundingBox.minZ acc.1,
       JSNum.max (objs model).boundingBox.maxZ acc.2)) (JSNum.fin a, JSNum.fin b)
      = (JSNum.fin a1, JSNum.fin b1) := by
  induction models generalizing a b with
  | nil => exact ⟨a, b, rfl⟩
  | cons m rest ih =>
    obtain ⟨x, y, hxy⟩ := hbox m (List.mem_cons_self m rest)
    rw [List.foldl_cons, hxy]
    simp only [JSNum.min, JSNum.max, JSNum.lt]
    have hr := fun a b => ih a b (fun k hk => hbox k (List.mem_cons_of_mem m hk))
    split <;> split <;> exact hr _ _

/-- With finite bounding boxes of the loaded models, `_updateZLimits` leaves finite limits. -/
theorem _updateZLimits_finite (s : FloorSelector)
    (hbox : ∀ m ∈ s.viewer.modelQueue, ∃ x y : ℚ,
      (s.viewer.modelObjects m).boundingBox = ⟨JSNum.fin x, JSNum.fin y⟩) :
    ∃ a b : ℚ, s._updateZLimits._zMinAllModels = some (JSNum.fin a) ∧
      s._updateZLimits._zMaxAllModels = some (JSNum.fin b) := by
  have hmax : MaxZLimit = JSNum.fin (10 ^ 20) := rfl
  have hmin : MinZLimit = JSNum.fin (-(10 ^ 20)) := rfl
  have h := foldl_zLimits_finite s.viewer.modelObjects s.viewer.modelQueue
    (10 ^ 20) (-(10 ^ 20)) hbox
  rw [← hmax, ← hmin] at h
  obtain ⟨a1, b1, h⟩ := h
  unfold _updateZLimits
  simp only [h]
  split
  · exact ⟨_, _, congrArg some hmin, congrArg some hmax⟩
  · exact ⟨_, _, rfl, rfl⟩

/-- The control object `_moveToFloor` creates, when the bounding boxes of the loaded models
and the section bounds in place are finite: it interpolates from finite start bounds to
`zMin` and `zMax` of the target floor, or to the z-range of the loaded models (then stored in
`_zMinAllModels` and `_zMaxAllModels`) when the target is not a floor of the list. -/
theorem _moveToFloor_anim (s : FloorSelector) (idx : Option ℤ)
    (hbox : ∀ m ∈ s.viewer.modelQueue, ∃ x y : ℚ,
      (s.viewer.modelObjects m).boundingBox = ⟨JSNum.fin x, JSNum.fin y⟩)
    (hmin : ∀ z, s._floorSectionMin = some z → ∃ q : ℚ, z = JSNum.fin q)
    (hmax : ∀ z, s._floorSectionMax = some z → ∃ q : ℚ, z = JSNum.fin q) :
    ∃ (anim : ℕ) (a b c d : ℚ), (s._moveToFloor idx)._floorAnim = some anim ∧
      (s._moveToFloor idx).viewer.anims.get? anim =
        some ⟨JSNum.fin 0, JSNum.fin 1,
          AnimCallbacks.moveToFloor (JSNum.fin a) (JSNum.fin b) (JSNum.fin c) (JSNum.fin d),
          true⟩ ∧
      (s._moveToFloor idx).enabled = s.enabled ∧
      (∀ f, floorAt s._floors idx = some f → c = f.zMin ∧ d = f.zMax) ∧
      (floorAt s._floors idx = none →
        (s._moveToFloor idx)._zMinAllModels = some (JSNum.fin c) ∧
        (s._moveToFloor idx)._zMaxAllModels = some (JSNum.fin d)) := by
  obtain ⟨m1, -, -, -⟩ := _setMode_Transition_fields { s with _currentFloor := idx }
  obtain ⟨t1, t2, t3, t4, t5⟩ := _setMode_Transition_frame { s with _currentFloor := idx }
  have hz := fun (t : FloorSelector) => _updateZLimits_fields t
  have hs := fun (t : FloorSelector) => _stopFloorAnim_fields t
  have hsz : ∀ t : FloorSelector, t._stopFloorAnim._zMinAllModels = t._zMinAllModels ∧
      t._stopFloorAnim._zMaxAllModels = t._zMaxAllModels := by
    intro t
    unfold _stopFloorAnim
    split <;> exact ⟨rfl, rfl⟩
  unfold _moveToFloor
  simp only []
  generalize ({ s with _currentFloor := idx } : FloorSelector)._setMode
    FloorRenderMode.Transition = s2 at m1 t1 t2 t3 t4 t5 ⊢
  simp only [] at m1 t1 t2 t3 t4 t5
  obtain ⟨zlo, zhi, z1, z2⟩ := _updateZLimits_finite s2 (by rw [t4, t5]; exact hbox)
  have hA : s._floorSectionMin = none ∨ ∃ q : ℚ, s._floorSectionMin = some (JSNum.fin q) := by
    cases h : s._floorSectionMin with
    | none => exact Or.inl rfl
    | some z =>
      obtain ⟨q, hq⟩ := hmin z h
      exact Or.inr ⟨q, by rw [hq]⟩
  have hB : s._floorSectionMax = none ∨ ∃ q : ℚ, s._floorSectionMax = some (JSNum.fin q) := by
    cases h : s._floorSectionMax with
    | none => exact Or.inl rfl
    | some z =>
      obtain ⟨q, hq⟩ := hmax z h
      exact Or.inr ⟨q, by rw [hq]⟩
  have hen : (s2._updateZLimits._stopFloorAnim).enabled = s.enabled := by
    rw [(hs _).2.2.2.2.1, (hz _).2.2.2.2.1]
    exact t3
  have hzz : s2._updateZLimits._stopFloorAnim._zMinAllModels = some (JSNum.fin zlo) ∧
      s2._updateZLimits._stopFloorAnim._zMaxAllModels = some (JSNum.fin zhi) := by
    rw [(hsz _).1, (hsz _).2]
    exact ⟨z1, z2⟩
  rw [(hz s2).2.2.2.2.2.1, (hz s2).2.2.2.2.2.2.1, t1, t2, z1, z2, m1]
  cases hfl : floorAt s._floors idx with
  | none =>
    rcases hA with h1 | ⟨q1, h1⟩ <;> rcases hB with h2 | ⟨q2, h2⟩ <;> rw [h1, h2] <;>
      exact ⟨_, _, _, zlo, zhi, rfl, get?_append_length _ _, hen,
        fun f hf => Option.noConfusion hf, fun _ => hzz⟩
  | some f =>
    rcases hA with h1 | ⟨q1, h1⟩ <;> rcases hB with h2 | ⟨q2, h2⟩ <;> rw [h1, h2] <;>
      exact ⟨_, _, _, f.zMin, f.zMax, rfl, get?_append_length _ _, hen,
        fun g hg => by cases hg; exact ⟨rfl, rfl⟩, fun h => Option.noConfusion h⟩

/-- The final tick (`unitTime = 1`) of a clip-plane animation with finite bounds sets the
section to the end bounds and installs their planes. -/
theorem animTick_final (t : FloorSelector) (anim : ℕ) (a b c d : ℚ) (v0 v1 : JSNum)
    (hen : t.enabled = true)
    (h : t.viewer.anims.get? anim = some ⟨v0, v1,
      AnimCallbacks.moveToFloor (JSNum.fin a) (JSNum.fin b) (JSNum.fin c) (JSNum.fin d), true⟩) :
    (t.animTick anim (JSNum.fin 1))._floorSectionMin = some (JSNum.fin c) ∧
    (t.animTick anim (JSNum.fin 1))._floorSectionMax = some (JSNum.fin d) ∧
    (t.animTick anim (JSNum.fin 1)).viewer.cutPlaneSet
      = some (sectionPlanes (JSNum.fin c) (JSNum.fin d)) := by
  have h1 : smootherStep (JSNum.fin 1) = JSNum.fin 1 := by
    rw [smootherStep_fin]; norm_num
  have h2 : ∀ x y : ℚ, lerp (JSNum.fin x) (JSNum.fin y) (JSNum.fin 1) = JSNum.fin y := by
    intro x y
    simp [lerp, JSNum.add, JSNum.sub, JSNum.mul, JSNum.neg]
  unfold animTick
  rw [h]
  simp only [if_true, animOnTimer, updateCutPlanes, h1, h2, _setFloorSection,
    _applySelectedFloorSection, _applyFloorSection, hen, isNaN]
  simp [setCutPlaneSet, withViewer, viewer, Viewer.emit, Number.isFinite, sectionPlanes]

/-- C30 (amended): for an enabled selector with a non-empty floor list, finite bounding boxes
of the loaded models and section bounds that are finite or `undefined`, and a target different
from the current floor: `selectFloor(target, true)` leaves a running clip-plane animation, and
after its final tick (`unitTime = 1`) the section bounds and the installed cut planes are
those of `selectFloor(target, false)` from the same state when the target is a floor of the
list (its `zMin`, `zMax`).  When the target is not a floor of the list (`NoFloor`), the final
tick leaves finite section bounds and their planes, whereas the direct selection leaves the
bounds `undefined` and installs the sentinel planes. -/
theorem selectFloor_animated_ends_as_direct (s : FloorSelector) (idx : Option ℤ)
    (hen : s.enabled = true) (hne : s._floors ≠ []) (hcur : idx ≠ s._currentFloor)
    (hbox : ∀ m ∈ s.viewer.modelQueue, ∃ x y : ℚ,
      (s.viewer.modelObjects m).boundingBox = ⟨JSNum.fin x, JSNum.fin y⟩)
    (hmin : ∀ z, s._floorSectionMin = some z → ∃ q : ℚ, z = JSNum.fin q)
    (hmax : ∀ z, s._floorSectionMax = some z → ∃ q : ℚ, z = JSNum.fin q) :
    ∃ anim, (s.selectFloor idx true).1._floorAnim = some anim ∧
      (s.selectFloor idx true).1.animIsRunning anim = true ∧
      (∀ f, floorAt s._floors idx = some f →
        ((s.selectFloor idx true).1.animTick anim (JSNum.fin 1))._floorSectionMin
          = (s.selectFloor idx false).1._floorSectionMin ∧
        ((s.selectFloor idx true).1.animTick anim (JSNum.fin 1))._floorSectionMax
          = (s.selectFloor idx false).1._floorSectionMax ∧
        ((s.selectFloor idx true).1.animTick anim (JSNum.fin 1)).viewer.cutPlaneSet
          = (s.selectFloor idx false).1.viewer.cutPlaneSet ∧
        (s.selectFloor idx false).1._floorSectionMin = some (JSNum.fin f.zMin) ∧
        (s.selectFloor idx false).1._floorSectionMax = some (JSNum.fin f.zMax) ∧
        (s.selectFloor idx false).1.viewer.cutPlaneSet
          = some (sectionPlanes (JSNum.fin f.zMin) (JSNum.fin f.zMax))) ∧
      (floorAt s._floors idx = none →
        (∃ lo hi : ℚ,
          ((s.selectFloor idx true).1.animTick anim (JSNum.fin 1))._floorSectionMin
            = some (JSNum.fin lo) ∧
          ((s.selectFloor idx true).1.animTick anim (JSNum.fin 1))._floorSectionMax
            = some (JSNum.fin hi) ∧
          ((s.selectFloor idx true).1.animTick anim (JSNum.fin 1)).viewer.cutPlaneSet
            = some (sectionPlanes (JSNum.fin lo) (JSNum.fin hi))) ∧
        (s.selectFloor idx false).1._floorSectionMin = none ∧
        (s.selectFloor idx false).1._floorSectionMax = none ∧
        (s.selectFloor idx false).1.viewer.cutPlaneSet
          = some (sectionPlanes MinZLimit MaxZLimit)) := by
  have hvalid := floorSelectionValid_of_ne s idx hne hcur
  obtain ⟨anim, a, b, c, d, k1, k2, k3, k4, _⟩ := _moveToFloor_anim s idx hbox hmin hmax
  obtain ⟨-, -, a3, -, a5, a6⟩ := selectFloor_valid_frame s idx true hvalid
  obtain ⟨b1, b2, -, b4, -, -⟩ := selectFloor_valid_frame s idx false hvalid
  simp only [if_true] at a3 a5 a6
  simp only [Bool.false_eq_true, if_false] at b1 b2 b4
  have hen2 : (s.selectFloor idx true).1.enabled = true := by rw [a6, k3]; exact hen
  have hget : (s.selectFloor idx true).1.viewer.anims.get? anim = some ⟨JSNum.fin 0, JSNum.fin 1,
      AnimCallbacks.moveToFloor (JSNum.fin a) (JSNum.fin b) (JSNum.fin c) (JSNum.fin d), true⟩ := by
    rw [a5]; exact k2
  obtain ⟨e1, e2, e3⟩ := animTick_final _ anim a b c d _ _ hen2 hget
  obtain ⟨-, -, -, -, -, d6, d7⟩ := _selectFloor_fields s idx
  have d8 := _selectFloor_cutPlaneSet s idx hen
  refine ⟨anim, a3.trans k1, ?_, ?_, ?_⟩
  · unfold animIsRunning
    rw [hget]
  · intro f hf
    obtain ⟨hc, hd⟩ := k4 f hf
    rw [hf] at d6 d7 d8
    rw [e1, e2, e3, b1, b2, b4, d6, d7, d8, hc, hd]
    exact ⟨rfl, rfl, rfl, rfl, rfl, rfl⟩
  · intro hf
    rw [hf] at d6 d7 d8
    exact ⟨⟨c, d, e1, e2, e3⟩, b1.trans d6, b2.trans d7, b4.trans d8⟩

/-- Witness of `selectFloor_animated_ends_as_direct`: the example selector and floor 1. -/
theorem selectFloor_animated_ends_as_direct_witness :
    (exSelector.enabled = true ∧ exSelector._floors ≠ [] ∧
     exSelector.viewer.modelQueue = [0] ∧
     exSelector._floorSectionMin = none ∧ exSelector._floorSectionMax = none) ∧
    ∃ anim, (exSelector.selectFloor (some 1) true).1._floorAnim = some anim ∧
      ((exSelector.selectFloor (some 1) true).1.animTick anim (JSNum.fin 1)).viewer.cutPlaneSet
        = some (sectionPlanes (JSNum.fin 3) (JSNum.fin 6)) :=
  ⟨⟨by decide!, by decide!, by decide!, by decide!, by decide!⟩,
   (selectFloor_animated_ends_as_direct exSelector (some 1) (by decide!) (by decide!)
      (by decide!) (fun _ _ => ⟨0, 6, rfl⟩)
      (fun z h => by
        have h0 : exSelector._floorSectionMin = none := by decide!
        rw [h0] at h
        cases h)
      (fun z h => by
        have h0 : exSelector._floorSectionMax = none := by decide!
        rw [h0] at h
        cases h)).imp
    (fun anim h => ⟨h.1, ((h.2.2.1 ⟨1, "guid-b", "Level 2", 3, 6, false⟩ (by decide!)).2.2.1).trans
      (h.2.2.1 ⟨1, "guid-b", "Level 2", 3, 6, false⟩ (by decide!)).2.2.2.2.2⟩)⟩

/-- C30 (counterexample): on the example selector with floor 0 selected (model z-range
`[0, 6]`), `selectFloor(NoFloor, true)` run to its final tick leaves the section `[0, 6]` and
the planes of that range, while `selectFloor(NoFloor, false)` leaves the section `undefined`
and installs the sentinel planes; the state is the same once the animation has completed. -/
theorem selectFloor_NoFloor_animated_ends_at_model_range :
    exSelected0.enabled = true ∧ exSelected0._currentFloor = some 0 ∧
    exMovingNoFloor._floorAnim = some 0 ∧
    (exMovingNoFloor.animTick 0 (JSNum.fin 1))._floorSectionMin = some (JSNum.fin 0) ∧
    (exMovingNoFloor.animTick 0 (JSNum.fin 1))._floorSectionMax = some (JSNum.fin 6) ∧
    (exMovingNoFloor.animTick 0 (JSNum.fin 1)).viewer.cutPlaneSet
      = some (sectionPlanes (JSNum.fin 0) (JSNum.fin 6)) ∧
    exMovedNoFloor._floorSectionMin = some (JSNum.fin 0) ∧
    exMovedNoFloor._floorSectionMax = some (JSNum.fin 6) ∧
    exMovedNoFloor.viewer.cutPlaneSet = some (sectionPlanes (JSNum.fin 0) (JSNum.fin 6)) ∧
    (exSelected0.selectFloor NoFloor false).1._floorSectionMin = none ∧
    (exSelected0.selectFloor NoFloor false).1._floorSectionMax = none ∧
    (exSelected0.selectFloor NoFloor false).1.viewer.cutPlaneSet
      = some (sectionPlanes MinZLimit MaxZLimit) ∧
    sectionPlanes (JSNum.fin 0) (JSNum.fin 6) ≠ sectionPlanes MinZLimit MaxZLimit := by
  refine ⟨?_, ?_, ?_, ?_, ?_, ?_, ?_, ?_, ?_, ?_, ?_, ?_, ?_⟩ <;> decide!

end FloorSelector

/-! ### Deriving the floors from the level data -/

theorem JSNum.lt_of_lt_fin_of_le (a : JSNum) (x y : ℚ) (h : JSNum.lt a (JSNum.fin x) = true)
    (hxy : x ≤ y) : JSNum.lt a (JSNum.fin y) = true := by
  cases a with
  | fin q =>
    simp only [JSNum.lt, decide_eq_true_eq] at h ⊢
    exact lt_of_lt_of_le h hxy
  | posInf => simp [JSNum.lt] at h
  | negInf => simp [JSNum.lt]
  | nan => simp [JSNum.lt] at h

theorem JSNum.lt_of_lt_fin_of_fin_le (a b : JSNum) (x : ℚ) (h : JSNum.lt a (JSNum.fin x) = true)
    (hb : JSNum.le (JSNum.fin x) b = true) : JSNum.lt a b = true := by
  cases b with
  | fin y =>
    simp only [JSNum.le, decide_eq_true_eq] at hb
    exact JSNum.lt_of_lt_fin_of_le a x y h hb
  | posInf =>
    cases a with
    | fin q => simp [JSNum.lt]
    | posInf => simp [JSNum.lt] at h
    | negInf => simp [JSNum.lt]
    | nan => simp [JSNum.lt] at h
  | negInf => simp [JSNum.le] at hb
  | nan => simp [JSNum.le] at hb

/-- The level the loop of `aecModelDataToLevels` pushes for the element `l` at `index`. -/
theorem aecLevelsLoop_eq (all : List AecLevel) (suffix : List AecLevel) (index : ℕ)
    (levels : List Level) (hl : levels.length = index) :
    aecLevelsLoop all suffix index levels = levels ++
      (suffix.enumFrom index).map (fun p =>
        ({ index := (p.1 : ℤ), guid := p.2.guid, name := p.2.name,
           zMin := JSNum.sub64 (JSNum.fin (getProjectElevation p.2)) zOffsetHack,
           zMax :=
            if p.1 + 1 < all.length then
              JSNum.fin (getProjectElevation (all.getD (p.1 + 1) p.2))
            else JSNum.add64 (JSNum.fin (getProjectElevation (all.getD (all.length - 1) p.2)))
              (JSNum.fin (all.getD (all.length - 1) p.2).height),
           isArtificialLevel := none } : Level)) := by
  induction suffix generalizing index levels with
  | nil => simp [aecLevelsLoop]
  | cons l rest ih =>
    unfold aecLevelsLoop
    simp only []
    rw [ih (index + 1) _ (by simp [hl])]
    simp [List.enumFrom, hl]

theorem aecLevelsLoop_get? (all : List AecLevel) (i : ℕ) (l : AecLevel)
    (h : all.get? i = some l) :
    (aecLevelsLoop all all 0 []).length = all.length ∧
    (aecLevelsLoop all all 0 []).get? i =
      some { index := (i : ℤ), guid := l.guid, name := l.name,
             zMin := JSNum.sub64 (JSNum.fin (getProjectElevation l)) zOffsetHack,
             zMax := ((all.get? (i + 1)).map (fun next => JSNum.fin (getProjectElevation next))).getD
               (JSNum.add64 (JSNum.fin (getProjectElevation l)) (JSNum.fin l.height)),
             isArtificialLevel := none } := by
  rw [aecLevelsLoop_eq all all 0 [] rfl]
  have hi : i < all.length := by
    rw [List.get?_eq_getElem?] at h
    exact (List.getElem?_eq_some_iff.mp h).1
  have hli : all[i] = l := by
    rw [List.get?_eq_getElem?] at h
    exact (List.getElem?_eq_some_iff.mp h).2
  refine ⟨by simp, ?_⟩
  simp only [List.nil_append, List.get?_eq_getElem?, List.getElem?_map, List.getElem?_enumFrom,
    zero_add]
  rw [List.getElem?_eq_getElem hi, hli]
  simp only [Option.map_some']
  by_cases hn : i + 1 < all.length
  · rw [List.getElem?_eq_getElem hn]
    simp [hn, List.getD_eq_getElem?_getD, List.getElem?_eq_getElem hn]
  · have hlast : all.length - 1 = i := by omega
    rw [List.getElem?_eq_none (by omega)]
    simp [hn, hlast, List.getD_eq_getElem?_getD, List.getElem?_eq_getElem hi, hli]

/-- C22: level derivation without transforms.  `aecModelDataToLevels` keeps the levels that
are building stories, in input order (a level is dropped exactly when its extension has an
own property `buildingStory` that is falsy), and returns one `Level` per kept level: at
position `i` the level with index `i`, the guid and name of the kept level, `zMin` its
project elevation minus `1/12` (the subtraction of doubles, `1/12` being the double
`6004799503160661 / 2 ^ 56`), and `zMax` the project elevation of the next kept level, or for
the last kept level its own project elevation plus its height (the sum of doubles).  The
project elevation is `extension.projectElevation` when that property exists, else
`elevation`. -/
theorem aecModelDataToLevels_without_transforms (data : AecModelData)
    (href : data.refPointTransformation = none) :
    (data.levels.filter isBuildingStory).Sublist data.levels ∧
    (∀ l ∈ data.levels, l ∉ data.levels.filter isBuildingStory ↔
      ∃ ext v, l.extension = some ext ∧ ext.buildingStory = some v ∧ v.truthy = false) ∧
    (aecModelDataToLevels data none none).length = (data.levels.filter isBuildingStory).length ∧
    (∀ i l, (data.levels.filter isBuildingStory).get? i = some l →
      (aecModelDataToLevels data none none).get? i =
        some { index := (i : ℤ), guid := l.guid, name := l.name,
               zMin := JSNum.sub64 (JSNum.fin (getProjectElevation l)) zOffsetHack,
               zMax := (((data.levels.filter isBuildingStory).get? (i + 1)).map
                  (fun next => JSNum.fin (getProjectElevation next))).getD
                    (JSNum.add64 (JSNum.fin (getProjectElevation l)) (JSNum.fin l.height)),
               isArtificialLevel := none }) ∧
    (∀ l, getProjectElevation l =
      (l.extension.bind (fun ext => ext.projectElevation)).getD l.elevation) ∧
    zOffsetHack = JSNum.fin (6004799503160661 / 2 ^ 56) := by
  have hr : aecModelDataToLevels data none none =
      aecLevelsLoop (data.levels.filter isBuildingStory) (data.levels.filter isBuildingStory) 0 [] := by
    simp [aecModelDataToLevels, href, transformLevels]
  refine ⟨List.filter_sublist _, ?_, ?_, ?_, ?_, by decide!⟩
  · intro l hl
    rw [List.mem_filter]
    simp only [hl, true_and]
    unfold isBuildingStory
    cases l.extension with
    | none => simp
    | some ext =>
      cases hb : ext.buildingStory with
      | none => simp [hb]
      | some v => simp [hb]
  · rw [hr, aecLevelsLoop_eq _ _ 0 [] rfl]
    simp
  · intro i l h
    rw [hr]
    exact (aecLevelsLoop_get? _ i l h).2
  · intro l
    unfold getProjectElevation
    cases l.extension with
    | none => rfl
    | some ext =>
      cases hp : ext.projectElevation <;> simp [hp]

/-- Witness of `aecModelDataToLevels_without_transforms`: the three example levels, of which
the second is not a building story. -/
theorem aecModelDataToLevels_without_transforms_witness :
    exAecModelData.refPointTransformation = none ∧
    aecModelDataToLevels exAecModelData none none =
      [ ⟨0, "g0", "Ground", JSNum.fin (-6004799503160661 / 2 ^ 56), JSNum.fin 3, none⟩,
        ⟨1, "g2", "Top", JSNum.fin (6567749456581973 / 2 ^ 51), JSNum.fin 7, none⟩ ] ∧
    (aecModelDataToLevels exAecModelData none none).get? 1 =
      some ⟨1, "g2", "Top", JSNum.fin (6567749456581973 / 2 ^ 51), JSNum.fin 7, none⟩ :=
  ⟨rfl, by decide!,
   ((aecModelDataToLevels_without_transforms exAecModelData rfl).2.2.2.1 1
      ⟨"g2", "Top", 3, 4, none⟩ (by decide!)).trans (by decide!)⟩

/-! ### Rounding to doubles -/

/-- Values of `roundDouble`: the doubles nearest to `1/12` and `1/10`; ties go to the even
significand; half of the smallest positive double goes to 0; the largest double is
`2 ^ 1024 - 2 ^ 971`, and from `2 ^ 1024 - 2 ^ 970` on the result is infinite. -/
theorem roundDouble_values :
    roundDouble (1 / 12) = JSNum.fin (6004799503160661 / 2 ^ 56) ∧
    roundDouble (1 / 10) = JSNum.fin (3602879701896397 / 2 ^ 55) ∧
    roundDouble 9007199254740993 = JSNum.fin 9007199254740992 ∧
    roundDouble 9007199254740995 = JSNum.fin 9007199254740996 ∧
    roundDouble (-9007199254740993) = JSNum.fin (-9007199254740992) ∧
    roundDouble (mkRat 1 (2 ^ 1075)) = JSNum.fin 0 ∧
    roundDouble (mkRat 3 (2 ^ 1075)) = JSNum.fin (mkRat 1 (2 ^ 1073)) ∧
    roundDouble (mkRat (2 ^ 1024 - 2 ^ 970 - 1) 1) = JSNum.fin (mkRat (2 ^ 1024 - 2 ^ 971) 1) ∧
    roundDouble (mkRat (2 ^ 1024 - 2 ^ 970) 1) = JSNum.posInf ∧
    roundDouble (mkRat (-(2 ^ 1024)) 1) = JSNum.negInf := by
  refine ⟨by decide!, by decide!, by decide!, by decide!, by decide!, by decide!, by decide!,
    by decide!, by decide!, by decide!⟩

theorem leadingBit_spec (fuel n : ℕ) (h1 : 1 ≤ n) (hf : n ≤ fuel) :
    2 ^ leadingBit fuel n ≤ n ∧ n < 2 ^ (leadingBit fuel n + 1) := by
  induction fuel generalizing n with
  | zero => omega
  | succ f ih =>
    unfold leadingBit
    by_cases h2 : n < 2
    · have : n = 1 := by omega
      subst this
      simp
    · simp only [h2, if_false]
      have hn2 : 1 ≤ n / 2 := by omega
      have hf2 : n / 2 ≤ f := by omega
      obtain ⟨k1, k2⟩ := ih (n / 2) hn2 hf2
      constructor
      · calc 2 ^ (leadingBit f (n / 2) + 1) = 2 ^ leadingBit f (n / 2) * 2 := by ring
          _ ≤ n / 2 * 2 := Nat.mul_le_mul_right 2 k1
          _ ≤ n := Nat.div_mul_le_self n 2
      · have : n < 2 * 2 ^ (leadingBit f (n / 2) + 1) := by omega
        calc n < 2 * 2 ^ (leadingBit f (n / 2) + 1) := this
          _ = 2 ^ (leadingBit f (n / 2) + 1 + 1) := by ring

theorem two_zpow_eq (z : ℤ) : (2 : ℚ) ^ z = (2 : ℚ) ^ z.toNat / (2 : ℚ) ^ (-z).toNat := by
  rcases le_total 0 z with h | h
  · have h2 : (-z).toNat = 0 := by omega
    rw [h2, pow_zero, div_one]
    conv_lhs => rw [← Int.toNat_of_nonneg h]
    rw [zpow_natCast]
  · have h2 : z.toNat = 0 := by omega
    rw [h2, pow_zero, one_div]
    have h3 : z = -((-z).toNat : ℤ) := by omega
    conv_lhs => rw [h3]
    rw [zpow_neg, zpow_natCast]

/-- The binary exponent is exact: `2 ^ e ≤ n / d < 2 ^ (e + 1)`. -/
theorem binaryExponent_spec (n d : ℕ) (hn : 1 ≤ n) (hd : 1 ≤ d) :
    (2 : ℚ) ^ binaryExponent n d ≤ (n : ℚ) / d ∧
    (n : ℚ) / d < (2 : ℚ) ^ (binaryExponent n d + 1) := by
  obtain ⟨n1, n2⟩ := leadingBit_spec n n hn le_rfl
  obtain ⟨d1, d2⟩ := leadingBit_spec d d hd le_rfl
  have hdq : (0 : ℚ) < d := by exact_mod_cast hd
  have hnq : (0 : ℚ) < n := by exact_mod_cast hn
  have n1q : (2 : ℚ) ^ (leadingBit n n : ℤ) ≤ n := by
    rw [zpow_natCast]; exact_mod_cast n1
  have n2q : (n : ℚ) < (2 : ℚ) ^ ((leadingBit n n : ℤ) + 1) := by
    have : (n : ℚ) < (2 : ℚ) ^ (leadingBit n n + 1) := by exact_mod_cast n2
    rw [show ((leadingBit n n : ℤ) + 1) = ((leadingBit n n + 1 : ℕ) : ℤ) by push_cast; ring,
      zpow_natCast]
    exact this
  have d1q : (2 : ℚ) ^ (leadingBit d d : ℤ) ≤ d := by
    rw [zpow_natCast]; exact_mod_cast d1
  have d2q : (d : ℚ) < (2 : ℚ) ^ ((leadingBit d d : ℤ) + 1) := by
    have : (d : ℚ) < (2 : ℚ) ^ (leadingBit d d + 1) := by exact_mod_cast d2
    rw [show ((leadingBit d d : ℤ) + 1) = ((leadingBit d d + 1 : ℕ) : ℤ) by push_cast; ring,
      zpow_natCast]
    exact this
  have h2 : (0 : ℚ) < 2 := by norm_num
  unfold binaryExponent
  simp only []
  generalize he0 : ((leadingBit n n : ℤ) - (leadingBit d d : ℤ)) = e0
  have hcond : (d * 2 ^ e0.toNat ≤ n * 2 ^ (-e0).toNat) ↔ (2 : ℚ) ^ e0 ≤ (n : ℚ) / d := by
    rw [two_zpow_eq e0, div_le_div_iff₀ (by positivity) hdq]
    constructor
    · intro h
      have : ((d * 2 ^ e0.toNat : ℕ) : ℚ) ≤ ((n * 2 ^ (-e0).toNat : ℕ) : ℚ) := by exact_mod_cast h
      push_cast at this
      linarith
    · intro h
      have : ((d * 2 ^ e0.toNat : ℕ) : ℚ) ≤ ((n * 2 ^ (-e0).toNat : ℕ) : ℚ) := by
        push_cast
        linarith
      exact_mod_cast this
  by_cases hc : d * 2 ^ e0.toNat ≤ n * 2 ^ (-e0).toNat
  · simp only [hc, if_true]
    refine ⟨hcond.mp hc, ?_⟩
    -- n / d < 2 ^ (lb n + 1) / 2 ^ lb d = 2 ^ (e0 + 1)
    have : (2 : ℚ) ^ (e0 + 1) = (2 : ℚ) ^ ((leadingBit n n : ℤ) + 1) / (2 : ℚ) ^ (leadingBit d d : ℤ) := by
      rw [← zpow_sub₀ (by norm_num : (2 : ℚ) ≠ 0), ← he0]
      congr 1
      ring
    rw [this, div_lt_div_iff₀ hdq (by positivity)]
    calc (n : ℚ) * 2 ^ (leadingBit d d : ℤ) ≤ n * d := by
          apply mul_le_mul_of_nonneg_left d1q hnq.le
      _ < 2 ^ ((leadingBit n n : ℤ) + 1) * d := by
          apply mul_lt_mul_of_pos_right n2q hdq
  · simp only [hc, if_false]
    have hlt : (n : ℚ) / d < (2 : ℚ) ^ e0 := by
      by_contra h
      exact hc (hcond.mpr (not_lt.mp h))
    refine ⟨?_, by rw [sub_add_cancel]; exact hlt⟩
    have : (2 : ℚ) ^ (e0 - 1) = (2 : ℚ) ^ (leadingBit n n : ℤ) / (2 : ℚ) ^ ((leadingBit d d : ℤ) + 1) := by
      rw [← zpow_sub₀ (by norm_num : (2 : ℚ) ≠ 0), ← he0]
      congr 1
      ring
    rw [this, div_le_div_iff₀ (by positivity) hdq]
    calc (2 : ℚ) ^ (leadingBit n n : ℤ) * d ≤ n * d := by
          apply mul_le_mul_of_nonneg_right n1q hdq.le
      _ ≤ n * 2 ^ ((leadingBit d d : ℤ) + 1) := by
          apply mul_le_mul_of_nonneg_left d2q.le hnq.le

theorem roundHalfEven_error (n d : ℕ) (hd : 1 ≤ d) :
    |((roundHalfEven n d : ℕ) : ℚ) - (n : ℚ) / d| ≤ 1 / 2 := by
  have hdq : (0 : ℚ) < d := by exact_mod_cast hd
  have hdiv : (n : ℚ) / d = (n / d : ℕ) + ((n % d : ℕ) : ℚ) / d := by
    have h := Nat.div_add_mod n d
    have : (n : ℚ) = (d : ℚ) * (n / d : ℕ) + (n % d : ℕ) := by exact_mod_cast h.symm
    rw [this]
    field_simp
    ring
  have hr : n % d < d := Nat.mod_lt n hd
  have hrq : ((n % d : ℕ) : ℚ) < d := by exact_mod_cast hr
  have hr0 : (0 : ℚ) ≤ ((n % d : ℕ) : ℚ) := by positivity
  generalize hR : ((n % d : ℕ) : ℚ) / d = R at hdiv
  have hR0 : 0 ≤ R := by rw [← hR]; positivity
  unfold roundHalfEven
  simp only []
  by_cases c1 : 2 * (n % d) < d
  · simp only [c1, if_true]
    have : R < 1 / 2 := by
      rw [← hR, div_lt_iff₀ hdq]
      have : ((2 * (n % d) : ℕ) : ℚ) < d := by exact_mod_cast c1
      push_cast at this
      linarith
    rw [hdiv, abs_le]
    constructor <;> linarith
  · simp only [c1, if_false]
    by_cases c2 : d < 2 * (n % d)
    · simp only [c2, if_true]
      have h1 : 1 / 2 < R := by
        rw [← hR, lt_div_iff₀ hdq]
        have : (d : ℚ) < ((2 * (n % d) : ℕ) : ℚ) := by exact_mod_cast c2
        push_cast at this
        linarith
      have h2 : R < 1 := by
        rw [← hR, div_lt_one hdq]
        exact hrq
      rw [hdiv, abs_le]
      push_cast
      constructor <;> linarith
    · simp only [c2, if_false]
      have heq : 2 * (n % d) = d := by omega
      have h1 : R = 1 / 2 := by
        rw [← hR, div_eq_iff hdq.ne']
        have : ((2 * (n % d) : ℕ) : ℚ) = d := by exact_mod_cast heq
        push_cast at this
        linarith
      split
      · rw [hdiv, abs_le]
        constructor <;> linarith
      · rw [hdiv, abs_le]
        push_cast
        constructor <;> linarith

theorem rat_abs_eq (q : ℚ) : |q| = (q.num.natAbs : ℚ) / (q.den : ℚ) := by
  rw [Rat.abs_def, Rat.divInt_eq_div]
  push_cast
  rw [Nat.cast_natAbs]
  push_cast
  rfl

theorem binaryExponent_zero_le (d : ℕ) : binaryExponent 0 d ≤ 0 := by
  unfold binaryExponent
  simp only []
  have h0 : leadingBit 0 0 = 0 := rfl
  rw [h0]
  split <;> omega

/-- Below `2 ^ 49` the rounding to a double is finite and off by at most `1 / 32`. -/
theorem roundDouble_error (q : ℚ) (hq : |q| < 2 ^ 49) :
    ∃ r : ℚ, roundDouble q = JSNum.fin r ∧ |r - q| ≤ 1 / 32 := by
  have hd : 1 ≤ q.den := q.den_pos
  have hdq : (0 : ℚ) < q.den := by exact_mod_cast hd
  have habs := rat_abs_eq q
  generalize hn : q.num.natAbs = n at habs
  generalize hdd : q.den = d at habs hd hdq
  -- the exponent is at most 48, and `n / d < 2 ^ (e + 1)`
  have hnd : (n : ℚ) / d < 2 ^ 49 := by rw [← habs]; exact hq
  have he : binaryExponent n d ≤ 48 ∧ (n : ℚ) / d < (2 : ℚ) ^ (binaryExponent n d + 1) := by
    rcases Nat.eq_zero_or_pos n with h0 | hpos
    · subst h0
      refine ⟨le_trans (binaryExponent_zero_le d) (by norm_num), ?_⟩
      simp only [Nat.cast_zero, zero_div]
      positivity
    · obtain ⟨s1, s2⟩ := binaryExponent_spec n d hpos hd
      refine ⟨?_, s2⟩
      have : (2 : ℚ) ^ binaryExponent n d < (2 : ℚ) ^ (49 : ℤ) := by
        have h49 : (2 : ℚ) ^ (49 : ℤ) = 2 ^ 49 := by norm_num
        rw [h49]
        exact lt_of_le_of_lt s1 hnd
      have := (zpow_lt_zpow_iff_right₀ (by norm_num : (1 : ℚ) < 2)).mp this
      omega
  obtain ⟨he1, he2⟩ := he
  unfold roundDouble
  simp only [hn, hdd]
  generalize binaryExponent n d = e at he1 he2
  generalize hu : max (e - 52) (-1074) = u
  have hu4 : u ≤ -4 := by omega
  have hue : e - 52 ≤ u := by omega
  have hut : u.toNat = 0 := by omega
  obtain ⟨k, hk⟩ : ∃ k : ℕ, (-u).toNat = k := ⟨_, rfl⟩
  have hku : (k : ℤ) = -u := by omega
  have hk4 : 4 ≤ k := by omega
  rw [hut, hk]
  simp only [pow_zero, mul_one]
  -- the rounded significand
  have herr := roundHalfEven_error (n * 2 ^ k) d hd
  generalize roundHalfEven (n * 2 ^ k) d = m at herr
  have hscaled : ((n * 2 ^ k : ℕ) : ℚ) / d = (n : ℚ) / d * 2 ^ k := by
    push_cast
    ring
  rw [hscaled] at herr
  have h2k : (0 : ℚ) < 2 ^ k := by positivity
  have hlt53 : (n : ℚ) / d * 2 ^ k < 2 ^ 53 := by
    have h1 : (n : ℚ) / d * 2 ^ k < (2 : ℚ) ^ (e + 1) * 2 ^ k :=
      mul_lt_mul_of_pos_right he2 h2k
    have h2 : (2 : ℚ) ^ (e + 1) * 2 ^ k = (2 : ℚ) ^ (e + 1 + (k : ℤ)) := by
      rw [zpow_add₀ (by norm_num : (2 : ℚ) ≠ 0) (e + 1) (k : ℤ), zpow_natCast]
    have h3 : (2 : ℚ) ^ (e + 1 + (k : ℤ)) ≤ (2 : ℚ) ^ (53 : ℤ) :=
      zpow_le_zpow_right₀ (by norm_num) (by omega)
    have h53 : (2 : ℚ) ^ (53 : ℤ) = 2 ^ 53 := by norm_num
    rw [h2] at h1
    rw [h53] at h3
    exact lt_of_lt_of_le h1 h3
  have hm : m < 2 ^ 1024 := by
    have h1 : (m : ℚ) ≤ (n : ℚ) / d * 2 ^ k + 1 / 2 := by
      have := (abs_le.mp herr).2
      linarith
    have h2 : (m : ℚ) < 2 ^ 53 + 1 := by linarith
    have h3 : m < 2 ^ 53 + 1 := by exact_mod_cast h2
    have h4 : (2 : ℕ) ^ 53 + 1 ≤ 2 ^ 1024 := by norm_num
    omega
  rw [if_neg (by omega)]
  have ha : mkRat (m : ℕ) (2 ^ k) = (m : ℚ) / 2 ^ k := by
    rw [Rat.mkRat_eq_div]
    push_cast
    rfl
  have hclose : |(m : ℚ) / 2 ^ k - (n : ℚ) / d| ≤ 1 / 32 := by
    have h1 : (m : ℚ) / 2 ^ k - (n : ℚ) / d = ((m : ℚ) - (n : ℚ) / d * 2 ^ k) / 2 ^ k := by
      field_simp
      ring
    rw [h1, abs_div, abs_of_pos h2k, div_le_iff₀ h2k]
    have h16 : (16 : ℚ) ≤ 2 ^ k := by
      have : (2 : ℚ) ^ 4 ≤ 2 ^ k := pow_le_pow_right₀ (by norm_num) hk4
      norm_num at this
      exact this
    calc |(m : ℚ) - (n : ℚ) / d * 2 ^ k| ≤ 1 / 2 := herr
      _ ≤ 1 / 32 * 2 ^ k := by linarith
  refine ⟨_, rfl, ?_⟩
  rw [ha]
  by_cases hneg : q < 0
  · simp only [hneg, if_true]
    have hq' : q = -((n : ℚ) / d) := by
      rw [← habs, abs_of_neg hneg, neg_neg]
    rw [hq']
    have : -((m : ℚ) / 2 ^ k) - -((n : ℚ) / d) = -((m : ℚ) / 2 ^ k - (n : ℚ) / d) := by ring
    rw [this, abs_neg]
    exact hclose
  · simp only [hneg, if_false]
    have hq' : q = (n : ℚ) / d := by
      rw [← habs, abs_of_nonneg (not_lt.mp hneg)]
    rw [hq']
    exact hclose

/-! ### The order of the bounds of a derived floor -/

theorem aecLevelsLoop_zMin_lt_zMax (kept : List AecLevel)
    (hsorted : kept.Pairwise (fun a b => getProjectElevation a ≤ getProjectElevation b))
    (hoffset : ∀ l ∈ kept,
      JSNum.lt (JSNum.sub64 (JSNum.fin (getProjectElevation l)) zOffsetHack)
        (JSNum.fin (getProjectElevation l)) = true)
    (hlast : ∀ l, kept.getLast? = some l →
      JSNum.lt (JSNum.sub64 (JSNum.fin (getProjectElevation l)) zOffsetHack)
        (JSNum.add64 (JSNum.fin (getProjectElevation l)) (JSNum.fin l.height)) = true) :
    ∀ f ∈ aecLevelsLoop kept kept 0 [], JSNum.lt f.zMin f.zMax = true := by
  intro f hf
  obtain ⟨i, hi, hfi⟩ := List.getElem_of_mem hf
  have hlen : (aecLevelsLoop kept kept 0 []).length = kept.length := by
    rw [aecLevelsLoop_eq kept kept 0 [] rfl]; simp
  have hik : i < kept.length := hlen ▸ hi
  have hget : kept.get? i = some kept[i] := by
    rw [List.get?_eq_getElem?, List.getElem?_eq_getElem hik]
  have h2 := (aecLevelsLoop_get? kept i kept[i] hget).2
  rw [List.get?_eq_getElem?, List.getElem?_eq_getElem hi, hfi] at h2
  have hf2 := Option.some.inj h2
  rw [hf2]
  simp only []
  by_cases hn : i + 1 < kept.length
  · have ho := hoffset kept[i] (List.getElem_mem hik)
    have hle : getProjectElevation kept[i] ≤ getProjectElevation kept[i + 1] :=
      (List.pairwise_iff_getElem.mp hsorted) i (i + 1) hik hn (Nat.lt_succ_self i)
    rw [List.get?_eq_getElem?, List.getElem?_eq_getElem hn]
    simp only [Option.map_some', Option.getD_some]
    exact JSNum.lt_of_lt_fin_of_le _ _ _ ho hle
  · have hl : kept.getLast? = some kept[i] := by
      rw [List.getLast?_eq_getElem?]
      have : kept.length - 1 = i := by omega
      rw [this, List.getElem?_eq_getElem hik]
    have hh := hlast _ hl
    rw [List.get?_eq_getElem?, List.getElem?_eq_none (by omega)]
    simp only [Option.map_none', Option.getD_none]
    exact hh

/-- Counterexample to C27 as stated: one building-story level with the elevation `2 ^ 53` and
the height 0, no transform.  The list is sorted and the height of the last level is not
negative, but the offset `1/12` is lost in the rounding of the subtraction, so the `Level`
returned has `zMin = zMax = 2 ^ 53`.  The same happens to the example levels when a placement
transform moves them up by `2 ^ 60`. -/
theorem aecModelDataToLevels_zMin_eq_zMax :
    (exAecModelDataLargeElevation.levels.filter isBuildingStory).Pairwise
      (fun a b => getProjectElevation a ≤ getProjectElevation b) ∧
    (∀ l, (exAecModelDataLargeElevation.levels.filter isBuildingStory).getLast? = some l →
      0 ≤ l.height) ∧
    exAecModelDataLargeElevation.refPointTransformation = none ∧
    aecModelDataToLevels exAecModelDataLargeElevation none none =
      [ ⟨0, "g0", "Ground", JSNum.fin 9007199254740992, JSNum.fin 9007199254740992, none⟩ ] ∧
    (∃ f ∈ aecModelDataToLevels exAecModelDataLargeElevation none none,
      JSNum.lt f.zMin f.zMax = false) ∧
    aecModelDataToLevels exAecModelData (some ⟨1, 1152921504606846976⟩) none =
      [ ⟨0, "g0", "Ground", JSNum.fin 1152921504606846976, JSNum.fin 1152921504606846976, none⟩,
        ⟨1, "g2", "Top", JSNum.fin 1152921504606846976, JSNum.fin 1152921504606846976, none⟩ ] := by
  refine ⟨by decide!, by decide!, rfl, by decide!, ⟨_, List.mem_singleton.mpr rfl, ?_⟩, by decide!⟩
  all_goals decide!

/-- Below `2 ^ 47` in magnitude the double subtraction of `zOffsetHack` gives a number that is
more than `1 / 32` below the minuend. -/
theorem sub64_zOffsetHack_le (x : ℚ) (h1 : -(2 ^ 47) ≤ x) (h2 : x ≤ 2 ^ 47) :
    ∃ r : ℚ, JSNum.sub64 (JSNum.fin x) zOffsetHack = JSNum.fin r ∧ r < x - 1 / 32 := by
  have hz : zOffsetHack = JSNum.fin (6004799503160661 / 2 ^ 56) := by decide!
  have hc : (1 : ℚ) / 16 < 6004799503160661 / 2 ^ 56 ∧ (6004799503160661 : ℚ) / 2 ^ 56 < 1 := by
    constructor <;> norm_num
  have hb : |x + -(6004799503160661 / 2 ^ 56)| < 2 ^ 49 := by
    rw [abs_lt]
    constructor <;> norm_num at h1 h2 ⊢ <;> linarith
  obtain ⟨r, hr, herr⟩ := roundDouble_error _ hb
  refine ⟨r, ?_, ?_⟩
  · rw [hz]
    exact hr
  · have := (abs_le.mp herr).2
    linarith [hc.1]

/-- Below `2 ^ 47` in magnitude the double sum is at most `1 / 32` below the exact sum. -/
theorem add64_ge (x h : ℚ) (h1 : -(2 ^ 47) ≤ x) (h2 : x ≤ 2 ^ 47) (h3 : 0 ≤ h) (h4 : h ≤ 2 ^ 47) :
    ∃ r : ℚ, JSNum.add64 (JSNum.fin x) (JSNum.fin h) = JSNum.fin r ∧ x + h - 1 / 32 ≤ r := by
  have hb : |x + h| < 2 ^ 49 := by
    rw [abs_lt]
    constructor <;> norm_num at h1 h2 h4 ⊢ <;> linarith
  obtain ⟨r, hr, herr⟩ := roundDouble_error _ hb
  refine ⟨r, hr, ?_⟩
  have := (abs_le.mp herr).1
  linarith

/-- C27 (amended): derived floors satisfy `zMin < zMax` for elevations of magnitude up to
`2 ^ 47`.  When no transform is applied, the building-story levels are sorted by
non-decreasing project elevation, each project elevation lies in `[-2 ^ 47, 2 ^ 47]`, and the
height of the last building-story level lies in `[0, 2 ^ 47]`, every `Level` returned by
`aecModelDataToLevels` has `zMin < zMax`: in this range the rounding of a double operation
is off by at most `1 / 32`, less than half of the offset `1/12`. -/
theorem aecModelDataToLevels_zMin_lt_zMax (data : AecModelData)
    (href : data.refPointTransformation = none)
    (hsorted : (data.levels.filter isBuildingStory).Pairwise
      (fun a b => getProjectElevation a ≤ getProjectElevation b))
    (hrange : ∀ l ∈ data.levels.filter isBuildingStory,
      -(2 ^ 47) ≤ getProjectElevation l ∧ getProjectElevation l ≤ 2 ^ 47)
    (hlast : ∀ l, (data.levels.filter isBuildingStory).getLast? = some l →
      0 ≤ l.height ∧ l.height ≤ 2 ^ 47) :
    ∀ f ∈ aecModelDataToLevels data none none, JSNum.lt f.zMin f.zMax = true := by
  have hr : aecModelDataToLevels data none none =
      aecLevelsLoop (data.levels.filter isBuildingStory) (data.levels.filter isBuildingStory) 0 [] := by
    simp [aecModelDataToLevels, href, transformLevels]
  rw [hr]
  apply aecLevelsLoop_zMin_lt_zMax _ hsorted
  · intro l hl
    obtain ⟨b1, b2⟩ := hrange l hl
    obtain ⟨r, hr1, hr2⟩ := sub64_zOffsetHack_le _ b1 b2
    rw [hr1]
    simp only [JSNum.lt, decide_eq_true_eq]
    linarith
  · intro l hl
    obtain ⟨b1, b2⟩ := hrange l (List.mem_of_mem_getLast? hl)
    obtain ⟨b3, b4⟩ := hlast l hl
    obtain ⟨r, hr1, hr2⟩ := sub64_zOffsetHack_le _ b1 b2
    obtain ⟨t, ht1, ht2⟩ := add64_ge _ _ b1 b2 b3 b4
    rw [hr1, ht1]
    simp only [JSNum.lt, decide_eq_true_eq]
    linarith

/-- Witness of `aecModelDataToLevels_zMin_lt_zMax`: the example levels. -/
theorem aecModelDataToLevels_zMin_lt_zMax_witness :
    aecModelDataToLevels exAecModelData none none =
      [ ⟨0, "g0", "Ground", JSNum.fin (-6004799503160661 / 2 ^ 56), JSNum.fin 3, none⟩,
        ⟨1, "g2", "Top", JSNum.fin (6567749456581973 / 2 ^ 51), JSNum.fin 7, none⟩ ] ∧
    ∀ f ∈ aecModelDataToLevels exAecModelData none none, JSNum.lt f.zMin f.zMax = true :=
  ⟨by decide!,
   aecModelDataToLevels_zMin_lt_zMax exAecModelData rfl (by decide!) (by decide!) (by decide!)⟩

/-! ### One live animation per kind -/

namespace FloorSelector

theorem sameAnims_refl (s : FloorSelector) : s.sameAnims s := ⟨rfl, rfl, rfl⟩

theorem sameAnims_trans {s t u : FloorSelector} (h1 : s.sameAnims t) (h2 : t.sameAnims u) :
    s.sameAnims u :=
  ⟨h2.1.trans h1.1, h2.2.1.trans h1.2.1, h2.2.2.trans h1.2.2⟩

theorem oneLiveAnimPerKind_of_sameAnims {s t : FloorSelector} (h : s.sameAnims t)
    (hs : s.oneLiveAnimPerKind) : t.oneLiveAnimPerKind := by
  obtain ⟨h1, h2, h3⟩ := h
  unfold oneLiveAnimPerKind
  rw [h1, h2, h3]
  exact hs

theorem sameAnims_emit (s : FloorSelector) (e : Effect) : s.sameAnims (s.emit e) :=
  ⟨rfl, rfl, rfl⟩

theorem sameAnims_applyFloorSection (s : FloorSelector) (a b : Option JSNum) :
    s.sameAnims (s._applyFloorSection a b) :=
  ⟨(_applyFloorSection_fields s a b).2.2.2.2.2.2.2.2.2,
   (_applyFloorSection_fields s a b).2.2.2.2.2.2.2.1,
   (_applyFloorSection_fields s a b).2.2.2.2.2.2.1⟩

theorem sameAnims_applySelectedFloorSection (s : FloorSelector) :
    s.sameAnims s._applySelectedFloorSection :=
  sameAnims_applyFloorSection s _ _

theorem sameAnims_setFloorSection (s : FloorSelector) (a b : Option JSNum) :
    s.sameAnims (s._setFloorSection a b) :=
  sameAnims_trans (t := { s with
    _floorSectionMin := if isNaN a then none else a,
    _floorSectionMax := if isNaN b then none else b }) ⟨rfl, rfl, rfl⟩
    (sameAnims_applySelectedFloorSection _)

theorem sameAnims_updateZLimits (s : FloorSelector) : s.sameAnims s._updateZLimits :=
  ⟨by rw [(_updateZLimits_fields s).2.2.2.2.2.2.2.2.2], (_updateZLimits_fields s).2.2.2.2.2.2.2.2.1,
   (_updateZLimits_fields s).2.2.2.2.2.2.2.1⟩

theorem sameAnims_clearFloorSection (s : FloorSelector) : s.sameAnims s._clearFloorSection :=
  sameAnims_trans (sameAnims_updateZLimits s) (sameAnims_applyFloorSection _ _ _)

theorem sameAnims_setAOVisible (s : FloorSelector) (b : Bool) : s.sameAnims (s._setAOVisible b) :=
  ⟨(_setAOVisible_fields s b).2.2.2.2.2.2.2.2.2, (_setAOVisible_fields s b).2.2.2.2.2.2.2.2.1,
   (_setAOVisible_fields s b).2.2.2.2.2.2.2.1⟩

theorem sameAnims_ite_emit (t : FloorSelector) (c : Bool) (e : Effect) :
    t.sameAnims (if c then t.emit e else t) := by
  cases c <;> exact ⟨rfl, rfl, rfl⟩

theorem sameAnims_setGhostFloorOpactiy (s : FloorSelector) (v : JSNum) :
    s.sameAnims (s._setGhostFloorOpactiy v) :=
  sameAnims_trans (sameAnims_ite_emit s s._getFadeExtension (Effect.setCrossFadeOpacity 1 v))
    ⟨rfl, rfl, rfl⟩

theorem sameAnims_setSpatialFilterForRollOver (s : FloorSelector) (idx : Option ℤ) :
    s.sameAnims (s._setSpatialFilterForRollOver idx) :=
  sameAnims_trans (sameAnims_trans (sameAnims_emit s _) (sameAnims_ite_emit _ _ _))
    ⟨rfl, rfl, rfl⟩

theorem sameAnims_rollOverFloor (s : FloorSelector) (idx : Option ℤ) :
    s.sameAnims (s.rollOverFloor idx) := by
  unfold rollOverFloor
  simp only []
  split
  · exact sameAnims_trans (sameAnims_setSpatialFilterForRollOver _ _) (sameAnims_emit _ _)
  · exact sameAnims_trans (sameAnims_trans (sameAnims_emit s _)
      (sameAnims_setSpatialFilterForRollOver _ _)) (sameAnims_emit _ _)

theorem sameAnims_leaveHoverMode (s : FloorSelector) : s.sameAnims s._leaveHoverMode := by
  unfold _leaveHoverMode
  split
  · exact sameAnims_refl s
  · exact sameAnims_trans (sameAnims_trans (t := ((s.emit (Effect.releaseFadingImage 0)).emit
      (Effect.releaseFadingImage 1)).emit (Effect.setModelTargetIndexForAll none))
      ⟨rfl, rfl, rfl⟩ (sameAnims_applySelectedFloorSection _)) (sameAnims_setAOVisible _ _)

theorem sameAnims_updateCutPlanes (s : FloorSelector) (a b c d u : JSNum) :
    s.sameAnims (s.updateCutPlanes a b c d u) := by
  unfold updateCutPlanes
  exact sameAnims_trans (sameAnims_setFloorSection s _ _) ⟨rfl, rfl, rfl⟩

theorem sameAnims_runFloorSelectorFilter (s : FloorSelector) :
    s.sameAnims s._runFloorSelectorFilter.1 := by
  obtain ⟨F, hF, hv⟩ := _runFloorSelectorFilter_frame s
  rw [hF]
  unfold Viewer.sameButLog at hv
  refine ⟨?_, rfl, rfl⟩
  show F._viewer.anims = s.viewer.anims
  rw [hv]

theorem sameAnims_animOnTimer (s : FloorSelector) (cb : AnimCallbacks) (v : JSNum) :
    s.sameAnims (s.animOnTimer cb v) := by
  unfold animOnTimer
  cases cb with
  | fadeIn => exact sameAnims_setGhostFloorOpactiy s v
  | fadeOut => exact sameAnims_setGhostFloorOpactiy s v
  | moveToFloor a b c d => exact sameAnims_updateCutPlanes s a b c d v

theorem get?_animSetNotRunning (s : FloorSelector) (a i : ℕ) :
    (s.animSetNotRunning a).viewer.anims.get? i =
      (s.viewer.anims.get? i).map (fun c => if a = i then { c with isRunning := false } else c) := by
  unfold animSetNotRunning
  simp only [withViewer, viewer, List.get?_eq_getElem?, List.getElem?_modify]
  by_cases h : a = i
  · simp [h]
  · simp [h]

/-- Marking a control object as not running keeps the invariant. -/
theorem oneLiveAnimPerKind_animSetNotRunning (s : FloorSelector) (a : ℕ)
    (h : s.oneLiveAnimPerKind) : (s.animSetNotRunning a).oneLiveAnimPerKind := by
  obtain ⟨h1, h2, h3⟩ := h
  have hf : (s.animSetNotRunning a)._fadeAnim = s._fadeAnim := rfl
  have hl : (s.animSetNotRunning a)._floorAnim = s._floorAnim := rfl
  refine ⟨?_, ?_, ?_⟩
  · intro i c hc hr
    rw [get?_animSetNotRunning] at hc
    cases hg : s.viewer.anims.get? i with
    | none => rw [hg] at hc; cases hc
    | some c0 =>
      rw [hg] at hc
      simp only [Option.map_some', Option.some.injEq] at hc
      by_cases hai : a = i
      · rw [if_pos hai] at hc
        rw [← hc] at hr
        cases hr
      · rw [if_neg hai] at hc
        subst hc
        rw [hf, hl]
        exact h1 i c0 hg hr
  · intro x hx
    rw [hf] at hx
    obtain ⟨c, hc, hk⟩ := h2 x hx
    rw [get?_animSetNotRunning, hc]
    by_cases hai : a = x
    · exact ⟨{ c with isRunning := false }, by simp [hai], hk⟩
    · exact ⟨c, by simp [hai], hk⟩
  · intro x hx
    rw [hl] at hx
    obtain ⟨c, hc, hk⟩ := h3 x hx
    rw [get?_animSetNotRunning, hc]
    by_cases hai : a = x
    · exact ⟨{ c with isRunning := false }, by simp [hai], hk⟩
    · exact ⟨c, by simp [hai], hk⟩

/-- After the control object referenced by `_fadeAnim` is not running any more, no fade runs,
so the reference can be cleared. -/
theorem oneLiveAnimPerKind_clear_fadeAnim (s : FloorSelector) (h : s.oneLiveAnimPerKind)
    (hnr : ∀ a, s._fadeAnim = some a → s.animIsRunning a = false) :
    ({ s with _fadeAnim := none } : FloorSelector).oneLiveAnimPerKind := by
  obtain ⟨h1, h2, h3⟩ := h
  refine ⟨?_, ?_, h3⟩
  · intro i c hc hr
    refine ⟨?_, (h1 i c hc hr).2⟩
    intro hk
    have hi := (h1 i c hc hr).1 hk
    have := hnr i hi
    have hc0 : s.viewer.anims.get? i = some c := hc
    unfold animIsRunning at this
    rw [hc0] at this
    simp only [] at this
    rw [hr] at this
    cases this
  · intro a ha
    cases ha

theorem oneLiveAnimPerKind_clear_floorAnim (s : FloorSelector) (h : s.oneLiveAnimPerKind)
    (hnr : ∀ a, s._floorAnim = some a → s.animIsRunning a = false) :
    ({ s with _floorAnim := none } : FloorSelector).oneLiveAnimPerKind := by
  obtain ⟨h1, h2, h3⟩ := h
  refine ⟨?_, h2, ?_⟩
  · intro i c hc hr
    refine ⟨(h1 i c hc hr).1, ?_⟩
    intro hk
    have hi := (h1 i c hc hr).2 hk
    have := hnr i hi
    have hc0 : s.viewer.anims.get? i = some c := hc
    unfold animIsRunning at this
    rw [hc0] at this
    simp only [] at this
    rw [hr] at this
    cases this
  · intro a ha
    cases ha

theorem oneLiveAnimPerKind_animStop (s : FloorSelector) (a : ℕ) (h : s.oneLiveAnimPerKind) :
    (s.animStop a).oneLiveAnimPerKind :=
  oneLiveAnimPerKind_of_sameAnims (sameAnims_emit _ _) (oneLiveAnimPerKind_animSetNotRunning s a h)

theorem animIsRunning_animStop (s : FloorSelector) (a : ℕ) :
    (s.animStop a).animIsRunning a = false :=
  (animIsRunning_congr _ (s.animSetNotRunning a) a rfl).trans (animIsRunning_animSetNotRunning s a)

/-- The method `_stopFadeAnim` keeps the invariant and leaves `_fadeAnim` cleared. -/
theorem oneLiveAnimPerKind_stopFadeAnim (s : FloorSelector) (h : s.oneLiveAnimPerKind) :
    s._stopFadeAnim.oneLiveAnimPerKind ∧ s._stopFadeAnim._fadeAnim = none := by
  unfold _stopFadeAnim
  cases hf : s._fadeAnim with
  | none => exact ⟨h, hf⟩
  | some a =>
    refine ⟨?_, rfl⟩
    apply oneLiveAnimPerKind_clear_fadeAnim _ (oneLiveAnimPerKind_animStop s a h)
    intro x hx
    have : x = a := by
      have h0 : (s.animStop a)._fadeAnim = s._fadeAnim := rfl
      rw [h0, hf] at hx
      exact (Option.some.inj hx).symm
    rw [this]
    exact animIsRunning_animStop s a

theorem oneLiveAnimPerKind_stopFloorAnim (s : FloorSelector) (h : s.oneLiveAnimPerKind) :
    s._stopFloorAnim.oneLiveAnimPerKind ∧ s._stopFloorAnim._floorAnim = none := by
  unfold _stopFloorAnim
  cases hf : s._floorAnim with
  | none => exact ⟨h, hf⟩
  | some a =>
    refine ⟨?_, rfl⟩
    apply oneLiveAnimPerKind_clear_floorAnim _ (oneLiveAnimPerKind_animStop s a h)
    intro x hx
    have : x = a := by
      have h0 : (s.animStop a)._floorAnim = s._floorAnim := rfl
      rw [h0, hf] at hx
      exact (Option.some.inj hx).symm
    rw [this]
    exact animIsRunning_animStop s a

theorem get?_append_singleton {α : Type} (l : List α) (x : α) (i : ℕ) (c : α)
    (h : (l ++ [x]).get? i = some c) : l.get? i = some c ∨ (i = l.length ∧ c = x) := by
  rw [List.get?_eq_getElem?] at h
  by_cases hi : i < l.length
  · rw [List.getElem?_append_left hi] at h
    exact Or.inl (by rw [List.get?_eq_getElem?]; exact h)
  · rw [List.getElem?_append_right (not_lt.mp hi)] at h
    have hlt : i - l.length < 1 := by
      by_contra hge
      rw [List.getElem?_eq_none (by simp only [List.length_singleton]; omega)] at h
      cases h
    have h0 : i - l.length = 0 := by omega
    rw [h0] at h
    simp only [List.getElem?_cons_zero, Option.some.injEq] at h
    exact Or.inr ⟨by omega, h.symm⟩

theorem get?_append_of_get? {α : Type} (l : List α) (x : α) (i : ℕ) (c : α)
    (h : l.get? i = some c) : (l ++ [x]).get? i = some c := by
  rw [List.get?_eq_getElem?] at h ⊢
  have hi : i < l.length := (List.getElem?_eq_some_iff.mp h).1
  rw [List.getElem?_append_left hi]
  exact h

/-- Creating a fade when `_fadeAnim` is cleared, and referencing it, keeps the invariant. -/
theorem oneLiveAnimPerKind_create_fade (s : FloorSelector) (v0 v1 : JSNum) (cb : AnimCallbacks)
    (hk : cb.isFade = true) (h : s.oneLiveAnimPerKind) (hn : s._fadeAnim = none) :
    ({ (s.fadeValue v0 v1 cb).1 with _fadeAnim := some (s.fadeValue v0 v1 cb).2 } :
      FloorSelector).oneLiveAnimPerKind := by
  obtain ⟨h1, h2, h3⟩ := h
  have ha : ({ (s.fadeValue v0 v1 cb).1 with _fadeAnim := some (s.fadeValue v0 v1 cb).2 } :
      FloorSelector).viewer.anims = s.viewer.anims ++ [AnimControl.mk v0 v1 cb true] := rfl
  refine ⟨?_, ?_, ?_⟩
  · intro i c hc hr
    rw [ha] at hc
    rcases get?_append_singleton _ _ _ _ hc with hold | ⟨hi, hnew⟩
    · obtain ⟨k1, k2⟩ := h1 i c hold hr
      refine ⟨fun hf => ?_, k2⟩
      have := k1 hf
      rw [hn] at this
      cases this
    · subst hnew
      refine ⟨fun _ => by rw [hi]; rfl, fun hf => ?_⟩
      simp only [] at hf
      rw [hk] at hf
      cases hf
  · intro a hfa
    have : a = s.viewer.anims.length := (Option.some.inj hfa).symm
    rw [ha, this]
    exact ⟨_, get?_append_length _ _, hk⟩
  · intro a hfa
    obtain ⟨c, hc, hkc⟩ := h3 a hfa
    rw [ha]
    exact ⟨c, get?_append_of_get? _ _ _ _ hc, hkc⟩

/-- Creating a clip-plane animation when `_floorAnim` is cleared, and referencing it, keeps
the invariant. -/
theorem oneLiveAnimPerKind_create_floor (s : FloorSelector) (v0 v1 : JSNum) (cb : AnimCallbacks)
    (hk : cb.isFade = false) (h : s.oneLiveAnimPerKind) (hn : s._floorAnim = none) :
    ({ (s.fadeValue v0 v1 cb).1 with _floorAnim := some (s.fadeValue v0 v1 cb).2 } :
      FloorSelector).oneLiveAnimPerKind := by
  obtain ⟨h1, h2, h3⟩ := h
  have ha : ({ (s.fadeValue v0 v1 cb).1 with _floorAnim := some (s.fadeValue v0 v1 cb).2 } :
      FloorSelector).viewer.anims = s.viewer.anims ++ [AnimControl.mk v0 v1 cb true] := rfl
  refine ⟨?_, ?_, ?_⟩
  · intro i c hc hr
    rw [ha] at hc
    rcases get?_append_singleton _ _ _ _ hc with hold | ⟨hi, hnew⟩
    · obtain ⟨k1, k2⟩ := h1 i c hold hr
      refine ⟨k1, fun hf => ?_⟩
      have := k2 hf
      rw [hn] at this
      cases this
    · subst hnew
      refine ⟨fun hf => ?_, fun _ => by rw [hi]; rfl⟩
      simp only [] at hf
      rw [hk] at hf
      cases hf
  · intro a hfa
    obtain ⟨c, hc, hkc⟩ := h2 a hfa
    rw [ha]
    exact ⟨c, get?_append_of_get? _ _ _ _ hc, hkc⟩
  · intro a hfa
    have : a = s.viewer.anims.length := (Option.some.inj hfa).symm
    rw [ha, this]
    exact ⟨_, get?_append_length _ _, hk⟩

theorem logExtends_refl (s : FloorSelector) : s.logExtends s := ⟨[], by simp⟩

theorem logExtends_trans {s t u : FloorSelector} (h1 : s.logExtends t) (h2 : t.logExtends u) :
    s.logExtends u := by
  obtain ⟨p, hp⟩ := h1
  obtain ⟨q, hq⟩ := h2
  exact ⟨p ++ q, by rw [hq, hp, List.append_assoc]⟩

theorem logExtends_emit (s : FloorSelector) (e : Effect) : s.logExtends (s.emit e) := ⟨[e], rfl⟩

theorem logExtends_ite_emit (t : FloorSelector) (c : Bool) (e : Effect) :
    t.logExtends (if c then t.emit e else t) := by
  cases c
  · exact logExtends_refl t
  · exact logExtends_emit t e

theorem logExtends_applyFloorSection (s : FloorSelector) (a b : Option JSNum) :
    s.logExtends (s._applyFloorSection a b) := ⟨_, _applyFloorSection_log s a b⟩

theorem logExtends_applySelectedFloorSection (s : FloorSelector) :
    s.logExtends s._applySelectedFloorSection := logExtends_applyFloorSection s _ _

theorem logExtends_updateZLimits (s : FloorSelector) : s.logExtends s._updateZLimits :=
  ⟨[], by rw [(_updateZLimits_fields s).2.2.2.2.2.2.2.2.2]; simp⟩

theorem logExtends_clearFloorSection (s : FloorSelector) : s.logExtends s._clearFloorSection :=
  logExtends_trans (logExtends_updateZLimits s) (logExtends_applyFloorSection _ _ _)

theorem logExtends_setAOVisible (s : FloorSelector) (b : Bool) : s.logExtends (s._setAOVisible b) :=
  (_setAOVisible_viewer s b).2.2

/-- The shape of `_setMode`: either it leaves the control objects and both references alone,
or it reaches, without touching them, a state on which it stops the referenced fade and
creates a new fade, which it references. -/
theorem _setMode_shape (s : FloorSelector) (mode : FloorRenderMode) :
    s.sameAnims (s._setMode mode) ∨
    ∃ (t : FloorSelector) (cb : AnimCallbacks) (v1 : JSNum), cb.isFade = true ∧
      s.sameAnims t ∧ s.logExtends t ∧
      s._setMode mode =
        { (t._stopFadeAnim.fadeValue t._stopFadeAnim._ghostFloorOpacity v1 cb).1 with
          _fadeAnim := some (t._stopFadeAnim.fadeValue t._stopFadeAnim._ghostFloorOpacity v1 cb).2 } := by
  unfold _setMode
  split
  · exact Or.inl (sameAnims_refl s)
  · cases mode with
    | Hovering =>
      simp only []
      split
      · refine Or.inr ⟨_, AnimCallbacks.fadeIn, MaxGhostFloorOpacity, rfl, ?_, ?_, rfl⟩
        · refine sameAnims_trans ?_ (sameAnims_setAOVisible _ _)
          refine sameAnims_trans ?_ (sameAnims_emit _ _)
          refine sameAnims_trans ?_ (sameAnims_clearFloorSection _)
          refine sameAnims_trans ?_ (sameAnims_emit _ _)
          refine sameAnims_trans ?_ (sameAnims_emit _ _)
          refine sameAnims_trans ?_ (sameAnims_setAOVisible _ _)
          refine sameAnims_trans ?_ (sameAnims_emit _ _)
          refine sameAnims_trans ?_ (sameAnims_applySelectedFloorSection _)
          exact ⟨rfl, rfl, rfl⟩
        · refine logExtends_trans ?_ (logExtends_setAOVisible _ _)
          refine logExtends_trans ?_ (logExtends_emit _ _)
          refine logExtends_trans ?_ (logExtends_clearFloorSection _)
          refine logExtends_trans ?_ (logExtends_emit _ _)
          refine logExtends_trans ?_ (logExtends_emit _ _)
          refine logExtends_trans ?_ (logExtends_setAOVisible _ _)
          refine logExtends_trans ?_ (logExtends_emit _ _)
          refine logExtends_trans ?_ (logExtends_applySelectedFloorSection _)
          refine logExtends_trans ?_ (logExtends_emit _ _)
          refine logExtends_trans ?_ (logExtends_emit _ _)
          exact ⟨[], (List.append_nil _).symm⟩
      · exact Or.inl ⟨rfl, rfl, rfl⟩
    | Transition =>
      simp only []
      refine Or.inl ?_
      refine sameAnims_trans ?_ (sameAnims_applySelectedFloorSection _)
      refine sameAnims_trans ?_ (sameAnims_setAOVisible _ _)
      split <;> exact ⟨rfl, rfl, rfl⟩
    | Off =>
      exact Or.inr ⟨{ s with _currentMode := FloorRenderMode.Off }, AnimCallbacks.fadeOut,
        JSNum.fin 0, rfl, ⟨rfl, rfl, rfl⟩, logExtends_refl _, rfl⟩

theorem oneLiveAnimPerKind_setMode (s : FloorSelector) (mode : FloorRenderMode)
    (h : s.oneLiveAnimPerKind) : (s._setMode mode).oneLiveAnimPerKind := by
  rcases _setMode_shape s mode with hs | ⟨t, cb, v1, hk, hst, -, heq⟩
  · exact oneLiveAnimPerKind_of_sameAnims hs h
  · rw [heq]
    obtain ⟨k1, k2⟩ := oneLiveAnimPerKind_stopFadeAnim t (oneLiveAnimPerKind_of_sameAnims hst h)
    exact oneLiveAnimPerKind_create_fade _ _ _ cb hk k1 k2

theorem _stopFadeAnim_anims (t : FloorSelector) :
    t._stopFadeAnim._floorAnim = t._floorAnim ∧
    t._stopFadeAnim.viewer.anims.length = t.viewer.anims.length ∧
    (∀ b, t.animIsRunning b = false → t._stopFadeAnim.animIsRunning b = false) ∧
    t._stopFadeAnim.viewer.log = t.viewer.log ++
      (match t._fadeAnim with
        | some a => [Effect.animStop a]
        | none => []) := by
  unfold _stopFadeAnim
  cases hf : t._fadeAnim with
  | none => simp [hf]
  | some a =>
    refine ⟨rfl, ?_, ?_, ?_⟩
    · simp [animStop, animSetNotRunning, emit, withViewer, viewer, Viewer.emit]
    · intro b hb
      have h1 : ({ t.animStop a with _fadeAnim := none } : FloorSelector).animIsRunning b
          = (t.animSetNotRunning a).animIsRunning b := rfl
      rw [h1]
      unfold animIsRunning at hb ⊢
      rw [get?_animSetNotRunning]
      cases hg : t.viewer.anims.get? b with
      | none => rfl
      | some c =>
        rw [hg] at hb
        simp only [] at hb
        simp only [Option.map_some']
        split <;> simp [hb]
    · simp [animStop, animSetNotRunning, emit, withViewer, viewer, Viewer.emit]

/-- The method `_setMode` keeps `_floorAnim`, and a control object that exists and is not
running stays so. -/
theorem _setMode_keeps_stopped (s : FloorSelector) (mode : FloorRenderMode) :
    (s._setMode mode)._floorAnim = s._floorAnim ∧
    ∀ b, b < s.viewer.anims.length → s.animIsRunning b = false →
      (s._setMode mode).animIsRunning b = false := by
  rcases _setMode_shape s mode with hs | ⟨t, cb, v1, hk, hst, -, heq⟩
  · exact ⟨hs.2.2, fun b _ hb => (animIsRunning_congr _ s b hs.1).trans hb⟩
  · rw [heq]
    obtain ⟨k1, k2, k3, -⟩ := _stopFadeAnim_anims t
    refine ⟨k1.trans hst.2.2, ?_⟩
    intro b hlt hb
    have hbt : t.animIsRunning b = false := (animIsRunning_congr t s b hst.1).trans hb
    have := k3 b hbt
    unfold animIsRunning at this ⊢
    have ha : ({ (t._stopFadeAnim.fadeValue t._stopFadeAnim._ghostFloorOpacity v1 cb).1 with
        _fadeAnim := some (t._stopFadeAnim.fadeValue t._stopFadeAnim._ghostFloorOpacity v1 cb).2 } :
        FloorSelector).viewer.anims = t._stopFadeAnim.viewer.anims ++
          [AnimControl.mk t._stopFadeAnim._ghostFloorOpacity v1 cb true] := rfl
    rw [ha, List.get?_eq_getElem?, List.getElem?_append_left (by rw [k2, hst.1]; exact hlt),
      ← List.get?_eq_getElem?]
    exact this

/-- In `_setMode` a fade is only created after `stop()` was called on the control object
`_fadeAnim` references. -/
theorem _setMode_stops_before_create (s : FloorSelector) (mode : FloorRenderMode) (a : ℕ)
    (ha : s._fadeAnim = some a) :
    (s._setMode mode).viewer.anims = s.viewer.anims ∨
    ∃ pre, (s._setMode mode).viewer.log = s.viewer.log ++ pre ++
      [Effect.animStop a, Effect.fadeValue s.viewer.anims.length] := by
  rcases _setMode_shape s mode with hs | ⟨t, cb, v1, hk, hst, ⟨pre, hpre⟩, heq⟩
  · exact Or.inl hs.1
  · refine Or.inr ⟨pre, ?_⟩
    rw [heq]
    obtain ⟨-, k2, -, k4⟩ := _stopFadeAnim_anims t
    rw [hst.2.1, ha] at k4
    have hl : ({ (t._stopFadeAnim.fadeValue t._stopFadeAnim._ghostFloorOpacity v1 cb).1 with
        _fadeAnim := some (t._stopFadeAnim.fadeValue t._stopFadeAnim._ghostFloorOpacity v1 cb).2 } :
        FloorSelector).viewer.log = t._stopFadeAnim.viewer.log ++
          [Effect.fadeValue t._stopFadeAnim.viewer.anims.length] := rfl
    rw [hl, k4, k2, hst.1, hpre]
    simp

end FloorSelector

namespace FloorSelector

theorem oneLiveAnimPerKind_moveToFloor (s : FloorSelector) (idx : Option ℤ)
    (h : s.oneLiveAnimPerKind) : (s._moveToFloor idx).oneLiveAnimPerKind := by
  have h2 : (({ s with _currentFloor := idx } : FloorSelector)._setMode
      FloorRenderMode.Transition).oneLiveAnimPerKind :=
    oneLiveAnimPerKind_setMode _ _ (oneLiveAnimPerKind_of_sameAnims (s := s) ⟨rfl, rfl, rfl⟩ h)
  have h3 := oneLiveAnimPerKind_of_sameAnims (sameAnims_updateZLimits _) h2
  obtain ⟨k1, k2⟩ := oneLiveAnimPerKind_stopFloorAnim _ h3
  unfold _moveToFloor
  exact oneLiveAnimPerKind_create_floor _ _ _ _ rfl k1 k2

theorem oneLiveAnimPerKind_selectFloor' (s : FloorSelector) (idx : Option ℤ)
    (h : s.oneLiveAnimPerKind) : (s._selectFloor idx).oneLiveAnimPerKind := by
  obtain ⟨k1, -⟩ := oneLiveAnimPerKind_stopFloorAnim s h
  unfold _selectFloor
  exact oneLiveAnimPerKind_of_sameAnims
    (sameAnims_trans (s := s._stopFloorAnim) ⟨rfl, rfl, rfl⟩ (sameAnims_setFloorSection _ _ _)) k1

theorem sameAnims_selectFloor_tail (s1 : FloorSelector) (ev : SelectorEvent) :
    s1.sameAnims s1._runFloorSelectorFilter.1 ∧
    s1.sameAnims ((if !s1._runFloorSelectorFilter.1._ghostFloorsEnabled
        then s1._runFloorSelectorFilter.1.rollOverFloor none
        else s1._runFloorSelectorFilter.1).fireEvent ev) := by
  obtain ⟨hr, ht⟩ := selectFloor_tail_frame s1 ev
  obtain ⟨-, -, -, -, -, -, r7, r8, -, r10⟩ := hr
  obtain ⟨-, -, -, -, -, -, t7, t8, -, t10⟩ := ht
  exact ⟨⟨r10, r8, r7⟩, ⟨t10, t8, t7⟩⟩

theorem oneLiveAnimPerKind_selectFloor (s : FloorSelector) (idx : Option ℤ) (ut : Bool)
    (h : s.oneLiveAnimPerKind) : (s.selectFloor idx ut).1.oneLiveAnimPerKind := by
  have h1 : (if ut then s._moveToFloor idx else s._selectFloor idx).oneLiveAnimPerKind := by
    cases ut
    · exact oneLiveAnimPerKind_selectFloor' s idx h
    · exact oneLiveAnimPerKind_moveToFloor s idx h
  unfold selectFloor
  split
  · exact h
  · simp only []
    generalize (if ut then s._moveToFloor idx else s._selectFloor idx) = s1 at h1 ⊢
    obtain ⟨a1, a2⟩ := sameAnims_selectFloor_tail s1 (SelectorEvent.SELECTED_FLOOR_CHANGED idx)
    split
    · rename_i s2 err heq
      have e : s1._runFloorSelectorFilter.1 = s2 := by rw [heq]
      rw [e] at a1
      exact oneLiveAnimPerKind_of_sameAnims a1 h1
    · rename_i s2 heq
      have e : s1._runFloorSelectorFilter.1 = s2 := by rw [heq]
      simp only [e] at a2
      exact oneLiveAnimPerKind_of_sameAnims a2 h1

theorem oneLiveAnimPerKind_enterHoverMode (s : FloorSelector) (h : s.oneLiveAnimPerKind) :
    s.enterHoverMode.oneLiveAnimPerKind := by
  unfold enterHoverMode
  simp only []
  split
  · exact oneLiveAnimPerKind_of_sameAnims (s := s._setMode FloorRenderMode.Hovering)
      ⟨rfl, rfl, rfl⟩ (oneLiveAnimPerKind_setMode s _ h)
  · exact oneLiveAnimPerKind_of_sameAnims (s := s) ⟨rfl, rfl, rfl⟩ h

theorem oneLiveAnimPerKind_exitHoverMode (s : FloorSelector) (force : Bool)
    (h : s.oneLiveAnimPerKind) : (s.exitHoverMode force).oneLiveAnimPerKind := by
  unfold exitHoverMode
  simp only []
  apply oneLiveAnimPerKind_of_sameAnims (sameAnims_setSpatialFilterForRollOver _ _)
  split
  · exact oneLiveAnimPerKind_of_sameAnims (s := s._setMode FloorRenderMode.Off)
      ⟨rfl, rfl, rfl⟩ (oneLiveAnimPerKind_setMode s _ h)
  · exact oneLiveAnimPerKind_of_sameAnims (s := s) ⟨rfl, rfl, rfl⟩ h

theorem oneLiveAnimPerKind_interruptFading (s : FloorSelector) (h : s.oneLiveAnimPerKind) :
    s._interruptFading.oneLiveAnimPerKind := by
  unfold _interruptFading
  split
  · split
    · exact oneLiveAnimPerKind_of_sameAnims (sameAnims_leaveHoverMode _)
        (oneLiveAnimPerKind_stopFadeAnim s h).1
    · exact h
  · exact h

theorem oneLiveAnimPerKind_resetState (s : FloorSelector) (h : s.oneLiveAnimPerKind) :
    s.resetState.oneLiveAnimPerKind := by
  have h1 := oneLiveAnimPerKind_selectFloor' { s with _floors := [] } NoFloor
    (oneLiveAnimPerKind_of_sameAnims (s := s) ⟨rfl, rfl, rfl⟩ h)
  have h2 := oneLiveAnimPerKind_of_sameAnims (sameAnims_clearFloorSection _) h1
  unfold resetState
  simp only []
  refine oneLiveAnimPerKind_of_sameAnims ?_ h2
  have hf := (FloorSelectorFilter.clearFilter_frame (((({ s with _floors := [] } :
    FloorSelector)._selectFloor NoFloor)._clearFloorSection)._floorSelectorFilter)).1
  unfold Viewer.sameButLog at hf
  refine ⟨?_, rfl, rfl⟩
  show (FloorSelectorFilter.clearFilter _)._viewer.anims = _
  rw [hf]
  rfl

theorem oneLiveAnimPerKind_setFloorData (s : FloorSelector) (v : Option (List Floor))
    (h : s.oneLiveAnimPerKind) : (s.setFloorData v).oneLiveAnimPerKind := by
  unfold setFloorData
  exact oneLiveAnimPerKind_of_sameAnims (s := s.resetState) ⟨rfl, rfl, rfl⟩
    (oneLiveAnimPerKind_resetState s h)

theorem oneLiveAnimPerKind_invalidateFloorSelection (s : FloorSelector) (idx : Option ℤ)
    (h : s.oneLiveAnimPerKind) : (s.invalidateFloorSelection idx).1.oneLiveAnimPerKind := by
  unfold invalidateFloorSelection
  exact oneLiveAnimPerKind_of_sameAnims (sameAnims_runFloorSelectorFilter _)
    (oneLiveAnimPerKind_selectFloor' s idx h)

theorem oneLiveAnimPerKind_animTick (s : FloorSelector) (a : ℕ) (v : JSNum)
    (h : s.oneLiveAnimPerKind) : (s.animTick a v).oneLiveAnimPerKind := by
  unfold animTick
  split
  · split
    · exact oneLiveAnimPerKind_of_sameAnims (sameAnims_animOnTimer _ _ _) h
    · exact h
  · exact h

/-- A control object reaching its end: the invariant is kept, the control object is not
running afterwards, `_floorAnim` is kept, and `_fadeAnim` is kept when the control object is
a fade. -/
theorem animComplete_spec (s : FloorSelector) (a : ℕ) (h : s.oneLiveAnimPerKind) :
    (s.animComplete a).oneLiveAnimPerKind ∧
    (s.animComplete a).animIsRunning a = false ∧
    (s.animComplete a)._floorAnim = s._floorAnim ∧
    ((∀ c, s.viewer.anims.get? a = some c → c.callbacks.isFade = true) →
      (s.animComplete a)._fadeAnim = s._fadeAnim) := by
  unfold animComplete
  cases hg : s.viewer.anims.get? a with
  | none =>
    refine ⟨h, ?_, rfl, fun _ => rfl⟩
    unfold animIsRunning
    rw [hg]
  | some c =>
    simp only []
    by_cases hr : c.isRunning = true
    · rw [if_pos hr]
      have hu : ((s.animOnTimer c.callbacks c.endValue).animSetNotRunning a).oneLiveAnimPerKind :=
        oneLiveAnimPerKind_animSetNotRunning _ a
          (oneLiveAnimPerKind_of_sameAnims (sameAnims_animOnTimer _ _ _) h)
      have hnr := animIsRunning_animSetNotRunning (s.animOnTimer c.callbacks c.endValue) a
      have hlen : a < ((s.animOnTimer c.callbacks c.endValue).animSetNotRunning a).viewer.anims.length := by
        have h1 : ((s.animOnTimer c.callbacks c.endValue).animSetNotRunning a).viewer.anims.length
            = (s.animOnTimer c.callbacks c.endValue).viewer.anims.length := by
          simp [animSetNotRunning, withViewer, viewer]
        rw [h1, (sameAnims_animOnTimer s _ _).1]
        rw [List.get?_eq_getElem?] at hg
        exact (List.getElem?_eq_some_iff.mp hg).1
      have hfl : ((s.animOnTimer c.callbacks c.endValue).animSetNotRunning a)._floorAnim
          = s._floorAnim := (sameAnims_animOnTimer s _ _).2.2
      have hfa : ((s.animOnTimer c.callbacks c.endValue).animSetNotRunning a)._fadeAnim
          = s._fadeAnim := (sameAnims_animOnTimer s _ _).2.1
      generalize (s.animOnTimer c.callbacks c.endValue).animSetNotRunning a = u at hu hnr hlen hfl hfa
      cases hcb : c.callbacks with
      | fadeIn => exact ⟨hu, hnr, hfl, fun _ => hfa⟩
      | fadeOut =>
        have hsa := sameAnims_leaveHoverMode u
        exact ⟨oneLiveAnimPerKind_of_sameAnims hsa hu,
          (animIsRunning_congr _ u a hsa.1).trans hnr, hsa.2.2.trans hfl,
          fun _ => hsa.2.1.trans hfa⟩
      | moveToFloor p q r t =>
        obtain ⟨k1, k2⟩ := _setMode_keeps_stopped u
          (if u._hovering then FloorRenderMode.Hovering else FloorRenderMode.Off)
        refine ⟨oneLiveAnimPerKind_setMode u _ hu, k2 a hlen hnr, k1.trans hfl, ?_⟩
        intro hall
        have := hall c rfl
        rw [hcb] at this
        cases this
    · rw [if_neg hr]
      refine ⟨h, ?_, rfl, fun _ => rfl⟩
      unfold animIsRunning
      rw [hg]
      simpa using hr

theorem animSkip_spec (s : FloorSelector) (a : ℕ) (h : s.oneLiveAnimPerKind) :
    (s.animSkip a).oneLiveAnimPerKind ∧
    (s.animSkip a).animIsRunning a = false ∧
    (s.animSkip a)._floorAnim = s._floorAnim ∧
    ((∀ c, s.viewer.anims.get? a = some c → c.callbacks.isFade = true) →
      (s.animSkip a)._fadeAnim = s._fadeAnim) :=
  animComplete_spec (s.emit (Effect.animSkip a)) a
    (oneLiveAnimPerKind_of_sameAnims (sameAnims_emit s _) h)

theorem oneLiveAnimPerKind_skip_fade (s : FloorSelector) (h : s.oneLiveAnimPerKind) :
    (match s._fadeAnim with
      | some anim => ({ s.animSkip anim with _fadeAnim := none } : FloorSelector)
      | none => s).oneLiveAnimPerKind := by
  cases hf : s._fadeAnim with
  | none => exact h
  | some a =>
    obtain ⟨k1, k2, -, k4⟩ := animSkip_spec s a h
    obtain ⟨c, hc, hk⟩ := h.2.1 a hf
    have hfa : (s.animSkip a)._fadeAnim = some a := by
      rw [k4 (fun c' hc' => by rw [hc] at hc'; cases hc'; exact hk)]
      exact hf
    apply oneLiveAnimPerKind_clear_fadeAnim _ k1
    intro x hx
    rw [hfa] at hx
    cases hx
    exact k2

theorem oneLiveAnimPerKind_skip_floor (s : FloorSelector) (h : s.oneLiveAnimPerKind) :
    (match s._floorAnim with
      | some anim => ({ s.animSkip anim with _floorAnim := none } : FloorSelector)
      | none => s).oneLiveAnimPerKind := by
  cases hf : s._floorAnim with
  | none => exact h
  | some b =>
    obtain ⟨k1, k2, k3, -⟩ := animSkip_spec s b h
    apply oneLiveAnimPerKind_clear_floorAnim _ k1
    intro x hx
    rw [k3, hf] at hx
    cases hx
    exact k2

theorem oneLiveAnimPerKind_skipFadeAnimations (s : FloorSelector) (h : s.oneLiveAnimPerKind) :
    s._skipFadeAnimations.oneLiveAnimPerKind := by
  unfold _skipFadeAnimations
  exact oneLiveAnimPerKind_skip_floor _ (oneLiveAnimPerKind_skip_fade s h)

theorem oneLiveAnimPerKind_setPanelHoverEffectEnabled (s : FloorSelector) (b : Bool)
    (h : s.oneLiveAnimPerKind) : (s.setPanelHoverEffectEnabled b).oneLiveAnimPerKind := by
  unfold setPanelHoverEffectEnabled
  exact oneLiveAnimPerKind_of_sameAnims (s := (s.exitHoverMode true)._skipFadeAnimations)
    ⟨rfl, rfl, rfl⟩
    (oneLiveAnimPerKind_skipFadeAnimations _ (oneLiveAnimPerKind_exitHoverMode s true h))

theorem oneLiveAnimPerKind_forceImageRefresh (s : FloorSelector) (h : s.oneLiveAnimPerKind) :
    s.forceImageRefresh.oneLiveAnimPerKind := by
  have h1 := oneLiveAnimPerKind_skipFadeAnimations _ (oneLiveAnimPerKind_exitHoverMode s false h)
  unfold forceImageRefresh
  simp only []
  split
  · exact oneLiveAnimPerKind_skipFadeAnimations _ (oneLiveAnimPerKind_enterHoverMode _ h1)
  · exact h1

theorem sameAnims_onRenderOptionsChanged (s : FloorSelector) :
    s.sameAnims s._onRenderOptionsChanged := by
  unfold _onRenderOptionsChanged
  split
  · exact sameAnims_rollOverFloor s none
  · exact sameAnims_refl s

theorem sameAnims_clearFilter (s : FloorSelector) :
    s.sameAnims { s with _floorSelectorFilter := s._floorSelectorFilter.clearFilter } := by
  have hv := (FloorSelectorFilter.clearFilter_frame s._floorSelectorFilter).1
  unfold Viewer.sameButLog at hv
  refine ⟨?_, rfl, rfl⟩
  show s._floorSelectorFilter.clearFilter._viewer.anims = s.viewer.anims
  rw [hv]
  rfl

theorem sameAnims_runFloorSelectorFilterEventHandler (s : FloorSelector) (loaded : Bool) :
    s.sameAnims (s._runFloorSelectorFilterEventHandler loaded).1 := by
  unfold _runFloorSelectorFilterEventHandler
  split
  · exact sameAnims_refl s
  · split
    · exact sameAnims_clearFilter s
    · exact sameAnims_runFloorSelectorFilter s

theorem sameAnims_runModelUnloadingEventHandler (s : FloorSelector) (model : ℕ) :
    s.sameAnims (s._runModelUnloadingEventHandler model) := by
  unfold _runModelUnloadingEventHandler
  split
  · exact ⟨rfl, rfl, rfl⟩
  · exact sameAnims_refl s

theorem oneLiveAnimPerKind_step (s : FloorSelector) (op : Op) (h : s.oneLiveAnimPerKind) :
    (s.step op).oneLiveAnimPerKind := by
  cases op with
  | enterHoverMode => exact oneLiveAnimPerKind_enterHoverMode s h
  | exitHoverMode force => exact oneLiveAnimPerKind_exitHoverMode s force h
  | selectFloor idx ut => exact oneLiveAnimPerKind_selectFloor s idx ut h
  | setPanelHoverEffectEnabled b => exact oneLiveAnimPerKind_setPanelHoverEffectEnabled s b h
  | forceImageRefresh => exact oneLiveAnimPerKind_forceImageRefresh s h
  | cameraChange => exact oneLiveAnimPerKind_interruptFading s h
  | setFloorData v => exact oneLiveAnimPerKind_setFloorData s v h
  | setFloorFilterData d => exact oneLiveAnimPerKind_of_sameAnims (s := s) ⟨rfl, rfl, rfl⟩ h
  | invalidateFloorSelection idx => exact oneLiveAnimPerKind_invalidateFloorSelection s idx h
  | rollOverFloor idx => exact oneLiveAnimPerKind_of_sameAnims (sameAnims_rollOverFloor s idx) h
  | setEnabled b =>
    exact oneLiveAnimPerKind_of_sameAnims
      (sameAnims_trans (s := s) (t := { s with enabled := b }) ⟨rfl, rfl, rfl⟩
        (sameAnims_applySelectedFloorSection _)) h
  | animTick a v => exact oneLiveAnimPerKind_animTick s a v h
  | animComplete a => exact (animComplete_spec s a h).1
  | renderOptionsChanged =>
    exact oneLiveAnimPerKind_of_sameAnims (sameAnims_onRenderOptionsChanged s) h
  | modelAdded loaded =>
    exact oneLiveAnimPerKind_of_sameAnims (sameAnims_runFloorSelectorFilterEventHandler s loaded) h
  | modelUnloaded model =>
    exact oneLiveAnimPerKind_of_sameAnims (sameAnims_runModelUnloadingEventHandler s model) h
  | resetState => exact oneLiveAnimPerKind_resetState s h

theorem _setMode_Transition_anims (s : FloorSelector) :
    s.sameAnims (s._setMode FloorRenderMode.Transition) ∧
    s.logExtends (s._setMode FloorRenderMode.Transition) := by
  unfold _setMode
  split
  · exact ⟨sameAnims_refl s, logExtends_refl s⟩
  · simp only []
    refine ⟨?_, ?_⟩
    · refine sameAnims_trans ?_ (sameAnims_applySelectedFloorSection _)
      refine sameAnims_trans ?_ (sameAnims_setAOVisible _ _)
      split <;> exact ⟨rfl, rfl, rfl⟩
    · refine logExtends_trans ?_ (logExtends_applySelectedFloorSection _)
      refine logExtends_trans ?_ (logExtends_setAOVisible _ _)
      split
      · refine logExtends_trans ?_ (logExtends_emit _ _)
        refine logExtends_trans ?_ (logExtends_emit _ _)
        refine logExtends_trans ?_ (logExtends_emit _ _)
        refine logExtends_trans ?_ (logExtends_emit _ _)
        exact ⟨[], (List.append_nil _).symm⟩
      · exact ⟨[], (List.append_nil _).symm⟩

theorem _stopFloorAnim_length (t : FloorSelector) :
    t._stopFloorAnim.viewer.anims.length = t.viewer.anims.length := by
  unfold _stopFloorAnim
  split
  · simp [animStop, animSetNotRunning, emit, withViewer, viewer, Viewer.emit]
  · rfl

theorem _moveToFloor_tail_log (t : FloorSelector) (a : ℕ) (ha : t._floorAnim = some a)
    (v0 v1 : JSNum) (cb : AnimCallbacks) :
    (t._updateZLimits._stopFloorAnim.fadeValue v0 v1 cb).1.viewer.log =
      t.viewer.log ++ [Effect.animStop a, Effect.fadeValue t.viewer.anims.length] := by
  obtain ⟨z1, -, z3⟩ := sameAnims_updateZLimits t
  have zv := (_updateZLimits_fields t).2.2.2.2.2.2.2.2.2
  have k3 := (_stopFloorAnim_log t._updateZLimits).2.2
  have kl := _stopFloorAnim_length t._updateZLimits
  rw [z3, ha, zv] at k3
  rw [z1] at kl
  have hl : (t._updateZLimits._stopFloorAnim.fadeValue v0 v1 cb).1.viewer.log =
      t._updateZLimits._stopFloorAnim.viewer.log ++
        [Effect.fadeValue t._updateZLimits._stopFloorAnim.viewer.anims.length] := rfl
  rw [hl, k3, kl]
  simp

/-- In `_moveToFloor` the clip-plane animation is created after `stop()` was called on the
control object `_floorAnim` references. -/
theorem _moveToFloor_stops_before_create (s : FloorSelector) (idx : Option ℤ) (a : ℕ)
    (ha : s._floorAnim = some a) :
    ∃ pre, (s._moveToFloor idx).viewer.log = s.viewer.log ++ pre ++
      [Effect.animStop a, Effect.fadeValue s.viewer.anims.length] := by
  obtain ⟨hsa, pre, hpre⟩ := _setMode_Transition_anims { s with _currentFloor := idx }
  refine ⟨pre, ?_⟩
  unfold _moveToFloor
  simp only []
  generalize ({ s with _currentFloor := idx } : FloorSelector)._setMode
    FloorRenderMode.Transition = s2 at hsa hpre ⊢
  obtain ⟨h1, -, h3⟩ := hsa
  have hl := _moveToFloor_tail_log s2 a (h3.trans ha)
  refine (hl _ _ _).trans ?_
  rw [hpre, h1]
  simp [viewer]

end FloorSelector

namespace FloorSelector

theorem oneLiveAnimPerKind_run (s : FloorSelector) (ops : List Op) (h : s.oneLiveAnimPerKind) :
    (s.run ops).oneLiveAnimPerKind := by
  induction ops generalizing s with
  | nil => exact h
  | cons op rest ih => exact ih (s.step op) (oneLiveAnimPerKind_step s op h)

/-- Right after construction on a viewer without control objects the invariant holds. -/
theorem oneLiveAnimPerKind_new (v : Viewer) (hv : v.anims = []) :
    (FloorSelector.new v).oneLiveAnimPerKind := by
  refine ⟨?_, ?_, ?_⟩
  · intro i c hc
    have h0 : (FloorSelector.new v).viewer.anims = [] := hv
    rw [h0] at hc
    cases hc
  · intro a ha
    cases ha
  · intro a ha
    cases ha

/-- C14: at most one live animation per kind.  From a state in which every running fade is
the control object referenced by `_fadeAnim` and every running clip-plane animation the one
referenced by `_floorAnim` (such as the state after construction), every sequence of
operations (`enterHoverMode`, `exitHoverMode`, `selectFloor`, `setPanelHoverEffectEnabled`,
`forceImageRefresh`, camera change, `floorData` assignment, ticks and completions of control
objects, the other public methods and the other event handlers) leads to such a state again.  In the state reached,
`_setMode` creates a fade only after calling `stop()` on the control object `_fadeAnim`
references, and `_moveToFloor` creates the clip-plane animation only after calling `stop()`
on the one `_floorAnim` references; `fadeValue` is called nowhere else. -/
theorem oneLiveAnimPerKind_invariant (s : FloorSelector) (ops : List Op)
    (h : s.oneLiveAnimPerKind) :
    (s.run ops).oneLiveAnimPerKind ∧
    (∀ i c, (s.run ops).viewer.anims.get? i = some c → c.isRunning = true →
      (c.callbacks.isFade = true → (s.run ops)._fadeAnim = some i) ∧
      (c.callbacks.isFade = false → (s.run ops)._floorAnim = some i)) ∧
    (∀ mode a, (s.run ops)._fadeAnim = some a →
      ((s.run ops)._setMode mode).viewer.anims = (s.run ops).viewer.anims ∨
      ∃ pre, ((s.run ops)._setMode mode).viewer.log = (s.run ops).viewer.log ++ pre ++
        [Effect.animStop a, Effect.fadeValue (s.run ops).viewer.anims.length]) ∧
    (∀ idx a, (s.run ops)._floorAnim = some a →
      ∃ pre, ((s.run ops)._moveToFloor idx).viewer.log = (s.run ops).viewer.log ++ pre ++
        [Effect.animStop a, Effect.fadeValue (s.run ops).viewer.anims.length]) :=
  ⟨oneLiveAnimPerKind_run s ops h, (oneLiveAnimPerKind_run s ops h).1,
   fun mode a ha => _setMode_stops_before_create _ mode a ha,
   fun idx a ha => _moveToFloor_stops_before_create _ idx a ha⟩

/-- Witness of `oneLiveAnimPerKind_invariant`: the example operations on a fresh selector.
Three control objects were created; the fade-in (0) was stopped by the camera change, the
clip-plane animation (1) has finished, and the fade-out (2) it started is running and
referenced by `_fadeAnim`. -/
theorem oneLiveAnimPerKind_invariant_witness :
    (((FloorSelector.new exViewer).run exOps).viewer.anims.map (fun c => c.isRunning)
        = [false, false, true] ∧
     ((FloorSelector.new exViewer).run exOps).viewer.anims.map (fun c => c.callbacks.isFade)
        = [true, false, true] ∧
     ((FloorSelector.new exViewer).run exOps)._fadeAnim = some 2 ∧
     ((FloorSelector.new exViewer).run exOps)._floorAnim = some 1) ∧
    ((FloorSelector.new exViewer).run exOps).oneLiveAnimPerKind :=
  ⟨⟨by decide!, by decide!, by decide!, by decide!⟩,
   (oneLiveAnimPerKind_invariant (FloorSelector.new exViewer) exOps
      (oneLiveAnimPerKind_new exViewer rfl)).1⟩

end FloorSelector

/-! ### The clip-plane policy -/

namespace FloorSelectorFilter

theorem noCutPlaneUpdate_refl (this : FloorSelectorFilter) : this.noCutPlaneUpdate this :=
  ⟨rfl, [], by simp, by simp⟩

theorem noCutPlaneUpdate_trans {a b c : FloorSelectorFilter} (h1 : a.noCutPlaneUpdate b)
    (h2 : b.noCutPlaneUpdate c) : a.noCutPlaneUpdate c := by
  obtain ⟨e1, n1, l1, q1⟩ := h1
  obtain ⟨e2, n2, l2, q2⟩ := h2
  refine ⟨e2.trans e1, n1 ++ n2, by rw [l2, l1, List.append_assoc], ?_⟩
  intro e he
  rcases List.mem_append.mp he with h | h
  · exact q1 e h
  · exact q2 e h

theorem noCutPlaneUpdate_of_log (this that : FloorSelectorFilter) (new : List Effect)
    (hv : that._viewer = { this._viewer with log := this._viewer.log ++ new })
    (hn : ∀ e ∈ new, e.isCutPlaneUpdate = false) : this.noCutPlaneUpdate that :=
  ⟨by rw [hv], new, by rw [hv], hn⟩

theorem noCutPlaneUpdate_emit (this : FloorSelectorFilter) (e : Effect)
    (he : e.isCutPlaneUpdate = false) : this.noCutPlaneUpdate (this.emit e) :=
  noCutPlaneUpdate_of_log this _ [e] rfl (by simpa using he)

theorem noCutPlaneUpdate_hideDbIds (this : FloorSelectorFilter) (model : ℕ) (dbIds : List ℕ) :
    this.noCutPlaneUpdate (this.hideDbIds model dbIds) := by
  by_cases hvm : (this._viewer.modelObjects model).visibilityManager = true
  · rw [hideDbIds_eq _ _ _ hvm]
    refine noCutPlaneUpdate_of_log this _ _ rfl ?_
    intro e he
    obtain ⟨d, _, rfl⟩ := List.mem_map.mp he
    rfl
  · simp [hideDbIds, hvm, noCutPlaneUpdate_refl]

theorem noCutPlaneUpdate_clearFilter (this : FloorSelectorFilter) :
    this.noCutPlaneUpdate this.clearFilter := by
  rw [clearFilter_eq]
  refine noCutPlaneUpdate_of_log this _ _ rfl ?_
  intro e he
  obtain ⟨l, hl, hel⟩ := List.mem_flatten.mp he
  obtain ⟨x, _, rfl⟩ := List.mem_map.mp hl
  obtain ⟨d, _, rfl⟩ := List.mem_map.mp hel
  rfl

theorem noCutPlaneUpdate_filterModel (floor : Floor) (lo hi : JSNum)
    (mm : List (ℕ × Option (List ℕ))) (model : ℕ) (this : FloorSelectorFilter) :
    this.noCutPlaneUpdate (filterModel floor lo hi mm model this).1 := by
  obtain ⟨new0, hlog, _, hkind, _⟩ := filterModel_step floor lo hi mm model this
  have hs := filterModel_sameButLog floor lo hi mm model this
  unfold Viewer.sameButLog at hs
  refine ⟨by rw [hs], new0, hlog, ?_⟩
  intro e he
  rcases hkind e he with ⟨_, rfl⟩ | ⟨_, rfl⟩ | ⟨_, rfl⟩ <;> rfl

theorem noCutPlaneUpdate_filterModels (floor : Floor) (lo hi : JSNum)
    (mm : List (ℕ × Option (List ℕ))) (models : List ℕ) (this : FloorSelectorFilter) :
    this.noCutPlaneUpdate (filterModels floor lo hi mm models this) := by
  induction models generalizing this with
  | nil => exact noCutPlaneUpdate_refl _
  | cons m rest ih =>
    have hstep := noCutPlaneUpdate_filterModel floor lo hi mm m this
    unfold filterModels
    split
    · rename_i this1 heq
      rw [heq] at hstep
      exact hstep
    · rename_i this1 heq
      rw [heq] at hstep
      exact noCutPlaneUpdate_trans hstep (ih this1)

theorem noCutPlaneUpdate_filter (this : FloorSelectorFilter) (data : Option FloorFilterData)
    (floor : Option Floor) : this.noCutPlaneUpdate (this.filter data floor).1 := by
  unfold filter
  split
  · exact noCutPlaneUpdate_refl _
  · split
    · exact noCutPlaneUpdate_refl _
    · split
      · exact noCutPlaneUpdate_refl _
      · split
        · exact noCutPlaneUpdate_refl _
        · split
          · exact noCutPlaneUpdate_refl _
          · simp only []
            split
            · exact noCutPlaneUpdate_filterModels _ _ _ _ _ _
            · exact noCutPlaneUpdate_trans (b := { this with _cache := mapSet this._cache _ [] })
                ⟨rfl, [], by simp, by simp⟩ (noCutPlaneUpdate_filterModels _ _ _ _ _ _)

end FloorSelectorFilter

namespace FloorSelector

theorem cutPlanesFollow_refl (s : FloorSelector) : s.cutPlanesFollow s :=
  ⟨rfl, [], by simp, by simp, Or.inl ⟨rfl, by simp⟩⟩

theorem cutPlanesFollow_trans {s t u : FloorSelector} (h1 : s.cutPlanesFollow t)
    (h2 : t.cutPlanesFollow u) : s.cutPlanesFollow u := by
  obtain ⟨e1, n1, l1, q1, c1⟩ := h1
  obtain ⟨e2, n2, l2, q2, c2⟩ := h2
  rw [e1] at q2 c2
  refine ⟨e2.trans e1, n1 ++ n2, by rw [l2, l1, List.append_assoc], ?_, ?_⟩
  · intro p hp
    rcases List.mem_append.mp hp with h | h
    · exact q1 p h
    · exact q2 p h
  · rcases c2 with ⟨h, hn2⟩ | h
    · rcases c1 with ⟨k, hn1⟩ | k
      · refine Or.inl ⟨h.trans k, ?_⟩
        intro p hp
        rcases List.mem_append.mp hp with m | m
        · exact hn1 p m
        · exact hn2 p m
      · exact Or.inr (h ▸ k)
    · exact Or.inr h

/-- A step that leaves `enabled` and the installed plane set alone and whose calls are no
updates of the cut plane set. -/
theorem cutPlanesFollow_of_log {s t : FloorSelector} (he : t.enabled = s.enabled)
    (new : List Effect) (hlog : t.viewer.log = s.viewer.log ++ new)
    (hn : ∀ e ∈ new, e.isCutPlaneUpdate = false)
    (hc : t.viewer.cutPlaneSet = s.viewer.cutPlaneSet) : s.cutPlanesFollow t :=
  ⟨he, new, hlog, fun p hp => absurd (hn _ hp) (by simp [Effect.isCutPlaneUpdate]),
   Or.inl ⟨hc, fun p hp => absurd (hn _ hp) (by simp [Effect.isCutPlaneUpdate])⟩⟩

theorem cutPlanesFollow_of_viewer {s t : FloorSelector} (he : t.enabled = s.enabled)
    (hv : t.viewer = s.viewer) : s.cutPlanesFollow t :=
  cutPlanesFollow_of_log he [] (by rw [hv]; simp) (by simp) (by rw [hv])

theorem cutPlanesFollow_emit (s : FloorSelector) (e : Effect) (he : e.isCutPlaneUpdate = false) :
    s.cutPlanesFollow (s.emit e) :=
  cutPlanesFollow_of_log rfl [e] rfl (by simpa using he) rfl

theorem cutPlanesFollow_ite_emit (t : FloorSelector) (c : Bool) (e : Effect)
    (he : e.isCutPlaneUpdate = false) : t.cutPlanesFollow (if c then t.emit e else t) := by
  cases c
  · exact cutPlanesFollow_refl t
  · exact cutPlanesFollow_emit t e he

theorem cutPlanesFollow_of_filter (s : FloorSelector) (F : FloorSelectorFilter)
    (h : s._floorSelectorFilter.noCutPlaneUpdate F) :
    s.cutPlanesFollow { s with _floorSelectorFilter := F } := by
  obtain ⟨hc, new, hlog, hn⟩ := h
  exact cutPlanesFollow_of_log rfl new hlog hn hc

/-- What one call of `_applyFloorSection` does: one update of the cut plane set, `null` while
disabled, else the two planes with finite bounds, a bound that is missing, NaN or infinite
being replaced by `-1e20` resp. `1e20`. -/
theorem _applyFloorSection_update (s : FloorSelector) (zMin zMax : Option JSNum) :
    (s.enabled = false →
      (s._applyFloorSection zMin zMax).viewer.cutPlaneSet = none ∧
      (s._applyFloorSection zMin zMax).viewer.log = s.viewer.log ++ [Effect.setCutPlaneSet none]) ∧
    (s.enabled = true →
      ∃ a b : ℚ,
        (s._applyFloorSection zMin zMax).viewer.cutPlaneSet =
          some (⟨JSNum.fin 0, JSNum.fin 0, JSNum.fin (-1), JSNum.fin a⟩,
                ⟨JSNum.fin 0, JSNum.fin 0, JSNum.fin 1, JSNum.fin (-b)⟩) ∧
        (s._applyFloorSection zMin zMax).viewer.log = s.viewer.log ++
          [Effect.setCutPlaneSet (some
            (⟨JSNum.fin 0, JSNum.fin 0, JSNum.fin (-1), JSNum.fin a⟩,
             ⟨JSNum.fin 0, JSNum.fin 0, JSNum.fin 1, JSNum.fin (-b)⟩))] ∧
        (zMin = some (JSNum.fin a) ∨ (Number.isFinite zMin = false ∧ a = -(10 ^ 20))) ∧
        (zMax = some (JSNum.fin b) ∨ (Number.isFinite zMax = false ∧ b = 10 ^ 20))) := by
  refine ⟨?_, ?_⟩
  · intro he
    unfold _applyFloorSection
    simp only [he, Bool.not_false, if_true]
    exact ⟨rfl, rfl⟩
  · intro he
    unfold _applyFloorSection
    simp only [he, Bool.not_true, Bool.false_eq_true, if_false]
    have key : ∀ (z : Option JSNum) (lim : ℚ), ∃ q : ℚ,
        (if (!Number.isFinite z) = true then JSNum.fin lim else z.getD (JSNum.fin lim)) = JSNum.fin q ∧
        (z = some (JSNum.fin q) ∨ (Number.isFinite z = false ∧ q = lim)) := by
      intro z lim
      cases z with
      | none => exact ⟨lim, by simp [Number.isFinite], Or.inr ⟨rfl, rfl⟩⟩
      | some v =>
        cases v with
        | fin q => exact ⟨q, by simp [Number.isFinite], Or.inl rfl⟩
        | posInf => exact ⟨lim, by simp [Number.isFinite], Or.inr ⟨rfl, rfl⟩⟩
        | negInf => exact ⟨lim, by simp [Number.isFinite], Or.inr ⟨rfl, rfl⟩⟩
        | nan => exact ⟨lim, by simp [Number.isFinite], Or.inr ⟨rfl, rfl⟩⟩
    obtain ⟨a, ha, ha2⟩ := key zMin (-(10 ^ 20))
    obtain ⟨b, hb, hb2⟩ := key zMax (10 ^ 20)
    have hmin : MinZLimit = JSNum.fin (-(10 ^ 20)) := rfl
    have hmax : MaxZLimit = JSNum.fin (10 ^ 20) := rfl
    refine ⟨a, b, ?_, ?_, ha2, hb2⟩
    · rw [hmin, hmax, ha, hb]
      rfl
    · rw [hmin, hmax, ha, hb]
      rfl

/-- The update of `_applyFloorSection` follows the policy. -/
theorem _applyFloorSection_follows (s : FloorSelector) (zMin zMax : Option JSNum) :
    (s._applyFloorSection zMin zMax).enabled = s.enabled ∧
    ∃ p, cutPlanesPolicy s.enabled p ∧
      (s._applyFloorSection zMin zMax).viewer.log = s.viewer.log ++ [Effect.setCutPlaneSet p] ∧
      (s._applyFloorSection zMin zMax).viewer.cutPlaneSet = p := by
  have hen : (s._applyFloorSection zMin zMax).enabled = s.enabled := by
    unfold _applyFloorSection
    split <;> rfl
  refine ⟨hen, ?_⟩
  obtain ⟨h0, h1⟩ := _applyFloorSection_update s zMin zMax
  cases he : s.enabled with
  | false =>
    obtain ⟨k1, k2⟩ := h0 he
    exact ⟨none, ⟨fun _ => rfl, fun h => (by cases h)⟩, k2, k1⟩
  | true =>
    obtain ⟨a, b, k1, k2, _, _⟩ := h1 he
    exact ⟨_, ⟨fun h => (by cases h), fun _ => ⟨a, b, rfl⟩⟩, k2, k1⟩

theorem cutPlanesFollow_applyFloorSection (s : FloorSelector) (a b : Option JSNum) :
    s.cutPlanesFollow (s._applyFloorSection a b) := by
  obtain ⟨he, p, hp, hlog, hc⟩ := _applyFloorSection_follows s a b
  refine ⟨he, [Effect.setCutPlaneSet p], hlog, ?_, Or.inr (hc ▸ hp)⟩
  intro q hq
  have : q = p := by simpa using hq
  exact this ▸ hp

theorem cutPlanesFollow_applySelectedFloorSection (s : FloorSelector) :
    s.cutPlanesFollow s._applySelectedFloorSection :=
  cutPlanesFollow_applyFloorSection s _ _

theorem cutPlanesFollow_setFloorSection (s : FloorSelector) (a b : Option JSNum) :
    s.cutPlanesFollow (s._setFloorSection a b) :=
  cutPlanesFollow_trans (t := { s with
    _floorSectionMin := if isNaN a then none else a,
    _floorSectionMax := if isNaN b then none else b }) (cutPlanesFollow_of_viewer rfl rfl)
    (cutPlanesFollow_applySelectedFloorSection _)

theorem cutPlanesFollow_updateZLimits (s : FloorSelector) : s.cutPlanesFollow s._updateZLimits :=
  cutPlanesFollow_of_viewer (_updateZLimits_fields s).2.2.2.2.1
    (_updateZLimits_fields s).2.2.2.2.2.2.2.2.2

theorem cutPlanesFollow_clearFloorSection (s : FloorSelector) :
    s.cutPlanesFollow s._clearFloorSection :=
  cutPlanesFollow_trans (cutPlanesFollow_updateZLimits s) (cutPlanesFollow_applyFloorSection _ _ _)

theorem cutPlanesFollow_setAOOptions (s : FloorSelector) (o : Option JSNum) :
    s.cutPlanesFollow (s.setAOOptions o) :=
  cutPlanesFollow_of_log rfl [Effect.setAOOptions o] rfl (by simp [Effect.isCutPlaneUpdate]) rfl

theorem cutPlanesFollow_setAOVisible (s : FloorSelector) (b : Bool) :
    s.cutPlanesFollow (s._setAOVisible b) := by
  unfold _setAOVisible
  split
  · exact cutPlanesFollow_refl s
  · split
    · exact cutPlanesFollow_trans
        (t := { s with _aoVisible := b, _aoOpacity := some s.viewer.aoOpacity })
        (cutPlanesFollow_of_viewer rfl rfl) (cutPlanesFollow_setAOOptions _ _)
    · simp only []
      refine cutPlanesFollow_trans ?_ (cutPlanesFollow_setAOOptions _ _)
      split
      · exact cutPlanesFollow_trans (t := { s with _aoVisible := b })
          (cutPlanesFollow_of_viewer rfl rfl) (cutPlanesFollow_emit _ _ (by rfl))
      · exact cutPlanesFollow_of_viewer rfl rfl

theorem cutPlanesFollow_setGhostFloorOpactiy (s : FloorSelector) (v : JSNum) :
    s.cutPlanesFollow (s._setGhostFloorOpactiy v) :=
  cutPlanesFollow_trans
    (cutPlanesFollow_ite_emit s s._getFadeExtension (Effect.setCrossFadeOpacity 1 v) rfl)
    (cutPlanesFollow_of_viewer rfl rfl)

theorem cutPlanesFollow_setSpatialFilterForRollOver (s : FloorSelector) (idx : Option ℤ) :
    s.cutPlanesFollow (s._setSpatialFilterForRollOver idx) :=
  cutPlanesFollow_trans (cutPlanesFollow_trans (cutPlanesFollow_emit s _ (by rfl))
    (cutPlanesFollow_ite_emit _ _ _ (by rfl))) (cutPlanesFollow_of_viewer rfl rfl)

theorem cutPlanesFollow_rollOverFloor (s : FloorSelector) (idx : Option ℤ) :
    s.cutPlanesFollow (s.rollOverFloor idx) := by
  unfold rollOverFloor
  simp only []
  split
  · exact cutPlanesFollow_trans (cutPlanesFollow_setSpatialFilterForRollOver _ _)
      (cutPlanesFollow_emit _ _ (by rfl))
  · exact cutPlanesFollow_trans (cutPlanesFollow_trans (cutPlanesFollow_emit s _ (by rfl))
      (cutPlanesFollow_setSpatialFilterForRollOver _ _)) (cutPlanesFollow_emit _ _ (by rfl))

theorem cutPlanesFollow_leaveHoverMode (s : FloorSelector) :
    s.cutPlanesFollow s._leaveHoverMode := by
  unfold _leaveHoverMode
  split
  · exact cutPlanesFollow_refl s
  · refine cutPlanesFollow_trans ?_ (cutPlanesFollow_setAOVisible _ _)
    refine cutPlanesFollow_trans ?_ (cutPlanesFollow_applySelectedFloorSection _)
    refine cutPlanesFollow_trans ?_ (cutPlanesFollow_emit _ _ (by rfl))
    refine cutPlanesFollow_trans ?_ (cutPlanesFollow_emit _ _ (by rfl))
    exact cutPlanesFollow_emit _ _ (by rfl)

theorem cutPlanesFollow_animSetNotRunning (s : FloorSelector) (a : ℕ) :
    s.cutPlanesFollow (s.animSetNotRunning a) :=
  cutPlanesFollow_of_log rfl [] (by simp [animSetNotRunning, withViewer, viewer]) (by simp) rfl

theorem cutPlanesFollow_animStop (s : FloorSelector) (a : ℕ) :
    s.cutPlanesFollow (s.animStop a) :=
  cutPlanesFollow_trans (cutPlanesFollow_animSetNotRunning s a) (cutPlanesFollow_emit _ _ (by rfl))

theorem cutPlanesFollow_stopFloorAnim (s : FloorSelector) : s.cutPlanesFollow s._stopFloorAnim := by
  unfold _stopFloorAnim
  split
  · exact cutPlanesFollow_trans (cutPlanesFollow_animStop s _) (cutPlanesFollow_of_viewer rfl rfl)
  · exact cutPlanesFollow_refl s

theorem cutPlanesFollow_stopFadeAnim (s : FloorSelector) : s.cutPlanesFollow s._stopFadeAnim := by
  unfold _stopFadeAnim
  split
  · exact cutPlanesFollow_trans (cutPlanesFollow_animStop s _) (cutPlanesFollow_of_viewer rfl rfl)
  · exact cutPlanesFollow_refl s

theorem cutPlanesFollow_fadeValue (s : FloorSelector) (v0 v1 : JSNum) (cb : AnimCallbacks) :
    s.cutPlanesFollow (s.fadeValue v0 v1 cb).1 :=
  cutPlanesFollow_of_log rfl [Effect.fadeValue s.viewer.anims.length] rfl
    (by simp [Effect.isCutPlaneUpdate]) rfl

theorem cutPlanesFollow_create_fade (s : FloorSelector) (v0 v1 : JSNum) (cb : AnimCallbacks) :
    s.cutPlanesFollow
      { (s.fadeValue v0 v1 cb).1 with _fadeAnim := some (s.fadeValue v0 v1 cb).2 } :=
  cutPlanesFollow_trans (cutPlanesFollow_fadeValue s v0 v1 cb) (cutPlanesFollow_of_viewer rfl rfl)

theorem cutPlanesFollow_create_floor (s : FloorSelector) (v0 v1 : JSNum) (cb : AnimCallbacks) :
    s.cutPlanesFollow
      { (s.fadeValue v0 v1 cb).1 with _floorAnim := some (s.fadeValue v0 v1 cb).2 } :=
  cutPlanesFollow_trans (cutPlanesFollow_fadeValue s v0 v1 cb) (cutPlanesFollow_of_viewer rfl rfl)

theorem cutPlanesFollow_setMode (s : FloorSelector) (mode : FloorRenderMode) :
    s.cutPlanesFollow (s._setMode mode) := by
  unfold _setMode
  split
  · exact cutPlanesFollow_refl s
  · cases mode with
    | Hovering =>
      simp only []
      split
      · refine cutPlanesFollow_trans ?_ (cutPlanesFollow_create_fade _ _ _ _)
        refine cutPlanesFollow_trans ?_ (cutPlanesFollow_stopFadeAnim _)
        refine cutPlanesFollow_trans ?_ (cutPlanesFollow_setAOVisible _ _)
        refine cutPlanesFollow_trans ?_ (cutPlanesFollow_emit _ _ (by rfl))
        refine cutPlanesFollow_trans ?_ (cutPlanesFollow_clearFloorSection _)
        refine cutPlanesFollow_trans ?_ (cutPlanesFollow_emit _ _ (by rfl))
        refine cutPlanesFollow_trans ?_ (cutPlanesFollow_emit _ _ (by rfl))
        refine cutPlanesFollow_trans ?_ (cutPlanesFollow_setAOVisible _ _)
        refine cutPlanesFollow_trans ?_ (cutPlanesFollow_emit _ _ (by rfl))
        refine cutPlanesFollow_trans ?_ (cutPlanesFollow_applySelectedFloorSection _)
        refine cutPlanesFollow_trans ?_ (cutPlanesFollow_emit _ _ (by rfl))
        refine cutPlanesFollow_trans ?_ (cutPlanesFollow_emit _ _ (by rfl))
        exact cutPlanesFollow_of_viewer rfl rfl
      · exact cutPlanesFollow_of_viewer rfl rfl
    | Transition =>
      simp only []
      refine cutPlanesFollow_trans ?_ (cutPlanesFollow_applySelectedFloorSection _)
      refine cutPlanesFollow_trans ?_ (cutPlanesFollow_setAOVisible _ _)
      split
      · refine cutPlanesFollow_trans ?_ (cutPlanesFollow_emit _ _ (by rfl))
        refine cutPlanesFollow_trans ?_ (cutPlanesFollow_emit _ _ (by rfl))
        refine cutPlanesFollow_trans ?_ (cutPlanesFollow_emit _ _ (by rfl))
        refine cutPlanesFollow_trans ?_ (cutPlanesFollow_emit _ _ (by rfl))
        exact cutPlanesFollow_of_viewer rfl rfl
      · exact cutPlanesFollow_of_viewer rfl rfl
    | Off =>
      simp only []
      refine cutPlanesFollow_trans ?_ (cutPlanesFollow_create_fade _ _ _ _)
      refine cutPlanesFollow_trans ?_ (cutPlanesFollow_stopFadeAnim _)
      exact cutPlanesFollow_of_viewer rfl rfl

theorem cutPlanesFollow_moveToFloor (s : FloorSelector) (idx : Option ℤ) :
    s.cutPlanesFollow (s._moveToFloor idx) := by
  unfold _moveToFloor
  simp only []
  refine cutPlanesFollow_trans ?_ (cutPlanesFollow_create_floor _ _ _ _)
  refine cutPlanesFollow_trans ?_ (cutPlanesFollow_stopFloorAnim _)
  refine cutPlanesFollow_trans ?_ (cutPlanesFollow_updateZLimits _)
  refine cutPlanesFollow_trans ?_ (cutPlanesFollow_setMode _ _)
  exact cutPlanesFollow_of_viewer rfl rfl

theorem cutPlanesFollow__selectFloor (s : FloorSelector) (idx : Option ℤ) :
    s.cutPlanesFollow (s._selectFloor idx) := by
  unfold _selectFloor
  simp only []
  refine cutPlanesFollow_trans ?_ (cutPlanesFollow_setFloorSection _ _ _)
  refine cutPlanesFollow_trans (cutPlanesFollow_stopFloorAnim s) ?_
  exact cutPlanesFollow_of_viewer rfl rfl

theorem cutPlanesFollow_runFloorSelectorFilter (s : FloorSelector) :
    s.cutPlanesFollow s._runFloorSelectorFilter.1 := by
  unfold _runFloorSelectorFilter
  simp only []
  split
  · exact cutPlanesFollow_of_filter s _
      (FloorSelectorFilter.noCutPlaneUpdate_trans
        (FloorSelectorFilter.noCutPlaneUpdate_clearFilter _)
        (FloorSelectorFilter.noCutPlaneUpdate_filter _ _ _))
  · exact cutPlanesFollow_of_filter s _ (FloorSelectorFilter.noCutPlaneUpdate_clearFilter _)

theorem cutPlanesFollow_selectFloor (s : FloorSelector) (idx : Option ℤ) (ut : Bool) :
    s.cutPlanesFollow (s.selectFloor idx ut).1 := by
  unfold selectFloor
  split
  · exact cutPlanesFollow_refl s
  · simp only []
    have h1 : s.cutPlanesFollow (if ut = true then s._moveToFloor idx else s._selectFloor idx) := by
      split
      · exact cutPlanesFollow_moveToFloor s idx
      · exact cutPlanesFollow__selectFloor s idx
    generalize (if ut = true then s._moveToFloor idx else s._selectFloor idx) = s1 at h1
    have h2 := cutPlanesFollow_runFloorSelectorFilter s1
    split
    · rename_i s2 err heq
      rw [heq] at h2
      exact cutPlanesFollow_trans h1 h2
    · rename_i s2 heq
      rw [heq] at h2
      refine cutPlanesFollow_trans (cutPlanesFollow_trans h1 h2) ?_
      refine cutPlanesFollow_trans ?_ (cutPlanesFollow_emit _ _ (by rfl))
      split
      · exact cutPlanesFollow_rollOverFloor _ _
      · exact cutPlanesFollow_refl _

theorem cutPlanesFollow_updateCutPlanes (s : FloorSelector) (a b c d u : JSNum) :
    s.cutPlanesFollow (s.updateCutPlanes a b c d u) := by
  unfold updateCutPlanes
  simp only []
  exact cutPlanesFollow_trans (cutPlanesFollow_setFloorSection s _ _)
    (cutPlanesFollow_of_log rfl [] (by simp [withViewer, viewer]) (by simp) rfl)

theorem cutPlanesFollow_animOnTimer (s : FloorSelector) (cb : AnimCallbacks) (v : JSNum) :
    s.cutPlanesFollow (s.animOnTimer cb v) := by
  unfold animOnTimer
  cases cb with
  | fadeIn => exact cutPlanesFollow_setGhostFloorOpactiy s v
  | fadeOut => exact cutPlanesFollow_setGhostFloorOpactiy s v
  | moveToFloor a b c d => exact cutPlanesFollow_updateCutPlanes s a b c d v

theorem cutPlanesFollow_animOnFinished (s : FloorSelector) (cb : AnimCallbacks) :
    s.cutPlanesFollow (s.animOnFinished cb) := by
  unfold animOnFinished
  cases cb with
  | fadeIn => exact cutPlanesFollow_refl s
  | fadeOut => exact cutPlanesFollow_leaveHoverMode s
  | moveToFloor a b c d => exact cutPlanesFollow_setMode s _

theorem cutPlanesFollow_animTick (s : FloorSelector) (a : ℕ) (v : JSNum) :
    s.cutPlanesFollow (s.animTick a v) := by
  unfold animTick
  split
  · split
    · exact cutPlanesFollow_animOnTimer s _ v
    · exact cutPlanesFollow_refl s
  · exact cutPlanesFollow_refl s

theorem cutPlanesFollow_animComplete (s : FloorSelector) (a : ℕ) :
    s.cutPlanesFollow (s.animComplete a) := by
  unfold animComplete
  split
  · split
    · exact cutPlanesFollow_trans (cutPlanesFollow_trans (cutPlanesFollow_animOnTimer s _ _)
        (cutPlanesFollow_animSetNotRunning _ _)) (cutPlanesFollow_animOnFinished _ _)
    · exact cutPlanesFollow_refl s
  · exact cutPlanesFollow_refl s

theorem cutPlanesFollow_animSkip (s : FloorSelector) (a : ℕ) :
    s.cutPlanesFollow (s.animSkip a) :=
  cutPlanesFollow_trans (cutPlanesFollow_emit s _ (by rfl)) (cutPlanesFollow_animComplete _ _)

theorem cutPlanesFollow_skip_fade (s : FloorSelector) :
    s.cutPlanesFollow (match s._fadeAnim with
      | some anim => ({ s.animSkip anim with _fadeAnim := none } : FloorSelector)
      | none => s) := by
  cases s._fadeAnim with
  | none => exact cutPlanesFollow_refl s
  | some a =>
    exact cutPlanesFollow_trans (cutPlanesFollow_animSkip s a) (cutPlanesFollow_of_viewer rfl rfl)

theorem cutPlanesFollow_skip_floor (s : FloorSelector) :
    s.cutPlanesFollow (match s._floorAnim with
      | some anim => ({ s.animSkip anim with _floorAnim := none } : FloorSelector)
      | none => s) := by
  cases s._floorAnim with
  | none => exact cutPlanesFollow_refl s
  | some a =>
    exact cutPlanesFollow_trans (cutPlanesFollow_animSkip s a) (cutPlanesFollow_of_viewer rfl rfl)

theorem cutPlanesFollow_skipFadeAnimations (s : FloorSelector) :
    s.cutPlanesFollow s._skipFadeAnimations := by
  unfold _skipFadeAnimations
  exact cutPlanesFollow_trans (cutPlanesFollow_skip_fade s) (cutPlanesFollow_skip_floor _)

theorem cutPlanesFollow_enterHoverMode (s : FloorSelector) :
    s.cutPlanesFollow s.enterHoverMode := by
  have h1 : s.cutPlanesFollow (if s._currentMode ≠ FloorRenderMode.Transition
      then s._setMode FloorRenderMode.Hovering else s) := by
    split
    · exact cutPlanesFollow_setMode s _
    · exact cutPlanesFollow_refl s
  exact cutPlanesFollow_trans h1 (cutPlanesFollow_of_viewer rfl rfl)

theorem cutPlanesFollow_exitHoverMode (s : FloorSelector) (force : Bool) :
    s.cutPlanesFollow (s.exitHoverMode force) := by
  have h1 : s.cutPlanesFollow (if (s._currentMode ≠ FloorRenderMode.Transition || force) = true
      then s._setMode FloorRenderMode.Off else s) := by
    split
    · exact cutPlanesFollow_setMode s _
    · exact cutPlanesFollow_refl s
  exact cutPlanesFollow_trans (cutPlanesFollow_trans h1 (cutPlanesFollow_of_viewer rfl rfl))
    (cutPlanesFollow_setSpatialFilterForRollOver _ _)

theorem cutPlanesFollow_interruptFading (s : FloorSelector) :
    s.cutPlanesFollow s._interruptFading := by
  unfold _interruptFading
  split
  · split
    · exact cutPlanesFollow_trans (cutPlanesFollow_stopFadeAnim s) (cutPlanesFollow_leaveHoverMode _)
    · exact cutPlanesFollow_refl s
  · exact cutPlanesFollow_refl s

theorem cutPlanesFollow_resetState (s : FloorSelector) : s.cutPlanesFollow s.resetState := by
  unfold resetState
  simp only []
  refine cutPlanesFollow_trans ?_ (cutPlanesFollow_of_filter _ _
    (FloorSelectorFilter.noCutPlaneUpdate_clearFilter _))
  refine cutPlanesFollow_trans ?_ (cutPlanesFollow_clearFloorSection _)
  refine cutPlanesFollow_trans ?_ (cutPlanesFollow__selectFloor _ _)
  exact cutPlanesFollow_of_viewer rfl rfl

theorem cutPlanesFollow_setFloorData (s : FloorSelector) (floors : Option (List Floor)) :
    s.cutPlanesFollow (s.setFloorData floors) := by
  unfold setFloorData
  simp only []
  exact cutPlanesFollow_trans
    (cutPlanesFollow_trans (cutPlanesFollow_resetState s) (cutPlanesFollow_of_viewer rfl rfl))
    (cutPlanesFollow_emit _ _ (by rfl))

theorem cutPlanesFollow_invalidateFloorSelection (s : FloorSelector) (idx : Option ℤ) :
    s.cutPlanesFollow (s.invalidateFloorSelection idx).1 :=
  cutPlanesFollow_trans (cutPlanesFollow__selectFloor s idx)
    (cutPlanesFollow_runFloorSelectorFilter _)

theorem cutPlanesFollow_setPanelHoverEffectEnabled (s : FloorSelector) (b : Bool) :
    s.cutPlanesFollow (s.setPanelHoverEffectEnabled b) :=
  cutPlanesFollow_trans (cutPlanesFollow_trans (cutPlanesFollow_exitHoverMode s true)
    (cutPlanesFollow_skipFadeAnimations _)) (cutPlanesFollow_of_viewer rfl rfl)

theorem cutPlanesFollow_forceImageRefresh (s : FloorSelector) :
    s.cutPlanesFollow s.forceImageRefresh := by
  unfold forceImageRefresh
  simp only []
  have h1 := cutPlanesFollow_trans (cutPlanesFollow_exitHoverMode s false)
    (cutPlanesFollow_skipFadeAnimations _)
  split
  · exact cutPlanesFollow_trans h1 (cutPlanesFollow_trans (cutPlanesFollow_enterHoverMode _)
      (cutPlanesFollow_skipFadeAnimations _))
  · exact h1

theorem cutPlanesFollow_onRenderOptionsChanged (s : FloorSelector) :
    s.cutPlanesFollow s._onRenderOptionsChanged := by
  unfold _onRenderOptionsChanged
  split
  · exact cutPlanesFollow_rollOverFloor s none
  · exact cutPlanesFollow_refl s

theorem cutPlanesFollow_runFloorSelectorFilterEventHandler (s : FloorSelector) (loaded : Bool) :
    s.cutPlanesFollow (s._runFloorSelectorFilterEventHandler loaded).1 := by
  unfold _runFloorSelectorFilterEventHandler
  split
  · exact cutPlanesFollow_refl s
  · split
    · exact cutPlanesFollow_of_filter s _ (FloorSelectorFilter.noCutPlaneUpdate_clearFilter _)
    · exact cutPlanesFollow_runFloorSelectorFilter s

theorem cutPlanesFollow_runModelUnloadingEventHandler (s : FloorSelector) (model : ℕ) :
    s.cutPlanesFollow (s._runModelUnloadingEventHandler model) := by
  unfold _runModelUnloadingEventHandler
  split
  · exact cutPlanesFollow_of_viewer rfl rfl
  · exact cutPlanesFollow_refl s

/-- The call `setEnabled(b)` sets the flag and issues one update, which follows the policy
for `b`. -/
theorem setEnabled_update (s : FloorSelector) (b : Bool) :
    (s.setEnabled b).enabled = b ∧
    ∃ p, cutPlanesPolicy b p ∧
      (s.setEnabled b).viewer.log = s.viewer.log ++ [Effect.setCutPlaneSet p] ∧
      (s.setEnabled b).viewer.cutPlaneSet = p :=
  _applyFloorSection_follows { s with enabled := b } _ _

/-- An operation other than `setEnabled` keeps the flag, and its updates follow the policy. -/
theorem cutPlanesFollow_step (s : FloorSelector) (op : Op) (hop : ∀ b, op ≠ Op.setEnabled b) :
    s.cutPlanesFollow (s.step op) := by
  cases op with
  | enterHoverMode => exact cutPlanesFollow_enterHoverMode s
  | exitHoverMode force => exact cutPlanesFollow_exitHoverMode s force
  | selectFloor idx ut => exact cutPlanesFollow_selectFloor s idx ut
  | setPanelHoverEffectEnabled b => exact cutPlanesFollow_setPanelHoverEffectEnabled s b
  | forceImageRefresh => exact cutPlanesFollow_forceImageRefresh s
  | cameraChange => exact cutPlanesFollow_interruptFading s
  | setFloorData floors => exact cutPlanesFollow_setFloorData s floors
  | setFloorFilterData d => exact cutPlanesFollow_of_viewer rfl rfl
  | invalidateFloorSelection idx => exact cutPlanesFollow_invalidateFloorSelection s idx
  | rollOverFloor idx => exact cutPlanesFollow_rollOverFloor s idx
  | setEnabled b => exact absurd rfl (hop b)
  | animTick a v => exact cutPlanesFollow_animTick s a v
  | animComplete a => exact cutPlanesFollow_animComplete s a
  | renderOptionsChanged => exact cutPlanesFollow_onRenderOptionsChanged s
  | modelAdded loaded => exact cutPlanesFollow_runFloorSelectorFilterEventHandler s loaded
  | modelUnloaded model => exact cutPlanesFollow_runModelUnloadingEventHandler s model
  | resetState => exact cutPlanesFollow_resetState s

/-- Every operation appends to the log; every update of the cut plane set among its calls
follows the policy for the flag the operation leaves; afterwards the plane set installed
follows that policy, or the operation made no update and left flag and plane set as they were.
Only `setEnabled` changes the flag, and it makes exactly one call, an update. -/
theorem step_updates_follow (s : FloorSelector) (op : Op) :
    ∃ new, (s.step op).viewer.log = s.viewer.log ++ new ∧
      (∀ p, Effect.setCutPlaneSet p ∈ new → cutPlanesPolicy (s.step op).enabled p) ∧
      (((s.step op).viewer.cutPlaneSet = s.viewer.cutPlaneSet ∧
          (s.step op).enabled = s.enabled ∧ ∀ p, Effect.setCutPlaneSet p ∉ new) ∨
        cutPlanesPolicy (s.step op).enabled (s.step op).viewer.cutPlaneSet) ∧
      ((∀ b, op ≠ Op.setEnabled b) → (s.step op).enabled = s.enabled) ∧
      (∀ b, op = Op.setEnabled b →
        (s.step op).enabled = b ∧ new = [Effect.setCutPlaneSet (s.step op).viewer.cutPlaneSet]) := by
  by_cases hop : ∀ b, op ≠ Op.setEnabled b
  · obtain ⟨he, new, hlog, hq, hc⟩ := cutPlanesFollow_step s op hop
    refine ⟨new, hlog, ?_, ?_, fun _ => he, ?_⟩
    · rw [he]; exact hq
    · rcases hc with ⟨h1, h2⟩ | h
      · exact Or.inl ⟨h1, he, h2⟩
      · exact Or.inr (he ▸ h)
    · intro b hb
      exact absurd hb (hop b)
  · push_neg at hop
    obtain ⟨b, rfl⟩ := hop
    obtain ⟨he, p, hp, hlog, hc⟩ := setEnabled_update s b
    have he2 : (s.step (Op.setEnabled b)).enabled = b := he
    have hc2 : (s.step (Op.setEnabled b)).viewer.cutPlaneSet = p := hc
    refine ⟨[Effect.setCutPlaneSet p], hlog, ?_, ?_, ?_, ?_⟩
    · intro q hq
      have hqp : q = p := by simpa using hq
      rw [hqp, he2]
      exact hp
    · rw [he2, hc2]
      exact Or.inr hp
    · intro h
      exact absurd rfl (h b)
    · intro b2 hb2
      cases hb2
      rw [hc2]
      exact ⟨he2, rfl⟩

/-- Over a sequence of operations: the plane set installed follows the policy for the flag
reached, or no update was made and flag and plane set are as at the start. -/
theorem run_updates_follow (ops : List Op) (s : FloorSelector) :
    ∃ new, (s.run ops).viewer.log = s.viewer.log ++ new ∧
      (((s.run ops).viewer.cutPlaneSet = s.viewer.cutPlaneSet ∧
          (s.run ops).enabled = s.enabled ∧ ∀ p, Effect.setCutPlaneSet p ∉ new) ∨
        cutPlanesPolicy (s.run ops).enabled (s.run ops).viewer.cutPlaneSet) := by
  induction ops generalizing s with
  | nil => exact ⟨[], by simp [run], Or.inl ⟨rfl, rfl, by simp⟩⟩
  | cons op rest ih =>
    obtain ⟨n1, l1, _, c1, _, _⟩ := step_updates_follow s op
    obtain ⟨n2, l2, c2⟩ := ih (s.step op)
    have hrun : s.run (op :: rest) = (s.step op).run rest := rfl
    rw [hrun]
    refine ⟨n1 ++ n2, by rw [l2, l1, List.append_assoc], ?_⟩
    rcases c2 with ⟨h1, h2, h3⟩ | h
    · rcases c1 with ⟨k1, k2, k3⟩ | k
      · refine Or.inl ⟨h1.trans k1, h2.trans k2, ?_⟩
        intro p hp
        rcases List.mem_append.mp hp with m | m
        · exact k3 p m
        · exact h3 p m
      · refine Or.inr ?_
        rw [h1, h2]
        exact k
    · exact Or.inr h

end FloorSelector


namespace FloorSelector

/-- C16: clip-plane application policy.  Every operation of the selector only appends calls,
and every update of the cut plane set among them follows the policy for the flag `enabled`
in force when it is issued: `null` while disabled, the two planes `(0, 0, -1, zMin)` and
`(0, 0, 1, -zMax)` with finite `zMin` and `zMax` while enabled, whether a floor is selected
or not.  Only `setEnabled` changes the flag; it sets it first and then issues exactly one
update.  So after any sequence of operations the plane set installed follows the policy for
the flag reached, unless no update has been issued at all.  The updates come from
`_applyFloorSection`, which replaces a bound that is missing, NaN or infinite by `-1e20`
resp. `1e20`; `_applySelectedFloorSection`, `_setFloorSection` and `_clearFloorSection` go
through it with `enabled` unchanged. -/
theorem cutPlaneSet_policy (s : FloorSelector) (op : Op) :
    (∃ new, (s.step op).viewer.log = s.viewer.log ++ new ∧
      (∀ p, Effect.setCutPlaneSet p ∈ new →
        ((s.step op).enabled = false → p = none) ∧
        ((s.step op).enabled = true → ∃ a b : ℚ, p = some
          (⟨JSNum.fin 0, JSNum.fin 0, JSNum.fin (-1), JSNum.fin a⟩,
           ⟨JSNum.fin 0, JSNum.fin 0, JSNum.fin 1, JSNum.fin (-b)⟩))) ∧
      (((s.step op).viewer.cutPlaneSet = s.viewer.cutPlaneSet ∧
          (s.step op).enabled = s.enabled ∧ ∀ p, Effect.setCutPlaneSet p ∉ new) ∨
        cutPlanesPolicy (s.step op).enabled (s.step op).viewer.cutPlaneSet) ∧
      ((∀ b, op ≠ Op.setEnabled b) → (s.step op).enabled = s.enabled) ∧
      (∀ b, op = Op.setEnabled b →
        (s.step op).enabled = b ∧
        new = [Effect.setCutPlaneSet (s.step op).viewer.cutPlaneSet])) ∧
    (∀ ops : List Op, ∃ new, (s.run ops).viewer.log = s.viewer.log ++ new ∧
      (((s.run ops).viewer.cutPlaneSet = s.viewer.cutPlaneSet ∧
          (s.run ops).enabled = s.enabled ∧ ∀ p, Effect.setCutPlaneSet p ∉ new) ∨
        cutPlanesPolicy (s.run ops).enabled (s.run ops).viewer.cutPlaneSet)) ∧
    (∀ zMin zMax : Option JSNum,
      (s.enabled = false →
        (s._applyFloorSection zMin zMax).viewer.cutPlaneSet = none ∧
        (s._applyFloorSection zMin zMax).viewer.log =
          s.viewer.log ++ [Effect.setCutPlaneSet none]) ∧
      (s.enabled = true →
        ∃ a b : ℚ,
          (s._applyFloorSection zMin zMax).viewer.cutPlaneSet =
            some (⟨JSNum.fin 0, JSNum.fin 0, JSNum.fin (-1), JSNum.fin a⟩,
                  ⟨JSNum.fin 0, JSNum.fin 0, JSNum.fin 1, JSNum.fin (-b)⟩) ∧
          (s._applyFloorSection zMin zMax).viewer.log = s.viewer.log ++
            [Effect.setCutPlaneSet (some
              (⟨JSNum.fin 0, JSNum.fin 0, JSNum.fin (-1), JSNum.fin a⟩,
               ⟨JSNum.fin 0, JSNum.fin 0, JSNum.fin 1, JSNum.fin (-b)⟩))] ∧
          (zMin = some (JSNum.fin a) ∨ (Number.isFinite zMin = false ∧ a = -(10 ^ 20))) ∧
          (zMax = some (JSNum.fin b) ∨ (Number.isFinite zMax = false ∧ b = 10 ^ 20)))) ∧
    s._applySelectedFloorSection =
      s._applyFloorSection (some (s._floorSectionMin.getD MinZLimit))
        (some (s._floorSectionMax.getD MaxZLimit)) ∧
    (∀ minElev maxElev, ∃ t : FloorSelector, t.enabled = s.enabled ∧
      s._setFloorSection minElev maxElev =
        t._applyFloorSection (some (t._floorSectionMin.getD MinZLimit))
          (some (t._floorSectionMax.getD MaxZLimit))) ∧
    (∃ t : FloorSelector, t.enabled = s.enabled ∧
      s._clearFloorSection = t._applyFloorSection none none) := by
  have h3 : ∀ t : FloorSelector, t._applySelectedFloorSection =
      t._applyFloorSection (some (t._floorSectionMin.getD MinZLimit))
        (some (t._floorSectionMax.getD MaxZLimit)) := by
    intro t
    unfold _applySelectedFloorSection
    cases t._floorSectionMin <;> cases t._floorSectionMax <;> rfl
  refine ⟨?_, fun ops => run_updates_follow ops s, fun zMin zMax => _applyFloorSection_update s zMin zMax,
    h3 s, ?_, ?_⟩
  · obtain ⟨new, h1, h2, h4, h5, h6⟩ := step_updates_follow s op
    exact ⟨new, h1, fun p hp => h2 p hp, h4, h5, h6⟩
  · intro minElev maxElev
    exact ⟨{ s with
      _floorSectionMin := if isNaN minElev then none else minElev,
      _floorSectionMax := if isNaN maxElev then none else maxElev }, rfl, h3 _⟩
  · exact ⟨s._updateZLimits, (_updateZLimits_fields s).2.2.2.2.1, rfl⟩

/-- The policy on the example selector: disabling it clears the plane set, enabling it again
installs the two planes of the full range, and selecting the first floor those of `[0, 3]`. -/
theorem setEnabled_clears_and_restores_planes :
    exSelector.enabled = true ∧
    (exSelector.step (Op.setEnabled false)).viewer.cutPlaneSet = none ∧
    ((exSelector.step (Op.setEnabled false)).step (Op.selectFloor (some 0) false)).viewer.cutPlaneSet
      = none ∧
    ((exSelector.step (Op.setEnabled false)).step (Op.setEnabled true)).viewer.cutPlaneSet =
      some (sectionPlanes MinZLimit MaxZLimit) ∧
    (exSelector.step (Op.selectFloor (some 0) false)).viewer.cutPlaneSet =
      some (sectionPlanes (JSNum.fin 0) (JSNum.fin 3)) := by
  refine ⟨by decide!, by decide!, by decide!, by decide!, by decide!⟩

end FloorSelector

end AEC
